import Mathlib

/-!
# deeplearn: tensor / shape / buffer core

A shallow embedding of the tensor data model of the `deeplearn` engine
(`lib/nn/tensor/Shape.{h,cpp}`, `lib/nn/tensor/BaseTensor.h`,
`lib/nn/tensor/CpuTensor.{h,cpp}`, `lib/nn/tensor/GpuTensor.{h,cpp}`,
`lib/ocl/Buffer.{h,cpp}`, `lib/ocl/Device.cpp`) together with theorems about it.

Conventions of the embedding.

* `size_t` is a 64-bit unsigned integer.  Values are naturals; the products the
  source computes in `size_t` (element counts, slice offsets, byte counts) and
  the index arithmetic of `LinearIndex` are reduced `% SIZE_MOD`.  Sums of an
  offset and a length that the source compares with the size of an existing
  buffer are not reduced.
* `Assert(e)` aborts in `DEBUG` builds and `Check(e, msg)` aborts always.  An
  operation that can abort returns `Except (Fault × σ) ρ`, the error carrying
  the program state at the moment of the abort.
* Host memory is a flat array of `float` cells addressed in units of
  `sizeof(float)`; a `float*` is an address and `nullptr` is address `0`.
  `new float[n]` takes the next `n` addresses and never fails; `delete []` is
  recorded but memory is not reused.  The cell type `α` is left abstract (cells
  are only copied and zeroed here).
* Device memory is a family of allocations, each an array of `float` cells; a
  `cl_mem` handle is represented by the byte range it denotes.  The OpenCL calls
  are modelled by their documented effect, without device memory exhaustion and
  without alignment requirements.
* C++ objects with identity (tensors, which hold pointers to their memoized
  views) live in an object store and are referred to by their index in it.
-/

namespace nn

/-! ## Shape (`lib/nn/tensor/Shape.h`, `lib/nn/tensor/Shape.cpp`) -/

/-- Number of values of the type `size_t` (64-bit). -/
def SIZE_MOD : Nat := 2 ^ 64

/-- Class `Shape`: the vector `data_` of extents, one per dimension. -/
structure Shape where
  data_ : List Nat
deriving DecidableEq, Repr

namespace Shape

/-- The check of the constructors of `Shape`: `Assert(d > 0)` for every extent. -/
def ctorAsserts (s : Shape) : Bool :=
  s.data_.all (fun d => decide (0 < d))

/-- Method `rank()`: `data_.size()`. -/
def rank (s : Shape) : Nat :=
  s.data_.length

/-- Method `TotalElementCount()`: `0` for an empty `data_`, otherwise the running
`size_t` product `result *= d` over `data_`, starting from `1`. -/
def TotalElementCount (s : Shape) : Nat :=
  if s.data_.length = 0 then 0
  else s.data_.foldl (fun result d => (result * d) % SIZE_MOD) 1

/-- Method `ElementShape()`: the shape built from `data_.begin() + 1 .. data_.end()`.
The source asserts `rank() > 1` first. -/
def ElementShape (s : Shape) : Shape :=
  ⟨s.data_.drop 1⟩

/-- The `operator[]` of `Shape`: `data_[index]`, defined for `index < data_.size()`
(asserted by the source; `0` stands for the value outside that range). -/
def index (s : Shape) (i : Nat) : Nat :=
  s.data_.getD i 0

/-- The exact (mathematical) number of elements of a shape is representable in
`size_t`, so that no multiplication in `TotalElementCount` wraps around. -/
def Fits (s : Shape) : Prop :=
  s.data_.prod < SIZE_MOD

instance (s : Shape) : Decidable s.Fits :=
  inferInstanceAs (Decidable (s.data_.prod < SIZE_MOD))

end Shape

/-! ## Aborts -/

/-- Why the program stopped: a failed `Assert(...)` (these are compiled in for
`DEBUG` builds), a failed `Check(...)` (always compiled in), a method call
through a null pointer, an array access outside the array or an integer
division by zero (all three undefined in C++). -/
inductive Fault where
  | Assert
  | Check
  | Null
  | Bounds
  | DivideByZero
deriving DecidableEq, Repr

/-! ## BaseTensor (`lib/nn/tensor/BaseTensor.h`) -/

/-- Class `BaseTensor<Tensor>` with the one data member the derived class adds:
`is_view_`, `shape_`, `size_`, the vector `views_` of pointers to the memoized
sub-tensor views (`none` is `nullptr`, `some v` the object `v`) and the derived
class's `buffer_` of type `β`. -/
structure BaseTensor (β : Type) where
  is_view_ : Bool
  shape_ : Shape
  size_ : Nat
  views_ : List (Option Nat)
  buffer_ : β
deriving DecidableEq, Repr

/-- The tensor objects that exist: `objs id` is the object with identity `id`,
and exactly the identities below `count` have been constructed. -/
structure Store (β : Type) where
  objs : Nat → BaseTensor β
  count : Nat

namespace Store

/-- Overwrite the object `id`. -/
def set {β : Type} (st : Store β) (id : Nat) (t : BaseTensor β) : Store β :=
  { st with objs := fun k => if k = id then t else st.objs k }

/-- Construct a new object (`new Tensor(...)` or a local): it gets the next identity. -/
def alloc {β : Type} (st : Store β) (t : BaseTensor β) : Nat × Store β :=
  (st.count, { objs := fun k => if k = st.count then t else st.objs k, count := st.count + 1 })

end Store

namespace BaseTensor

variable {β : Type}

/-- Constructor `BaseTensor(const Shape& shape)`; `buffer_` is what the derived
constructor stores. -/
def ctor (shape : Shape) (buffer : β) : BaseTensor β :=
  { is_view_ := false, shape_ := shape, size_ := shape.TotalElementCount, views_ := [],
    buffer_ := buffer }

/-- Copy constructor `BaseTensor(const BaseTensor& other)`. -/
def copy_ctor (other : BaseTensor β) (buffer : β) : BaseTensor β :=
  { is_view_ := false, shape_ := other.shape_, size_ := other.size_, views_ := [],
    buffer_ := buffer }

/-- Base class `operator=`: copies `shape_` and `size_` only. -/
def assign (self other : BaseTensor β) : BaseTensor β :=
  { self with shape_ := other.shape_, size_ := other.size_ }

/-- The condition `!is_view() || shape() == other.shape()` that the `operator=` of
both derived classes passes to `Check`. -/
def assign_check (self other : BaseTensor β) : Bool :=
  !self.is_view_ || decide (self.shape_ = other.shape_)

/-- Method `rank()`. -/
def rank (t : BaseTensor β) : Nat :=
  t.shape_.rank

/-- Method `shape(i)`, the shortcut for `shape()[i]`. -/
def shape (t : BaseTensor β) (i : Nat) : Nat :=
  t.shape_.index i

/-- Method `Reshape(new_shape)` on the object `self`: the two `FAIL_IF`s return
`false`, otherwise `shape_` is replaced and `true` returned. -/
def Reshape (st : Store β) (self : Nat) (new_shape : Shape) : Bool × Store β :=
  let t := st.objs self
  if new_shape.TotalElementCount ≠ t.shape_.TotalElementCount then (false, st)
  else if t.is_view_ then (false, st)
  else (true, st.set self { t with shape_ := new_shape })

/-- Method `NewView(new_shape)` on the object `self`, for a derived class whose
reshape-view constructor `Tensor(base, new_shape)` is `viewCtor` (which may
abort).  Returns the identity of the new view. -/
def NewView (viewCtor : BaseTensor β → Shape → Except Fault (BaseTensor β))
    (st : Store β) (self : Nat) (new_shape : Shape) :
    Except (Fault × Store β) (Nat × Store β) :=
  let t := st.objs self
  if new_shape.TotalElementCount ≠ t.size_ then .error (Fault.Assert, st)
  else match viewCtor t new_shape with
    | .error f => .error (f, st)
    | .ok v => .ok (st.alloc v)

/-- The call `views_.resize(n)` for `n` above the current length: pad with `nullptr`. -/
def resize (views : List (Option Nat)) (n : Nat) : List (Option Nat) :=
  views ++ List.replicate (n - views.length) none

/-- The statement `if (views_.size() <= i) views_.resize(i + 1);`. -/
def grow (views : List (Option Nat)) (i : Nat) : List (Option Nat) :=
  if views.length ≤ i then resize views (i + 1) else views

/-- Method `SubTensor(i)` (and `operator[]`) on the object `self`, for a derived
class whose sub-tensor constructor `Tensor(base, index)` is `subCtor` (which may
abort).  Returns the identity of the view `*views_[i]`. -/
def SubTensor (subCtor : BaseTensor β → Nat → Except Fault (BaseTensor β))
    (st : Store β) (self i : Nat) : Except (Fault × Store β) (Nat × Store β) :=
  let t := st.objs self
  if ¬ (t.rank > 1) then .error (Fault.Assert, st)
  else if ¬ (i < t.shape 0) then .error (Fault.Assert, st)
  else
    let views := grow t.views_ i
    let st0 := st.set self { t with views_ := views }
    match views.getD i none with
    | some v => .ok (v, st0)
    | none =>
      match subCtor { t with views_ := views } i with
      | .error f => .error (f, st0)
      | .ok view =>
        let r := st0.alloc view
        .ok (r.1, r.2.set self { t with views_ := views.set i (some r.1) })

/-- Invariant (1) of the data model for one tensor: `size() ==
shape().TotalElementCount()`. -/
def SizeInv (t : BaseTensor β) : Prop :=
  t.size_ = t.shape_.TotalElementCount

/-- A run of calls `u.SubTensor(j)`, one after the other, on any objects `u` and
indices `j`; the run stops at the first call that aborts. -/
def SubTensors (subCtor : BaseTensor β → Nat → Except Fault (BaseTensor β)) :
    Store β → List (Nat × Nat) → Except (Fault × Store β) (Store β)
  | st, [] => .ok st
  | st, (u, j) :: rest =>
    match SubTensor subCtor st u j with
    | .error e => .error e
    | .ok (_, st1) => SubTensors subCtor st1 rest

end BaseTensor

/-! ## Host memory and CPUTensor (`lib/nn/tensor/CpuTensor.h`, `lib/nn/tensor/CpuTensor.cpp`) -/

/-- A tensor in host memory: `buffer_` is a `float*`, an address (`0` is `nullptr`). -/
abbrev CPUTensor := BaseTensor Nat

/-- The host side of the program state: the `float` cells of memory by address,
the allocation frontier (`new float[n]` hands out the `n` addresses from `brk`
on), the pointers given to `delete []`, and the `CPUTensor` objects.  The content
of a block is not defined once the block has been given to `delete []`; `junk a`
is what the cell `a` is found to hold from then on, an arbitrary value that the
embedding does not fix. -/
structure Host (α : Type) where
  mem : Nat → α
  brk : Nat
  freed : List Nat
  tensors : Store Nat
  junk : Nat → α

namespace Host

variable {α : Type}

/-- Expression `new float[n]`: a block of `n` cells no earlier allocation overlaps.
Its cells keep whatever value they had (they are not initialised). -/
def new_float (h : Host α) (n : Nat) : Nat × Host α :=
  (h.brk, { h with brk := h.brk + n })

/-- The cells of memory after the block of `n` cells at `p` has been freed. -/
def havoc (mem junk : Nat → α) (p n : Nat) : Nat → α :=
  fun a => if p ≤ a ∧ a < p + n then junk a else mem a

/-- Statement `delete [] p` for a block of `n` cells: the pointer is recorded and
the cells of the block no longer hold a defined content. -/
def delete (h : Host α) (p n : Nat) : Host α :=
  { h with freed := p :: h.freed, mem := havoc h.mem h.junk p n }

/-- Assignment `p[k] = v`. -/
def store (mem : Nat → α) (a : Nat) (v : α) : Nat → α :=
  fun k => if k = a then v else mem k

/-- Call `std::copy(first, first + n, d_first)`: the forward loop
`*d_first++ = *first++`. -/
def copy (mem : Nat → α) (first n d_first : Nat) : Nat → α :=
  (List.range n).foldl (fun m k => store m (d_first + k) (m (first + k))) mem

/-- Call `memset(p, 0, n * sizeof(float))`: the `n` cells from `p` on become zero. -/
def memset [Zero α] (mem : Nat → α) (p n : Nat) : Nat → α :=
  (List.range n).foldl (fun m k => store m (p + k) 0) mem

/-- The loop `for (i = 0; i < n; i++) p[i] = initializer()`, where `init i` is the
value the `i`-th call of the initializer returns. -/
def fill (mem : Nat → α) (p n : Nat) (init : Nat → α) : Nat → α :=
  (List.range n).foldl (fun m k => store m (p + k) (init k)) mem

end Host

namespace CPUTensor

variable {α : Type}

/-- Linear element `k` of a tensor: the cell `buffer_[k]`. -/
def elem (h : Host α) (t : CPUTensor) (k : Nat) : α :=
  h.mem (t.buffer_ + k)

/-- The private method `LinearIndex(current_index, current_dimension,
indices...)`: the variadic recursion over the remaining indices, with its
assertions; `size_t` arithmetic. -/
def LinearIndex (t : CPUTensor) : Nat → Nat → List Nat → Except Fault Nat
  | current_index, current_dimension, [] =>
    if ¬ (current_index < t.size_) then .error Fault.Assert
    else if ¬ (current_dimension = t.rank) then .error Fault.Assert
    else .ok current_index
  | current_index, current_dimension, current :: remaining =>
    if ¬ (current_dimension < t.rank) then .error Fault.Assert
    else
      LinearIndex t
        (((current_index * t.shape current_dimension) % SIZE_MOD + current) % SIZE_MOD)
        (current_dimension + 1) remaining

/-- Method `Element(indices...)` (and `operator()`), read access: the cell
`buffer_[LinearIndex(0, 0, indices...)]`. -/
def Element (h : Host α) (t : CPUTensor) (indices : List Nat) : Except Fault α :=
  match LinearIndex t 0 0 indices with
  | .error f => .error f
  | .ok linear_index => .ok (elem h t linear_index)

/-- Assignment `buffer_[k] = x`, a write to linear element `k` of a tensor (what an
assignment through the reference returned by `Element(...)` does). -/
def write (h : Host α) (t : CPUTensor) (k : Nat) (x : α) : Host α :=
  { h with mem := Host.store h.mem (t.buffer_ + k) x }

/-- Constructor `CPUTensor()`: empty shape, `buffer_(nullptr)`. -/
def default_ctor (h : Host α) : Nat × Host α :=
  let r := h.tensors.alloc (BaseTensor.ctor ⟨[]⟩ 0)
  (r.1, { h with tensors := r.2 })

/-- Constructor `CPUTensor(const Shape& shape)`: allocates, does not initialise. -/
def ctor (h : Host α) (shape : Shape) : Nat × Host α :=
  let b := BaseTensor.ctor shape 0
  let a := h.new_float b.size_
  let r := a.2.tensors.alloc { b with buffer_ := a.1 }
  (r.1, { a.2 with tensors := r.2 })

/-- Constructor `CPUTensor(const Shape& shape, Initializer initializer)`. -/
def init_ctor (h : Host α) (shape : Shape) (init : Nat → α) : Nat × Host α :=
  let b := BaseTensor.ctor shape 0
  let a := h.new_float b.size_
  let r := a.2.tensors.alloc { b with buffer_ := a.1 }
  (r.1, { a.2 with tensors := r.2, mem := Host.fill a.2.mem a.1 b.size_ init })

/-- Copy constructor `CPUTensor(const CPUTensor& other)`, `other` given by identity. -/
def copy_ctor (h : Host α) (other : Nat) : Nat × Host α :=
  let o := h.tensors.objs other
  let b := BaseTensor.copy_ctor o 0
  let a := h.new_float b.size_
  let r := a.2.tensors.alloc { b with buffer_ := a.1 }
  (r.1, { a.2 with tensors := r.2, mem := Host.copy a.2.mem o.buffer_ b.size_ a.1 })

/-- The part of the `operator=` of `CPUTensor` after its `Check` and its test for
self-assignment: reallocate when the sizes differ (the old block, of `size()`
cells, is freed first), assign the base class properties, copy the elements.  When
`other` is a view into the block of `self` and the sizes differ, the copy reads
the freed block. -/
def assign_body (h : Host α) (self other : Nat) : Host α :=
  let t := h.tensors.objs self
  let o := h.tensors.objs other
  let h1 : Host α :=
    if t.size_ ≠ o.size_ then
      let a := (h.delete t.buffer_ t.size_).new_float o.size_
      { a.2 with tensors := a.2.tensors.set self { t with buffer_ := a.1 } }
    else h
  let t1 := BaseTensor.assign (h1.tensors.objs self) o
  { h1 with tensors := h1.tensors.set self t1,
            mem := Host.copy h1.mem o.buffer_ t1.size_ t1.buffer_ }

/-- The `operator=` of `CPUTensor`: `self = other`, both given by identity. -/
def assign (h : Host α) (self other : Nat) : Except (Fault × Host α) (Host α) :=
  if BaseTensor.assign_check (h.tensors.objs self) (h.tensors.objs other) = false then
    .error (Fault.Check, h)
  else if self = other then .ok h
  else .ok (assign_body h self other)

/-- Method `Clear()`: `memset(buffer_, 0, size() * sizeof(float))`. -/
def Clear [Zero α] (h : Host α) (self : Nat) : Host α :=
  let t := h.tensors.objs self
  { h with mem := Host.memset h.mem t.buffer_ t.size_ }

/-- Reshape-view constructor `CPUTensor(const CPUTensor& base, const Shape& new_shape)`,
with its `Assert(size() == base.size())`. -/
def view_ctor (base : CPUTensor) (new_shape : Shape) : Except Fault CPUTensor :=
  let b := BaseTensor.ctor new_shape base.buffer_
  if b.size_ = base.size_ then .ok { b with is_view_ := true } else .error Fault.Assert

/-- Sub-tensor constructor `CPUTensor(const CPUTensor& base, size_t index)`. -/
def sub_ctor (base : CPUTensor) (index : Nat) : Except Fault CPUTensor :=
  let b := BaseTensor.ctor base.shape_.ElementShape 0
  .ok { b with
    buffer_ := base.buffer_ + (index * base.shape_.ElementShape.TotalElementCount) % SIZE_MOD,
    is_view_ := true }

/-- Lift an operation on the object store to the host state. -/
def lift {ρ : Type} (h : Host α) (r : Except (Fault × Store Nat) (ρ × Store Nat)) :
    Except (Fault × Host α) (ρ × Host α) :=
  match r with
  | .error (f, st) => .error (f, { h with tensors := st })
  | .ok (x, st) => .ok (x, { h with tensors := st })

/-- Method `NewView(new_shape)` of a `CPUTensor`. -/
def NewView (h : Host α) (self : Nat) (new_shape : Shape) :
    Except (Fault × Host α) (Nat × Host α) :=
  lift h (BaseTensor.NewView view_ctor h.tensors self new_shape)

/-- Method `SubTensor(i)` / `operator[]` of a `CPUTensor`. -/
def SubTensor (h : Host α) (self i : Nat) : Except (Fault × Host α) (Nat × Host α) :=
  lift h (BaseTensor.SubTensor sub_ctor h.tensors self i)

/-- The expression `t[i1][i2]...[ik]`: a chain of `operator[]` calls, each on the
result of the one before. -/
def nested (h : Host α) : Nat → List Nat → Except (Fault × Host α) (Nat × Host α)
  | t, [] => .ok (t, h)
  | t, i :: rest =>
    match SubTensor h t i with
    | .error e => .error e
    | .ok (v, h1) => nested h1 v rest

/-- Method `Reshape(new_shape)` of a `CPUTensor`. -/
def Reshape (h : Host α) (self : Nat) (new_shape : Shape) : Bool × Host α :=
  let r := BaseTensor.Reshape h.tensors self new_shape
  (r.1, { h with tensors := r.2 })

end CPUTensor

/-- Invariant (1) holds of every tensor object that exists. -/
def Store.SizeInv {β : Type} (st : Store β) : Prop :=
  ∀ id, id < st.count → (st.objs id).SizeInv

/-- The host tensor `v` is the `i`-th sub-tensor view of the host tensor `t` as the
sub-tensor constructor makes it: a view with the element shape of `t`, starting
`i` slices into the buffer of `t`. -/
def CPUTensor.IsSubOf (v t : CPUTensor) (i : Nat) : Prop :=
  v.is_view_ = true
  ∧ v.shape_ = t.shape_.ElementShape
  ∧ v.size_ = t.shape_.ElementShape.TotalElementCount
  ∧ v.buffer_ = t.buffer_ + (i * t.shape_.ElementShape.TotalElementCount) % SIZE_MOD

/-- The view tables of a host state are coherent: every filled slot `i` of the
table of a tensor `t` points to an existing object that is the `i`-th sub-tensor
view of `t` as `t` is now.  Constructors, `NewView`, `SubTensor`, `Clear` and
element writes keep the view tables coherent (`Host.Coherent_preserved`,
`CPUTensor.SubTensor_step`); `Reshape` and `operator=` do not update the view
table of the tensor they change. -/
def Host.Coherent {α : Type} (h : Host α) : Prop :=
  ∀ t, t < h.tensors.count → ∀ i v, (h.tensors.objs t).views_.getD i none = some v →
    v < h.tensors.count ∧ CPUTensor.IsSubOf (h.tensors.objs v) (h.tensors.objs t) i

/-- A small host state used to instantiate the theorems: one owning tensor (object
`0`) of shape `(2, 3)` whose six cells, at addresses `1 .. 6`, hold `10 .. 15`. -/
def exampleHost : Host Nat :=
  { mem := fun a => a + 9, brk := 7, freed := [], junk := fun _ => 0,
    tensors := { objs := fun _ => BaseTensor.ctor ⟨[2, 3]⟩ 1, count := 1 } }

/-! ## Device buffers (`lib/ocl/Buffer.h`, `lib/ocl/Buffer.cpp`, `lib/ocl/Device.cpp`) -/

/-- The constant `sizeof(float)`. -/
def sizeof_float : Nat := 4

/-- What an OpenCL memory object handle (`cl_mem`) denotes: the bytes
`[origin, origin + size)` of the device allocation `alloc`; `is_sub` tells whether
the object was made by `clCreateSubBuffer`. -/
structure cl_mem where
  alloc : Nat
  origin : Nat
  size : Nat
  is_sub : Bool
deriving DecidableEq, Repr

/-- The OpenCL call `clCreateSubBuffer(buffer, CL_MEM_READ_WRITE,
CL_BUFFER_CREATE_TYPE_REGION, &region, &retval)` with `region = {origin, size}`.
It is an error (`none`) when `buffer` is itself a sub-buffer, when `size` is zero
and when the region does not lie within `buffer`; otherwise the new object denotes
the bytes `[origin, origin + size)` of `buffer`.  (Device specific alignment
requirements on `origin` are not part of the embedding.) -/
def clCreateSubBuffer (buffer : cl_mem) (origin size : Nat) : Option cl_mem :=
  if buffer.is_sub then none
  else if size = 0 then none
  else if buffer.size < origin + size then none
  else some { alloc := buffer.alloc, origin := buffer.origin + origin, size := size,
              is_sub := true }

/-- Classes `CLBuffer` and `CLBufferView` (a `Buffer` is one of the two): the
handle `buffer_` and the `size_` in bytes, and for a view the handle `base_` of the
original buffer and `offset_`, declared as the "offset (in bytes) into the base
buffer of this view". -/
inductive Buffer where
  | CLBuffer (buffer_ : cl_mem) (size_ : Nat)
  | CLBufferView (buffer_ : cl_mem) (base_ : cl_mem) (size_ : Nat) (offset_ : Nat)
deriving DecidableEq, Repr

namespace Buffer

/-- Method `size()`. -/
def size : Buffer → Nat
  | CLBuffer _ size_ => size_
  | CLBufferView _ _ size_ _ => size_

/-- Method `cl_buffer()`: the handle kernels and transfers use. -/
def cl_buffer : Buffer → cl_mem
  | CLBuffer buffer_ _ => buffer_
  | CLBufferView buffer_ _ _ _ => buffer_

/-- The virtual method `NewView(offset, size)`, `CLBuffer::NewView` respectively
`CLBufferView::NewView`.  The assertion aborts; a failing `clCreateSubBuffer`
makes the method return `nullptr` (`none`). -/
def NewView : Buffer → Nat → Nat → Except Fault (Option Buffer)
  | CLBuffer buffer_ size_, offset, size =>
    if ¬ (offset + size ≤ size_) then .error Fault.Assert
    else match clCreateSubBuffer buffer_ offset size with
      | none => .ok none
      | some sub_buffer => .ok (some (CLBufferView sub_buffer buffer_ size offset))
  | CLBufferView _ base_ size_ offset_, offset, size =>
    if ¬ (offset + size ≤ size_) then .error Fault.Assert
    else match clCreateSubBuffer base_ (offset + offset_) size with
      | none => .ok none
      | some sub_buffer => .ok (some (CLBufferView sub_buffer base_ size offset))

/-- Method `NewView()` without arguments: `NewView(0, size())`. -/
def NewView0 (b : Buffer) : Except Fault (Option Buffer) :=
  b.NewView 0 b.size

/-- A chain `b.NewView(o1, s1).NewView(o2, s2)...` of calls, each on the result of
the one before; calling a method on a `nullptr` result is undefined (`Fault.Null`). -/
def NewViews : Buffer → List (Nat × Nat) → Except Fault (Option Buffer)
  | b, [] => .ok (some b)
  | b, (o, s) :: rest =>
    match b.NewView o s with
    | .error f => .error f
    | .ok none => if rest = [] then .ok none else .error Fault.Null
    | .ok (some v) => NewViews v rest

/-- The bytes the result of the chain `b.NewView(o1, s1).NewView(o2, s2)...`
denotes, when all calls return a buffer. -/
def chainRegion (b : Buffer) (chain : List (Nat × Nat)) : Option cl_mem :=
  match b.NewViews chain with
  | .ok (some v) => some v.cl_buffer
  | _ => none

end Buffer

/-- A tensor in device memory: `buffer_` is an `ocl::Buffer*` (`none` is `nullptr`). -/
abbrev GPUTensor := BaseTensor (Option Buffer)

/-- One byte of memory.  The object representation of a `float` is not fixed by the
embedding, so a byte is either a `uint8_t` with a known value (`raw v`), or byte
number `j` of a `float` `x` (`frag x w i j`): `w` and `i` say which `float` object
the byte was copied from, element `i` of the host array given to the write number
`w`. -/
inductive MemByte (α : Type) where
  | raw (v : Nat)
  | frag (x : α) (w i j : Nat)
deriving DecidableEq, Repr

namespace MemByte

variable {α : Type}

/-- The `float` of which the four bytes are, in order, the bytes `0 .. 3` of the
object representation: `none` when they are not the four bytes of one `float`
object. -/
def whole (b0 b1 b2 b3 : MemByte α) : Option α :=
  match b0, b1, b2, b3 with
  | frag x w i j, frag _ w1 i1 j1, frag _ w2 i2 j2, frag _ w3 i3 j3 =>
    if (j = 0 ∧ j1 = 1 ∧ j2 = 2 ∧ j3 = 3) ∧ (w1 = w ∧ w2 = w ∧ w3 = w)
        ∧ (i1 = i ∧ i2 = i ∧ i3 = i)
    then some x else none
  | _, _, _, _ => none

/-- The cast `(uint8_t*)buffer` of a host array of `float`: byte `y` is byte
`y % sizeof(float)` of the element `y / sizeof(float)`; `w` numbers the write the
bytes are made for. -/
def ofFloats (w : Nat) (buffer : Nat → α) : Nat → MemByte α :=
  fun y => frag (buffer (y / sizeof_float)) w (y / sizeof_float) (y % sizeof_float)

end MemByte

/-- The device side of the program state: the bytes of every device allocation
(`dbytes a y` is byte `y` of allocation `a`), the calls of `clEnqueueWriteBuffer`
made so far (handle, byte offset, number of bytes and host array of each, in
order), the number of allocations made by `clCreateBuffer`, the handles given to
`clReleaseMemObject`, and the `GPUTensor` objects.  `decode` is the `float` that
four bytes stand for when they are not the four bytes of one `float` object (zero
bytes, or parts of different floats): a value that the embedding does not fix. -/
structure Device (α : Type) where
  dbytes : Nat → Nat → MemByte α
  decode : MemByte α → MemByte α → MemByte α → MemByte α → α
  writes : List (cl_mem × Nat × Nat × (Nat → MemByte α))
  nalloc : Nat
  released : List cl_mem
  tensors : Store (Option Buffer)

namespace Device

variable {α : Type}

/-- The `float` that four consecutive bytes are read as. -/
def float_of (d : Device α) (b0 b1 b2 b3 : MemByte α) : α :=
  match MemByte.whole b0 b1 b2 b3 with
  | some x => x
  | none => d.decode b0 b1 b2 b3

/-- The cast `(float*)buffer` of a host array of bytes: element `k` is read from
the bytes `k * sizeof(float) .. k * sizeof(float) + 3`. -/
def floats (d : Device α) (buffer : Nat → MemByte α) : Nat → α :=
  fun k => d.float_of (buffer (k * sizeof_float)) (buffer (k * sizeof_float + 1))
    (buffer (k * sizeof_float + 2)) (buffer (k * sizeof_float + 3))

/-- The `k`-th `float` of allocation `a`: the bytes `k * sizeof(float) ..
k * sizeof(float) + 3` read as a `float`. -/
def dmem (d : Device α) (a k : Nat) : α :=
  d.floats (d.dbytes a) k

/-- Method `Device::AllocateBuffer(size)`: `clCreateBuffer` fails for a size of
zero (then `nullptr` is returned), otherwise a new allocation is wrapped in a
`CLBuffer`.  Exhaustion of device memory is not part of the embedding. -/
def AllocateBuffer (d : Device α) (size : Nat) : Option Buffer × Device α :=
  if size = 0 then (none, d)
  else (some (Buffer.CLBuffer { alloc := d.nalloc, origin := 0, size := size, is_sub := false } size),
        { d with nalloc := d.nalloc + 1 })

/-- Statement `delete buffer_` for an `ocl::Buffer*`: the destructor releases the
memory object; deleting `nullptr` does nothing. -/
def delete (d : Device α) (b : Option Buffer) : Device α :=
  match b with
  | none => d
  | some b => { d with released := b.cl_buffer :: d.released }

/-- The OpenCL call `clEnqueueReadBuffer(queue, m, blocking, offset, nbytes, ptr, ...)`:
`ptr[y]` receives byte `offset + y` of `m`.  The result is the content of the host
array `ptr` afterwards, as far as it was written. -/
def clEnqueueReadBuffer (d : Device α) (m : cl_mem) (offset : Nat) : Nat → MemByte α :=
  fun y => d.dbytes m.alloc (m.origin + offset + y)

/-- The OpenCL call `clEnqueueWriteBuffer(queue, m, blocking, offset, nbytes, ptr, ...)`:
the bytes `ptr[0], ..., ptr[nbytes - 1]` go to the bytes `[offset, offset + nbytes)`
of `m`, and no other byte changes. -/
def clEnqueueWriteBuffer (d : Device α) (m : cl_mem) (offset nbytes : Nat)
    (ptr : Nat → MemByte α) : Device α :=
  { d with
    dbytes := fun a y =>
      if a = m.alloc ∧ m.origin + offset ≤ y ∧ y < m.origin + offset + nbytes
      then ptr (y - (m.origin + offset)) else d.dbytes a y,
    writes := d.writes ++ [(m, offset, nbytes, ptr)] }

end Device

namespace Buffer

variable {α : Type}

/-- Method `CLBuffer::Read(buffer, nbytes, offset, blocking)`; the result is the
content of the host array `buffer` afterwards. -/
def Read (b : Buffer) (d : Device α) (nbytes offset : Nat) : Except Fault (Nat → MemByte α) :=
  if ¬ (offset + nbytes ≤ b.size) then .error Fault.Assert
  else .ok (d.clEnqueueReadBuffer b.cl_buffer offset)

/-- Method `CLBuffer::Write(buffer, nbytes, offset, blocking)`. -/
def Write (b : Buffer) (d : Device α) (buffer : Nat → MemByte α) (nbytes offset : Nat) :
    Except Fault (Device α) :=
  if ¬ (offset + nbytes ≤ b.size) then .error Fault.Assert
  else .ok (d.clEnqueueWriteBuffer b.cl_buffer offset nbytes buffer)

/-- The element count the templates `Read<float>`, `ReadInto<float>` and
`Write<float>` use: `nelems`, or for `nelems == 0` the whole buffer, `size_ /
sizeof(float)` (after `Assert(size_ % sizeof(float) == 0)`). -/
def nelemsOrAll (b : Buffer) (nelems : Nat) : Except Fault Nat :=
  if nelems = 0 then
    if b.size % sizeof_float = 0 then .ok (b.size / sizeof_float) else .error Fault.Assert
  else .ok nelems

/-- Templates `Read<float>(nelems, offset)` and `ReadInto<float>(buffer, nelems,
offset)`: the floats that arrive in the host array, which is handed to `Read` as
`(uint8_t*)buffer`. -/
def ReadT (b : Buffer) (d : Device α) (nelems offset : Nat) : Except Fault (Nat → α) :=
  match b.nelemsOrAll nelems with
  | .error f => .error f
  | .ok n =>
    match b.Read d ((n * sizeof_float) % SIZE_MOD) offset with
    | .error f => .error f
    | .ok data => .ok (d.floats data)

/-- Template `Write<float>(buffer, nelems, offset)`: the host array is handed to
`Write` as `(uint8_t*)buffer`. -/
def WriteT (b : Buffer) (d : Device α) (buffer : Nat → α) (nelems offset : Nat) :
    Except Fault (Device α) :=
  match b.nelemsOrAll nelems with
  | .error f => .error f
  | .ok n =>
    if ¬ (((offset + n) * sizeof_float) % SIZE_MOD ≤ b.size) then .error Fault.Assert
    else b.Write d (MemByte.ofFloats d.writes.length buffer) ((n * sizeof_float) % SIZE_MOD) offset

end Buffer

/-- The state `exampleHost` after the call `t[1]`: object `1` is the view of the
second row, the cells at addresses `4 .. 6`. -/
def exampleHostView : Host Nat :=
  { mem := fun a => a + 9, brk := 7, freed := [], junk := fun _ => 0,
    tensors :=
      { objs := fun k =>
          if k = 1 then
            { is_view_ := true, shape_ := ⟨[3]⟩, size_ := 3, views_ := [], buffer_ := 4 }
          else
            { is_view_ := false, shape_ := ⟨[2, 3]⟩, size_ := 6, views_ := [none, some 1],
              buffer_ := 1 },
        count := 2 } }

/-- The host counterpart of `exampleDevice`: one owning tensor (object `0`) of
shape `(2, 1, 1, 1024)` whose cells, at the addresses from `1` on, hold `20, 21, ...`. -/
def exampleHost4 : Host Nat :=
  { mem := fun a => a + 19, brk := 2049, freed := [], junk := fun _ => 0,
    tensors := { objs := fun _ => BaseTensor.ctor ⟨[2, 1, 1, 1024]⟩ 1, count := 1 } }

/-- The element offset, from the start of the buffer of `t`, at which the buffer of
`t[i1]...[ik]` starts, when the chain of calls returns. -/
def CPUTensor.nestedOffset {α : Type} (h : Host α) (t : Nat) (idx : List Nat) : Option Nat :=
  match CPUTensor.nested h t idx with
  | .error _ => none
  | .ok (v, h1) => some ((h1.tensors.objs v).buffer_ - (h.tensors.objs t).buffer_)

/-- A small device state used to instantiate the theorems: one owning tensor
(object `0`) of shape `(2, 1, 1, 1024)` on the allocation `0` of `8192` bytes,
whose `k`-th `float` is `k + 20`, brought there by one write. -/
def exampleDevice : Device Nat :=
  { dbytes := fun _ y => MemByte.frag (y / 4 + 20) 0 (y / 4) (y % 4),
    decode := fun _ _ _ _ => 0,
    writes := [({ alloc := 0, origin := 0, size := 8192, is_sub := false }, 0, 8192,
      fun y => MemByte.frag (y / 4 + 20) 0 (y / 4) (y % 4))],
    nalloc := 1, released := [],
    tensors :=
      { objs := fun _ =>
          BaseTensor.ctor ⟨[2, 1, 1, 1024]⟩
            (some (Buffer.CLBuffer { alloc := 0, origin := 0, size := 8192, is_sub := false }
              8192)),
        count := 1 } }

/-! ## GPUTensor (`lib/nn/tensor/GpuTensor.h`, `lib/nn/tensor/GpuTensor.cpp`) -/

namespace GPUTensor

variable {α : Type}

/-- Constructor `GPUTensor(const Shape& shape)`; the `Check(buffer_, ...)` aborts
when the allocation returned `nullptr`. -/
def ctor (d : Device α) (shape : Shape) : Except (Fault × Device α) (Nat × Device α) :=
  let b : GPUTensor := BaseTensor.ctor shape none
  let a := d.AllocateBuffer ((b.size_ * sizeof_float) % SIZE_MOD)
  match a.1 with
  | none => .error (Fault.Check, a.2)
  | some buf =>
    let r := a.2.tensors.alloc { b with buffer_ := some buf }
    .ok (r.1, { a.2 with tensors := r.2 })

/-- Constructor `GPUTensor(const Shape& shape, Initializer initializer)`, where
`init i` is the value the `i`-th call of the initializer returns. -/
def init_ctor (d : Device α) (shape : Shape) (init : Nat → α) :
    Except (Fault × Device α) (Nat × Device α) :=
  let b : GPUTensor := BaseTensor.ctor shape none
  let a := d.AllocateBuffer ((b.size_ * sizeof_float) % SIZE_MOD)
  match a.1 with
  | none => .error (Fault.Check, a.2)
  | some buf =>
    let r := a.2.tensors.alloc { b with buffer_ := some buf }
    let d1 : Device α := { a.2 with tensors := r.2 }
    match buf.WriteT d1 init 0 0 with
    | .error f => .error (f, d1)
    | .ok d2 => .ok (r.1, d2)

/-- Reshape-view constructor `GPUTensor(const GPUTensor& base, const Shape& new_shape)`. -/
def view_ctor (base : GPUTensor) (new_shape : Shape) : Except Fault GPUTensor :=
  match base.buffer_ with
  | none => .error Fault.Null
  | some buf =>
    match buf.NewView0 with
    | .error f => .error f
    | .ok v =>
      let b : GPUTensor := BaseTensor.ctor new_shape v
      if b.size_ = base.size_ then .ok { b with is_view_ := true } else .error Fault.Assert

/-- Sub-tensor constructor `GPUTensor(const GPUTensor& base, size_t index)`. -/
def sub_ctor (base : GPUTensor) (index : Nat) : Except Fault GPUTensor :=
  let b : GPUTensor := BaseTensor.ctor base.shape_.ElementShape none
  let new_size := (base.shape_.ElementShape.TotalElementCount * sizeof_float) % SIZE_MOD
  match base.buffer_ with
  | none => .error Fault.Null
  | some buf =>
    match buf.NewView ((index * new_size) % SIZE_MOD) new_size with
    | .error f => .error f
    | .ok v => .ok { b with buffer_ := v, is_view_ := true }

/-- Lift an operation on the object store to the device state. -/
def lift {ρ : Type} (d : Device α)
    (r : Except (Fault × Store (Option Buffer)) (ρ × Store (Option Buffer))) :
    Except (Fault × Device α) (ρ × Device α) :=
  match r with
  | .error (f, st) => .error (f, { d with tensors := st })
  | .ok (x, st) => .ok (x, { d with tensors := st })

/-- Method `NewView(new_shape)` of a `GPUTensor`. -/
def NewView (d : Device α) (self : Nat) (new_shape : Shape) :
    Except (Fault × Device α) (Nat × Device α) :=
  lift d (BaseTensor.NewView view_ctor d.tensors self new_shape)

/-- Method `SubTensor(i)` / `operator[]` of a `GPUTensor`. -/
def SubTensor (d : Device α) (self i : Nat) : Except (Fault × Device α) (Nat × Device α) :=
  lift d (BaseTensor.SubTensor sub_ctor d.tensors self i)

/-- The expression `g[i1][i2]...[ik]`: a chain of `operator[]` calls, each on the
result of the one before. -/
def nested (d : Device α) : Nat → List Nat → Except (Fault × Device α) (Nat × Device α)
  | g, [] => .ok (g, d)
  | g, i :: rest =>
    match SubTensor d g i with
    | .error e => .error e
    | .ok (v, d1) => nested d1 v rest

/-- The bytes of device memory a tensor object stands for: what the handle of its
buffer denotes (`none` for a null `buffer_`). -/
def region (d : Device α) (g : Nat) : Option cl_mem :=
  (d.tensors.objs g).buffer_.map Buffer.cl_buffer

/-- The bytes `g[i1]...[ik]` stands for, when the chain of calls returns. -/
def nestedRegion (d : Device α) (g : Nat) (idx : List Nat) : Option cl_mem :=
  match nested d g idx with
  | .error _ => none
  | .ok (v, d1) => region d1 v

/-- The bytes `g[i1]...[ik].NewView(s)` stands for, when the calls return. -/
def nestedViewRegion (d : Device α) (g : Nat) (idx : List Nat) (s : Shape) : Option cl_mem :=
  match nested d g idx with
  | .error _ => none
  | .ok (v, d1) =>
    match NewView d1 v s with
    | .error _ => none
    | .ok (w, d2) => region d2 w

/-- Method `Reshape(new_shape)` of a `GPUTensor`. -/
def Reshape (d : Device α) (self : Nat) (new_shape : Shape) : Bool × Device α :=
  let r := BaseTensor.Reshape d.tensors self new_shape
  (r.1, { d with tensors := r.2 })

/-- The two statements `tmp = src->Read<float>(); dst->Write(tmp);` with which the
copy constructor and `operator=` move the data (the temporary host array is not
kept in the state). -/
def transferData (d : Device α) (src dst : Option Buffer) : Except (Fault × Device α) (Device α) :=
  match src with
  | none => .error (Fault.Null, d)
  | some sb =>
    match sb.ReadT d 0 0 with
    | .error f => .error (f, d)
    | .ok tmpbuf =>
      match dst with
      | none => .error (Fault.Null, d)
      | some db =>
        match db.WriteT d tmpbuf 0 0 with
        | .error f => .error (f, d)
        | .ok d1 => .ok d1

/-- Copy constructor `GPUTensor(const GPUTensor& other)`. -/
def copy_ctor (d : Device α) (other : Nat) : Except (Fault × Device α) (Nat × Device α) :=
  let o := d.tensors.objs other
  let b : GPUTensor := BaseTensor.ctor o.shape_ none
  let a := d.AllocateBuffer ((b.size_ * sizeof_float) % SIZE_MOD)
  let r := a.2.tensors.alloc { b with buffer_ := a.1 }
  let d1 : Device α := { a.2 with tensors := r.2 }
  match transferData d1 o.buffer_ a.1 with
  | .error e => .error e
  | .ok d2 => .ok (r.1, d2)

/-- The part of the `operator=` of `GPUTensor` after its `Check` and its test for
self-assignment: reallocate when the shapes differ, assign the base class
properties, move the elements. -/
def assign_body (d : Device α) (self other : Nat) : Except (Fault × Device α) (Device α) :=
  let t := d.tensors.objs self
  let o := d.tensors.objs other
  let d1 : Device α :=
    if t.shape_ ≠ o.shape_ then
      let a := (d.delete t.buffer_).AllocateBuffer ((o.size_ * sizeof_float) % SIZE_MOD)
      { a.2 with tensors := a.2.tensors.set self { t with buffer_ := a.1 } }
    else d
  let t1 := BaseTensor.assign (d1.tensors.objs self) o
  transferData { d1 with tensors := d1.tensors.set self t1 } o.buffer_ t1.buffer_

/-- The `operator=` of `GPUTensor`: `self = other`, both given by identity. -/
def assign (d : Device α) (self other : Nat) : Except (Fault × Device α) (Device α) :=
  if BaseTensor.assign_check (d.tensors.objs self) (d.tensors.objs other) = false then
    .error (Fault.Check, d)
  else if self = other then .ok d
  else assign_body d self other

/-- Transfer constructor `GPUTensor(const CPUTensor& tensor)`, used by
`CPUTensor::ToGPU()`. -/
def ofCPU (h : Host α) (d : Device α) (tensor : Nat) :
    Except (Fault × Device α) (Nat × Device α) :=
  let c := h.tensors.objs tensor
  let b : GPUTensor := BaseTensor.ctor c.shape_ none
  let a := d.AllocateBuffer ((b.size_ * sizeof_float) % SIZE_MOD)
  match a.1 with
  | none => .error (Fault.Check, a.2)
  | some buf =>
    let r := a.2.tensors.alloc { b with buffer_ := some buf }
    let d1 : Device α := { a.2 with tensors := r.2 }
    match buf.WriteT d1 (fun k => h.mem (c.buffer_ + k)) 0 0 with
    | .error f => .error (f, d1)
    | .ok d2 => .ok (r.1, d2)

end GPUTensor

namespace CPUTensor

variable {α : Type}

/-- Transfer constructor `CPUTensor(const GPUTensor& other)`, used by
`GPUTensor::ToHost()`. -/
def ofGPU (h : Host α) (d : Device α) (other : Nat) :
    Except (Fault × Host α) (Nat × Host α) :=
  let g := d.tensors.objs other
  let b : CPUTensor := BaseTensor.ctor g.shape_ 0
  let a := h.new_float b.size_
  let r := a.2.tensors.alloc { b with buffer_ := a.1 }
  let h1 : Host α := { a.2 with tensors := r.2 }
  match g.buffer_ with
  | none => .error (Fault.Null, h1)
  | some buf =>
    match buf.nelemsOrAll b.size_ with
    | .error f => .error (f, h1)
    | .ok n =>
      let nbytes := (n * sizeof_float) % SIZE_MOD
      match buf.Read d nbytes 0 with
      | .error f => .error (f, h1)
      | .ok data =>
        .ok (r.1, { h1 with mem := Host.fill h1.mem a.1 (nbytes / sizeof_float) (d.floats data) })

/-- Method `ToGPU()`. -/
def ToGPU (h : Host α) (d : Device α) (self : Nat) :
    Except (Fault × Device α) (Nat × Device α) :=
  GPUTensor.ofCPU h d self

end CPUTensor

namespace GPUTensor

variable {α : Type}

/-- Method `ToHost()`. -/
def ToHost (h : Host α) (d : Device α) (self : Nat) :
    Except (Fault × Host α) (Nat × Host α) :=
  CPUTensor.ofGPU h d self

end GPUTensor

/-! ## Comparison of shapes (`lib/nn/tensor/Shape.h`) -/

namespace Shape

/-- The `operator==` of `Shape`: `data_ == other.data_`, the comparison of two
`std::vector<size_t>` (equal sizes and equal entries). -/
def operator_eq (s other : Shape) : Bool :=
  decide (s.data_ = other.data_)

/-- The `operator!=` of `Shape`: `data_ != other.data_`. -/
def operator_ne (s other : Shape) : Bool :=
  decide (s.data_ ≠ other.data_)

end Shape


/-! ## The round trip host → device → host -/

/-- Expression `h.ToGPU().ToHost()` for the host tensor `self`: the identities of
the device tensor and of the host tensor it makes, with the states afterwards;
`none` when one of the two calls aborts. -/
def CPUTensor.ToGPU_ToHost {α : Type} (h : Host α) (d : Device α) (self : Nat) :
    Option (Nat × Nat × Host α × Device α) :=
  match CPUTensor.ToGPU h d self with
  | .error _ => none
  | .ok (g, d1) =>
    match GPUTensor.ToHost h d1 g with
    | .error _ => none
    | .ok (r, h1) => some (g, r, h1, d1)


/-! ## Kernels (`src/ocl/Kernel.h`, `src/ocl/Kernel.cpp`) -/

/-- Struct `Kernel::WorkSize`: the number of `dimensions` (one to three) and the
array `values[3]`.  The entries a constructor does not set are represented by `0`;
no code reads them. -/
structure Kernel.WorkSize where
  dimensions : Nat
  values : List Nat
deriving DecidableEq, Repr

namespace Kernel

namespace WorkSize

/-- Constructor `WorkSize(size_t x)`. -/
def ctor1 (x : Nat) : WorkSize :=
  { dimensions := 1, values := [x, 0, 0] }

/-- Constructor `WorkSize(size_t x, size_t y)`. -/
def ctor2 (x y : Nat) : WorkSize :=
  { dimensions := 2, values := [x, y, 0] }

/-- Constructor `WorkSize(size_t x, size_t y, size_t z)`. -/
def ctor3 (x y z : Nat) : WorkSize :=
  { dimensions := 3, values := [x, y, z] }

/-- Expression `values[d]`. -/
def value (w : WorkSize) (d : Nat) : Nat :=
  w.values.getD d 0

/-- Assignment `values[d] = v`. -/
def assign (w : WorkSize) (d v : Nat) : WorkSize :=
  { w with values := w.values.set d v }

end WorkSize

/-- Number of values of the type `uint16_t`. -/
def UINT16_MOD : Nat := 2 ^ 16

/-- The body of the loop of `PrepareFinalWorkSize` on one entry `g =
gws.values[d]` with `l = lws.values[d]`: `uint16_t rem = g % l; if (rem != 0) g +=
l - rem;`.  The remainder is stored in 16 bits, the subtraction and the addition
are `size_t` operations.  (For `l = 0` the C++ remainder is undefined; Lean's
`g % 0 = g` stands for it.) -/
def PrepareFinalWorkSize.entry (g l : Nat) : Nat :=
  let rem := (g % l) % UINT16_MOD
  if rem ≠ 0 then (g + (l + SIZE_MOD - rem) % SIZE_MOD) % SIZE_MOD else g

/-- The private method `PrepareFinalWorkSize(gws, lws)`: the loop over `d <
gws.dimensions`, returning the changed copy of `gws`. -/
def PrepareFinalWorkSize (gws lws : WorkSize) : WorkSize :=
  (List.range gws.dimensions).foldl
    (fun g d => g.assign d (PrepareFinalWorkSize.entry (g.value d) (lws.value d)))
    gws

/-- The static method `CalculateLocalWorkSize(gws)`. -/
def CalculateLocalWorkSize (gws : WorkSize) : WorkSize :=
  if gws.dimensions = 1 then WorkSize.ctor1 256
  else if gws.dimensions = 2 then WorkSize.ctor2 32 8
  else if gws.dimensions = 3 then WorkSize.ctor3 16 4 4
  else WorkSize.ctor1 0

end Kernel

/-- What one call `clSetKernelArg(kernel, index, arg_size, arg_value)` stores in
an argument slot: `arg_size` bytes holding a value, a memory object, or (for
`arg_value == NULL`) `arg_size` bytes of local memory. -/
inductive KernelArg where
  | value (arg_size : Nat) (bits : Nat)
  | mem (m : cl_mem)
  | local_memory (arg_size : Nat)
deriving DecidableEq, Repr

/-- An argument given to `BindNextArgument<T>` or to the variadic `Run`: a
`size_t`, an `ocl::Buffer*` (`none` is `nullptr`), a `LocalMemory`, or a value of
any other type `T` with its `sizeof(T)`. -/
inductive Argument where
  | size_t (size : Nat)
  | buffer (buffer : Option Buffer)
  | LocalMemory (size : Nat)
  | other (sizeof_T : Nat) (value : Nat)
deriving DecidableEq, Repr

/-- What the specialisation of `BindNextArgument<T>` that applies to the argument
hands to `clSetKernelArg`: a `size_t` is asserted to fit 32 bits and passed as a
`cl_uint`, a buffer pointer is dereferenced for its `cl_mem`, a `LocalMemory`
passes its size with a null value, every other value is passed as it is. -/
def Argument.arg : Argument → Except Fault KernelArg
  | .size_t size =>
    if ¬ (size ≤ 0xffffffff) then .error Fault.Assert else .ok (.value 4 size)
  | .buffer none => .error Fault.Null
  | .buffer (some b) => .ok (.mem b.cl_buffer)
  | .LocalMemory size => .ok (.local_memory size)
  | .other sizeof_T value => .ok (.value sizeof_T value)

/-- The answers of the OpenCL runtime the class `Kernel` depends on: whether
`clSetKernelArg` accepts a value for an argument index, and whether
`clEnqueueNDRangeKernel` accepts a launch with the given global and local sizes. -/
structure KernelRuntime where
  clSetKernelArg : Nat → KernelArg → Bool
  clEnqueueNDRangeKernel : Kernel.WorkSize → Kernel.WorkSize → Bool

/-- A command `clEnqueueNDRangeKernel` put into the queue: the work sizes and the
argument values the kernel object held at that moment. -/
structure Kernel.Launch where
  gws : Kernel.WorkSize
  lws : Kernel.WorkSize
  args : Nat → Option KernelArg

/-- Class `Kernel`: the cursor `cur_index_`, the argument slots of the underlying
`cl_kernel` object, and the launches this kernel has enqueued so far. -/
structure Kernel where
  cur_index_ : Nat
  args : Nat → Option KernelArg
  enqueued : List Kernel.Launch

namespace Kernel

/-- The kernel as its constructor leaves it: `cur_index_(0)`, no argument set. -/
def ctor : Kernel :=
  { cur_index_ := 0, args := fun _ => none, enqueued := [] }

/-- Method `BindNextArgument<T>(value)`: `clSetKernelArg(kernel_, cur_index_, ...)`;
on an error the method returns `false`, otherwise `cur_index_++; return true`. -/
def BindNextArgument (cl : KernelRuntime) (k : Kernel) (a : Argument) :
    Except Fault (Bool × Kernel) :=
  match a.arg with
  | .error f => .error f
  | .ok v =>
    if cl.clSetKernelArg k.cur_index_ v = false then .ok (false, k)
    else .ok (true, { k with args := fun s => if s = k.cur_index_ then some v else k.args s,
                             cur_index_ := k.cur_index_ + 1 })

/-- Method `Run(WorkSize gws, WorkSize lws)`. -/
def Run2 (cl : KernelRuntime) (k : Kernel) (gws lws : WorkSize) : Except Fault (Bool × Kernel) :=
  if ¬ (gws.dimensions = lws.dimensions) then .error Fault.Assert
  else
    let gws1 := PrepareFinalWorkSize gws lws
    if cl.clEnqueueNDRangeKernel gws1 lws = false then .ok (false, k)
    else .ok (true, { k with enqueued := k.enqueued ++ [{ gws := gws1, lws := lws, args := k.args }],
                             cur_index_ := 0 })

/-- Method `Run(WorkSize gws)`. -/
def Run1 (cl : KernelRuntime) (k : Kernel) (gws : WorkSize) : Except Fault (Bool × Kernel) :=
  k.Run2 cl gws (CalculateLocalWorkSize gws)

/-- The variadic templates `Run(gws, lws, head, tail...)` and `Run(gws, head,
tail...)` (`lws = none` is the call without a local size): bind `head`, return
`false` when that fails, otherwise run with the remaining arguments; without
arguments the call is `Run(gws, lws)` respectively `Run(gws)`. -/
def Run (cl : KernelRuntime) (k : Kernel) (gws : WorkSize) (lws : Option WorkSize) :
    List Argument → Except Fault (Bool × Kernel)
  | [] =>
    match lws with
    | some l => k.Run2 cl gws l
    | none => k.Run1 cl gws
  | head :: tail =>
    match k.BindNextArgument cl head with
    | .error f => .error f
    | .ok (false, k1) => .ok (false, k1)
    | .ok (true, k1) => Run cl k1 gws lws tail

/-- One call of the variadic `Run`. -/
structure Call where
  gws : WorkSize
  lws : Option WorkSize
  args : List Argument

/-- Consecutive calls of `Run` on one kernel; the results in order and the kernel
afterwards. -/
def Runs (cl : KernelRuntime) : Kernel → List Call → Except Fault (List Bool × Kernel)
  | k, [] => .ok ([], k)
  | k, c :: cs =>
    match k.Run cl c.gws c.lws c.args with
    | .error f => .error f
    | .ok (b, k1) =>
      match Runs cl k1 cs with
      | .error f => .error f
      | .ok (bs, k2) => .ok (b :: bs, k2)

end Kernel


/-- A runtime that accepts every argument and every launch. -/
def KernelRuntime.accepting : KernelRuntime :=
  { clSetKernelArg := fun _ _ => true, clEnqueueNDRangeKernel := fun _ _ => true }

/-- The arguments of the call `kernel->Run(WorkSize(100), buffer, LocalMemory(20),
1337, 4.2f)` given as the example in `Kernel.h`, with a buffer of `8192` bytes
(`1082549862` is the bit pattern of `4.2f`). -/
def Kernel.exampleArguments : List Argument :=
  [Argument.buffer (some (Buffer.CLBuffer ⟨0, 0, 8192, false⟩ 8192)),
   Argument.LocalMemory 20, Argument.other 4 1337, Argument.other 4 1082549862]


/-! ## Kernel manager (`lib/nn/Gpu.h`, `src/nn/Gpu.cpp`, `lib/nn/KernelList.h`) -/

/-- The constant `kMaxConvolutionKernelSize`. -/
def kMaxConvolutionKernelSize : Nat := 11

/-- The constant `kMaxConvolutionKernelHalfSize`, the extent of the three kernel
tables in both directions. -/
def kMaxConvolutionKernelHalfSize : Nat := kMaxConvolutionKernelSize / 2 + 1

/-- The registry `KernelList.h` in order: for each entry its hosting program and
its kernel name, that is the arrays `program_name_for_kernel` and
`name_for_kernel` side by side. -/
def KernelList : List (String × String) :=
  [("Misc", "MSE"),
   ("Arithmetic", "Add"), ("Arithmetic", "ScaledAdd"), ("Arithmetic", "ScalarAdd"),
   ("Arithmetic", "Sub"), ("Arithmetic", "ScalarSub"), ("Arithmetic", "Mul"),
   ("Arithmetic", "ScalarMul"), ("Arithmetic", "Div"), ("Arithmetic", "ScalarDiv"),
   ("Arithmetic", "Exp"), ("Arithmetic", "Log"),
   ("Activations", "Sigmoid"), ("Activations", "SigmoidDerivative"),
   ("Activations", "ReLU"), ("Activations", "ReLUDerivative"),
   ("LinearAlgebra", "MatVecMul"), ("LinearAlgebra", "MatVecMulReduce"),
   ("LinearAlgebra", "TransposedMatVecMul"), ("LinearAlgebra", "TransposedVecMul"),
   ("Pooling", "MaxPool2D"), ("Pooling", "MaxPool2DGradients")]

/-- The enumerator `kNumKernels`. -/
def kNumKernels : Nat := KernelList.length

/-- What `CreateProgramFromFile` is asked to compile: the file of a registered
program (`kernel_directory + program_name + ".cl"` with the option `-I
kernel_directory`), or `Convolution.cl` with the options `-D KERNEL_WIDTH=`, `-D
KERNEL_HEIGHT=`, `-D LOOKUP_TABLE_X=` and `-D LOOKUP_TABLE_Y=`. -/
inductive ProgramSource where
  | file (program_name : String)
  | convolution (kernel_width kernel_height : Nat) (lookup_table_x lookup_table_y : List Nat)
deriving DecidableEq, Repr

/-- A call into the OpenCL device: `Device::CreateProgramFromFile`, or
`Program::CreateKernel` on the program object `program` with a kernel name.  The
object a call makes is identified by the position of the call among all calls.
`BuildStatus` is the query `clGetProgramBuildInfo(..., CL_PROGRAM_BUILD_STATUS, ...)`
that `Device::PrintBuildLog` makes inside `CreateProgramFromFile`; it is not a call
of the kernel manager and never appears in its log. -/
inductive CLCall where
  | CreateProgramFromFile (source : ProgramSource)
  | CreateKernel (program : Nat) (name : String)
  | BuildStatus (source : ProgramSource)
deriving DecidableEq, Repr

/-- The answers of the OpenCL runtime about the `n`-th call into the device.  For
`CreateProgramFromFile` and `CreateKernel`: whether the call returns an object.
For `BuildStatus`, asked about a `CreateProgramFromFile` that returns no object:
`true` when that call returns `nullptr` (the file cannot be opened,
`clCreateProgramWithSource` fails, or `clBuildProgram` reports an error while the
build status is `CL_SUCCESS`), `false` when the build status `PrintBuildLog` reads
is not `CL_SUCCESS`, so that its `Check` aborts. -/
abbrev ProgramRuntime := Nat → CLCall → Bool

/-- Class `KernelManager` together with the calls made into the device so far.
A pointer to a program or kernel is the position of the call that made the object,
`none` is `nullptr`.  `programs_` is the `std::map` from program names. -/
structure KernelManager where
  calls : List CLCall
  kernels_ : List (Option Nat)
  programs_ : List (String × Option Nat)
  convolution_kernels_ : Nat → Nat → Option Nat
  cross_correlation_kernels_ : Nat → Nat → Option Nat
  convolution_gradient_kernels_ : Nat → Nat → Option Nat

namespace KernelManager

/-- The object `GPUContext::kernel_manager` at program start: it has static storage,
so all its pointers are null, and the map is empty. -/
def init : KernelManager :=
  { calls := [], kernels_ := List.replicate kNumKernels none, programs_ := [],
    convolution_kernels_ := fun _ _ => none,
    cross_correlation_kernels_ := fun _ _ => none,
    convolution_gradient_kernels_ := fun _ _ => none }

/-- Call `GPUContext::device->CreateProgramFromFile(...).release()`
(`lib/ocl/Device.cpp`).  `Device::CreateProgramFromFile` returns `nullptr` when the
file cannot be opened, and `Device::CreateProgram` when `clCreateProgramWithSource`
fails; after `clBuildProgram` it calls `PrintBuildLog`, which ends in
`Check(build_status == CL_SUCCESS, ...)` and so aborts when the build failed; only
after that does it test the result of `clBuildProgram` and return `nullptr` or the
program. -/
def CreateProgramFromFile (cl : ProgramRuntime) (m : KernelManager) (source : ProgramSource) :
    Except Fault (Option Nat × KernelManager) :=
  if cl m.calls.length (CLCall.CreateProgramFromFile source) then
    .ok (some m.calls.length,
      { m with calls := m.calls ++ [CLCall.CreateProgramFromFile source] })
  else if cl m.calls.length (CLCall.BuildStatus source) then
    .ok (none, { m with calls := m.calls ++ [CLCall.CreateProgramFromFile source] })
  else .error Fault.Check

/-- Call `program->CreateKernel(name).release()` on a program that is not null. -/
def CreateKernel (cl : ProgramRuntime) (m : KernelManager) (program : Nat) (name : String) :
    Option Nat × KernelManager :=
  (if cl m.calls.length (CLCall.CreateKernel program name) then some m.calls.length else none,
   { m with calls := m.calls ++ [CLCall.CreateKernel program name] })

/-- Expression `programs_.count(key)`. -/
def map_count (programs : List (String × Option Nat)) (key : String) : Nat :=
  if (programs.lookup key).isSome then 1 else 0

/-- Assignment `programs_[key] = value`. -/
def map_set (programs : List (String × Option Nat)) (key : String) (value : Option Nat) :
    List (String × Option Nat) :=
  (key, value) :: programs.filter (fun e => e.1 != key)

/-- Expression `programs_[key]` read as a pointer: `none` is the null pointer (also
what the map gives for a key it does not hold). -/
def map_get (programs : List (String × Option Nat)) (key : String) : Option Nat :=
  (programs.lookup key).join

/-- The statements `kernels_[i] = programs_[program_name]->CreateKernel(
name_for_kernel[i]).release(); if (!kernels_[i]) return false;` of the loop of
`LoadKernels`; the result `false` stands for `return false`.  Calling `CreateKernel`
through a null program pointer is undefined. -/
def LoadKernels.create (cl : ProgramRuntime) (program_name kernel_name : String) (i : Nat)
    (m : KernelManager) : Except Fault (Bool × KernelManager) :=
  match map_get m.programs_ program_name with
  | none => .error Fault.Null
  | some program =>
    let k := m.CreateKernel cl program kernel_name
    .ok (k.1.isSome, { k.2 with kernels_ := k.2.kernels_.set i k.1 })

/-- The body of the loop of `LoadKernels` for entry `i` of the registry: compile
the hosting program when the map does not hold it yet, then create the kernel;
the result `false` stands for `return false`. -/
def LoadKernels.body (cl : ProgramRuntime) (program_name kernel_name : String) (i : Nat)
    (m : KernelManager) : Except Fault (Bool × KernelManager) :=
  if map_count m.programs_ program_name = 0 then
    match m.CreateProgramFromFile cl (ProgramSource.file program_name) with
    | .error f => .error f
    | .ok p =>
      match p.1 with
      | none => .ok (false, { p.2 with programs_ := map_set p.2.programs_ program_name p.1 })
      | some _ =>
        LoadKernels.create cl program_name kernel_name i
          { p.2 with programs_ := map_set p.2.programs_ program_name p.1 }
  else LoadKernels.create cl program_name kernel_name i m

/-- The loop of `LoadKernels` from entry `i` on, over the remaining entries of the
registry; after the last entry the method returns `true`. -/
def LoadKernels.loop (cl : ProgramRuntime) :
    List (String × String) → Nat → KernelManager → Except Fault (Bool × KernelManager)
  | [], _, m => .ok (true, m)
  | e :: rest, i, m =>
    match LoadKernels.body cl e.1 e.2 i m with
    | .error f => .error f
    | .ok (false, m1) => .ok (false, m1)
    | .ok (true, m1) => LoadKernels.loop cl rest (i + 1) m1

/-- Method `LoadKernels(kernel_directory)`. -/
def LoadKernels (cl : ProgramRuntime) (m : KernelManager) : Except Fault (Bool × KernelManager) :=
  LoadKernels.loop cl KernelList 0 m

/-- The manager a call of `LoadKernels` leaves behind. -/
def LoadKernels.state (r : Except Fault (Bool × KernelManager)) : KernelManager :=
  match r with
  | .ok (_, m) => m
  | .error _ => init

/-- The calls the specification of `LoadKernels` names for a run without failure,
for the entries of a registry in order: the compilation of the hosting program
when its name has not occurred before (`seen` holds the names that have, with
their programs), then the creation of the kernel from that program; `n` is the
number of calls made before. -/
def LoadKernels.expected : List (String × String) → List (String × Nat) → Nat → List CLCall
  | [], _, _ => []
  | e :: rest, seen, n =>
    match seen.lookup e.1 with
    | some p => CLCall.CreateKernel p e.2 :: LoadKernels.expected rest seen (n + 1)
    | none =>
      CLCall.CreateProgramFromFile (ProgramSource.file e.1) :: CLCall.CreateKernel n e.2
        :: LoadKernels.expected rest ((e.1, n) :: seen) (n + 2)

/-- Every call of a log succeeded. -/
def AllOk (cl : ProgramRuntime) (calls : List CLCall) : Prop :=
  ∀ (j : Nat) (c : CLCall), calls[j]? = some c → cl j c = true

/-- The `n`-th call, were it `c`, is a compilation whose build fails: it returns no
program and the build status is not `CL_SUCCESS`, so that the `Check` of
`PrintBuildLog` aborts. -/
def BuildAborts (cl : ProgramRuntime) (n : Nat) (c : CLCall) : Bool :=
  match c with
  | CLCall.CreateProgramFromFile source =>
    !cl n (CLCall.CreateProgramFromFile source) && !cl n (CLCall.BuildStatus source)
  | _ => false

/-- No program pointer the map holds is null. -/
def ProgramsValid (m : KernelManager) : Prop :=
  ∀ name : String, map_count m.programs_ name ≠ 0 → map_get m.programs_ name ≠ none

/-- The names of the program files a log compiles, in order. -/
def compiled (calls : List CLCall) : List String :=
  calls.filterMap (fun c =>
    match c with
    | CLCall.CreateProgramFromFile (ProgramSource.file name) => some name
    | _ => none)

/-- The kernels a log creates, in order: the program and the kernel name. -/
def created (calls : List CLCall) : List (Nat × String) :=
  calls.filterMap (fun c =>
    match c with
    | CLCall.CreateKernel program name => some (program, name)
    | _ => none)

/-- The constants `kTileWidth` and `kTileHeight` of `convolution_kernel`. -/
def kTileWidth : Nat := 16

/-- See `kTileWidth`. -/
def kTileHeight : Nat := 16

/-- The two nested loops of `convolution_kernel` that fill `lookup_table_x` and
`lookup_table_y`: the numbers appended to the two streams, in order (the streams
hold them in decimal, separated by commas). -/
def lookup_table (halfwidth halfheight : Nat) : List Nat × List Nat :=
  (List.range ((kTileHeight + 2 * halfheight) % SIZE_MOD)).foldl
    (fun t y =>
      (List.range ((kTileWidth + 2 * halfwidth) % SIZE_MOD)).foldl
        (fun t x =>
          if x < halfwidth ∨ x ≥ (kTileWidth + halfwidth) % SIZE_MOD
              ∨ y < halfheight ∨ y ≥ (kTileHeight + halfheight) % SIZE_MOD
          then (t.1 ++ [x], t.2 ++ [y]) else t)
        t)
    ([], [])

/-- Assignment `table[i][j] = value` to one of the kernel tables. -/
def table_set (table : Nat → Nat → Option Nat) (i j : Nat) (value : Option Nat) :
    Nat → Nat → Option Nat :=
  fun a b => if a = i ∧ b = j then value else table a b

/-- The three assignments at the end of the compiling branch of
`convolution_kernel`. -/
def store_kernels (m : KernelManager) (i j : Nat) (k1 k2 k3 : Option Nat) : KernelManager :=
  { m with convolution_kernels_ := table_set m.convolution_kernels_ i j k1,
           cross_correlation_kernels_ := table_set m.cross_correlation_kernels_ i j k2,
           convolution_gradient_kernels_ := table_set m.convolution_gradient_kernels_ i j k3 }

/-- Method `convolution_kernel(kernel_width, kernel_height)`.  An index outside
the tables is undefined in C++ (`Fault.Bounds`), as is the call of `CreateKernel`
through the null pointer that `CreateProgramFromFile` returns when it cannot load
the program (`Fault.Null`); a failed build aborts inside `CreateProgramFromFile`. -/
def convolution_kernel (cl : ProgramRuntime) (m : KernelManager)
    (kernel_width kernel_height : Nat) : Except Fault (Option Nat × KernelManager) :=
  let halfwidth := kernel_width / 2
  let halfheight := kernel_height / 2
  if ¬ (halfwidth < kMaxConvolutionKernelHalfSize ∧ halfheight < kMaxConvolutionKernelHalfSize)
  then .error Fault.Bounds
  else
    match m.convolution_kernels_ halfwidth halfheight with
    | some k => .ok (some k, m)
    | none =>
      let t := lookup_table halfwidth halfheight
      match m.CreateProgramFromFile cl
          (ProgramSource.convolution kernel_width kernel_height t.1 t.2) with
      | .error f => .error f
      | .ok p =>
        match p.1 with
        | none => .error Fault.Null
        | some program =>
          let k1 := p.2.CreateKernel cl program "Convolution2D"
          let k2 := k1.2.CreateKernel cl program "CrossCorrelation2D"
          let k3 := k2.2.CreateKernel cl program "Convolution2DGradients"
          .ok (k1.1, store_kernels k3.2 halfwidth halfheight k1.1 k2.1 k3.1)

/-- Method `cross_correlation_kernel(kernel_width, kernel_height)`. -/
def cross_correlation_kernel (cl : ProgramRuntime) (m : KernelManager)
    (kernel_width kernel_height : Nat) : Except Fault (Option Nat × KernelManager) :=
  let halfwidth := kernel_width / 2
  let halfheight := kernel_height / 2
  if ¬ (halfwidth < kMaxConvolutionKernelHalfSize ∧ halfheight < kMaxConvolutionKernelHalfSize)
  then .error Fault.Bounds
  else
    match m.cross_correlation_kernels_ halfwidth halfheight with
    | some k => .ok (some k, m)
    | none =>
      match m.convolution_kernel cl kernel_width kernel_height with
      | .error f => .error f
      | .ok (_, m1) => .ok (m1.cross_correlation_kernels_ halfwidth halfheight, m1)

/-- Method `convolution_gradient_kernel(kernel_width, kernel_height)`. -/
def convolution_gradient_kernel (cl : ProgramRuntime) (m : KernelManager)
    (kernel_width kernel_height : Nat) : Except Fault (Option Nat × KernelManager) :=
  let halfwidth := kernel_width / 2
  let halfheight := kernel_height / 2
  if ¬ (halfwidth < kMaxConvolutionKernelHalfSize ∧ halfheight < kMaxConvolutionKernelHalfSize)
  then .error Fault.Bounds
  else
    match m.convolution_gradient_kernels_ halfwidth halfheight with
    | some k => .ok (some k, m)
    | none =>
      match m.convolution_kernel cl kernel_width kernel_height with
      | .error f => .error f
      | .ok (_, m1) => .ok (m1.convolution_gradient_kernels_ halfwidth halfheight, m1)

end KernelManager


/-- The coordinates the specification of the halo table names: the points `(x, y)`
of the expanded tile `[0, 16 + 2*hw) x [0, 16 + 2*hh)`, enumerated in row-major
order (`y` outer, `x` inner), that lie outside the interior `[hw, 16 + hw) x [hh,
16 + hh)`. -/
def KernelManager.halo (hw hh : Nat) : List (Nat × Nat) :=
  ((List.range (16 + 2 * hh)).flatMap
      (fun y => (List.range (16 + 2 * hw)).map (fun x => (x, y)))).filter
    (fun p => decide (¬ (hw ≤ p.1 ∧ p.1 < 16 + hw ∧ hh ≤ p.2 ∧ p.2 < 16 + hh)))


namespace KernelManager

/-- The three methods that hand out a size-specialised kernel. -/
inductive Getter where
  | convolution
  | cross_correlation
  | convolution_gradient
deriving DecidableEq, Repr

/-- A call of one of the three methods. -/
def get (cl : ProgramRuntime) (m : KernelManager) (g : Getter) (kernel_width kernel_height : Nat) :
    Except Fault (Option Nat × KernelManager) :=
  match g with
  | Getter.convolution => m.convolution_kernel cl kernel_width kernel_height
  | Getter.cross_correlation => m.cross_correlation_kernel cl kernel_width kernel_height
  | Getter.convolution_gradient => m.convolution_gradient_kernel cl kernel_width kernel_height

/-- The table a method returns its result from. -/
def table (m : KernelManager) (g : Getter) : Nat → Nat → Option Nat :=
  match g with
  | Getter.convolution => m.convolution_kernels_
  | Getter.cross_correlation => m.cross_correlation_kernels_
  | Getter.convolution_gradient => m.convolution_gradient_kernels_

/-- Consecutive calls of the three methods, each with its own size: the pointers
returned, in order, and the manager afterwards. -/
def gets (cl : ProgramRuntime) :
    KernelManager → List (Getter × Nat × Nat) → Except Fault (List (Option Nat) × KernelManager)
  | m, [] => .ok ([], m)
  | m, (g, w, h) :: rest =>
    match m.get cl g w h with
    | .error f => .error f
    | .ok (k, m1) =>
      match gets cl m1 rest with
      | .error f => .error f
      | .ok (ks, m2) => .ok (k :: ks, m2)

/-- The pointers consecutive calls return and the calls into the device they
make; `none` when one of them is undefined. -/
def gets_log (cl : ProgramRuntime) (m : KernelManager) (requests : List (Getter × Nat × Nat)) :
    Option (List (Option Nat) × List CLCall) :=
  match gets cl m requests with
  | .error _ => none
  | .ok (ks, m1) => some (ks, m1.calls)

/-- What `convolution_kernel` compiles for a kernel size. -/
def convolution_source (kernel_width kernel_height : Nat) : ProgramSource :=
  ProgramSource.convolution kernel_width kernel_height
    (lookup_table (kernel_width / 2) (kernel_height / 2)).1
    (lookup_table (kernel_width / 2) (kernel_height / 2)).2

/-- The four calls into the device the compiling branch of `convolution_kernel`
makes when the compilation succeeds; `n` is the number of calls made before. -/
def convolution_calls (kernel_width kernel_height n : Nat) : List CLCall :=
  [CLCall.CreateProgramFromFile (convolution_source kernel_width kernel_height),
   CLCall.CreateKernel n "Convolution2D",
   CLCall.CreateKernel n "CrossCorrelation2D",
   CLCall.CreateKernel n "Convolution2DGradients"]

/-- The pointer a call of `CreateKernel` returns when it is call number `n`. -/
def made (cl : ProgramRuntime) (n : Nat) (c : CLCall) : Option Nat :=
  if cl n c then some n else none

/-- A runtime in which no program file can be opened, so that every
`CreateProgramFromFile` returns `nullptr`; every other call succeeds. -/
def missing_files : ProgramRuntime :=
  fun _ c =>
    match c with
    | CLCall.CreateProgramFromFile _ => false
    | CLCall.CreateKernel _ _ => true
    | CLCall.BuildStatus _ => true

/-- A runtime in which every build fails: `CreateProgramFromFile` yields no
program and the build status is not `CL_SUCCESS`; every other call succeeds. -/
def failing_builds : ProgramRuntime :=
  fun _ c =>
    match c with
    | CLCall.CreateProgramFromFile _ => false
    | CLCall.CreateKernel _ _ => true
    | CLCall.BuildStatus _ => false

/-- A runtime in which the creation of the kernel `Convolution2D` fails and every
other call succeeds. -/
def failing_Convolution2D : ProgramRuntime :=
  fun _ c =>
    match c with
    | CLCall.CreateKernel _ name => decide (name ≠ "Convolution2D")
    | _ => true

end KernelManager


namespace KernelManager

/-- The manager after the compiling branch of `convolution_kernel` has run with a
successful compilation. -/
def after_compile (cl : ProgramRuntime) (m : KernelManager) (kernel_width kernel_height : Nat) :
    KernelManager :=
  store_kernels
    { m with calls := m.calls ++ convolution_calls kernel_width kernel_height m.calls.length }
    (kernel_width / 2) (kernel_height / 2)
    (made cl (m.calls.length + 1) (CLCall.CreateKernel m.calls.length "Convolution2D"))
    (made cl (m.calls.length + 2) (CLCall.CreateKernel m.calls.length "CrossCorrelation2D"))
    (made cl (m.calls.length + 3) (CLCall.CreateKernel m.calls.length "Convolution2DGradients"))

/-- The sources a log compiles, in order. -/
def builds (calls : List CLCall) : List ProgramSource :=
  calls.filterMap (fun c =>
    match c with
    | CLCall.CreateProgramFromFile source => some source
    | _ => none)

end KernelManager


/-! ## Clearing a device buffer (`lib/ocl/Buffer.h`, `lib/ocl/Buffer.cpp`) -/

namespace Buffer

variable {α : Type}

/-- The while loop of `CLBuffer::Clear(offset, length)`: as long as `length` is not
zero, write `to_write = min(length, 1024*1024)` bytes of the static array `zeroes`
(whose bytes are all `0`) at `offset + i`, then `length -= to_write; i += to_write`.
The recursion is on `length`, which decreases in every round. -/
def Clear.loop (b : Buffer) (offset : Nat) (length i : Nat) (d : Device α) :
    Except Fault (Device α) :=
  if _h : length = 0 then .ok d
  else
    match b.Write d (fun _ => MemByte.raw 0) (min length (1024 * 1024))
        ((offset + i) % SIZE_MOD) with
    | .error f => .error f
    | .ok d1 =>
      Clear.loop b offset (length - min length (1024 * 1024))
        ((i + min length (1024 * 1024)) % SIZE_MOD) d1
termination_by length
decreasing_by
  have hm : 0 < min length (1024 * 1024) := by
    rw [Nat.lt_min]
    exact ⟨Nat.pos_of_ne_zero _h, by decide⟩
  exact Nat.sub_lt (Nat.pos_of_ne_zero _h) hm

/-- Method `CLBuffer::Clear(offset, length)`. -/
def Clear (b : Buffer) (d : Device α) (offset length : Nat) : Except Fault (Device α) :=
  if ¬ (length ≤ b.size) then .error Fault.Assert
  else Clear.loop b offset length 0 d

/-- Method `Buffer::Clear()`: `Clear(0, size_)`. -/
def Clear0 (b : Buffer) (d : Device α) : Except Fault (Device α) :=
  b.Clear d 0 b.size

/-- The zero-writes the specification of `Clear(offset, length)` names:
`ceil(length / 2^20)` writes, of which number `k` starts at byte `offset + k * 2^20`
and has `min(length - k * 2^20, 2^20)` bytes. -/
def Clear.chunks (offset length : Nat) : List (Nat × Nat) :=
  (List.range ((length + 1048575) / 1048576)).map
    (fun k => (offset + k * 1048576, min (length - k * 1048576) 1048576))

end Buffer


/-! ## Host tensor operations (`lib/nn/tensor/CpuTensorOps.cpp`, `lib/nn/tensor/BaseTensor.h`)

The element type `α` stands for `float`; the operations take the arithmetic of
`α` as they find it, so that a loop computes its result in the order and with the
operations of the source. -/

/-- A loop `for (i : l) body` whose body may abort: the bodies run in order, each
on the state the one before left. -/
def forEach {ι σ : Type} : List ι → (ι → σ → Except Fault σ) → σ → Except Fault σ
  | [], _, s => .ok s
  | i :: rest, body, s =>
    match body i s with
    | .error f => .error f
    | .ok s1 => forEach rest body s1

namespace CPUTensor

variable {α : Type}

/-- Assignment `t(indices...) = x` through the reference `Element(indices...)`
returns. -/
def setElement (h : Host α) (t : CPUTensor) (indices : List Nat) (x : α) :
    Except Fault (Host α) :=
  match LinearIndex t 0 0 indices with
  | .error f => .error f
  | .ok linear_index => .ok (write h t linear_index x)

/-- Statement `t(indices...) += x`. -/
def addElement [Add α] (h : Host α) (t : CPUTensor) (indices : List Nat) (x : α) :
    Except Fault (Host α) :=
  match LinearIndex t 0 0 indices with
  | .error f => .error f
  | .ok linear_index => .ok (write h t linear_index (elem h t linear_index + x))

/-- Method `Clear()` of a tensor given by value: `memset(buffer_, 0, size() *
sizeof(float))`. -/
def ClearT [Zero α] (h : Host α) (t : CPUTensor) : Host α :=
  { h with mem := Host.memset h.mem t.buffer_ t.size_ }

/-- Number of values of the type `uint32_t`. -/
def UINT32_MOD : Nat := 2 ^ 32

/-- Function `argmax(input)`.  The constant `FLT_MIN` of `<cfloat>` is a parameter.
The loop `for (float v : input)` visits the cells `buffer_[0 .. size())`; the
state is `(cmax, imax, i)`, the two counters being `uint32_t`. -/
def argmax [LT α] [DecidableRel (fun a b : α => a < b)] (FLT_MIN : α) (h : Host α)
    (input : CPUTensor) : Except Fault Nat :=
  if ¬ (0 < input.rank) then .error Fault.Assert
  else
    .ok ((List.range input.size_).foldl
      (fun (st : α × Nat × Nat) k =>
        if st.1 < elem h input k then (elem h input k, st.2.2, (st.2.2 + 1) % UINT32_MOD)
        else (st.1, st.2.1, (st.2.2 + 1) % UINT32_MOD))
      (FLT_MIN, 0, 0)).2.1

/-- Function `mse(x, y)`: the loop `err += std::pow(y(i) - x(i), 2)` over `i <
x.shape(0)`, where the square is taken as the product of the difference with
itself.  (`x.shape(0)` asserts that `x` has a first dimension.) -/
def mse [Zero α] [Add α] [Sub α] [Mul α] (h : Host α) (x y : CPUTensor) : Except Fault α :=
  if ¬ (x.shape_.operator_eq y.shape_ = true) then .error Fault.Assert
  else if ¬ (0 < x.rank) then .error Fault.Assert
  else
    forEach (List.range (x.shape 0))
      (fun i err =>
        match Element h y [i] with
        | .error f => .error f
        | .ok yi =>
          match Element h x [i] with
          | .error f => .error f
          | .ok xi => .ok (err + (yi - xi) * (yi - xi)))
      0

/-- Function `sum(input)`. -/
def sum [Zero α] [Add α] (h : Host α) (input : CPUTensor) : α :=
  (List.range input.size_).foldl (fun s k => s + elem h input k) 0

/-- Function `matvecmul(matrix, vector, output)`. -/
def matvecmul [Zero α] [Add α] [Mul α] (h : Host α) (matrix vector output : CPUTensor) :
    Except Fault (Host α) :=
  if ¬ (matrix.rank = 2 ∧ vector.rank = 1 ∧ output.rank = 1) then .error Fault.Assert
  else if ¬ (matrix.shape 0 = output.shape 0) then .error Fault.Assert
  else if ¬ (matrix.shape 1 = vector.shape 0) then .error Fault.Assert
  else
    forEach (List.range (matrix.shape 0))
      (fun row h1 =>
        match setElement h1 output [row] 0 with
        | .error f => .error f
        | .ok h2 =>
          forEach (List.range (matrix.shape 1))
            (fun col h3 =>
              match Element h3 matrix [row, col] with
              | .error f => .error f
              | .ok m =>
                match Element h3 vector [col] with
                | .error f => .error f
                | .ok v => addElement h3 output [row] (m * v))
            h2)
      h

/-- Function `transposed_matvecmul(matrix, vector, output)`. -/
def transposed_matvecmul [Zero α] [Add α] [Mul α] (h : Host α)
    (matrix vector output : CPUTensor) : Except Fault (Host α) :=
  if ¬ (matrix.rank = 2 ∧ vector.rank = 1 ∧ output.rank = 1) then .error Fault.Assert
  else if ¬ (matrix.shape 0 = vector.shape 0) then .error Fault.Assert
  else if ¬ (matrix.shape 1 = output.shape 0) then .error Fault.Assert
  else
    forEach (List.range (matrix.shape 1))
      (fun col h1 =>
        match setElement h1 output [col] 0 with
        | .error f => .error f
        | .ok h2 =>
          forEach (List.range (matrix.shape 0))
            (fun row h3 =>
              match Element h3 matrix [row, col] with
              | .error f => .error f
              | .ok m =>
                match Element h3 vector [row] with
                | .error f => .error f
                | .ok v => addElement h3 output [col] (m * v))
            h2)
      h

/-- Function `vecmul(x, y)`. -/
def vecmul [Zero α] [Add α] [Mul α] (h : Host α) (x y : CPUTensor) : Except Fault α :=
  if ¬ (x.rank = 1) then .error Fault.Assert
  else if ¬ (x.shape_.operator_eq y.shape_ = true) then .error Fault.Assert
  else
    forEach (List.range (x.shape 0))
      (fun i res =>
        match Element h x [i] with
        | .error f => .error f
        | .ok xi =>
          match Element h y [i] with
          | .error f => .error f
          | .ok yi => .ok (res + xi * yi))
      0

/-- Function `transposed_vecmul(x, y, output)`. -/
def transposed_vecmul [Mul α] (h : Host α) (x y output : CPUTensor) : Except Fault (Host α) :=
  if ¬ (x.rank = 1 ∧ y.rank = 1 ∧ output.rank = 2) then .error Fault.Assert
  else if ¬ (output.shape 0 = x.shape 0) then .error Fault.Assert
  else if ¬ (output.shape 1 = y.shape 0) then .error Fault.Assert
  else
    forEach (List.range (x.shape 0))
      (fun row h1 =>
        forEach (List.range (y.shape 0))
          (fun col h2 =>
            match Element h2 x [row] with
            | .error f => .error f
            | .ok xr =>
              match Element h2 y [col] with
              | .error f => .error f
              | .ok yc => setElement h2 output [row, col] (xr * yc))
          h1)
      h

/-- The macro `BINARY_OPERATION(name, op)`: the loop over the iterators of `x`, `y`
and `output`, that is over the cells `0 .. x.size()` of the three buffers. -/
def BINARY_OPERATION (op : α → α → α) (h : Host α) (x y output : CPUTensor) :
    Except Fault (Host α) :=
  if ¬ (x.shape_.operator_eq y.shape_ = true) then .error Fault.Assert
  else if ¬ (y.shape_.operator_eq output.shape_ = true) then .error Fault.Assert
  else
    .ok ((List.range x.size_).foldl
      (fun h1 k => write h1 output k (op (elem h1 x k) (elem h1 y k))) h)

/-- The macro `TENSOR_SCALAR_OPERATION(name, op)`. -/
def TENSOR_SCALAR_OPERATION (op : α → α → α) (h : Host α) (x : CPUTensor) (v : α)
    (output : CPUTensor) : Except Fault (Host α) :=
  if ¬ (x.shape_.operator_eq output.shape_ = true) then .error Fault.Assert
  else
    .ok ((List.range x.size_).foldl (fun h1 k => write h1 output k (op (elem h1 x k) v)) h)

/-- Function `add(x, y, f, output)`: `*o = (*i) + (*j) * f`. -/
def add_scaled [Add α] [Mul α] (h : Host α) (x y : CPUTensor) (f : α) (output : CPUTensor) :
    Except Fault (Host α) :=
  if ¬ (x.shape_.operator_eq y.shape_ = true) then .error Fault.Assert
  else if ¬ (y.shape_.operator_eq output.shape_ = true) then .error Fault.Assert
  else
    .ok ((List.range x.size_).foldl
      (fun h1 k => write h1 output k (elem h1 x k + elem h1 y k * f)) h)

/-- Functions `add(x, y, output)`, `sub`, `mul` and `div`. -/
def add [Add α] (h : Host α) (x y output : CPUTensor) : Except Fault (Host α) :=
  BINARY_OPERATION (fun a b => a + b) h x y output

/-- See `add`. -/
def sub [Sub α] (h : Host α) (x y output : CPUTensor) : Except Fault (Host α) :=
  BINARY_OPERATION (fun a b => a - b) h x y output

/-- See `add`. -/
def mul [Mul α] (h : Host α) (x y output : CPUTensor) : Except Fault (Host α) :=
  BINARY_OPERATION (fun a b => a * b) h x y output

/-- See `add`. -/
def div [Div α] (h : Host α) (x y output : CPUTensor) : Except Fault (Host α) :=
  BINARY_OPERATION (fun a b => a / b) h x y output

/-- Functions `add(x, v, output)`, `sub`, `mul` and `div` with a scalar. -/
def add_scalar [Add α] (h : Host α) (x : CPUTensor) (v : α) (output : CPUTensor) :
    Except Fault (Host α) :=
  TENSOR_SCALAR_OPERATION (fun a b => a + b) h x v output

/-- See `add_scalar`. -/
def sub_scalar [Sub α] (h : Host α) (x : CPUTensor) (v : α) (output : CPUTensor) :
    Except Fault (Host α) :=
  TENSOR_SCALAR_OPERATION (fun a b => a - b) h x v output

/-- See `add_scalar`. -/
def mul_scalar [Mul α] (h : Host α) (x : CPUTensor) (v : α) (output : CPUTensor) :
    Except Fault (Host α) :=
  TENSOR_SCALAR_OPERATION (fun a b => a * b) h x v output

/-- See `add_scalar`. -/
def div_scalar [Div α] (h : Host α) (x : CPUTensor) (v : α) (output : CPUTensor) :
    Except Fault (Host α) :=
  TENSOR_SCALAR_OPERATION (fun a b => a / b) h x v output

/-- The operators `x + other`, `x - other`, `x * other`, `x / other` of
`BaseTensor`, for the operation `op` of the four: `Tensor result(shape_); op(*this,
other, result); return result;`.  The result is the identity of the new tensor. -/
def operator_binary (op : α → α → α) (h : Host α) (self other : Nat) :
    Except Fault (Nat × Host α) :=
  let r := ctor h (h.tensors.objs self).shape_
  match BINARY_OPERATION op r.2 (r.2.tensors.objs self) (r.2.tensors.objs other)
      (r.2.tensors.objs r.1) with
  | .error f => .error f
  | .ok h1 => .ok (r.1, h1)

/-- The operators `x += other`, `x -= other`, `x *= other`, `x /= other`: `op(*this,
other, *this)`. -/
def operator_assign (op : α → α → α) (h : Host α) (self other : Nat) : Except Fault (Host α) :=
  BINARY_OPERATION op h (h.tensors.objs self) (h.tensors.objs other) (h.tensors.objs self)

/-- The operators `x += v`, `x -= v`, `x *= v`, `x /= v` with a scalar. -/
def operator_assign_scalar (op : α → α → α) (h : Host α) (self : Nat) (v : α) :
    Except Fault (Host α) :=
  TENSOR_SCALAR_OPERATION op h (h.tensors.objs self) v (h.tensors.objs self)

end CPUTensor


/-! ## Row-major positions (`lib/nn/tensor/BaseTensor.h`: "All tensors are stored row-major") -/

namespace Shape

/-- The expression `((c0*d1 + c1)*d2 + ...)*dk + ck` continued from the value `acc`
for the extents and coordinates that remain. -/
def rowMajorFrom : Nat → List Nat → List Nat → Nat
  | acc, d :: ds, c :: cs => rowMajorFrom (acc * d + c) ds cs
  | acc, _, _ => acc

/-- The row-major position of the coordinates `(c0, ..., ck)` in a tensor of shape
`(d0, ..., dk)`: `((c0*d1 + c1)*d2 + ...)*dk + ck`, in exact arithmetic. -/
def rowMajor (s : Shape) (coords : List Nat) : Nat :=
  rowMajorFrom 0 s.data_ coords

/-- There is one coordinate per extent and each is below its extent. -/
def inRange : List Nat → List Nat → Prop
  | [], [] => True
  | d :: ds, c :: cs => c < d ∧ inRange ds cs
  | _, _ => False

instance inRange.decidable : (ds cs : List Nat) → Decidable (inRange ds cs)
  | [], [] => isTrue trivial
  | d :: ds, c :: cs =>
    match Nat.decLt c d, inRange.decidable ds cs with
    | isTrue h1, isTrue h2 => isTrue ⟨h1, h2⟩
    | isFalse h1, _ => isFalse (fun h => h1 h.1)
    | _, isFalse h2 => isFalse (fun h => h2 h.2)
  | [], _ :: _ => isFalse (fun h => h)
  | _ :: _, [] => isFalse (fun h => h)

/-- The coordinates are in range for the shape: as many as the rank, `c_j < d_j`. -/
def InRange (s : Shape) (coords : List Nat) : Prop :=
  inRange s.data_ coords

instance (s : Shape) (coords : List Nat) : Decidable (s.InRange coords) :=
  inRange.decidable s.data_ coords

/-- The coordinates of the row-major position `k` for the extents given. -/
def coordsOf : List Nat → Nat → List Nat
  | [], _ => []
  | _ :: ds, k => (k / ds.prod) :: coordsOf ds (k % ds.prod)

end Shape

/-- The run `r` of an operation, started in the state `h`, ended without abort in a
state in which the linear elements `k < n` of the tensor `out` hold the values
`f k` and every other cell, and the rest of the state, is as in `h`. -/
def CPUTensor.Sets {α : Type} (r : Except Fault (Host α)) (h : Host α) (out : CPUTensor)
    (n : Nat) (f : Nat → α) : Prop :=
  ∃ h1, r = .ok h1
    ∧ (∀ k, k < n → CPUTensor.elem h1 out k = f k)
    ∧ (∀ a, ¬ (out.buffer_ ≤ a ∧ a < out.buffer_ + n) → h1.mem a = h.mem a)
    ∧ h1.brk = h.brk ∧ h1.freed = h.freed ∧ h1.tensors = h.tensors

/-- A host state over the integers with three vectors of shape `(3)`: objects `0`,
`1`, `2` at the addresses `1`, `4`, `7`; the cell at address `a` holds `a + 1`. -/
def exampleHost3 : Host Int :=
  { mem := fun a => (a : Int) + 1, brk := 10, freed := [], junk := fun _ => 0,
    tensors := { objs := fun id => BaseTensor.ctor ⟨[3]⟩ (1 + 3 * id), count := 3 } }

/-- The state `h1` differs from the state `h` at most in the cells `p .. p + n - 1`
of memory. -/
def Host.Modifies {α : Type} (h h1 : Host α) (p n : Nat) : Prop :=
  (∀ a, ¬ (p ≤ a ∧ a < p + n) → h1.mem a = h.mem a)
    ∧ h1.brk = h.brk ∧ h1.freed = h.freed ∧ h1.tensors = h.tensors

namespace CPUTensor

variable {α : Type}

/-- A tensor of the shape `dims` in good standing: `size()` is the element count of
the shape (invariant (1)) and that count is representable in `size_t`. -/
def OfShape (t : CPUTensor) (dims : List Nat) : Prop :=
  t.shape_ = ⟨dims⟩ ∧ t.SizeInv ∧ t.shape_.Fits

instance (t : CPUTensor) (dims : List Nat) : Decidable (t.OfShape dims) :=
  inferInstanceAs (Decidable (t.shape_ = ⟨dims⟩ ∧ t.size_ = t.shape_.TotalElementCount
    ∧ t.shape_.Fits))

/-- The cells of the tensor `a` and those of the tensor `b` do not overlap. -/
def Apart (a b : CPUTensor) : Prop :=
  a.buffer_ + a.size_ ≤ b.buffer_ ∨ b.buffer_ + b.size_ ≤ a.buffer_

instance (a b : CPUTensor) : Decidable (a.Apart b) :=
  inferInstanceAs (Decidable (a.buffer_ + a.size_ ≤ b.buffer_ ∨ b.buffer_ + b.size_ ≤ a.buffer_))

/-- The element of the tensor `t` at the coordinates `coords`, as a value: the cell
at the row-major position of the coordinates. -/
def value (h : Host α) (t : CPUTensor) (coords : List Nat) : α :=
  elem h t (t.shape_.rowMajor coords)

end CPUTensor

/-- The sum `f 0 + f 1 + ... + f (n - 1)` added up in this order, starting from
zero: `((0 + f 0) + f 1) + ...`. -/
def sumTo {α : Type} [Zero α] [Add α] (n : Nat) (f : Nat → α) : α :=
  (List.range n).foldl (fun acc c => acc + f c) 0

/-- A host state over the integers for the linear algebra operations.  The objects:
`0` a matrix of shape `(2, 3)` at the addresses `1 .. 6`, `1` a vector of shape `(3)`
at `7 .. 9`, `2` a vector of shape `(2)` at `10 .. 11`, `3` a vector of shape `(3)` at
`12 .. 14`, `4` a vector of shape `(2)` at `15 .. 16`, `5` a matrix of shape `(3, 2)` at
`17 .. 22`.  The cell at address `a` holds `a + 1`. -/
def exampleHostLA : Host Int :=
  { mem := fun a => (a : Int) + 1, brk := 23, freed := [], junk := fun _ => 0,
    tensors :=
      { objs := fun id =>
          [BaseTensor.ctor ⟨[2, 3]⟩ 1, BaseTensor.ctor ⟨[3]⟩ 7, BaseTensor.ctor ⟨[2]⟩ 10,
            BaseTensor.ctor ⟨[3]⟩ 12, BaseTensor.ctor ⟨[2]⟩ 15].getD id
            (BaseTensor.ctor ⟨[3, 2]⟩ 17),
        count := 6 } }

/-- The constant `FLT_MIN` of `<cfloat>` (the smallest positive normalized `float`,
`2^-126`) when the finite `float` values are written as integers in units of `2^-149`,
the smallest positive `float`: `2^23`. -/
def FLT_MIN_units : Int := 8388608

/-- A host state whose cells hold `float` values in units of `2^-149`: object `0` is
a tensor of shape `(2)` at the addresses `1 .. 2` holding `(-2.0, -1.0)`, that is
`(-2^150, -2^149)` in these units. -/
def exampleHostNeg : Host Int :=
  { mem := fun a => if a = 1 then -1427247692705959881058285969449495136382746624
      else -713623846352979940529142984724747568191373312, brk := 3, freed := [], junk := fun _ => 0,
    tensors := { objs := fun _ => BaseTensor.ctor ⟨[2]⟩ 1, count := 1 } }

/-- A host state over the rationals: objects `0` and `1` are tensors of shape `(2)` at
the addresses `1 .. 2` and `3 .. 4`, holding `(0, 0)` and `(1, 1)`. -/
def exampleHostQ : Host ℚ :=
  { mem := fun a => if a ≤ 2 then 0 else 1, brk := 5, freed := [], junk := fun _ => 0,
    tensors := { objs := fun id => BaseTensor.ctor ⟨[2]⟩ (1 + 2 * id), count := 2 } }

/-! ## Max pooling on the host (`lib/nn/tensor/CpuTensorOps.cpp`) -/

/-- The values the counter takes in the loop `for (size_t y = 0; y < n; y += step)`
with `step > 0`: the multiples of `step` below `n`.  (These are the values as long
as the counter does not wrap around, that is for `n + step ≤ 2^64`.) -/
def strided (n step : Nat) : List Nat :=
  (List.range ((n + step - 1) / step)).map (fun k => k * step)

/-- The expression `(extent + pooling - 1) / pooling` in `size_t`, for `pooling > 0`. -/
def pooled_extent (extent pooling : Nat) : Nat :=
  ((extent + pooling + SIZE_MOD - 1) % SIZE_MOD) / pooling

namespace CPUTensor

variable {α : Type}

/-- The scan of one pooling window in `maxpool`: `curmax = std::max(curmax, input(channel,
y + oy, x + ox))` for the positions of the window inside the input. -/
def maxpool.window [LT α] [DecidableRel (fun a b : α => a < b)] (FLT_MIN : α) (h : Host α)
    (input : CPUTensor) (pooling_width pooling_height channel y x : Nat) : Except Fault α :=
  forEach (List.range pooling_height)
    (fun oy curmax =>
      forEach (List.range pooling_width)
        (fun ox curmax =>
          if (y + oy) % SIZE_MOD < input.shape 1 ∧ (x + ox) % SIZE_MOD < input.shape 2 then
            match Element h input [channel, (y + oy) % SIZE_MOD, (x + ox) % SIZE_MOD] with
            | .error f => .error f
            | .ok v => .ok (if curmax < v then v else curmax)
          else .ok curmax)
        curmax)
    FLT_MIN

/-- Function `maxpool(input, pooling_width, pooling_height, output)`.  The constant
`FLT_MIN` of `<cfloat>` is a parameter. -/
def maxpool [LT α] [DecidableRel (fun a b : α => a < b)] (FLT_MIN : α) (h : Host α)
    (input : CPUTensor) (pooling_width pooling_height : Nat) (output : CPUTensor) :
    Except Fault (Host α) :=
  if ¬ (input.rank = 3 ∧ output.rank = 3) then .error Fault.Assert
  else if ¬ (input.shape 0 = output.shape 0) then .error Fault.Assert
  else if pooling_height = 0 then .error Fault.DivideByZero
  else if ¬ (pooled_extent (input.shape 1) pooling_height = output.shape 1) then
    .error Fault.Assert
  else if pooling_width = 0 then .error Fault.DivideByZero
  else if ¬ (pooled_extent (input.shape 2) pooling_width = output.shape 2) then
    .error Fault.Assert
  else
    forEach (List.range (input.shape 0))
      (fun channel h1 =>
        forEach (strided (input.shape 1) pooling_height)
          (fun y h2 =>
            forEach (strided (input.shape 2) pooling_width)
              (fun x h3 =>
                match maxpool.window FLT_MIN h3 input pooling_width pooling_height channel y x with
                | .error f => .error f
                | .ok curmax =>
                  setElement h3 output [channel, y / pooling_height, x / pooling_width] curmax)
              h2)
          h1)
      h

/-- An element access as the source writes it: the tensor and the indices given. -/
structure Access where
  tensor : CPUTensor
  indices : List Nat
deriving DecidableEq

/-- The local variables of the window scan of `maxpool_gradients`, and the element
accesses made so far. -/
structure maxpool_gradients.Scan (α : Type) where
  curmax : α
  max_x : Nat
  max_y : Nat
  log : List Access

/-- The scan of one pooling window in `maxpool_gradients`: the position of the
first value above all values before it and above `FLT_MIN`. -/
def maxpool_gradients.window [LT α] [DecidableRel (fun a b : α => a < b)] (FLT_MIN : α)
    (h : Host α) (input : CPUTensor) (pooling_width pooling_height channel y x : Nat)
    (log : List Access) : Except Fault (maxpool_gradients.Scan α) :=
  forEach (List.range pooling_height)
    (fun oy w =>
      forEach (List.range pooling_width)
        (fun ox w =>
          if (y + oy) % SIZE_MOD < input.shape 1 ∧ (x + ox) % SIZE_MOD < input.shape 2 then
            match Element h input [channel, (y + oy) % SIZE_MOD, (x + ox) % SIZE_MOD] with
            | .error f => .error f
            | .ok v =>
              let log1 := w.log ++ [⟨input, [channel, (y + oy) % SIZE_MOD, (x + ox) % SIZE_MOD]⟩]
              if w.curmax < v then .ok ⟨v, ox, oy, log1⟩
              else .ok ⟨w.curmax, w.max_x, w.max_y, log1⟩
          else .ok w)
        w)
    ⟨FLT_MIN, 0, 0, log⟩

/-- Function `maxpool_gradients(input, gradients, pooling_width, pooling_height,
output)`, returning with the final state the element accesses it made, in order.
The constant `FLT_MIN` of `<cfloat>` is a parameter. -/
def maxpool_gradients.logged [Zero α] [LT α] [DecidableRel (fun a b : α => a < b)]
    (FLT_MIN : α) (h : Host α) (input gradients : CPUTensor)
    (pooling_width pooling_height : Nat) (output : CPUTensor) :
    Except Fault (Host α × List Access) :=
  if ¬ (input.rank = 3 ∧ output.rank = 3) then .error Fault.Assert
  else if ¬ (input.shape 0 = output.shape 0) then .error Fault.Assert
  else if pooling_height = 0 then .error Fault.DivideByZero
  else if ¬ (pooled_extent (input.shape 1) pooling_height = gradients.shape 1) then
    .error Fault.Assert
  else if pooling_width = 0 then .error Fault.DivideByZero
  else if ¬ (pooled_extent (input.shape 2) pooling_width = gradients.shape 2) then
    .error Fault.Assert
  else
    forEach (List.range (input.shape 0))
      (fun channel s1 =>
        forEach (strided (input.shape 1) pooling_height)
          (fun y s2 =>
            forEach (strided (input.shape 2) pooling_width)
              (fun x s3 =>
                match maxpool_gradients.window FLT_MIN s3.1 input pooling_width pooling_height
                    channel y x s3.2 with
                | .error f => .error f
                | .ok w =>
                  match Element s3.1 gradients
                      [channel, y / pooling_height, x / pooling_width] with
                  | .error f => .error f
                  | .ok g =>
                    match setElement s3.1 output
                        [channel, (y + w.max_y) % SIZE_MOD, (x + w.max_x) % SIZE_MOD] g with
                    | .error f => .error f
                    | .ok h4 =>
                      .ok (h4, w.log
                        ++ [⟨gradients, [channel, y / pooling_height, x / pooling_width]⟩,
                            ⟨output,
                              [channel, (y + w.max_y) % SIZE_MOD, (x + w.max_x) % SIZE_MOD]⟩]))
              s2)
          s1)
      (ClearT h output, [])

/-- Function `maxpool_gradients(input, gradients, pooling_width, pooling_height,
output)`. -/
def maxpool_gradients [Zero α] [LT α] [DecidableRel (fun a b : α => a < b)]
    (FLT_MIN : α) (h : Host α) (input gradients : CPUTensor)
    (pooling_width pooling_height : Nat) (output : CPUTensor) : Except Fault (Host α) :=
  match maxpool_gradients.logged FLT_MIN h input gradients pooling_width pooling_height output with
  | .error f => .error f
  | .ok s => .ok s.1

/-- The linear elements `0 .. n - 1` of a tensor after a run, when it did not abort. -/
def cells (r : Except Fault (Host α)) (t : CPUTensor) (n : Nat) : Option (List α) :=
  match r with
  | .error _ => none
  | .ok h => some ((List.range n).map (fun k => elem h t k))

end CPUTensor

/-- A host state whose cells hold `float` values in units of `2^-149`.  Object `0` is
an input of shape `(1, 2, 2)` at the addresses `1 .. 4` holding `(-2.0, -1.0, -3.0,
-4.0)`; object `1` a tensor of shape `(1, 1, 1)` at the address `5` holding `1.0`;
object `2` a tensor of shape `(1, 2, 2)` at the addresses `6 .. 9` and object `3` a
tensor of shape `(1, 1, 1)` at the address `10`, all holding `1.0`. -/
def exampleHostPool : Host Int :=
  { mem := fun a =>
      [0, -1427247692705959881058285969449495136382746624,
        -713623846352979940529142984724747568191373312,
        -2140871539058939821587428954174242704574119936,
        -2854495385411919762116571938898990272765493248].getD a
        713623846352979940529142984724747568191373312,
    brk := 11, freed := [], junk := fun _ => 0,
    tensors :=
      { objs := fun id =>
          [BaseTensor.ctor ⟨[1, 2, 2]⟩ 1, BaseTensor.ctor ⟨[1, 1, 1]⟩ 5,
            BaseTensor.ctor ⟨[1, 2, 2]⟩ 6].getD id (BaseTensor.ctor ⟨[1, 1, 1]⟩ 10),
        count := 4 } }

/-- A host state whose cells hold `float` values in units of `2^-149`.  Object `0` is
an input of shape `(1, 2, 2)` at the addresses `1 .. 4` holding `2^24`, `2^26`, `2^25`,
`2^24` units; object `1` the gradients of shape `(1, 1, 1)` at the address `5`;
object `2` an output of shape `(1, 4, 1)` at the addresses `6 .. 9`. -/
def exampleHostPoolShape : Host Int :=
  { mem := fun a => [0, 16777216, 67108864, 33554432].getD a 16777216,
    brk := 10, freed := [], junk := fun _ => 0,
    tensors :=
      { objs := fun id =>
          [BaseTensor.ctor ⟨[1, 2, 2]⟩ 1, BaseTensor.ctor ⟨[1, 1, 1]⟩ 5].getD id
            (BaseTensor.ctor ⟨[1, 4, 1]⟩ 6),
        count := 3 } }

/-! ## Convolution on the host (`lib/nn/tensor/CpuTensorOps.cpp`) -/

/-- Conversion of an integer value to `int`: reduction to the 32-bit two's
complement range. -/
def to_int (z : Int) : Int :=
  Int.bmod z 4294967296

/-- Conversion of an `int` to `size_t`. -/
def to_size_t (z : Int) : Nat :=
  (z % 18446744073709551616).toNat

/-- The values of the counter in the loop `for (int k = lo; k <= hi; k++)`. -/
def int_range (lo hi : Int) : List Int :=
  (List.range (hi + 1 - lo).toNat).map (fun (k : Nat) => lo + (k : Int))

namespace CPUTensor

variable {α : Type}

/-- The two inner loops of `convolution`: the value of `sum` for one output position
`(y, x)` and one pair of feature map and input channel. -/
def convolution.sum [Zero α] [Add α] [Mul α] (h : Host α) (input kernels : CPUTensor)
    (kernel_halfwidth kernel_halfheight : Int) (feature_map input_channel y x : Nat) :
    Except Fault α :=
  forEach (int_range (-kernel_halfheight) kernel_halfheight)
    (fun ky sum =>
      forEach (int_range (-kernel_halfwidth) kernel_halfwidth)
        (fun kx sum =>
          let sx := to_int (x + kx)
          let sy := to_int (y + ky)
          if 0 ≤ sx ∧ sx < to_int (input.shape 2) ∧ 0 ≤ sy ∧ sy < to_int (input.shape 1) then
            match Element h kernels [feature_map, input_channel,
                to_size_t (to_int (-ky + kernel_halfheight)),
                to_size_t (to_int (-kx + kernel_halfwidth))] with
            | .error f => .error f
            | .ok k =>
              match Element h input [input_channel, to_size_t sy, to_size_t sx] with
              | .error f => .error f
              | .ok v => .ok (sum + k * v)
          else .ok sum)
        sum)
    0

/-- Function `convolution(input, kernels, output)`. -/
def convolution [Zero α] [Add α] [Mul α] (h : Host α) (input kernels output : CPUTensor) :
    Except Fault (Host α) :=
  if ¬ (kernels.rank = 4) then .error Fault.Assert
  else if ¬ (input.rank = 3 ∧ output.rank = 3) then .error Fault.Assert
  else if ¬ (kernels.shape 2 % 2 = 1 ∧ kernels.shape 3 % 2 = 1) then .error Fault.Assert
  else if ¬ (kernels.shape 0 = output.shape 0 ∧ kernels.shape 1 = input.shape 0) then
    .error Fault.Assert
  else if ¬ (input.shape_.ElementShape.operator_eq output.shape_.ElementShape = true) then
    .error Fault.Assert
  else
    let kernel_halfwidth := to_int (kernels.shape 3 / 2)
    let kernel_halfheight := to_int (kernels.shape 2 / 2)
    forEach (List.range (output.shape 0))
      (fun feature_map h1 =>
        forEach (List.range (input.shape 0))
          (fun input_channel h2 =>
            forEach (List.range (input.shape 1))
              (fun y h3 =>
                forEach (List.range (input.shape 2))
                  (fun x h4 =>
                    match convolution.sum h4 input kernels kernel_halfwidth kernel_halfheight
                        feature_map input_channel y x with
                    | .error f => .error f
                    | .ok sum => addElement h4 output [feature_map, y, x] sum)
                  h3)
              h2)
          h1)
      (ClearT h output)

/-- The two inner loops of `cross_correlation`. -/
def cross_correlation.sum [Zero α] [Add α] [Mul α] (h : Host α) (input kernels : CPUTensor)
    (kernel_halfwidth kernel_halfheight : Int) (feature_map input_channel y x : Nat) :
    Except Fault α :=
  forEach (int_range (-kernel_halfheight) kernel_halfheight)
    (fun ky sum =>
      forEach (int_range (-kernel_halfwidth) kernel_halfwidth)
        (fun kx sum =>
          let sx := to_int (x + kx)
          let sy := to_int (y + ky)
          if 0 ≤ sx ∧ sx < to_int (input.shape 2) ∧ 0 ≤ sy ∧ sy < to_int (input.shape 1) then
            match Element h kernels [feature_map, input_channel,
                to_size_t (to_int (ky + kernel_halfheight)),
                to_size_t (to_int (kx + kernel_halfwidth))] with
            | .error f => .error f
            | .ok k =>
              match Element h input [feature_map, to_size_t sy, to_size_t sx] with
              | .error f => .error f
              | .ok v => .ok (sum + k * v)
          else .ok sum)
        sum)
    0

/-- Function `cross_correlation(input, kernels, output)`. -/
def cross_correlation [Zero α] [Add α] [Mul α] (h : Host α)
    (input kernels output : CPUTensor) : Except Fault (Host α) :=
  if ¬ (kernels.rank = 4) then .error Fault.Assert
  else if ¬ (input.rank = 3 ∧ output.rank = 3) then .error Fault.Assert
  else if ¬ (kernels.shape 2 % 2 = 1 ∧ kernels.shape 3 % 2 = 1) then .error Fault.Assert
  else if ¬ (kernels.shape 0 = input.shape 0 ∧ kernels.shape 1 = output.shape 0) then
    .error Fault.Assert
  else if ¬ (input.shape_.ElementShape.operator_eq output.shape_.ElementShape = true) then
    .error Fault.Assert
  else
    let kernel_halfwidth := to_int (kernels.shape 3 / 2)
    let kernel_halfheight := to_int (kernels.shape 2 / 2)
    forEach (List.range (input.shape 0))
      (fun feature_map h1 =>
        forEach (List.range (output.shape 0))
          (fun input_channel h2 =>
            forEach (List.range (input.shape 1))
              (fun y h3 =>
                forEach (List.range (input.shape 2))
                  (fun x h4 =>
                    match cross_correlation.sum h4 input kernels kernel_halfwidth
                        kernel_halfheight feature_map input_channel y x with
                    | .error f => .error f
                    | .ok sum => addElement h4 output [input_channel, y, x] sum)
                  h3)
              h2)
          h1)
      (ClearT h output)

/-- Function `convolution_kernel_gradients(input, gradients, output)`. -/
def convolution_kernel_gradients [Zero α] [Add α] [Mul α] (h : Host α)
    (input gradients output : CPUTensor) : Except Fault (Host α) :=
  if ¬ (output.rank = 4) then .error Fault.Assert
  else if ¬ (input.rank = 3 ∧ gradients.rank = 3) then .error Fault.Assert
  else if ¬ (output.shape 2 % 2 = 1 ∧ output.shape 3 % 2 = 1) then .error Fault.Assert
  else if ¬ (output.shape 0 = gradients.shape 0 ∧ output.shape 1 = input.shape 0) then
    .error Fault.Assert
  else if ¬ (input.shape_.ElementShape.operator_eq gradients.shape_.ElementShape = true) then
    .error Fault.Assert
  else
    let kernel_halfwidth := to_int (output.shape 3 / 2)
    let kernel_halfheight := to_int (output.shape 2 / 2)
    forEach (List.range (output.shape 0))
      (fun feature_map h1 =>
        forEach (List.range (input.shape 0))
          (fun input_channel h2 =>
            forEach (List.range (input.shape 1))
              (fun y h3 =>
                forEach (List.range (input.shape 2))
                  (fun x h4 =>
                    forEach (int_range (-kernel_halfheight) kernel_halfheight)
                      (fun ky h5 =>
                        forEach (int_range (-kernel_halfwidth) kernel_halfwidth)
                          (fun kx h6 =>
                            let sx := to_int (x + kx)
                            let sy := to_int (y + ky)
                            if 0 ≤ sx ∧ sx < to_int (input.shape 2) ∧ 0 ≤ sy
                                ∧ sy < to_int (input.shape 1) then
                              match Element h6 input [input_channel, to_size_t sy,
                                  to_size_t sx] with
                              | .error f => .error f
                              | .ok v =>
                                match Element h6 gradients [feature_map, y, x] with
                                | .error f => .error f
                                | .ok g =>
                                  addElement h6 output [feature_map, input_channel,
                                    to_size_t (to_int (-ky + kernel_halfheight)),
                                    to_size_t (to_int (-kx + kernel_halfwidth))] (v * g)
                            else .ok h6)
                          h5)
                      h4)
                  h3)
              h2)
          h1)
      (ClearT h output)

end CPUTensor

/-- The sum a convolution window accumulates at the output position `(y, x)`, for a
kernel of `2*hh + 1` rows and `2*hw + 1` columns over an input of `H` rows and `W`
columns.  The scan visits the kernel offsets `(j - hh, i - hw)` for `j = 0 .. 2*hh`
and, inside, `i = 0 .. 2*hw`; where the source position `(y + j - hh, x + i - hw)` is
inside the input, the product of `kval j i` and the input value there is added. -/
def windowSum {α : Type} [Zero α] [Add α] [Mul α] (H W hh hw : Nat)
    (kval ival : Nat → Nat → α) (y x : Nat) : α :=
  (List.range (2 * hh + 1)).foldl
    (fun sum j =>
      (List.range (2 * hw + 1)).foldl
        (fun sum i =>
          if hh ≤ y + j ∧ y + j < H + hh ∧ hw ≤ x + i ∧ x + i < W + hw then
            sum + kval j i * ival (y + j - hh) (x + i - hw)
          else sum)
        sum)
    0

/-- The representable sizes of the convolution routines: the extents they convert
to `int` are below `2^31`. -/
def IntSized (n : Nat) : Prop :=
  n < 2147483648

instance (n : Nat) : Decidable (IntSized n) :=
  inferInstanceAs (Decidable (n < 2147483648))

/-- A host state over the integers for the convolution routines.  Object `0` is an
input of shape `(1, 2, 2)` at the addresses `1 .. 4` holding `1 .. 4`; object `1` a
kernel tensor of shape `(1, 1, 3, 3)` at the addresses `5 .. 13`, zero but for a `1`
at its centre (address `9`); object `2` an output of shape `(1, 2, 2)` at the
addresses `14 .. 17`; object `3` a tensor of gradients of shape `(1, 2, 2)` at the
addresses `18 .. 21` holding `18 .. 21`; object `4` an output of shape `(1, 2, 2)` at
the addresses `22 .. 25`; object `5` a kernel-shaped output `(1, 1, 3, 3)` at the
addresses `26 .. 34`. -/
def exampleHostConv : Host Int :=
  { mem := fun a => if a = 9 then 1 else if 5 ≤ a ∧ a ≤ 13 then 0 else (a : Int),
    brk := 35, freed := [], junk := fun _ => 0,
    tensors :=
      { objs := fun id =>
          [BaseTensor.ctor ⟨[1, 2, 2]⟩ 1, BaseTensor.ctor ⟨[1, 1, 3, 3]⟩ 5,
            BaseTensor.ctor ⟨[1, 2, 2]⟩ 14, BaseTensor.ctor ⟨[1, 2, 2]⟩ 18,
            BaseTensor.ctor ⟨[1, 2, 2]⟩ 22].getD id (BaseTensor.ctor ⟨[1, 1, 3, 3]⟩ 26),
        count := 6 } }

/-! ## Comparison of tensors (`lib/nn/tensor/BaseTensor.h`, `lib/nn/tensor/CpuTensor.cpp`)

The values are exact: a `float` is taken as the rational number it denotes. -/

/-- Constant `kFloatMaxAbsDiff = 0.001`. -/
def kFloatMaxAbsDiff : ℚ := 1 / 1000

/-- Constant `kFloatMaxRelDiff = 0.01`. -/
def kFloatMaxRelDiff : ℚ := 1 / 100

/-- Function `floatEq(f1, f2)`. -/
def floatEq (f1 f2 : ℚ) : Bool :=
  if f1 = f2 then true
  else
    let max := Max.max |f1| |f2|
    let diff := |f1 - f2|
    if max < 1 / 100 then decide (diff ≤ kFloatMaxAbsDiff)
    else decide (diff ≤ max * kFloatMaxRelDiff)

/-- Method `isAlmostEqual(other, kFloat32Epsilon)`: the shapes are compared and then
the elements, one by one, with `floatEq` (the source passes its second parameter
on to `floatEq`, which takes two arguments and has the tolerances as constants). -/
def CPUTensor.isAlmostEqual (h : Host ℚ) (self other : CPUTensor) : Bool :=
  if self.shape_.operator_ne other.shape_ then false
  else (List.range self.size_).all
    (fun i => floatEq (CPUTensor.elem h self i) (CPUTensor.elem h other i))

/-- Modelled from the spec: the `operator==` of `CPUTensor`, which `CpuTensor.h`
declares with the comment "Two tensors are considered equal if their shape is
equal and floatEq(x, y) is true for each pair of elements with same index" and
whose body is not among the sources: it is taken to be the comparison of
`isAlmostEqual`. -/
def CPUTensor.operator_eq (h : Host ℚ) (self other : CPUTensor) : Bool :=
  CPUTensor.isAlmostEqual h self other

/-! ## The elementwise kernels of the device (`lib/kernels/KernelCommon.h`,
`src/nn/tensor/GpuTensorOps.cpp`) -/

/-- Macro `ITEMS_PER_THREAD`. -/
def ITEMS_PER_THREAD : Nat := 10

/-- Constant `kItemsPerThread`. -/
def kItemsPerThread : Nat := ITEMS_PER_THREAD

/-- Function `threadcount(problem_size)`, in `size_t`. -/
def threadcount (problem_size : Nat) : Nat :=
  ((problem_size + kItemsPerThread + SIZE_MOD - 1) % SIZE_MOD) / kItemsPerThread

/-- The indices `index` at which one work item of a kernel made by `UNARY_OPERATION`,
`BINARY_OPERATION` or `TENSOR_SCALAR_OPERATION` writes `output[index]`: `base =
get_local_id(0) + (get_global_id(0) - get_local_id(0)) * ITEMS_PER_THREAD` and, for `i <
ITEMS_PER_THREAD`, `index = base + i * get_local_size(0)` when `index < size`; `base` and
`index` are of type `uint`.  (The local id of a work item is at most its global
id.) -/
def elementwise_kernel.indices (size global_id local_id local_size : Nat) : List Nat :=
  let base := (local_id + (global_id - local_id) * ITEMS_PER_THREAD) % CPUTensor.UINT32_MOD
  ((List.range ITEMS_PER_THREAD).map
    (fun i => (base + i * local_size) % CPUTensor.UINT32_MOD)).filter
    (fun index => decide (index < size))

/-- The work items of a one-dimensional `clEnqueueNDRangeKernel` with the global size
`global_size` and the local size `local_size`, as pairs of global id and local id:
the global ids are `0 .. global_size - 1` and the work groups are the consecutive
runs of `local_size` of them. -/
def NDRange1 (global_size local_size : Nat) : List (Nat × Nat) :=
  (List.range global_size).map (fun g => (g, g % local_size))

/-- The indices written by the launch that the host functions made by
`UNARY_OPERATION`, `BINARY_OPERATION` and `TENSOR_SCALAR_OPERATION` enqueue for tensors
of `n` elements: `Run(WorkSize(threadcount(n)), n, ...)`, where `Run` takes the local
size from `CalculateLocalWorkSize` and pads the global size with
`PrepareFinalWorkSize`, and the kernel receives `n` as a `uint`. -/
def elementwise_dispatch (n : Nat) : List Nat :=
  let gws := Kernel.WorkSize.ctor1 (threadcount n)
  let lws := Kernel.CalculateLocalWorkSize gws
  let final := Kernel.PrepareFinalWorkSize gws lws
  (NDRange1 (final.value 0) (lws.value 0)).flatMap
    (fun w => elementwise_kernel.indices (n % CPUTensor.UINT32_MOD) w.1 w.2 (lws.value 0))

/-! ## Sub-tensor views after `Reshape` and `operator=` -/

/-- The statements `t[i]; t.Reshape(new_shape); t[i]` on the host tensor `t`: the
object the second `t[i]` returns and the object `t` as it is then, when both calls
return and `Reshape` returns `true`. -/
def CPUTensor.SubTensor_after_Reshape {α : Type} (h : Host α) (t i : Nat) (new_shape : Shape) :
    Option (CPUTensor × CPUTensor) :=
  match CPUTensor.SubTensor h t i with
  | .error _ => none
  | .ok (_, h1) =>
    let r := CPUTensor.Reshape h1 t new_shape
    if r.1 = false then none
    else
      match CPUTensor.SubTensor r.2 t i with
      | .error _ => none
      | .ok (v, h3) => some (h3.tensors.objs v, h3.tensors.objs t)

/-- The statements `t[i]; t = other; t[i]` on the host tensors `t` and `other`: the
object the second `t[i]` returns, the object `t` as it is then and the pointers
given to `delete []` so far, when the three calls return. -/
def CPUTensor.SubTensor_after_assign {α : Type} (h : Host α) (t i other : Nat) :
    Option (CPUTensor × CPUTensor × List Nat) :=
  match CPUTensor.SubTensor h t i with
  | .error _ => none
  | .ok (_, h1) =>
    match CPUTensor.assign h1 t other with
    | .error _ => none
    | .ok h2 =>
      match CPUTensor.SubTensor h2 t i with
      | .error _ => none
      | .ok (v, h3) => some (h3.tensors.objs v, h3.tensors.objs t, h3.freed)

/-- The state `exampleHost` after the declaration of a second owning tensor (object
`1`) of shape `(2, 2)`, whose cells are at the addresses `7 .. 10`. -/
def exampleHostTwo : Host Nat :=
  (CPUTensor.ctor exampleHost ⟨[2, 2]⟩).2

/-! ## Reading the MNIST image file (`src/utils/Mnist.cpp`) -/

/-- A loop `for (uint32_t i = start; i < start + n; i++) body` whose body may abort,
counting upwards for `n` rounds. -/
def forCount {σ : Type} (body : Nat → σ → Except Fault σ) : Nat → Nat → σ → Except Fault σ
  | 0, _, s => .ok s
  | n + 1, i, s =>
    match body i s with
    | .error f => .error f
    | .ok s1 => forCount body n (i + 1) s1

namespace utils

/-- Function `swap(v)` on a `uint32_t`: the four shifted and masked parts, or-ed. -/
def swap (v : Nat) : Nat :=
  (((v <<< 24) % CPUTensor.UINT32_MOD) &&& 0xff000000)
    ||| (((v <<< 8) % CPUTensor.UINT32_MOD) &&& 0x00ff0000)
    ||| ((v >>> 8) &&& 0x0000ff00)
    ||| ((v >>> 24) &&& 0x000000ff)

/-- The byte `data.c_str()[k]`: the bytes of the string followed by the terminating
zero byte; a read further out is outside the array. -/
def byte (data : List Nat) (k : Nat) : Except Fault Nat :=
  match (data ++ [0])[k]? with
  | some b => .ok b
  | none => .error Fault.Bounds

/-- The read `*(uint32_t*)(data.c_str() + k)` on a little-endian machine. -/
def load32 (data : List Nat) (k : Nat) : Except Fault Nat :=
  match byte data k, byte data (k + 1), byte data (k + 2), byte data (k + 3) with
  | .ok b0, .ok b1, .ok b2, .ok b3 => .ok (b0 + b1 * 2 ^ 8 + b2 * 2 ^ 16 + b3 * 2 ^ 24)
  | _, _, _, _ => .error Fault.Bounds

/-- The first part of `ProcessMNISTData`, up to the last `FAIL_IF`: `none` when one
of the three `FAIL_IF`s returns `false`, otherwise `num_images`, `num_rows` and
`num_cols`.  The product `num_images * 28 * 28` is computed in `uint32_t` and
compared, as a `size_t`, with `len - 16`. -/
def ProcessMNISTData.header (data : List Nat) : Except Fault (Option (Nat × Nat × Nat)) :=
  let len := data.length
  match load32 data 0 with
  | .error f => .error f
  | .ok w0 =>
    let magic := swap w0
    if magic ≠ 0x00000803 then .ok none
    else
      match load32 data 4 with
      | .error f => .error f
      | .ok w1 =>
        let num_images := swap w1
        if ((num_images * 28) % CPUTensor.UINT32_MOD * 28) % CPUTensor.UINT32_MOD
            ≠ (len + SIZE_MOD - 16) % SIZE_MOD then .ok none
        else
          match load32 data 8 with
          | .error f => .error f
          | .ok w2 =>
            let num_rows := swap w2
            match load32 data 12 with
            | .error f => .error f
            | .ok w3 =>
              let num_cols := swap w3
              if num_rows ≠ 28 ∨ num_cols ≠ 28 then .ok none
              else .ok (some (num_images, num_rows, num_cols))

/-- The read `bytes[i * (num_rows * num_cols) + row * num_cols + col]` with `bytes`
sixteen bytes into the string; the index is computed in `uint32_t`. -/
def ProcessMNISTData.pixel (data : List Nat) (num_rows num_cols i row col : Nat) :
    Except Fault Nat :=
  byte data
    (16 + (((i * ((num_rows * num_cols) % CPUTensor.UINT32_MOD)) % CPUTensor.UINT32_MOD
            + (row * num_cols) % CPUTensor.UINT32_MOD) % CPUTensor.UINT32_MOD
          + col) % CPUTensor.UINT32_MOD)

/-- The three nested loops of `ProcessMNISTData` on the tensor `*out`. -/
def ProcessMNISTData.loops (data : List Nat) (num_images num_rows num_cols : Nat)
    (h : Host ℚ) (out : Nat) : Except Fault (Host ℚ) :=
  forCount (fun i s =>
    forCount (fun row s =>
      forCount (fun col s =>
        match ProcessMNISTData.pixel data num_rows num_cols i row col with
        | .error f => .error f
        | .ok pixel =>
          CPUTensor.setElement s (s.tensors.objs out) [i, row, col] ((pixel : ℚ) / 255))
        num_cols 0 s)
      num_rows 0 s)
    num_images 0 h

/-- Function `ProcessMNISTData(data, out)`, with `out` given by identity: the header
checks, the statement `*out = CPUTensor({num_images, num_rows, num_cols})` (the
temporary is constructed, assigned and destroyed) and the loops. -/
def ProcessMNISTData (h : Host ℚ) (data : List Nat) (out : Nat) :
    Except Fault (Bool × Host ℚ) :=
  match ProcessMNISTData.header data with
  | .error f => .error f
  | .ok none => .ok (false, h)
  | .ok (some (num_images, num_rows, num_cols)) =>
    if Shape.ctorAsserts ⟨[num_images, num_rows, num_cols]⟩ = false then .error Fault.Assert
    else
      let c := CPUTensor.ctor h ⟨[num_images, num_rows, num_cols]⟩
      match CPUTensor.assign c.2 out c.1 with
      | .error e => .error e.1
      | .ok h1 =>
        let h2 := h1.delete (h1.tensors.objs c.1).buffer_ (h1.tensors.objs c.1).size_
        match ProcessMNISTData.loops data num_images num_rows num_cols h2 out with
        | .error f => .error f
        | .ok h3 => .ok (true, h3)

/-- The fault with which a run stops, if it does. -/
def fault {ρ : Type} (r : Except Fault ρ) : Option Fault :=
  match r with
  | .error f => some f
  | .ok _ => none

/-- A host state with one tensor, the default-constructed `CPUTensor` (object `0`)
that the caller of `LoadMNIST` passes. -/
def exampleHostMnist : Host ℚ :=
  (CPUTensor.default_ctor
    ({ mem := fun _ => 0, brk := 1, freed := [], junk := fun _ => 0,
       tensors := { objs := fun _ => BaseTensor.ctor ⟨[]⟩ 0, count := 0 } } : Host ℚ)).2

/-- A file of sixteen bytes: the magic `0x00000803`, `num_images = 0x10000000`,
`num_rows = num_cols = 28`, and no pixel data. -/
def exampleWrappedHeader : List Nat :=
  [0x00, 0x00, 0x08, 0x03, 0x10, 0x00, 0x00, 0x00, 0x00, 0x00, 0x00, 0x1c, 0x00, 0x00, 0x00, 0x1c]

/-- A file with one image whose pixel `(row, col)` is `(28 * row + col) % 256`. -/
def exampleOneImage : List Nat :=
  [0x00, 0x00, 0x08, 0x03, 0x00, 0x00, 0x00, 0x01, 0x00, 0x00, 0x00, 0x1c, 0x00, 0x00, 0x00, 0x1c]
    ++ (List.range 784).map (fun k => k % 256)

end utils

/-! ## Floating-point values outside exact arithmetic -/

/-- The values of `float` that decide what a zero weight does to its neighbour: the
natural numbers (as exact values), `+inf` and `NaN`, with their IEEE 754 sums and
products (`0 * inf` is `NaN`, a sum or product with `NaN` is `NaN`). -/
inductive FloatValue where
  | fin (n : Nat)
  | inf
  | nan
deriving DecidableEq, Repr

namespace FloatValue

/-- The sum of two values. -/
def add : FloatValue → FloatValue → FloatValue
  | fin a, fin b => fin (a + b)
  | nan, _ => nan
  | _, nan => nan
  | _, _ => inf

/-- The product of two values. -/
def mul : FloatValue → FloatValue → FloatValue
  | fin a, fin b => fin (a * b)
  | nan, _ => nan
  | _, nan => nan
  | fin 0, inf => nan
  | inf, fin 0 => nan
  | _, _ => inf

instance : Zero FloatValue := ⟨fin 0⟩

instance : One FloatValue := ⟨fin 1⟩

instance : Add FloatValue := ⟨add⟩

instance : Mul FloatValue := ⟨mul⟩

end FloatValue

theorem Shape.foldl_mul_mod (l : List Nat) (init : Nat) :
    l.foldl (fun result d => (result * d) % SIZE_MOD) init
      = if l = [] then init else (init * l.prod) % SIZE_MOD := by
  induction l generalizing init with
  | nil => simp
  | cons d l ih =>
    rw [List.foldl_cons, ih]
    by_cases hl : l = []
    · subst hl; simp
    · simp only [hl, if_false, List.prod_cons, reduceCtorEq]
      rw [Nat.mod_mul_mod, Nat.mul_assoc]

theorem Shape.TotalElementCount_eq (s : Shape) :
    s.TotalElementCount = if s.rank = 0 then 0 else s.data_.prod % SIZE_MOD := by
  unfold Shape.TotalElementCount Shape.rank
  by_cases h : s.data_.length = 0
  · simp [h]
  · have hne : s.data_ ≠ [] := fun hn => h (by simp [hn])
    simp only [h, if_false, Shape.foldl_mul_mod, hne, Nat.one_mul]

theorem Shape.TotalElementCount_of_Fits (s : Shape) (hr : 0 < s.rank) (hf : s.Fits) :
    s.TotalElementCount = s.data_.prod := by
  rw [Shape.TotalElementCount_eq, if_neg (Nat.pos_iff_ne_zero.mp hr)]
  exact Nat.mod_eq_of_lt hf

theorem Shape.TotalElementCount_lt (s : Shape) : s.TotalElementCount < SIZE_MOD := by
  rw [Shape.TotalElementCount_eq]
  split
  · decide
  · exact Nat.mod_lt _ (by decide)

theorem Shape.sub_arith (s : Shape) (i : Nat) (hr : 1 < s.rank) (hi : i < s.index 0)
    (hf : s.Fits) :
    s.ElementShape.Fits
    ∧ s.ElementShape.rank + 1 = s.rank
    ∧ (i * s.ElementShape.TotalElementCount) % SIZE_MOD = i * s.ElementShape.TotalElementCount
    ∧ (i + 1) * s.ElementShape.TotalElementCount ≤ s.TotalElementCount := by
  obtain ⟨data⟩ := s
  cases data with
  | nil => simp [Shape.rank] at hr
  | cons d0 rest =>
    have hd0 : i < d0 := by simpa [Shape.index] using hi
    have hrest : 0 < rest.length := by
      simp only [Shape.rank, List.length_cons] at hr
      omega
    have hprod : d0 * rest.prod < SIZE_MOD := by
      simpa [Shape.Fits] using hf
    have hle : rest.prod ≤ d0 * rest.prod := Nat.le_mul_of_pos_left _ (by omega)
    have hfe : (Shape.mk rest).Fits := by
      show rest.prod < SIZE_MOD
      omega
    have hE : (Shape.mk rest).TotalElementCount = rest.prod :=
      Shape.TotalElementCount_of_Fits _ hrest hfe
    have hT : (Shape.mk (d0 :: rest)).TotalElementCount = d0 * rest.prod := by
      rw [Shape.TotalElementCount_of_Fits _ (by simp [Shape.rank]) hf]
      simp
    have hmul : (i + 1) * rest.prod ≤ d0 * rest.prod := Nat.mul_le_mul_right _ (by omega)
    have hmul2 : i * rest.prod < SIZE_MOD := by
      have : i * rest.prod ≤ (i + 1) * rest.prod := Nat.mul_le_mul_right _ (by omega)
      omega
    have hES : (Shape.mk (d0 :: rest)).ElementShape = Shape.mk rest := rfl
    rw [hES, hE, hT]
    exact ⟨hfe, by simp [Shape.rank], Nat.mod_eq_of_lt hmul2, hmul⟩

/-! ### Host memory loops in closed form -/

theorem Host.store_apply {α : Type} (mem : Nat → α) (a : Nat) (v : α) (k : Nat) :
    Host.store mem a v k = if k = a then v else mem k :=
  rfl

theorem Host.foldl_store_apply {α : Type} (mem : Nat → α) (p : Nat) (g : Nat → α) (n a : Nat) :
    (List.range n).foldl (fun m k => Host.store m (p + k) (g k)) mem a
      = if p ≤ a ∧ a < p + n then g (a - p) else mem a := by
  induction n with
  | zero =>
    rw [if_neg (by omega)]
    rfl
  | succ n ih =>
    rw [List.range_succ, List.foldl_append, List.foldl_cons, List.foldl_nil, Host.store_apply]
    by_cases hk : a = p + n
    · subst hk
      rw [if_pos rfl, if_pos (by omega)]
      congr 1
      omega
    · rw [if_neg hk, ih]
      by_cases hr : p ≤ a ∧ a < p + n
      · rw [if_pos hr, if_pos (by omega)]
      · rw [if_neg hr, if_neg (by omega)]

theorem Host.memset_apply {α : Type} [Zero α] (mem : Nat → α) (p n a : Nat) :
    Host.memset mem p n a = if p ≤ a ∧ a < p + n then 0 else mem a := by
  unfold Host.memset
  exact Host.foldl_store_apply mem p (fun _ => 0) n a

theorem Host.fill_apply {α : Type} (mem : Nat → α) (p n : Nat) (init : Nat → α) (a : Nat) :
    Host.fill mem p n init a = if p ≤ a ∧ a < p + n then init (a - p) else mem a := by
  unfold Host.fill
  exact Host.foldl_store_apply mem p init n a

/-- The forward copy loop moves the source cells unharmed when the destination
starts at or before the source, or after its end. -/
theorem Host.copy_apply {α : Type} (mem : Nat → α) (first n d_first : Nat)
    (hsafe : d_first ≤ first ∨ first + n ≤ d_first) (a : Nat) :
    Host.copy mem first n d_first a
      = if d_first ≤ a ∧ a < d_first + n then mem (first + (a - d_first)) else mem a := by
  unfold Host.copy
  induction n generalizing a with
  | zero =>
    rw [if_neg (by omega)]
    rfl
  | succ n ih =>
    have hsafe1 : d_first ≤ first ∨ first + n ≤ d_first := by omega
    rw [List.range_succ, List.foldl_append, List.foldl_cons, List.foldl_nil, Host.store_apply]
    by_cases hk : a = d_first + n
    · subst hk
      rw [if_pos rfl, if_pos (by omega), ih hsafe1 (first + n), if_neg (by omega)]
      congr 1
      omega
    · rw [if_neg hk, ih hsafe1 a]
      by_cases hr : d_first ≤ a ∧ a < d_first + n
      · rw [if_pos hr, if_pos (by omega)]
      · rw [if_neg hr, if_neg (by omega)]

theorem CPUTensor.elem_write_same {α : Type} (h : Host α) (t v : CPUTensor) (k j : Nat) (x : α)
    (hcell : v.buffer_ + j = t.buffer_ + k) :
    CPUTensor.elem (CPUTensor.write h t k x) v j = x := by
  unfold CPUTensor.elem CPUTensor.write
  show Host.store h.mem (t.buffer_ + k) x (v.buffer_ + j) = x
  rw [Host.store_apply, if_pos hcell]

theorem CPUTensor.elem_write_other {α : Type} (h : Host α) (t v : CPUTensor) (k j : Nat) (x : α)
    (hcell : v.buffer_ + j ≠ t.buffer_ + k) :
    CPUTensor.elem (CPUTensor.write h t k x) v j = CPUTensor.elem h v j := by
  unfold CPUTensor.elem CPUTensor.write
  show Host.store h.mem (t.buffer_ + k) x (v.buffer_ + j) = h.mem (v.buffer_ + j)
  rw [Host.store_apply, if_neg hcell]

/-! ### The object store -/

theorem Store.ext_of {β : Type} (a b : Store β) (h1 : ∀ k, a.objs k = b.objs k)
    (h2 : a.count = b.count) : a = b := by
  cases a
  cases b
  simp only [Store.mk.injEq]
  exact ⟨funext h1, h2⟩

theorem Store.set_objs {β : Type} (st : Store β) (id : Nat) (t : BaseTensor β) (k : Nat) :
    (st.set id t).objs k = if k = id then t else st.objs k :=
  rfl

theorem Store.set_count {β : Type} (st : Store β) (id : Nat) (t : BaseTensor β) :
    (st.set id t).count = st.count :=
  rfl

theorem Store.alloc_fst {β : Type} (st : Store β) (t : BaseTensor β) :
    (st.alloc t).1 = st.count :=
  rfl

theorem Store.alloc_objs {β : Type} (st : Store β) (t : BaseTensor β) (k : Nat) :
    (st.alloc t).2.objs k = if k = st.count then t else st.objs k :=
  rfl

theorem Store.alloc_count {β : Type} (st : Store β) (t : BaseTensor β) :
    (st.alloc t).2.count = st.count + 1 :=
  rfl

theorem Store.set_same {β : Type} (st : Store β) (id : Nat) :
    st.set id (st.objs id) = st := by
  apply Store.ext_of
  · intro k
    rw [Store.set_objs]
    split
    · next h => rw [h]
    · rfl
  · rfl

/-! ### `SubTensor`: the two paths -/

theorem BaseTensor.getD_resize {n : Nat} (views : List (Option Nat)) (k : Nat) :
    (BaseTensor.resize views n).getD k none = views.getD k none := by
  unfold BaseTensor.resize
  by_cases hk : k < views.length
  · rw [List.getD_append _ _ _ _ hk]
  · rw [List.getD_append_right _ _ _ _ (by omega), List.getD_eq_default views none (by omega)]
    simp only [List.getD_eq_getElem?_getD, List.getElem?_replicate]
    split <;> rfl

theorem BaseTensor.getD_grow (views : List (Option Nat)) (i k : Nat) :
    (BaseTensor.grow views i).getD k none = views.getD k none := by
  unfold BaseTensor.grow
  split
  · rw [BaseTensor.getD_resize]
  · rfl

theorem BaseTensor.lt_length_grow (views : List (Option Nat)) (i : Nat) :
    i < (BaseTensor.grow views i).length := by
  unfold BaseTensor.grow
  split
  · simp only [BaseTensor.resize, List.length_append, List.length_replicate]
    omega
  · omega

theorem BaseTensor.grow_of_lt (views : List (Option Nat)) (i : Nat) (h : i < views.length) :
    BaseTensor.grow views i = views := by
  unfold BaseTensor.grow
  rw [if_neg (by omega)]

/-- The memoized path: when slot `i` of the view table is filled, `SubTensor(i)`
returns the stored view and changes nothing. -/
theorem BaseTensor.SubTensor_hit {β : Type}
    (subCtor : BaseTensor β → Nat → Except Fault (BaseTensor β)) (st : Store β)
    (self i v : Nat) (hrank : 1 < (st.objs self).rank) (hi : i < (st.objs self).shape 0)
    (hv : (st.objs self).views_.getD i none = some v) :
    BaseTensor.SubTensor subCtor st self i = .ok (v, st) := by
  have hlen : i < (st.objs self).views_.length := by
    by_contra hc
    rw [List.getD_eq_default _ _ (by omega)] at hv
    cases hv
  unfold BaseTensor.SubTensor
  simp only [gt_iff_lt, hrank, not_true_eq_false, if_false, hi,
    BaseTensor.grow_of_lt _ _ hlen, hv]
  rw [Store.set_same]

/-- The creating path: when slot `i` is empty and the derived constructor returns
`view`, `SubTensor(i)` makes `view` the next object and stores it in slot `i`. -/
theorem BaseTensor.SubTensor_miss {β : Type}
    (subCtor : BaseTensor β → Nat → Except Fault (BaseTensor β)) (st : Store β)
    (self i : Nat) (view : BaseTensor β)
    (hrank : 1 < (st.objs self).rank) (hi : i < (st.objs self).shape 0)
    (hv : (st.objs self).views_.getD i none = none)
    (hctor : subCtor { st.objs self with views_ := BaseTensor.grow (st.objs self).views_ i } i
      = .ok view) :
    ∃ st1 vs, BaseTensor.SubTensor subCtor st self i = .ok (st.count, st1)
      ∧ st1.count = st.count + 1
      ∧ (∀ k, st1.objs k = if k = self then { st.objs self with views_ := vs }
                else if k = st.count then view else st.objs k)
      ∧ i < vs.length ∧ vs.getD i none = some st.count
      ∧ (∀ k, k ≠ i → vs.getD k none = (st.objs self).views_.getD k none) := by
  let views := BaseTensor.grow (st.objs self).views_ i
  have hother : ∀ k, views.getD k none = (st.objs self).views_.getD k none :=
    BaseTensor.getD_grow _ i
  have hviews : views.getD i none = none := by
    rw [hother, hv]
  have hlen : i < views.length := BaseTensor.lt_length_grow _ i
  refine ⟨((st.set self { st.objs self with views_ := views }).alloc view).2.set self
      { st.objs self with views_ := views.set i (some st.count) },
    views.set i (some st.count), ?_, ?_, ?_, ?_, ?_, ?_⟩
  · unfold BaseTensor.SubTensor
    simp only [gt_iff_lt, hrank, not_true_eq_false, if_false, hi]
    show (match views.getD i none with
      | some v => _
      | none => _) = _
    rw [hviews]
    show (match subCtor { st.objs self with views_ := views } i with
      | .error f => _
      | .ok view => _) = _
    rw [hctor]
    rfl
  · rfl
  · intro k
    simp only [Store.set_objs, Store.alloc_objs, Store.set_count]
    by_cases h1 : k = self
    · simp [h1]
    · simp [h1]
  · simpa using hlen
  · simp [List.getD_eq_getElem?_getD, List.getElem?_set, hlen]
  · intro k hk
    rw [← hother k]
    simp [List.getD_eq_getElem?_getD, List.getElem?_set, Ne.symm hk]

/-- What any returning `SubTensor` call leaves alone: no object disappears, no
existing object changes its flags, shape, size or buffer, and no filled slot of a
view table is changed. -/
theorem BaseTensor.SubTensor_frame {β : Type}
    (subCtor : BaseTensor β → Nat → Except Fault (BaseTensor β)) (st st1 : Store β)
    (u j v : Nat) (h : BaseTensor.SubTensor subCtor st u j = .ok (v, st1)) :
    st.count ≤ st1.count
    ∧ ∀ k, k < st.count →
        (st1.objs k).is_view_ = (st.objs k).is_view_
        ∧ (st1.objs k).shape_ = (st.objs k).shape_
        ∧ (st1.objs k).size_ = (st.objs k).size_
        ∧ (st1.objs k).buffer_ = (st.objs k).buffer_
        ∧ ∀ m w, (st.objs k).views_.getD m none = some w →
            (st1.objs k).views_.getD m none = some w := by
  by_cases hrank : 1 < (st.objs u).rank
  swap
  · unfold BaseTensor.SubTensor at h
    simp only [gt_iff_lt, hrank, not_false_eq_true, if_true, reduceCtorEq] at h
  by_cases hi : j < (st.objs u).shape 0
  swap
  · unfold BaseTensor.SubTensor at h
    simp only [gt_iff_lt, hrank, not_true_eq_false, if_false, hi, not_false_eq_true, if_true,
      reduceCtorEq] at h
  cases hslot : (st.objs u).views_.getD j none with
  | some w =>
    rw [BaseTensor.SubTensor_hit subCtor st u j w hrank hi hslot] at h
    simp only [Except.ok.injEq, Prod.mk.injEq] at h
    rw [← h.2]
    exact ⟨Nat.le_refl _, fun k _ => ⟨rfl, rfl, rfl, rfl, fun m w hw => hw⟩⟩
  | none =>
    cases hc : subCtor { st.objs u with views_ := BaseTensor.grow (st.objs u).views_ j } j with
    | error f =>
      exfalso
      have hviews : (BaseTensor.grow (st.objs u).views_ j).getD j none = none := by
        rw [BaseTensor.getD_grow, hslot]
      unfold BaseTensor.SubTensor at h
      simp only [gt_iff_lt, hrank, not_true_eq_false, if_false, hi, hviews, hc, reduceCtorEq] at h
    | ok view =>
      obtain ⟨st2, vs, hrun, hcount, hobjs, _, _, hkeep⟩ :=
        BaseTensor.SubTensor_miss subCtor st u j view hrank hi hslot hc
      rw [hrun] at h
      simp only [Except.ok.injEq, Prod.mk.injEq] at h
      rw [← h.2]
      refine ⟨by omega, fun k hk => ?_⟩
      rw [hobjs k]
      by_cases hku : k = u
      · subst hku
        rw [if_pos rfl]
        refine ⟨rfl, rfl, rfl, rfl, fun m w hw => ?_⟩
        have hm : m ≠ j := by
          intro hmj
          rw [hmj, hslot] at hw
          cases hw
        show vs.getD m none = some w
        rw [hkeep m hm, hw]
      · rw [if_neg hku, if_neg (by omega)]
        exact ⟨rfl, rfl, rfl, rfl, fun m w hw => hw⟩

/-! ### `Reshape`: result and effect -/

theorem BaseTensor.Reshape_fst {β : Type} (st : Store β) (self : Nat) (new_shape : Shape) :
    (BaseTensor.Reshape st self new_shape).1 = true ↔
      ((st.objs self).is_view_ = false
        ∧ new_shape.TotalElementCount = (st.objs self).shape_.TotalElementCount) := by
  unfold BaseTensor.Reshape
  by_cases h1 : new_shape.TotalElementCount = (st.objs self).shape_.TotalElementCount
  · cases h2 : (st.objs self).is_view_ <;> simp [h1, h2]
  · simp [h1]

theorem BaseTensor.Reshape_true {β : Type} (st : Store β) (self : Nat) (new_shape : Shape)
    (h : (BaseTensor.Reshape st self new_shape).1 = true) :
    (BaseTensor.Reshape st self new_shape).2
      = st.set self { st.objs self with shape_ := new_shape } := by
  have hc := (BaseTensor.Reshape_fst st self new_shape).mp h
  unfold BaseTensor.Reshape
  simp [hc.1, hc.2]

theorem BaseTensor.Reshape_false {β : Type} (st : Store β) (self : Nat) (new_shape : Shape)
    (h : (BaseTensor.Reshape st self new_shape).1 = false) :
    (BaseTensor.Reshape st self new_shape).2 = st := by
  unfold BaseTensor.Reshape at h ⊢
  by_cases h1 : new_shape.TotalElementCount = (st.objs self).shape_.TotalElementCount
  · cases h2 : (st.objs self).is_view_
    · simp [h1, h2] at h
    · simp [h1, h2]
  · simp [h1]

/-! ### Assignment and copy: the pieces -/

theorem BaseTensor.assign_check_eq_false {β : Type} (t o : BaseTensor β) :
    BaseTensor.assign_check t o = false ↔ (t.is_view_ = true ∧ t.shape_ ≠ o.shape_) := by
  unfold BaseTensor.assign_check
  cases t.is_view_ <;> simp

theorem Buffer.nelemsOrAll_error (b : Buffer) (nelems : Nat) (f : Fault)
    (h : b.nelemsOrAll nelems = .error f) : f = Fault.Assert := by
  unfold Buffer.nelemsOrAll at h
  split at h
  · split at h
    · cases h
    · cases h
      rfl
  · cases h

theorem Buffer.ReadT_error {α : Type} (b : Buffer) (d : Device α) (nelems offset : Nat)
    (f : Fault) (h : b.ReadT d nelems offset = .error f) : f = Fault.Assert := by
  unfold Buffer.ReadT at h
  split at h
  · next f1 hf =>
    cases h
    exact Buffer.nelemsOrAll_error b nelems _ hf
  · split at h
    · next f1 hf =>
      cases h
      unfold Buffer.Read at hf
      split at hf
      · cases hf
        rfl
      · cases hf
    · cases h

theorem Buffer.WriteT_error {α : Type} (b : Buffer) (d : Device α) (buffer : Nat → α)
    (nelems offset : Nat) (f : Fault) (h : b.WriteT d buffer nelems offset = .error f) :
    f = Fault.Assert := by
  unfold Buffer.WriteT at h
  split at h
  · next f1 hf =>
    cases h
    exact Buffer.nelemsOrAll_error b nelems _ hf
  · split at h
    · cases h
      rfl
    · unfold Buffer.Write at h
      split at h
      · cases h
        rfl
      · cases h

theorem GPUTensor.transferData_error {α : Type} (d d1 : Device α) (src dst : Option Buffer)
    (f : Fault) (h : GPUTensor.transferData d src dst = .error (f, d1)) : f ≠ Fault.Check := by
  unfold GPUTensor.transferData at h
  split at h
  · cases h
    decide
  · split at h
    · next f1 hf =>
      cases h
      rw [Buffer.ReadT_error _ _ _ _ _ hf]
      decide
    · split at h
      · cases h
        decide
      · split at h
        · next f1 hf =>
          cases h
          rw [Buffer.WriteT_error _ _ _ _ _ _ hf]
          decide
        · cases h

theorem CPUTensor.copy_ctor_objs {α : Type} (h : Host α) (b : Nat) :
    (CPUTensor.copy_ctor h b).1 = h.tensors.count
    ∧ (CPUTensor.copy_ctor h b).2.tensors.objs h.tensors.count
        = { is_view_ := false, shape_ := (h.tensors.objs b).shape_,
            size_ := (h.tensors.objs b).size_, views_ := [], buffer_ := h.brk }
    ∧ (∀ k, k ≠ h.tensors.count →
        (CPUTensor.copy_ctor h b).2.tensors.objs k = h.tensors.objs k)
    ∧ (CPUTensor.copy_ctor h b).2.mem
        = Host.copy h.mem (h.tensors.objs b).buffer_ (h.tensors.objs b).size_ h.brk := by
  refine ⟨rfl, ?_, ?_, rfl⟩
  · simp only [CPUTensor.copy_ctor, Host.new_float, Store.alloc, BaseTensor.copy_ctor, if_true]
  · intro k hk
    simp only [CPUTensor.copy_ctor, Host.new_float, Store.alloc, BaseTensor.copy_ctor, hk,
      if_false]

theorem CPUTensor.assign_body_objs {α : Type} (h : Host α) (a b : Nat) :
    (CPUTensor.assign_body h a b).tensors.objs a
        = { h.tensors.objs a with
            shape_ := (h.tensors.objs b).shape_, size_ := (h.tensors.objs b).size_,
            buffer_ := if (h.tensors.objs a).size_ ≠ (h.tensors.objs b).size_
              then h.brk else (h.tensors.objs a).buffer_ }
    ∧ (∀ k, k ≠ a → (CPUTensor.assign_body h a b).tensors.objs k = h.tensors.objs k)
    ∧ (CPUTensor.assign_body h a b).mem
        = Host.copy
            (if (h.tensors.objs a).size_ ≠ (h.tensors.objs b).size_
              then Host.havoc h.mem h.junk (h.tensors.objs a).buffer_ (h.tensors.objs a).size_
              else h.mem)
            (h.tensors.objs b).buffer_ (h.tensors.objs b).size_
            (if (h.tensors.objs a).size_ ≠ (h.tensors.objs b).size_
              then h.brk else (h.tensors.objs a).buffer_) := by
  unfold CPUTensor.assign_body
  dsimp only
  by_cases hsz : (h.tensors.objs a).size_ = (h.tensors.objs b).size_
  · simp only [ne_eq, hsz, not_true_eq_false, if_false, Store.set_objs, if_true,
      BaseTensor.assign]
    refine ⟨trivial, ?_, trivial⟩
    intro k hk
    rw [if_neg hk]
  · simp only [ne_eq, hsz, not_false_eq_true, if_true, Store.set_objs,
      BaseTensor.assign, Host.new_float, Host.delete]
    refine ⟨trivial, ?_, trivial⟩
    intro k hk
    rw [if_neg hk, if_neg hk]

/-! ### Sub-tensor views on coherent host states -/

theorem CPUTensor.sub_ctor_IsSubOf (t : CPUTensor) (vs : List (Option Nat)) (i : Nat) :
    ∃ view, CPUTensor.sub_ctor { t with views_ := vs } i = .ok view
      ∧ view.views_ = [] ∧ CPUTensor.IsSubOf view t i :=
  ⟨_, rfl, rfl, rfl, rfl, rfl, rfl⟩

theorem exampleHost_Coherent : exampleHost.Coherent := by
  intro t _ i v hv
  simp [exampleHost, BaseTensor.ctor] at hv

/-- Coherence concerns the tensor objects only. -/
theorem Host.Coherent_of_tensors_eq {α : Type} (h h1 : Host α) (heq : h1.tensors = h.tensors)
    (hco : h.Coherent) : h1.Coherent := by
  unfold Host.Coherent at hco ⊢
  rw [heq]
  exact hco

/-- Constructing an object with an empty view table keeps the view tables
coherent. -/
theorem Host.Coherent_alloc {α : Type} (h h1 : Host α) (t : CPUTensor) (ht : t.views_ = [])
    (heq : h1.tensors = (h.tensors.alloc t).2) (hco : h.Coherent) : h1.Coherent := by
  unfold Host.Coherent at hco ⊢
  rw [heq]
  intro p hp i v hv
  rw [Store.alloc_count] at hp
  rw [Store.alloc_objs] at hv
  by_cases hpc : p = h.tensors.count
  · rw [if_pos hpc, ht] at hv
    cases hv
  · rw [if_neg hpc] at hv
    obtain ⟨hv1, hv2⟩ := hco p (by omega) i v hv
    refine ⟨by rw [Store.alloc_count]; omega, ?_⟩
    rw [Store.alloc_objs, Store.alloc_objs, if_neg (by omega), if_neg hpc]
    exact hv2

/-- The constructors of `CPUTensor`, `NewView`, `Clear` and element writes keep the
view tables coherent. -/
theorem Host.Coherent_preserved {α : Type} [Zero α] (h : Host α) (hco : h.Coherent) :
    (CPUTensor.default_ctor h).2.Coherent
    ∧ (∀ shape, (CPUTensor.ctor h shape).2.Coherent)
    ∧ (∀ shape init, (CPUTensor.init_ctor h shape init).2.Coherent)
    ∧ (∀ other, (CPUTensor.copy_ctor h other).2.Coherent)
    ∧ (∀ self s r, CPUTensor.NewView h self s = .ok r → r.2.Coherent)
    ∧ (∀ self, (CPUTensor.Clear h self).Coherent)
    ∧ (∀ t k x, (CPUTensor.write h t k x).Coherent) := by
  refine ⟨?_, ?_, ?_, ?_, ?_, ?_, ?_⟩
  · exact Host.Coherent_alloc h _ _ rfl rfl hco
  · intro shape
    exact Host.Coherent_alloc h _ _ rfl rfl hco
  · intro shape init
    exact Host.Coherent_alloc h _ _ rfl rfl hco
  · intro other
    exact Host.Coherent_alloc h _ _ rfl rfl hco
  · intro self s r hr
    unfold CPUTensor.NewView CPUTensor.lift BaseTensor.NewView at hr
    dsimp only at hr
    split at hr
    · cases hr
    · next x st hx =>
      simp only [Except.ok.injEq] at hr
      rw [← hr]
      split at hx
      · cases hx
      · split at hx
        · cases hx
        · next view hview =>
          simp only [Except.ok.injEq] at hx
          refine Host.Coherent_alloc h _ view ?_ (by rw [hx]) hco
          unfold CPUTensor.view_ctor at hview
          dsimp only at hview
          split at hview
          · simp only [Except.ok.injEq] at hview
            rw [← hview]
            rfl
          · cases hview
  · intro self
    exact Host.Coherent_of_tensors_eq h _ rfl hco
  · intro t k x
    exact Host.Coherent_of_tensors_eq h _ rfl hco

/-- One `SubTensor` call on a coherent host state: it returns, leaves memory and
the data of every existing object alone, keeps the state coherent, and the
object it returns is the `i`-th sub-tensor view of `t`. -/
theorem CPUTensor.SubTensor_step {α : Type} (h : Host α) (t i : Nat)
    (hco : h.Coherent) (ht : t < h.tensors.count)
    (hrank : 1 < (h.tensors.objs t).rank) (hi : i < (h.tensors.objs t).shape 0) :
    ∃ v h1, CPUTensor.SubTensor h t i = .ok (v, h1)
      ∧ h1.mem = h.mem ∧ h1.brk = h.brk
      ∧ h.tensors.count ≤ h1.tensors.count ∧ v < h1.tensors.count
      ∧ h1.Coherent
      ∧ (∀ k, k < h.tensors.count →
          (h1.tensors.objs k).is_view_ = (h.tensors.objs k).is_view_
          ∧ (h1.tensors.objs k).shape_ = (h.tensors.objs k).shape_
          ∧ (h1.tensors.objs k).size_ = (h.tensors.objs k).size_
          ∧ (h1.tensors.objs k).buffer_ = (h.tensors.objs k).buffer_)
      ∧ CPUTensor.IsSubOf (h1.tensors.objs v) (h.tensors.objs t) i := by
  cases hslot : (h.tensors.objs t).views_.getD i none with
  | some v =>
    refine ⟨v, h, ?_, rfl, rfl, Nat.le_refl _, (hco t ht i v hslot).1, hco,
      fun k _ => ⟨rfl, rfl, rfl, rfl⟩, (hco t ht i v hslot).2⟩
    unfold CPUTensor.SubTensor
    rw [BaseTensor.SubTensor_hit _ _ _ _ _ hrank hi hslot]
    rfl
  | none =>
    obtain ⟨view, hview, hvv, hsub⟩ := CPUTensor.sub_ctor_IsSubOf (h.tensors.objs t)
      (BaseTensor.grow (h.tensors.objs t).views_ i) i
    obtain ⟨st1, vs, hrun, hcount, hobjs, _, hset, hkeep⟩ :=
      BaseTensor.SubTensor_miss CPUTensor.sub_ctor h.tensors t i view hrank hi hslot hview
    have hdata : ∀ k, k < h.tensors.count →
        (st1.objs k).is_view_ = (h.tensors.objs k).is_view_
        ∧ (st1.objs k).shape_ = (h.tensors.objs k).shape_
        ∧ (st1.objs k).size_ = (h.tensors.objs k).size_
        ∧ (st1.objs k).buffer_ = (h.tensors.objs k).buffer_ := by
      intro k hk
      rw [hobjs k]
      by_cases hkt : k = t
      · rw [if_pos hkt, hkt]
        exact ⟨rfl, rfl, rfl, rfl⟩
      · rw [if_neg hkt, if_neg (by omega)]
        exact ⟨rfl, rfl, rfl, rfl⟩
    have hnew : st1.objs h.tensors.count = view := by
      rw [hobjs, if_neg (by omega), if_pos rfl]
    have hlift : ∀ w p m, w < h.tensors.count → p < h.tensors.count →
        CPUTensor.IsSubOf (h.tensors.objs w) (h.tensors.objs p) m →
        CPUTensor.IsSubOf (st1.objs w) (st1.objs p) m := by
      intro w p m hw hp hs
      obtain ⟨a1, a2, a3, a4⟩ := hdata w hw
      obtain ⟨_, b2, _, b4⟩ := hdata p hp
      unfold CPUTensor.IsSubOf at hs ⊢
      rw [a1, a2, a3, a4, b2, b4]
      exact hs
    have hsubT : CPUTensor.IsSubOf (st1.objs h.tensors.count) (st1.objs t) i := by
      obtain ⟨_, b2, _, b4⟩ := hdata t ht
      rw [hnew]
      unfold CPUTensor.IsSubOf at hsub ⊢
      rw [b2, b4]
      exact hsub
    refine ⟨h.tensors.count, { h with tensors := st1 }, ?_, rfl, rfl, ?_, ?_, ?_, hdata, ?_⟩
    · unfold CPUTensor.SubTensor
      rw [hrun]
      rfl
    · show h.tensors.count ≤ st1.count
      omega
    · show h.tensors.count < st1.count
      omega
    · intro p hp m w hw
      have hp1 : p < h.tensors.count + 1 := by
        have : p < st1.count := hp
        omega
      change (st1.objs p).views_.getD m none = some w at hw
      show w < st1.count ∧ CPUTensor.IsSubOf (st1.objs w) (st1.objs p) m
      by_cases hpt : p = t
      · subst hpt
        have hvs : (st1.objs p).views_ = vs := by
          rw [hobjs p, if_pos rfl]
        rw [hvs] at hw
        by_cases hmi : m = i
        · subst hmi
          rw [hset] at hw
          cases hw
          exact ⟨by omega, hsubT⟩
        · rw [hkeep m hmi] at hw
          obtain ⟨hw1, hw2⟩ := hco p ht m w hw
          exact ⟨by omega, hlift w p m hw1 ht hw2⟩
      · by_cases hpc : p = h.tensors.count
        · subst hpc
          rw [hnew, hvv] at hw
          cases hw
        · have hpo : st1.objs p = h.tensors.objs p := by
            rw [hobjs p, if_neg hpt, if_neg hpc]
          rw [hpo] at hw
          obtain ⟨hw1, hw2⟩ := hco p (by omega) m w hw
          exact ⟨by omega, hlift w p m hw1 (by omega) hw2⟩
    · show CPUTensor.IsSubOf (st1.objs h.tensors.count) (h.tensors.objs t) i
      rw [hnew]
      exact hsub

/-- Coordinates in a slice and in the whole tensor: when the index computation of
the view `V` (extents `rest`) run from `c` at dimension `cd` returns `a`, the one of
the tensor `T` (extents `d0 :: rest`) run from a congruent start one dimension
further returns `i * rest.prod + a`. -/
theorem CPUTensor.LinearIndex_shift (T V : CPUTensor) (i d0 : Nat) (rest : List Nat)
    (hT : T.shape_ = ⟨d0 :: rest⟩) (hV : V.shape_ = ⟨rest⟩) (hVs : V.size_ = rest.prod)
    (hTs : (i + 1) * rest.prod ≤ T.size_) (hTM : T.size_ < SIZE_MOD) :
    ∀ (js : List Nat) (c c1 cd a : Nat),
      c1 % SIZE_MOD = (i * (rest.take cd).prod + c) % SIZE_MOD → c1 < SIZE_MOD →
      CPUTensor.LinearIndex V c cd js = .ok a →
      CPUTensor.LinearIndex T c1 (cd + 1) js = .ok (i * rest.prod + a) := by
  have hVrank : V.rank = rest.length := by
    unfold BaseTensor.rank Shape.rank
    rw [hV]
  have hTrank : T.rank = rest.length + 1 := by
    unfold BaseTensor.rank Shape.rank
    rw [hT]
    rfl
  have hexp : (i + 1) * rest.prod = i * rest.prod + rest.prod := by ring
  intro js
  induction js with
  | nil =>
    intro c c1 cd a hcong hc1 hrun
    unfold CPUTensor.LinearIndex at hrun ⊢
    split at hrun
    · cases hrun
    · next hlt =>
      split at hrun
      · cases hrun
      · next hcd =>
        simp only [Except.ok.injEq] at hrun
        subst hrun
        simp only [not_not] at hlt hcd
        rw [hVs] at hlt
        rw [hcd, hVrank, List.take_length, Nat.mod_eq_of_lt hc1,
          Nat.mod_eq_of_lt (by omega)] at hcong
        rw [if_neg (by omega), if_neg (by omega), hcong]
  | cons j js ih =>
    intro c c1 cd a hcong hc1 hrun
    unfold CPUTensor.LinearIndex at hrun ⊢
    split at hrun
    · cases hrun
    · next hcd =>
      simp only [not_not] at hcd
      rw [hVrank] at hcd
      rw [if_neg (by omega)]
      have hshapeV : V.shape cd = rest[cd] := by
        unfold BaseTensor.shape Shape.index
        rw [hV]
        simp [List.getD_eq_getElem?_getD, hcd]
      have hshapeT : T.shape (cd + 1) = rest[cd] := by
        unfold BaseTensor.shape Shape.index
        rw [hT]
        simp [List.getD_eq_getElem?_getD, hcd]
      rw [hshapeV] at hrun
      rw [hshapeT]
      apply ih _ _ _ _ _ (Nat.mod_lt _ (by decide)) hrun
      have htake : (rest.take (cd + 1)).prod = (rest.take cd).prod * rest[cd] := by
        rw [List.take_succ, List.prod_append]
        simp [List.getElem?_eq_getElem hcd]
      have hc : Nat.ModEq SIZE_MOD c1 (i * (rest.take cd).prod + c) := hcong
      show Nat.ModEq SIZE_MOD (((c1 * rest[cd]) % SIZE_MOD + j) % SIZE_MOD)
        (i * (rest.take (cd + 1)).prod + ((c * rest[cd]) % SIZE_MOD + j) % SIZE_MOD)
      rw [htake]
      have h1 : Nat.ModEq SIZE_MOD (((c1 * rest[cd]) % SIZE_MOD + j) % SIZE_MOD)
          (c1 * rest[cd] + j) :=
        (Nat.mod_modEq _ _).trans ((Nat.mod_modEq _ _).add_right _)
      have h2 : Nat.ModEq SIZE_MOD (((c * rest[cd]) % SIZE_MOD + j) % SIZE_MOD)
          (c * rest[cd] + j) :=
        (Nat.mod_modEq _ _).trans ((Nat.mod_modEq _ _).add_right _)
      have h3 : Nat.ModEq SIZE_MOD (c1 * rest[cd] + j)
          ((i * (rest.take cd).prod + c) * rest[cd] + j) :=
        (hc.mul_right _).add_right _
      refine h1.trans (h3.trans ?_)
      have h4 : (i * (rest.take cd).prod + c) * rest[cd] + j
          = i * ((rest.take cd).prod * rest[cd]) + (c * rest[cd] + j) := by ring
      rw [h4]
      exact (h2.symm.add_left _)

/-- Coordinates: when `V` has the element shape of `T` and the size of one slice,
and the element access `V(js)` of the view passes its assertions at linear index
`a`, then the access `T(i, js)` passes its assertions at linear index `i*E + a`. -/
theorem CPUTensor.LinearIndex_sub (T V : CPUTensor) (i : Nat)
    (hinv : T.SizeInv) (hfit : T.shape_.Fits) (hrank : 1 < T.rank) (hi : i < T.shape 0)
    (hV2 : V.shape_ = T.shape_.ElementShape)
    (hV3 : V.size_ = T.shape_.ElementShape.TotalElementCount) (js : List Nat) (a : Nat)
    (hrun : CPUTensor.LinearIndex V 0 0 js = .ok a) :
    CPUTensor.LinearIndex T 0 0 (i :: js)
      = .ok (i * T.shape_.ElementShape.TotalElementCount + a) := by
  obtain ⟨hfe, hrk, _, hle⟩ := Shape.sub_arith T.shape_ i hrank hi hfit
  have hrank1 : 1 < T.shape_.rank := hrank
  have hE : T.shape_.ElementShape.TotalElementCount = T.shape_.ElementShape.data_.prod :=
    Shape.TotalElementCount_of_Fits _ (by omega) hfe
  have hTM : T.size_ < SIZE_MOD := by
    rw [hinv]
    exact Shape.TotalElementCount_lt _
  have hdata : T.shape_ = ⟨T.shape_.index 0 :: T.shape_.ElementShape.data_⟩ := by
    obtain ⟨is_view_, ⟨data⟩, size_, views_, buffer_⟩ := T
    cases data with
    | nil => simp [BaseTensor.rank, Shape.rank] at hrank
    | cons d0 rest => rfl
  have hstep := CPUTensor.LinearIndex_shift T V i (T.shape_.index 0) T.shape_.ElementShape.data_
    hdata hV2 (by rw [hV3, hE]) (by rw [← hE, hinv]; exact hle) hTM js 0
    (((0 * T.shape 0) % SIZE_MOD + i) % SIZE_MOD) 0 a
    (by simp) (Nat.mod_lt _ (by decide)) hrun
  rw [← hE] at hstep
  rw [← hstep]
  conv_lhs => unfold CPUTensor.LinearIndex
  rw [if_neg (by omega)]

/-- One `SubTensor` call on a tensor whose size is its element count, exactly:
the view is the slice `[i*E, (i+1)*E)` of the tensor, `E` being the element count
of one slice. -/
theorem CPUTensor.SubTensor_slice {α : Type} (h : Host α) (t i : Nat)
    (hco : h.Coherent) (ht : t < h.tensors.count)
    (hinv : (h.tensors.objs t).SizeInv) (hfit : (h.tensors.objs t).shape_.Fits)
    (hrank : 1 < (h.tensors.objs t).rank) (hi : i < (h.tensors.objs t).shape 0) :
    ∃ v h1, CPUTensor.SubTensor h t i = .ok (v, h1)
      ∧ h1.mem = h.mem
      ∧ h.tensors.count ≤ h1.tensors.count ∧ v < h1.tensors.count
      ∧ h1.Coherent
      ∧ (∀ k, k < h.tensors.count →
          (h1.tensors.objs k).is_view_ = (h.tensors.objs k).is_view_
          ∧ (h1.tensors.objs k).shape_ = (h.tensors.objs k).shape_
          ∧ (h1.tensors.objs k).size_ = (h.tensors.objs k).size_
          ∧ (h1.tensors.objs k).buffer_ = (h.tensors.objs k).buffer_)
      ∧ (h1.tensors.objs v).is_view_ = true
      ∧ (h1.tensors.objs v).shape_ = (h.tensors.objs t).shape_.ElementShape
      ∧ (h1.tensors.objs v).size_ = (h.tensors.objs t).shape_.ElementShape.TotalElementCount
      ∧ (h1.tensors.objs v).buffer_ = (h.tensors.objs t).buffer_
          + i * (h.tensors.objs t).shape_.ElementShape.TotalElementCount
      ∧ (i + 1) * (h.tensors.objs t).shape_.ElementShape.TotalElementCount
          ≤ (h.tensors.objs t).size_
      ∧ (h1.tensors.objs v).SizeInv ∧ (h1.tensors.objs v).shape_.Fits := by
  obtain ⟨v, h1, hrun, hmem, _, hcnt, hv, hco1, hdata, hsub⟩ :=
    CPUTensor.SubTensor_step h t i hco ht hrank hi
  obtain ⟨hfe, _, hmod, hle⟩ := Shape.sub_arith (h.tensors.objs t).shape_ i hrank hi hfit
  obtain ⟨s1, s2, s3, s4⟩ := hsub
  refine ⟨v, h1, hrun, hmem, hcnt, hv, hco1, hdata, s1, s2, s3, ?_, ?_, ?_, ?_⟩
  · rw [s4, hmod]
  · rw [hinv]
    exact hle
  · unfold BaseTensor.SizeInv
    rw [s3, s2]
  · rw [s2]
    exact hfe

/-! ### C1: sub-tensor views alias their slice -/

/-- C1: on a coherent host state, for a host tensor `t` of rank above one whose
size is its exact element count and for `i < shape(0)`, `SubTensor(i)` returns a
view with the shape `shape().ElementShape()`; with `E` the element count of that
shape, linear element `j` of the view is the cell of linear element `i*E + j` of
`t` (which is an element of `t` for every `j` below the size of the view), so a
write through either is read through the other; in coordinates, whenever the
element access `t[i](js)` returns, `t(i, js)` returns the same cell.  The same
holds one level down:
`t[i][k]` is a view whose linear element `l` is the cell of linear element
`i*E + k*E2 + l` of `t`, `E2` being the element count of one slice of `t[i]`. -/
theorem CPUTensor.SubTensor_aliases {α : Type} (h : Host α) (t i : Nat)
    (hco : h.Coherent) (ht : t < h.tensors.count)
    (hinv : (h.tensors.objs t).SizeInv) (hfit : (h.tensors.objs t).shape_.Fits)
    (hrank : 1 < (h.tensors.objs t).rank) (hi : i < (h.tensors.objs t).shape 0) :
    ∃ v h1, CPUTensor.SubTensor h t i = .ok (v, h1)
      ∧ h1.mem = h.mem
      ∧ (h1.tensors.objs t).shape_ = (h.tensors.objs t).shape_
      ∧ (h1.tensors.objs t).size_ = (h.tensors.objs t).size_
      ∧ (h1.tensors.objs t).buffer_ = (h.tensors.objs t).buffer_
      ∧ (h1.tensors.objs v).is_view_ = true
      ∧ (h1.tensors.objs v).shape_ = (h.tensors.objs t).shape_.ElementShape
      ∧ (h1.tensors.objs v).size_ = (h.tensors.objs t).shape_.ElementShape.TotalElementCount
      ∧ (∀ j, j < (h1.tensors.objs v).size_ →
          i * (h.tensors.objs t).shape_.ElementShape.TotalElementCount + j
            < (h1.tensors.objs t).size_)
      ∧ (∀ j, (h1.tensors.objs v).buffer_ + j = (h1.tensors.objs t).buffer_
          + (i * (h.tensors.objs t).shape_.ElementShape.TotalElementCount + j))
      ∧ (∀ j x, CPUTensor.elem (CPUTensor.write h1 (h1.tensors.objs v) j x)
          (h1.tensors.objs t)
          (i * (h.tensors.objs t).shape_.ElementShape.TotalElementCount + j) = x)
      ∧ (∀ j x, CPUTensor.elem (CPUTensor.write h1 (h1.tensors.objs t)
          (i * (h.tensors.objs t).shape_.ElementShape.TotalElementCount + j) x)
          (h1.tensors.objs v) j = x)
      ∧ (∀ js a, CPUTensor.LinearIndex (h1.tensors.objs v) 0 0 js = .ok a →
          CPUTensor.LinearIndex (h1.tensors.objs t) 0 0 (i :: js)
            = .ok (i * (h.tensors.objs t).shape_.ElementShape.TotalElementCount + a))
      ∧ (∀ js x, CPUTensor.Element h1 (h1.tensors.objs v) js = .ok x →
          CPUTensor.Element h1 (h1.tensors.objs t) (i :: js) = .ok x)
      ∧ ∀ k, 1 < (h1.tensors.objs v).rank → k < (h1.tensors.objs v).shape 0 →
        ∃ w h2, CPUTensor.SubTensor h1 v k = .ok (w, h2)
          ∧ h2.mem = h.mem
          ∧ (h2.tensors.objs t).size_ = (h.tensors.objs t).size_
          ∧ (h2.tensors.objs w).is_view_ = true
          ∧ (h2.tensors.objs w).shape_ = (h.tensors.objs t).shape_.ElementShape.ElementShape
          ∧ (h2.tensors.objs w).size_
              = (h.tensors.objs t).shape_.ElementShape.ElementShape.TotalElementCount
          ∧ (∀ l, l < (h2.tensors.objs w).size_ →
              i * (h.tensors.objs t).shape_.ElementShape.TotalElementCount
                + k * (h.tensors.objs t).shape_.ElementShape.ElementShape.TotalElementCount + l
                < (h2.tensors.objs t).size_)
          ∧ (∀ l, (h2.tensors.objs w).buffer_ + l = (h2.tensors.objs t).buffer_
              + (i * (h.tensors.objs t).shape_.ElementShape.TotalElementCount
                + k * (h.tensors.objs t).shape_.ElementShape.ElementShape.TotalElementCount + l))
          ∧ (∀ l x, CPUTensor.elem (CPUTensor.write h2 (h2.tensors.objs w) l x)
              (h2.tensors.objs t)
              (i * (h.tensors.objs t).shape_.ElementShape.TotalElementCount
                + k * (h.tensors.objs t).shape_.ElementShape.ElementShape.TotalElementCount + l)
              = x)
          ∧ (∀ l x, CPUTensor.elem (CPUTensor.write h2 (h2.tensors.objs t)
              (i * (h.tensors.objs t).shape_.ElementShape.TotalElementCount
                + k * (h.tensors.objs t).shape_.ElementShape.ElementShape.TotalElementCount + l)
              x) (h2.tensors.objs w) l = x) := by
  obtain ⟨v, h1, hrun, hmem, hcnt, hv, hco1, hdata, v1, v2, v3, v4, hle, vinv, vfit⟩ :=
    CPUTensor.SubTensor_slice h t i hco ht hinv hfit hrank hi
  obtain ⟨_, t2, t3, t4⟩ := hdata t ht
  have hcell : ∀ j, (h1.tensors.objs v).buffer_ + j = (h1.tensors.objs t).buffer_
      + (i * (h.tensors.objs t).shape_.ElementShape.TotalElementCount + j) := by
    intro j
    rw [v4, t4]
    omega
  have hlin : ∀ js a, CPUTensor.LinearIndex (h1.tensors.objs v) 0 0 js = .ok a →
      CPUTensor.LinearIndex (h1.tensors.objs t) 0 0 (i :: js)
        = .ok (i * (h.tensors.objs t).shape_.ElementShape.TotalElementCount + a) := by
    intro js a hja
    have := CPUTensor.LinearIndex_sub (h1.tensors.objs t) (h1.tensors.objs v) i
      (by unfold BaseTensor.SizeInv; rw [t2, t3]; exact hinv) (by rw [t2]; exact hfit)
      (by unfold BaseTensor.rank; rw [t2]; exact hrank)
      (by unfold BaseTensor.shape; rw [t2]; exact hi)
      (by rw [t2]; exact v2) (by rw [t2]; exact v3) js a hja
    rw [t2] at this
    exact this
  refine ⟨v, h1, hrun, hmem, t2, t3, t4, v1, v2, v3, ?_, hcell, ?_, ?_, hlin, ?_, ?_⟩
  · intro j hj
    rw [v3] at hj
    rw [t3]
    have : (i + 1) * (h.tensors.objs t).shape_.ElementShape.TotalElementCount
        = i * (h.tensors.objs t).shape_.ElementShape.TotalElementCount
          + (h.tensors.objs t).shape_.ElementShape.TotalElementCount := by ring
    omega
  · intro j x
    exact CPUTensor.elem_write_same _ _ _ _ _ _ (hcell j).symm
  · intro j x
    exact CPUTensor.elem_write_same _ _ _ _ _ _ (hcell j)
  · intro js x hx
    unfold CPUTensor.Element at hx ⊢
    split at hx
    · cases hx
    · next a ha =>
      rw [hlin js a ha]
      simp only [Except.ok.injEq] at hx ⊢
      rw [← hx]
      unfold CPUTensor.elem
      rw [hcell a]
  · intro k hrk hk
    obtain ⟨w, h2, hrun2, hmem2, hcnt2, _, _, hdata2, w1, w2, w3, w4, hle2, _, _⟩ :=
      CPUTensor.SubTensor_slice h1 v k hco1 hv vinv vfit hrk hk
    obtain ⟨_, _, u3, u4⟩ := hdata2 t (by omega)
    have hcell2 : ∀ l, (h2.tensors.objs w).buffer_ + l = (h2.tensors.objs t).buffer_
        + (i * (h.tensors.objs t).shape_.ElementShape.TotalElementCount
          + k * (h.tensors.objs t).shape_.ElementShape.ElementShape.TotalElementCount + l) := by
      intro l
      rw [w4, u4, v4, t4, v2]
      omega
    rw [v2] at w2 w3 hle2
    rw [v3] at hle2
    refine ⟨w, h2, hrun2, hmem2.trans hmem, u3.trans t3, w1, w2, w3, ?_, hcell2, ?_, ?_⟩
    · intro l hl
      rw [w3] at hl
      rw [u3, t3]
      have e1 : (i + 1) * (h.tensors.objs t).shape_.ElementShape.TotalElementCount
          = i * (h.tensors.objs t).shape_.ElementShape.TotalElementCount
            + (h.tensors.objs t).shape_.ElementShape.TotalElementCount := by ring
      have e2 : (k + 1) * (h.tensors.objs t).shape_.ElementShape.ElementShape.TotalElementCount
          = k * (h.tensors.objs t).shape_.ElementShape.ElementShape.TotalElementCount
            + (h.tensors.objs t).shape_.ElementShape.ElementShape.TotalElementCount := by ring
      omega
    · intro l x
      exact CPUTensor.elem_write_same _ _ _ _ _ _ (hcell2 l).symm
    · intro l x
      exact CPUTensor.elem_write_same _ _ _ _ _ _ (hcell2 l)

/-- C1 (witness): on the example state, `t[1]` of the `(2, 3)` tensor is a view of
shape `(3)` whose element `j` is the cell of element `3 + j` of `t`. -/
theorem CPUTensor.SubTensor_aliases_witness :
    (exampleHost.Coherent ∧ 0 < exampleHost.tensors.count
      ∧ (exampleHost.tensors.objs 0).SizeInv ∧ (exampleHost.tensors.objs 0).shape_.Fits
      ∧ 1 < (exampleHost.tensors.objs 0).rank ∧ 1 < (exampleHost.tensors.objs 0).shape 0)
    ∧ ∃ v h1, CPUTensor.SubTensor exampleHost 0 1 = .ok (v, h1)
        ∧ (h1.tensors.objs v).is_view_ = true
        ∧ (h1.tensors.objs v).shape_ = ⟨[3]⟩
        ∧ ∀ j, (h1.tensors.objs v).buffer_ + j = (h1.tensors.objs 0).buffer_ + (1 * 3 + j) := by
  refine ⟨⟨exampleHost_Coherent, by decide, rfl, by decide, by decide, by decide⟩, ?_⟩
  obtain ⟨v, h1, hrun, _, _, _, _, v1, v2, _, _, hcell, _⟩ :=
    CPUTensor.SubTensor_aliases exampleHost 0 1 exampleHost_Coherent (by decide) rfl
      (by decide) (by decide) (by decide)
  exact ⟨v, h1, hrun, v1, v2, hcell⟩

/-! ### C2: chains of buffer views -/

/-- Depth one and two: `base.NewView(o1, s1)` denotes the bytes `[o1, o1 + s1)` of
the allocation of an original buffer `base`, and `base.NewView(o1, s1).NewView(o2,
s2)` the bytes `[o1 + o2, o1 + o2 + s2)`. -/
theorem Buffer.NewViews_depth_le_two (m : cl_mem) (sz o1 s1 o2 s2 : Nat) (hm : m.is_sub = false)
    (hsz : m.size = sz) (h1 : o1 + s1 ≤ sz) (h2 : o2 + s2 ≤ s1) (hs2 : 0 < s2) :
    (Buffer.CLBuffer m sz).chainRegion [(o1, s1)]
        = some { alloc := m.alloc, origin := m.origin + o1, size := s1, is_sub := true }
    ∧ (Buffer.CLBuffer m sz).chainRegion [(o1, s1), (o2, s2)]
        = some { alloc := m.alloc, origin := m.origin + (o2 + o1), size := s2,
                 is_sub := true } := by
  have hs1 : s1 ≠ 0 := by omega
  have hs2n : s2 ≠ 0 := by omega
  have c1 : clCreateSubBuffer m o1 s1
      = some { alloc := m.alloc, origin := m.origin + o1, size := s1, is_sub := true } := by
    unfold clCreateSubBuffer
    rw [hm, hsz]
    simp [hs1, Nat.not_lt.mpr h1]
  have c2 : clCreateSubBuffer m (o2 + o1) s2
      = some { alloc := m.alloc, origin := m.origin + (o2 + o1), size := s2, is_sub := true } := by
    unfold clCreateSubBuffer
    rw [hm, hsz]
    have : ¬ (sz < o2 + o1 + s2) := by omega
    simp [hs2n, this]
  constructor
  · simp [Buffer.chainRegion, Buffer.NewViews, Buffer.NewView, h1, c1, Buffer.cl_buffer]
  · simp [Buffer.chainRegion, Buffer.NewViews, Buffer.NewView, h1, h2, c1, c2, Buffer.cl_buffer]

/-- C2 (failing input): on an original buffer of 8192 bytes the chain
`NewView(4096, 4096).NewView(0, 4096).NewView(0, 4096)` returns a view of the bytes
`[0, 4096)` of the allocation, not of `[4096 + 0 + 0, 4096 + 0 + 0 + 4096)`;
accordingly, for a device tensor `g` of shape `(2, 1, 1, 1024)`, `g[1][0][0]`
stands for the bytes `[0, 4096)`, the first 1024 floats, whereas the host
`h[1][0][0]` starts 1024 elements into the buffer of `h`. -/
theorem Buffer.NewViews_depth_three_wrong :
    (Buffer.CLBuffer { alloc := 0, origin := 0, size := 8192, is_sub := false } 8192).chainRegion
        [(4096, 4096), (0, 4096), (0, 4096)]
      = some { alloc := 0, origin := 0, size := 4096, is_sub := true }
    ∧ (0 : Nat) ≠ 4096 + 0 + 0
    ∧ GPUTensor.nestedRegion exampleDevice 0 [1, 0, 0]
      = some { alloc := 0, origin := 0, size := 4096, is_sub := true }
    ∧ CPUTensor.nestedOffset exampleHost4 0 [1, 0, 0] = some 1024
    ∧ (0 : Nat) ≠ 1024 * sizeof_float := by
  refine ⟨by decide, by decide, by decide, by decide, by decide⟩

/-! ### C3: mutating a sub-tensor view in place -/

/-- C3: on a coherent host state, for a host tensor `t` of rank above one whose
size is its exact element count and for `i < shape(0)`, let `E` be the element
count of one slice.  After `t[i].Clear()` the linear elements `[i*E, (i+1)*E)` of
`t` are zero and every other element of `t` is as before; after `t[i] = row`, for
a tensor `row` of the shape of `t[i]` whose cells the forward copy does not
overwrite before reading them (they lie apart from the slice or do not start
before it), the assignment is accepted, linear element `i*E + j` of `t` is
element `j` of `row` and every other element of `t` is as before.  In both cases
the shape and the size of `t` are unchanged. -/
theorem CPUTensor.SubTensor_mutation_frame {α : Type} [Zero α] (h : Host α) (t i row : Nat)
    (hco : h.Coherent) (ht : t < h.tensors.count)
    (hinv : (h.tensors.objs t).SizeInv) (hfit : (h.tensors.objs t).shape_.Fits)
    (hrank : 1 < (h.tensors.objs t).rank) (hi : i < (h.tensors.objs t).shape 0) :
    ∃ v h1, CPUTensor.SubTensor h t i = .ok (v, h1)
      ∧ h1.mem = h.mem
      ∧ ((∀ k, k < (h.tensors.objs t).size_ →
            CPUTensor.elem (CPUTensor.Clear h1 v) ((CPUTensor.Clear h1 v).tensors.objs t) k
              = if i * (h.tensors.objs t).shape_.ElementShape.TotalElementCount ≤ k
                    ∧ k < (i + 1) * (h.tensors.objs t).shape_.ElementShape.TotalElementCount
                then 0 else CPUTensor.elem h (h.tensors.objs t) k)
          ∧ ((CPUTensor.Clear h1 v).tensors.objs t).shape_ = (h.tensors.objs t).shape_
          ∧ ((CPUTensor.Clear h1 v).tensors.objs t).size_ = (h.tensors.objs t).size_)
      ∧ ((h1.tensors.objs row).shape_ = (h1.tensors.objs v).shape_ →
          (h1.tensors.objs row).SizeInv →
          ((h1.tensors.objs v).buffer_ ≤ (h1.tensors.objs row).buffer_
            ∨ (h1.tensors.objs row).buffer_ + (h1.tensors.objs row).size_
                ≤ (h1.tensors.objs v).buffer_) →
          ∃ h2, CPUTensor.assign h1 v row = .ok h2
            ∧ (∀ k, k < (h.tensors.objs t).size_ →
                CPUTensor.elem h2 (h2.tensors.objs t) k
                  = if i * (h.tensors.objs t).shape_.ElementShape.TotalElementCount ≤ k
                        ∧ k < (i + 1) * (h.tensors.objs t).shape_.ElementShape.TotalElementCount
                    then CPUTensor.elem h1 (h1.tensors.objs row)
                      (k - i * (h.tensors.objs t).shape_.ElementShape.TotalElementCount)
                    else CPUTensor.elem h (h.tensors.objs t) k)
            ∧ (h2.tensors.objs t).shape_ = (h.tensors.objs t).shape_
            ∧ (h2.tensors.objs t).size_ = (h.tensors.objs t).size_) := by
  obtain ⟨v, h1, hrun, hmem, hcnt, hv, hco1, hdata, v1, v2, v3, v4, hle, vinv, vfit⟩ :=
    CPUTensor.SubTensor_slice h t i hco ht hinv hfit hrank hi
  obtain ⟨_, t2, t3, t4⟩ := hdata t ht
  have hexp : (i + 1) * (h.tensors.objs t).shape_.ElementShape.TotalElementCount
      = i * (h.tensors.objs t).shape_.ElementShape.TotalElementCount
        + (h.tensors.objs t).shape_.ElementShape.TotalElementCount := by ring
  have hvt : v ≠ t := by
    intro hvt
    rw [hvt, t2] at v2
    have hr := (Shape.sub_arith (h.tensors.objs t).shape_ i hrank hi hfit).2.1
    rw [← v2] at hr
    omega
  refine ⟨v, h1, hrun, hmem, ⟨?_, t2, t3⟩, ?_⟩
  · intro k hk
    show Host.memset h1.mem (h1.tensors.objs v).buffer_ (h1.tensors.objs v).size_
        ((h1.tensors.objs t).buffer_ + k) = _
    rw [Host.memset_apply, v3, v4, t4, hmem, hexp]
    by_cases hin : i * (h.tensors.objs t).shape_.ElementShape.TotalElementCount ≤ k
        ∧ k < i * (h.tensors.objs t).shape_.ElementShape.TotalElementCount
          + (h.tensors.objs t).shape_.ElementShape.TotalElementCount
    · rw [if_pos hin, if_pos (by omega)]
    · rw [if_neg hin, if_neg (by omega)]
      rfl
  · intro hshape hrinv hsafe
    have hrsize : (h1.tensors.objs row).size_
        = (h.tensors.objs t).shape_.ElementShape.TotalElementCount := by
      rw [hrinv, hshape, v2]
    have hcheck : BaseTensor.assign_check (h1.tensors.objs v) (h1.tensors.objs row) ≠ false := by
      intro hc
      exact ((BaseTensor.assign_check_eq_false _ _).mp hc).2 hshape.symm
    by_cases hvr : v = row
    · refine ⟨h1, ?_, ?_, t2, t3⟩
      · unfold CPUTensor.assign
        rw [if_neg hcheck, if_pos hvr]
      · intro k hk
        unfold CPUTensor.elem
        rw [← hvr, v4, t4, hmem]
        split
        · congr 1
          omega
        · rfl
    · obtain ⟨hA, hO, hM⟩ := CPUTensor.assign_body_objs h1 v row
      have hto : (CPUTensor.assign_body h1 v row).tensors.objs t = h1.tensors.objs t :=
        hO t (Ne.symm hvt)
      refine ⟨CPUTensor.assign_body h1 v row, ?_, ?_, by rw [hto, t2], by rw [hto, t3]⟩
      · unfold CPUTensor.assign
        rw [if_neg hcheck, if_neg hvr]
      · intro k hk
        unfold CPUTensor.elem
        rw [hto, hM, if_neg (by rw [v3, hrsize]; exact fun hn => hn rfl),
          if_neg (by rw [v3, hrsize]; exact fun hn => hn rfl),
          Host.copy_apply _ _ _ _ (by omega), hrsize, v4, t4, hmem, hexp]
        by_cases hin : i * (h.tensors.objs t).shape_.ElementShape.TotalElementCount ≤ k
            ∧ k < i * (h.tensors.objs t).shape_.ElementShape.TotalElementCount
              + (h.tensors.objs t).shape_.ElementShape.TotalElementCount
        · rw [if_pos hin, if_pos (by omega)]
          congr 1
          omega
        · rw [if_neg hin, if_neg (by omega)]

/-- C3 (witness): on the example state, clearing `t[1]` of the `(2, 3)` tensor
zeroes the elements `3, 4, 5` of `t` and keeps the elements `0, 1, 2`. -/
theorem CPUTensor.SubTensor_mutation_frame_witness :
    (exampleHost.Coherent ∧ 0 < exampleHost.tensors.count
      ∧ (exampleHost.tensors.objs 0).SizeInv ∧ (exampleHost.tensors.objs 0).shape_.Fits
      ∧ 1 < (exampleHost.tensors.objs 0).rank ∧ 1 < (exampleHost.tensors.objs 0).shape 0)
    ∧ ∃ v h1, CPUTensor.SubTensor exampleHost 0 1 = .ok (v, h1)
        ∧ CPUTensor.elem (CPUTensor.Clear h1 v) ((CPUTensor.Clear h1 v).tensors.objs 0) 4 = 0
        ∧ CPUTensor.elem (CPUTensor.Clear h1 v) ((CPUTensor.Clear h1 v).tensors.objs 0) 2 = 12 := by
  refine ⟨⟨exampleHost_Coherent, by decide, rfl, by decide, by decide, by decide⟩, ?_⟩
  obtain ⟨v, h1, hrun, _, ⟨hclear, _, _⟩, _⟩ :=
    CPUTensor.SubTensor_mutation_frame exampleHost 0 1 0 exampleHost_Coherent (by decide)
      rfl (by decide) (by decide) (by decide)
  exact ⟨v, h1, hrun, hclear 4 (by decide), hclear 2 (by decide)⟩

/-! ### C4: reshape-views -/

/-- Reshape-views of host tensors: for a host tensor `self` and a shape `s` with
`s.TotalElementCount() == size()`, `NewView(s)` returns a new object that has shape
`s`, the size of `self`, `is_view` set and the buffer of `self`: linear element `k`
of either is the same cell, a write through one is read through the other, and
`Reshape` on the view returns `false` and changes nothing.  Memory and all
existing objects are untouched. -/
theorem CPUTensor.NewView_aliases {α : Type} (h : Host α) (self : Nat) (s : Shape)
    (hself : self < h.tensors.count)
    (hs : s.TotalElementCount = (h.tensors.objs self).size_) :
    ∃ h1, CPUTensor.NewView h self s = .ok (h.tensors.count, h1)
      ∧ h1.mem = h.mem
      ∧ h1.tensors.count = h.tensors.count + 1
      ∧ (∀ k, k < h.tensors.count → h1.tensors.objs k = h.tensors.objs k)
      ∧ (h1.tensors.objs h.tensors.count).shape_ = s
      ∧ (h1.tensors.objs h.tensors.count).size_ = (h1.tensors.objs self).size_
      ∧ (h1.tensors.objs h.tensors.count).is_view_ = true
      ∧ (h1.tensors.objs h.tensors.count).buffer_ = (h1.tensors.objs self).buffer_
      ∧ (∀ k x, CPUTensor.elem (CPUTensor.write h1 (h1.tensors.objs self) k x)
                  (h1.tensors.objs h.tensors.count) k = x)
      ∧ (∀ k x, CPUTensor.elem (CPUTensor.write h1 (h1.tensors.objs h.tensors.count) k x)
                  (h1.tensors.objs self) k = x)
      ∧ (∀ s2, (CPUTensor.Reshape h1 h.tensors.count s2).1 = false
              ∧ (CPUTensor.Reshape h1 h.tensors.count s2).2 = h1) := by
  have hv : CPUTensor.view_ctor (h.tensors.objs self) s
      = .ok { (BaseTensor.ctor s (h.tensors.objs self).buffer_ : CPUTensor) with
              is_view_ := true } := by
    unfold CPUTensor.view_ctor
    dsimp only
    rw [if_pos (by exact hs)]
  have hrun : CPUTensor.NewView h self s = .ok (h.tensors.count,
      { h with tensors := (h.tensors.alloc
          { (BaseTensor.ctor s (h.tensors.objs self).buffer_ : CPUTensor) with
            is_view_ := true }).2 }) := by
    unfold CPUTensor.NewView BaseTensor.NewView
    dsimp only
    rw [if_neg (by simpa using hs), hv]
    rfl
  have hold : ∀ k, k < h.tensors.count →
      (h.tensors.alloc { (BaseTensor.ctor s (h.tensors.objs self).buffer_ : CPUTensor) with
            is_view_ := true }).2.objs k = h.tensors.objs k := by
    intro k hk
    rw [Store.alloc_objs, if_neg (by omega)]
  have hnew : (h.tensors.alloc
      { (BaseTensor.ctor s (h.tensors.objs self).buffer_ : CPUTensor) with
            is_view_ := true }).2.objs h.tensors.count
      = { (BaseTensor.ctor s (h.tensors.objs self).buffer_ : CPUTensor) with
            is_view_ := true } := by
    rw [Store.alloc_objs, if_pos rfl]
  refine ⟨_, hrun, rfl, rfl, hold, ?_, ?_, ?_, ?_, ?_, ?_, ?_⟩
  · show (Store.objs _ _).shape_ = s
    rw [hnew]
    rfl
  · show (Store.objs _ _).size_ = (Store.objs _ _).size_
    rw [hnew, hold self hself]
    exact hs
  · show (Store.objs _ _).is_view_ = true
    rw [hnew]
  · show (Store.objs _ _).buffer_ = (Store.objs _ _).buffer_
    rw [hnew, hold self hself]
    rfl
  · intro k x
    apply CPUTensor.elem_write_same
    show (Store.objs _ _).buffer_ + k = (Store.objs _ _).buffer_ + k
    rw [hnew, hold self hself]
    rfl
  · intro k x
    apply CPUTensor.elem_write_same
    show (Store.objs _ _).buffer_ + k = (Store.objs _ _).buffer_ + k
    rw [hnew, hold self hself]
    rfl
  · intro s2
    have hfalse : (BaseTensor.Reshape (h.tensors.alloc
        { (BaseTensor.ctor s (h.tensors.objs self).buffer_ : CPUTensor) with
            is_view_ := true }).2 h.tensors.count s2).1 = false := by
      cases hr : (BaseTensor.Reshape (h.tensors.alloc
        { (BaseTensor.ctor s (h.tensors.objs self).buffer_ : CPUTensor) with
            is_view_ := true }).2 h.tensors.count s2).1 with
      | false => rfl
      | true =>
        have := ((BaseTensor.Reshape_fst _ _ _).mp hr).1
        rw [hnew] at this
        cases this
    refine ⟨hfalse, ?_⟩
    unfold CPUTensor.Reshape
    dsimp only
    rw [BaseTensor.Reshape_false _ _ _ hfalse]

/-- C4 (failing input): for a device tensor `g` of shape `(2, 1, 1, 1024)` the
sub-tensor `g[1][0]` stands for the bytes `[4096, 8192)` of the allocation, but
its reshape-view `g[1][0].NewView(Shape({1024}))` stands for the bytes
`[0, 4096)`: element `k` of the view is not the cell of element `k` of the tensor
it was taken from. -/
theorem GPUTensor.NewView_of_nested_wrong :
    GPUTensor.nestedRegion exampleDevice 0 [1, 0]
      = some { alloc := 0, origin := 4096, size := 4096, is_sub := true }
    ∧ GPUTensor.nestedViewRegion exampleDevice 0 [1, 0] ⟨[1024]⟩
      = some { alloc := 0, origin := 0, size := 4096, is_sub := true } := by
  refine ⟨by decide, by decide⟩

/-! ### C5: `Reshape` -/

/-- C5: `Reshape(new_shape)` returns `true` if and only if the tensor is not a view
and `new_shape` has the element count of the current shape.  When it returns
`true` the shape of the tensor is `new_shape`, while its size, buffer, flags and
view table, every other object and the whole memory (hence every element) are as
before; when it returns `false` the whole state is as before.  Stated for a host
tensor `self` and a device tensor `g` (the method is shared). -/
theorem BaseTensor.Reshape_spec {α : Type} (h : Host α) (d : Device α) (self g : Nat)
    (new_shape : Shape) :
    (((CPUTensor.Reshape h self new_shape).1 = true ↔
        ((h.tensors.objs self).is_view_ = false
          ∧ new_shape.TotalElementCount = (h.tensors.objs self).shape_.TotalElementCount))
      ∧ ((CPUTensor.Reshape h self new_shape).1 = true →
          ((CPUTensor.Reshape h self new_shape).2.tensors.objs self).shape_ = new_shape
          ∧ ((CPUTensor.Reshape h self new_shape).2.tensors.objs self).size_
              = (h.tensors.objs self).size_
          ∧ ((CPUTensor.Reshape h self new_shape).2.tensors.objs self).buffer_
              = (h.tensors.objs self).buffer_
          ∧ ((CPUTensor.Reshape h self new_shape).2.tensors.objs self).is_view_
              = (h.tensors.objs self).is_view_
          ∧ ((CPUTensor.Reshape h self new_shape).2.tensors.objs self).views_
              = (h.tensors.objs self).views_
          ∧ (∀ k, k ≠ self →
              (CPUTensor.Reshape h self new_shape).2.tensors.objs k = h.tensors.objs k)
          ∧ (CPUTensor.Reshape h self new_shape).2.mem = h.mem
          ∧ ∀ k, CPUTensor.elem (CPUTensor.Reshape h self new_shape).2
                ((CPUTensor.Reshape h self new_shape).2.tensors.objs self) k
              = CPUTensor.elem h (h.tensors.objs self) k)
      ∧ ((CPUTensor.Reshape h self new_shape).1 = false →
          (CPUTensor.Reshape h self new_shape).2 = h))
    ∧ (((GPUTensor.Reshape d g new_shape).1 = true ↔
        ((d.tensors.objs g).is_view_ = false
          ∧ new_shape.TotalElementCount = (d.tensors.objs g).shape_.TotalElementCount))
      ∧ ((GPUTensor.Reshape d g new_shape).1 = true →
          ((GPUTensor.Reshape d g new_shape).2.tensors.objs g).shape_ = new_shape
          ∧ ((GPUTensor.Reshape d g new_shape).2.tensors.objs g).size_
              = (d.tensors.objs g).size_
          ∧ ((GPUTensor.Reshape d g new_shape).2.tensors.objs g).buffer_
              = (d.tensors.objs g).buffer_
          ∧ (∀ k, k ≠ g →
              (GPUTensor.Reshape d g new_shape).2.tensors.objs k = d.tensors.objs k)
          ∧ (GPUTensor.Reshape d g new_shape).2.dmem = d.dmem)
      ∧ ((GPUTensor.Reshape d g new_shape).1 = false →
          (GPUTensor.Reshape d g new_shape).2 = d)) := by
  refine ⟨⟨BaseTensor.Reshape_fst h.tensors self new_shape, ?_, ?_⟩,
    ⟨BaseTensor.Reshape_fst d.tensors g new_shape, ?_, ?_⟩⟩
  · intro ht
    have hs := BaseTensor.Reshape_true h.tensors self new_shape ht
    have hobj : (CPUTensor.Reshape h self new_shape).2.tensors.objs self
        = { h.tensors.objs self with shape_ := new_shape } := by
      show (BaseTensor.Reshape h.tensors self new_shape).2.objs self = _
      rw [hs, Store.set_objs, if_pos rfl]
    refine ⟨by rw [hobj], by rw [hobj], by rw [hobj], by rw [hobj], by rw [hobj], ?_, rfl, ?_⟩
    · intro k hk
      show (BaseTensor.Reshape h.tensors self new_shape).2.objs k = _
      rw [hs, Store.set_objs, if_neg hk]
    · intro k
      unfold CPUTensor.elem
      rw [hobj]
      rfl
  · intro hf
    have hs := BaseTensor.Reshape_false h.tensors self new_shape hf
    show ({ h with tensors := (BaseTensor.Reshape h.tensors self new_shape).2 } : Host α) = h
    rw [hs]
  · intro ht
    have hs := BaseTensor.Reshape_true d.tensors g new_shape ht
    have hobj : (GPUTensor.Reshape d g new_shape).2.tensors.objs g
        = { d.tensors.objs g with shape_ := new_shape } := by
      show (BaseTensor.Reshape d.tensors g new_shape).2.objs g = _
      rw [hs, Store.set_objs, if_pos rfl]
    refine ⟨by rw [hobj], by rw [hobj], by rw [hobj], ?_, rfl⟩
    intro k hk
    show (BaseTensor.Reshape d.tensors g new_shape).2.objs k = _
    rw [hs, Store.set_objs, if_neg hk]
  · intro hf
    have hs := BaseTensor.Reshape_false d.tensors g new_shape hf
    show ({ d with tensors := (BaseTensor.Reshape d.tensors g new_shape).2 } : Device α) = d
    rw [hs]

/-- C5 (witness): reshaping the `(2, 3)` tensor of the example state to `(3, 2)`
succeeds and installs the new shape. -/
theorem BaseTensor.Reshape_spec_witness :
    (CPUTensor.Reshape exampleHost 0 ⟨[3, 2]⟩).1 = true
    ∧ ((CPUTensor.Reshape exampleHost 0 ⟨[3, 2]⟩).2.tensors.objs 0).shape_ = ⟨[3, 2]⟩
    ∧ (GPUTensor.Reshape exampleDevice 0 ⟨[3, 2]⟩).1 = false
    ∧ (GPUTensor.Reshape exampleDevice 0 ⟨[3, 2]⟩).2 = exampleDevice :=
  ⟨(BaseTensor.Reshape_spec exampleHost exampleDevice 0 0 ⟨[3, 2]⟩).1.1.mpr
      ⟨by decide, by decide⟩,
   ((BaseTensor.Reshape_spec exampleHost exampleDevice 0 0 ⟨[3, 2]⟩).1.2.1
      ((BaseTensor.Reshape_spec exampleHost exampleDevice 0 0 ⟨[3, 2]⟩).1.1.mpr
        ⟨by decide, by decide⟩)).1,
   by decide,
   (BaseTensor.Reshape_spec exampleHost exampleDevice 0 0 ⟨[3, 2]⟩).2.2.2 (by decide)⟩

/-! ### C6: rejected assignments -/

/-- C6: the assignment `a = b` of host tensors is stopped by its `Check` if and only
if `a` is a view and the shapes of `a` and `b` differ; it stops for no other
reason, and the state at the stop is the state before the assignment.  The
assignment `ga = gb` of device tensors is stopped by its `Check` under the same
condition, again with the state untouched. -/
theorem assign_rejected_iff {α : Type} (h : Host α) (d : Device α) (a b ga gb : Nat) :
    ((∃ h1, CPUTensor.assign h a b = .error (Fault.Check, h1)) ↔
        ((h.tensors.objs a).is_view_ = true
          ∧ (h.tensors.objs a).shape_ ≠ (h.tensors.objs b).shape_))
    ∧ (∀ f h1, CPUTensor.assign h a b = .error (f, h1) → f = Fault.Check ∧ h1 = h)
    ∧ ((∃ d1, GPUTensor.assign d ga gb = .error (Fault.Check, d1)) ↔
        ((d.tensors.objs ga).is_view_ = true
          ∧ (d.tensors.objs ga).shape_ ≠ (d.tensors.objs gb).shape_))
    ∧ (∀ d1, GPUTensor.assign d ga gb = .error (Fault.Check, d1) → d1 = d) := by
  have hcpu : ∀ f h1, CPUTensor.assign h a b = .error (f, h1) →
      (f = Fault.Check ∧ h1 = h) ∧ ((h.tensors.objs a).is_view_ = true
          ∧ (h.tensors.objs a).shape_ ≠ (h.tensors.objs b).shape_) := by
    intro f h1 he
    unfold CPUTensor.assign at he
    by_cases hc : BaseTensor.assign_check (h.tensors.objs a) (h.tensors.objs b) = false
    · rw [if_pos hc] at he
      simp only [Except.error.injEq, Prod.mk.injEq] at he
      exact ⟨⟨he.1.symm, he.2.symm⟩, (BaseTensor.assign_check_eq_false _ _).mp hc⟩
    · rw [if_neg hc] at he
      split at he <;> cases he
  have hgpu : ∀ d1, GPUTensor.assign d ga gb = .error (Fault.Check, d1) →
      d1 = d ∧ ((d.tensors.objs ga).is_view_ = true
          ∧ (d.tensors.objs ga).shape_ ≠ (d.tensors.objs gb).shape_) := by
    intro d1 he
    unfold GPUTensor.assign at he
    by_cases hc : BaseTensor.assign_check (d.tensors.objs ga) (d.tensors.objs gb) = false
    · rw [if_pos hc] at he
      simp only [Except.error.injEq, Prod.mk.injEq, true_and] at he
      exact ⟨he.symm, (BaseTensor.assign_check_eq_false _ _).mp hc⟩
    · rw [if_neg hc] at he
      split at he
      · cases he
      · unfold GPUTensor.assign_body at he
        exact absurd rfl (GPUTensor.transferData_error _ _ _ _ _ he)
  refine ⟨⟨?_, ?_⟩, fun f h1 he => (hcpu f h1 he).1, ⟨?_, ?_⟩, fun d1 he => (hgpu d1 he).1⟩
  · rintro ⟨h1, he⟩
    exact (hcpu _ h1 he).2
  · intro hvs
    refine ⟨h, ?_⟩
    unfold CPUTensor.assign
    rw [if_pos ((BaseTensor.assign_check_eq_false _ _).mpr hvs)]
  · rintro ⟨d1, he⟩
    exact (hgpu d1 he).2
  · intro hvs
    refine ⟨d, ?_⟩
    unfold GPUTensor.assign
    rw [if_pos ((BaseTensor.assign_check_eq_false _ _).mpr hvs)]

/-- C6 (witness): in the example state with the view `t[1]`, assigning the whole
`(2, 3)` tensor to that view is stopped by the `Check`, the state being as before. -/
theorem assign_rejected_iff_witness :
    CPUTensor.assign exampleHostView 1 0 = .error (Fault.Check, exampleHostView) := by
  obtain ⟨h2, he⟩ := (assign_rejected_iff exampleHostView exampleDevice 1 0 0 0).1.mpr
    ⟨by decide, by decide⟩
  rw [he, ((assign_rejected_iff exampleHostView exampleDevice 1 0 0 0).2.1 _ _ he).2]

/-! ### C7: copies -/

theorem Host.havoc_apply {α : Type} (mem junk : Nat → α) (p n a : Nat) :
    Host.havoc mem junk p n a = if p ≤ a ∧ a < p + n then junk a else mem a := rfl

/-- Copies of host tensors.  Let `b` be a host tensor whose cells are allocated.
The tensor made by the copy constructor from `b` has the shape and size of `b`, at
every linear index the element of `b`, is not a view (whether or not `b` is one)
and has its own cells: `b` and its elements are unchanged by the construction and
by any later write to an element of the copy.  After an accepted assignment `a = b`
in which the cells of `b` lie outside the block of `a` (whatever shape and size `a`
had), `a` has the shape and size of `b` and at every linear index the element of
`b`, and `b` and its elements are unchanged. -/
theorem CPUTensor.copy_and_assign {α : Type} (h : Host α) (a b : Nat)
    (hb : b < h.tensors.count)
    (hbk : (h.tensors.objs b).buffer_ + (h.tensors.objs b).size_ ≤ h.brk) :
    (((CPUTensor.copy_ctor h b).2.tensors.objs (CPUTensor.copy_ctor h b).1).shape_
        = (h.tensors.objs b).shape_
      ∧ ((CPUTensor.copy_ctor h b).2.tensors.objs (CPUTensor.copy_ctor h b).1).size_
        = (h.tensors.objs b).size_
      ∧ ((CPUTensor.copy_ctor h b).2.tensors.objs (CPUTensor.copy_ctor h b).1).is_view_ = false
      ∧ (CPUTensor.copy_ctor h b).2.tensors.objs b = h.tensors.objs b
      ∧ (∀ k, k < (h.tensors.objs b).size_ →
          CPUTensor.elem (CPUTensor.copy_ctor h b).2
              ((CPUTensor.copy_ctor h b).2.tensors.objs (CPUTensor.copy_ctor h b).1) k
            = CPUTensor.elem h (h.tensors.objs b) k
          ∧ CPUTensor.elem (CPUTensor.copy_ctor h b).2 (h.tensors.objs b) k
            = CPUTensor.elem h (h.tensors.objs b) k)
      ∧ (∀ k x j, j < (h.tensors.objs b).size_ →
          CPUTensor.elem
              (CPUTensor.write (CPUTensor.copy_ctor h b).2
                ((CPUTensor.copy_ctor h b).2.tensors.objs (CPUTensor.copy_ctor h b).1) k x)
              (h.tensors.objs b) j
            = CPUTensor.elem h (h.tensors.objs b) j))
    ∧ (∀ h1, CPUTensor.assign h a b = .ok h1 →
        (a ≠ b →
          (h.tensors.objs a).buffer_ + (h.tensors.objs a).size_ ≤ (h.tensors.objs b).buffer_
          ∨ (h.tensors.objs b).buffer_ + (h.tensors.objs b).size_
              ≤ (h.tensors.objs a).buffer_) →
        (h1.tensors.objs a).shape_ = (h.tensors.objs b).shape_
        ∧ (h1.tensors.objs a).size_ = (h.tensors.objs b).size_
        ∧ h1.tensors.objs b = h.tensors.objs b
        ∧ ∀ k, k < (h.tensors.objs b).size_ →
            CPUTensor.elem h1 (h1.tensors.objs a) k = CPUTensor.elem h (h.tensors.objs b) k
            ∧ CPUTensor.elem h1 (h.tensors.objs b) k
              = CPUTensor.elem h (h.tensors.objs b) k) := by
  obtain ⟨hid, hnew, hold, hmem⟩ := CPUTensor.copy_ctor_objs h b
  refine ⟨⟨?_, ?_, ?_, ?_, ?_, ?_⟩, ?_⟩
  · rw [hid, hnew]
  · rw [hid, hnew]
  · rw [hid, hnew]
  · exact hold b (by omega)
  · intro k hk
    unfold CPUTensor.elem
    rw [hid, hnew, hmem]
    dsimp only
    constructor
    · rw [Host.copy_apply _ _ _ _ (Or.inr hbk), if_pos (by constructor <;> omega)]
      congr 1
      omega
    · rw [Host.copy_apply _ _ _ _ (Or.inr hbk), if_neg (by omega)]
  · intro k x j hj
    rw [CPUTensor.elem_write_other]
    · unfold CPUTensor.elem
      rw [hmem, Host.copy_apply _ _ _ _ (Or.inr hbk), if_neg (by omega)]
    · rw [hid, hnew]
      show (h.tensors.objs b).buffer_ + j ≠ h.brk + k
      omega
  · intro h1 hrun hdis
    unfold CPUTensor.assign at hrun
    split at hrun
    · cases hrun
    · split at hrun
      · next hab =>
        simp only [Except.ok.injEq] at hrun
        subst hab
        rw [← hrun]
        exact ⟨rfl, rfl, rfl, fun k _ => ⟨rfl, rfl⟩⟩
      · next hab =>
        simp only [Except.ok.injEq] at hrun
        obtain ⟨hA, hO, hM⟩ := CPUTensor.assign_body_objs h a b
        rw [← hrun, hA, hO b (Ne.symm hab)]
        refine ⟨rfl, rfl, rfl, ?_⟩
        intro k hk
        have hd := hdis hab
        unfold CPUTensor.elem
        rw [hM]
        by_cases hsz : (h.tensors.objs a).size_ = (h.tensors.objs b).size_
        · simp only [ne_eq, hsz, not_true_eq_false, if_false]
          rw [hsz] at hd
          constructor
          · rw [Host.copy_apply _ _ _ _ (by omega), if_pos (by constructor <;> omega)]
            congr 1
            omega
          · rw [Host.copy_apply _ _ _ _ (by omega), if_neg (by omega)]
        · simp only [ne_eq, hsz, not_false_eq_true, if_true]
          constructor
          · rw [Host.copy_apply _ _ _ _ (Or.inr hbk), if_pos (by constructor <;> omega),
              Host.havoc_apply, if_neg (by omega)]
            congr 1
            omega
          · rw [Host.copy_apply _ _ _ _ (Or.inr hbk), if_neg (by omega), Host.havoc_apply,
              if_neg (by omega)]

/-- Instance of `copy_and_assign`: copying the `(2, 3)` tensor of the example state
gives a tensor of shape `(2, 3)` that is not a view and whose element `4` is `14`,
as in the original. -/
theorem CPUTensor.copy_and_assign_example :
    (0 < exampleHost.tensors.count
      ∧ (exampleHost.tensors.objs 0).buffer_ + (exampleHost.tensors.objs 0).size_
          ≤ exampleHost.brk)
    ∧ ((CPUTensor.copy_ctor exampleHost 0).2.tensors.objs
          (CPUTensor.copy_ctor exampleHost 0).1).shape_ = ⟨[2, 3]⟩
    ∧ ((CPUTensor.copy_ctor exampleHost 0).2.tensors.objs
          (CPUTensor.copy_ctor exampleHost 0).1).is_view_ = false
    ∧ CPUTensor.elem (CPUTensor.copy_ctor exampleHost 0).2
        ((CPUTensor.copy_ctor exampleHost 0).2.tensors.objs
          (CPUTensor.copy_ctor exampleHost 0).1) 4 = 14 :=
  ⟨⟨by decide, by decide⟩,
   (CPUTensor.copy_and_assign exampleHost 0 0 (by decide) (by decide)).1.1,
   (CPUTensor.copy_and_assign exampleHost 0 0 (by decide) (by decide)).1.2.2.1,
   ((CPUTensor.copy_and_assign exampleHost 0 0 (by decide) (by decide)).1.2.2.2.2.1 4
      (by decide)).1⟩

/-- An accepted assignment `a = b` of a tensor `b` whose cells lie in the block of
`a`, with a size other than that of `a`: `operator=` frees the block of `a` and then
copies from it, so that every element of `a` afterwards is what the freed cell of
`b` at that index is found to hold. -/
theorem CPUTensor.assign_reads_freed {α : Type} (h : Host α) (a b : Nat)
    (hacc : BaseTensor.assign_check (h.tensors.objs a) (h.tensors.objs b) = true)
    (hsz : (h.tensors.objs a).size_ ≠ (h.tensors.objs b).size_)
    (hin : (h.tensors.objs a).buffer_ ≤ (h.tensors.objs b).buffer_
      ∧ (h.tensors.objs b).buffer_ + (h.tensors.objs b).size_
          ≤ (h.tensors.objs a).buffer_ + (h.tensors.objs a).size_)
    (hbk : (h.tensors.objs a).buffer_ + (h.tensors.objs a).size_ ≤ h.brk) :
    ∃ h1, CPUTensor.assign h a b = .ok h1
      ∧ (h.tensors.objs a).buffer_ ∈ h1.freed
      ∧ ∀ k, k < (h.tensors.objs b).size_ →
          CPUTensor.elem h1 (h1.tensors.objs a) k = h.junk ((h.tensors.objs b).buffer_ + k) := by
  have hab : a ≠ b := by
    intro e
    rw [e] at hsz
    exact hsz rfl
  obtain ⟨hA, _, hM⟩ := CPUTensor.assign_body_objs h a b
  refine ⟨CPUTensor.assign_body h a b, ?_, ?_, ?_⟩
  · unfold CPUTensor.assign
    rw [if_neg (by rw [hacc]; exact Bool.noConfusion), if_neg hab]
  · unfold CPUTensor.assign_body
    simp only [ne_eq, hsz, not_false_eq_true, if_true, Host.new_float, Host.delete]
    exact List.mem_cons_self _ _
  · intro k hk
    unfold CPUTensor.elem
    rw [hA, hM]
    simp only [ne_eq, hsz, not_false_eq_true, if_true]
    rw [Host.copy_apply _ _ _ _ (Or.inr (by omega)), if_pos (by constructor <;> omega),
      Host.havoc_apply, if_pos (by constructor <;> omega)]
    congr 1
    omega

/-- C7 (failing input): `t = t[1]` for the tensor `t` of shape `(2, 3)` whose
elements `10 .. 15` are at the addresses `1 .. 6`, with the view `t[1]` on the cells
`4 .. 6` (elements `13, 14, 15`).  The assignment is accepted (`t` is not a view);
the sizes differ, so `operator=` frees the block at address `1`, allocates three
cells at address `7` and copies into them from the address `4`, which lies in the
freed block: the three elements of `t` are then what the freed cells hold (in the
example state `0`), not `13, 14, 15`, and the view `t[1]` still points into the
freed block. -/
theorem CPUTensor.assign_from_own_view :
    (List.range 3).map (fun k => CPUTensor.elem exampleHostView (exampleHostView.tensors.objs 1) k)
      = [13, 14, 15]
    ∧ BaseTensor.assign_check (exampleHostView.tensors.objs 0) (exampleHostView.tensors.objs 1)
      = true
    ∧ (CPUTensor.assign exampleHostView 0 1).toOption.map
        (fun h1 => (h1.freed, h1.tensors.objs 0, (h1.tensors.objs 1).buffer_,
          (List.range 3).map (fun k => CPUTensor.elem h1 (h1.tensors.objs 0) k)))
      = some ([1],
          { is_view_ := false, shape_ := ⟨[3]⟩, size_ := 3, views_ := [none, some 1],
            buffer_ := 7 },
          4,
          [exampleHostView.junk 4, exampleHostView.junk 5, exampleHostView.junk 6]) := by
  decide

/-! ### C8: `size() == shape().TotalElementCount()` -/

theorem Store.SizeInv_set {β : Type} (st : Store β) (id : Nat) (t : BaseTensor β)
    (hst : st.SizeInv) (ht : id < st.count → t.SizeInv) : (st.set id t).SizeInv := by
  intro k hk
  rw [Store.set_objs]
  split
  · next h => exact ht (h ▸ hk)
  · exact hst k hk

theorem Store.SizeInv_alloc {β : Type} (st : Store β) (t : BaseTensor β)
    (hst : st.SizeInv) (ht : t.SizeInv) : (st.alloc t).2.SizeInv := by
  intro k hk
  rw [Store.alloc_objs]
  rw [Store.alloc_count] at hk
  split
  · exact ht
  · next h => exact hst k (by omega)

theorem BaseTensor.SizeInv_ctor {β : Type} (shape : Shape) (buffer : β) :
    (BaseTensor.ctor shape buffer).SizeInv :=
  rfl

theorem BaseTensor.NewView_SizeInv {β : Type}
    (viewCtor : BaseTensor β → Shape → Except Fault (BaseTensor β))
    (hctor : ∀ t s v, viewCtor t s = .ok v → v.SizeInv)
    (st : Store β) (hst : st.SizeInv) (self : Nat) (new_shape : Shape) (r : Nat × Store β)
    (h : BaseTensor.NewView viewCtor st self new_shape = .ok r) : r.2.SizeInv := by
  unfold BaseTensor.NewView at h
  dsimp only at h
  split at h
  · cases h
  · split at h
    · cases h
    · next v hv =>
      simp only [Except.ok.injEq] at h
      rw [← h]
      exact Store.SizeInv_alloc st v hst (hctor _ _ _ hv)

theorem BaseTensor.SubTensor_SizeInv {β : Type}
    (subCtor : BaseTensor β → Nat → Except Fault (BaseTensor β))
    (hctor : ∀ t i v, subCtor t i = .ok v → v.SizeInv)
    (st : Store β) (hst : st.SizeInv) (self i : Nat) (hself : self < st.count)
    (r : Nat × Store β)
    (h : BaseTensor.SubTensor subCtor st self i = .ok r) : r.2.SizeInv := by
  have hT : ∀ vs, ({ st.objs self with views_ := vs } : BaseTensor β).SizeInv :=
    fun vs => hst self hself
  unfold BaseTensor.SubTensor at h
  dsimp only at h
  split at h
  · cases h
  · split at h
    · cases h
    · split at h
      · simp only [Except.ok.injEq] at h
        rw [← h]
        exact Store.SizeInv_set st self _ hst (fun _ => hT _)
      · split at h
        · cases h
        · next view hv =>
          simp only [Except.ok.injEq] at h
          rw [← h]
          apply Store.SizeInv_set _ self _ _ (fun _ => hT _)
          apply Store.SizeInv_alloc _ _ _ (hctor _ _ _ hv)
          exact Store.SizeInv_set st self _ hst (fun _ => hT _)

theorem BaseTensor.Reshape_SizeInv {β : Type} (st : Store β) (hst : st.SizeInv) (self : Nat)
    (new_shape : Shape) : (BaseTensor.Reshape st self new_shape).2.SizeInv := by
  unfold BaseTensor.Reshape
  dsimp only
  split
  · exact hst
  · next hne =>
    split
    · exact hst
    · apply Store.SizeInv_set st self _ hst
      intro hself
      have := hst self hself
      unfold BaseTensor.SizeInv at this ⊢
      simp only [ne_eq, not_not] at hne
      rw [hne]
      exact this

theorem CPUTensor.view_ctor_SizeInv (t : CPUTensor) (s : Shape) (v : CPUTensor)
    (h : CPUTensor.view_ctor t s = .ok v) : v.SizeInv := by
  unfold CPUTensor.view_ctor at h
  dsimp only at h
  split at h
  · simp only [Except.ok.injEq] at h
    rw [← h]
    rfl
  · cases h

theorem CPUTensor.sub_ctor_SizeInv (t : CPUTensor) (i : Nat) (v : CPUTensor)
    (h : CPUTensor.sub_ctor t i = .ok v) : v.SizeInv := by
  unfold CPUTensor.sub_ctor at h
  dsimp only at h
  simp only [Except.ok.injEq] at h
  rw [← h]
  rfl

theorem GPUTensor.device_view_ctor_SizeInv (t : GPUTensor) (s : Shape) (v : GPUTensor)
    (h : GPUTensor.view_ctor t s = .ok v) : v.SizeInv := by
  unfold GPUTensor.view_ctor at h
  dsimp only at h
  split at h
  · cases h
  · split at h
    · cases h
    · split at h
      · simp only [Except.ok.injEq] at h
        rw [← h]
        rfl
      · cases h

theorem GPUTensor.device_sub_ctor_SizeInv (t : GPUTensor) (i : Nat) (v : GPUTensor)
    (h : GPUTensor.sub_ctor t i = .ok v) : v.SizeInv := by
  unfold GPUTensor.sub_ctor at h
  dsimp only at h
  split at h
  · cases h
  · split at h
    · cases h
    · simp only [Except.ok.injEq] at h
      rw [← h]
      rfl

theorem GPUTensor.transferData_tensors {α : Type} (d d1 : Device α) (src dst : Option Buffer)
    (h : GPUTensor.transferData d src dst = .ok d1) : d1.tensors = d.tensors := by
  unfold GPUTensor.transferData at h
  split at h
  · cases h
  · split at h
    · cases h
    · split at h
      · cases h
      · next db =>
        split at h
        · cases h
        · next d2 hw =>
          simp only [Except.ok.injEq] at h
          rw [← h]
          unfold Buffer.WriteT at hw
          split at hw
          · cases hw
          · split at hw
            · cases hw
            · unfold Buffer.Write at hw
              split at hw
              · cases hw
              · simp only [Except.ok.injEq] at hw
                rw [← hw]
                rfl

theorem Buffer.WriteT_tensors {α : Type} (b : Buffer) (d d1 : Device α) (buffer : Nat → α)
    (nelems offset : Nat) (h : b.WriteT d buffer nelems offset = .ok d1) :
    d1.tensors = d.tensors := by
  unfold Buffer.WriteT at h
  split at h
  · cases h
  · split at h
    · cases h
    · unfold Buffer.Write at h
      split at h
      · cases h
      · simp only [Except.ok.injEq] at h
        rw [← h]
        rfl

theorem Device.AllocateBuffer_tensors {α : Type} (d : Device α) (size : Nat) :
    (d.AllocateBuffer size).2.tensors = d.tensors := by
  unfold Device.AllocateBuffer
  split <;> rfl

theorem Device.delete_tensors {α : Type} (d : Device α) (b : Option Buffer) :
    (d.delete b).tensors = d.tensors := by
  unfold Device.delete
  split <;> rfl

theorem CPUTensor.assign_body_SizeInv {α : Type} (h : Host α) (hh : h.tensors.SizeInv)
    (self other : Nat) (ho : other < h.tensors.count) :
    (CPUTensor.assign_body h self other).tensors.SizeInv := by
  unfold CPUTensor.assign_body
  dsimp only
  apply Store.SizeInv_set
  · split
    · exact Store.SizeInv_set _ _ _ hh (fun hs => hh self hs)
    · exact hh
  · intro _
    exact hh other ho

theorem GPUTensor.device_assign_body_SizeInv {α : Type} (d d1 : Device α) (hd : d.tensors.SizeInv)
    (self other : Nat) (ho : other < d.tensors.count)
    (h : GPUTensor.assign_body d self other = .ok d1) : d1.tensors.SizeInv := by
  unfold GPUTensor.assign_body at h
  dsimp only at h
  rw [GPUTensor.transferData_tensors _ _ _ _ h]
  apply Store.SizeInv_set
  · split
    · rw [Device.AllocateBuffer_tensors, Device.delete_tensors]
      exact Store.SizeInv_set _ _ _ hd (fun hs => hd self hs)
    · exact hd
  · intro _
    exact hd other ho

/-- C8: `size() == shape().TotalElementCount()` holds of every tensor object after
each constructor of `CPUTensor` and `GPUTensor` (default, by shape, with
initializer, copy, transfer from the other kind, reshape-view through `NewView`,
sub-tensor through `SubTensor`), the constructed object being one of the objects
it holds of, and it is preserved by assignment and by `Reshape`, whether that
succeeds or fails. -/
theorem size_invariant {α : Type} (h : Host α) (d : Device α)
    (hh : h.tensors.SizeInv) (hd : d.tensors.SizeInv) :
    ((CPUTensor.default_ctor h).2.tensors.SizeInv
        ∧ (CPUTensor.default_ctor h).1 < (CPUTensor.default_ctor h).2.tensors.count)
    ∧ (∀ shape, (CPUTensor.ctor h shape).2.tensors.SizeInv
        ∧ (CPUTensor.ctor h shape).1 < (CPUTensor.ctor h shape).2.tensors.count)
    ∧ (∀ shape init, (CPUTensor.init_ctor h shape init).2.tensors.SizeInv
        ∧ (CPUTensor.init_ctor h shape init).1
            < (CPUTensor.init_ctor h shape init).2.tensors.count)
    ∧ (∀ other, other < h.tensors.count → (CPUTensor.copy_ctor h other).2.tensors.SizeInv
        ∧ (CPUTensor.copy_ctor h other).1 < (CPUTensor.copy_ctor h other).2.tensors.count)
    ∧ (∀ g r, CPUTensor.ofGPU h d g = .ok r → r.2.tensors.SizeInv ∧ r.1 < r.2.tensors.count)
    ∧ (∀ self s r, CPUTensor.NewView h self s = .ok r →
        r.2.tensors.SizeInv ∧ r.1 < r.2.tensors.count)
    ∧ (∀ self i r, self < h.tensors.count → CPUTensor.SubTensor h self i = .ok r →
        r.2.tensors.SizeInv)
    ∧ (∀ self other h1, other < h.tensors.count → CPUTensor.assign h self other = .ok h1 →
        h1.tensors.SizeInv)
    ∧ (∀ self s, (CPUTensor.Reshape h self s).2.tensors.SizeInv)
    ∧ (∀ shape r, GPUTensor.ctor d shape = .ok r →
        r.2.tensors.SizeInv ∧ r.1 < r.2.tensors.count)
    ∧ (∀ shape init r, GPUTensor.init_ctor d shape init = .ok r →
        r.2.tensors.SizeInv ∧ r.1 < r.2.tensors.count)
    ∧ (∀ other r, GPUTensor.copy_ctor d other = .ok r →
        r.2.tensors.SizeInv ∧ r.1 < r.2.tensors.count)
    ∧ (∀ c r, GPUTensor.ofCPU h d c = .ok r → r.2.tensors.SizeInv ∧ r.1 < r.2.tensors.count)
    ∧ (∀ self s r, GPUTensor.NewView d self s = .ok r →
        r.2.tensors.SizeInv ∧ r.1 < r.2.tensors.count)
    ∧ (∀ self i r, self < d.tensors.count → GPUTensor.SubTensor d self i = .ok r →
        r.2.tensors.SizeInv)
    ∧ (∀ self other d1, other < d.tensors.count → GPUTensor.assign d self other = .ok d1 →
        d1.tensors.SizeInv)
    ∧ (∀ self s, (GPUTensor.Reshape d self s).2.tensors.SizeInv) := by
  refine ⟨?_, ?_, ?_, ?_, ?_, ?_, ?_, ?_, ?_, ?_, ?_, ?_, ?_, ?_, ?_, ?_, ?_⟩
  · exact ⟨Store.SizeInv_alloc _ _ hh rfl, Nat.lt_succ_self _⟩
  · intro shape
    exact ⟨Store.SizeInv_alloc _ _ hh rfl, Nat.lt_succ_self _⟩
  · intro shape init
    exact ⟨Store.SizeInv_alloc _ _ hh rfl, Nat.lt_succ_self _⟩
  · intro other ho
    exact ⟨Store.SizeInv_alloc _ _ hh (hh other ho), Nat.lt_succ_self _⟩
  · intro g r hr
    unfold CPUTensor.ofGPU at hr
    dsimp only at hr
    split at hr
    · cases hr
    · split at hr
      · cases hr
      · split at hr
        · cases hr
        · simp only [Except.ok.injEq] at hr
          rw [← hr]
          exact ⟨Store.SizeInv_alloc _ _ hh rfl, Nat.lt_succ_self _⟩
  · intro self s r hr
    unfold CPUTensor.NewView CPUTensor.lift at hr
    split at hr
    · cases hr
    · next x st hx =>
      simp only [Except.ok.injEq] at hr
      rw [← hr]
      refine ⟨BaseTensor.NewView_SizeInv _ CPUTensor.view_ctor_SizeInv _ hh _ _ _ hx, ?_⟩
      unfold BaseTensor.NewView at hx
      dsimp only at hx
      split at hx
      · cases hx
      · split at hx
        · cases hx
        · simp only [Except.ok.injEq, Store.alloc, Prod.mk.injEq] at hx
          show x < st.count
          rw [← hx.1, ← hx.2]
          exact Nat.lt_succ_self _
  · intro self i r hself hr
    unfold CPUTensor.SubTensor CPUTensor.lift at hr
    split at hr
    · cases hr
    · next x st hx =>
      simp only [Except.ok.injEq] at hr
      rw [← hr]
      exact BaseTensor.SubTensor_SizeInv _ CPUTensor.sub_ctor_SizeInv _ hh _ _ hself _ hx
  · intro self other h1 ho hr
    unfold CPUTensor.assign at hr
    split at hr
    · cases hr
    · split at hr
      · simp only [Except.ok.injEq] at hr
        rw [← hr]
        exact hh
      · simp only [Except.ok.injEq] at hr
        rw [← hr]
        exact CPUTensor.assign_body_SizeInv h hh self other ho
  · intro self s
    exact BaseTensor.Reshape_SizeInv _ hh self s
  · intro shape r hr
    unfold GPUTensor.ctor at hr
    dsimp only at hr
    split at hr
    · cases hr
    · simp only [Except.ok.injEq] at hr
      rw [← hr]
      refine ⟨Store.SizeInv_alloc _ _ ?_ rfl, Nat.lt_succ_self _⟩
      rw [Device.AllocateBuffer_tensors]
      exact hd
  · intro shape init r hr
    unfold GPUTensor.init_ctor at hr
    dsimp only at hr
    split at hr
    · cases hr
    · split at hr
      · cases hr
      · next d2 hw =>
        simp only [Except.ok.injEq] at hr
        rw [← hr]
        show d2.tensors.SizeInv ∧ _ < d2.tensors.count
        rw [Buffer.WriteT_tensors _ _ _ _ _ _ hw]
        refine ⟨Store.SizeInv_alloc _ _ ?_ rfl, Nat.lt_succ_self _⟩
        rw [Device.AllocateBuffer_tensors]
        exact hd
  · intro other r hr
    unfold GPUTensor.copy_ctor at hr
    dsimp only at hr
    split at hr
    · cases hr
    · next d2 ht =>
      simp only [Except.ok.injEq] at hr
      rw [← hr]
      show d2.tensors.SizeInv ∧ _ < d2.tensors.count
      rw [GPUTensor.transferData_tensors _ _ _ _ ht]
      refine ⟨Store.SizeInv_alloc _ _ ?_ rfl, Nat.lt_succ_self _⟩
      rw [Device.AllocateBuffer_tensors]
      exact hd
  · intro c r hr
    unfold GPUTensor.ofCPU at hr
    dsimp only at hr
    split at hr
    · cases hr
    · split at hr
      · cases hr
      · next d2 hw =>
        simp only [Except.ok.injEq] at hr
        rw [← hr]
        show d2.tensors.SizeInv ∧ _ < d2.tensors.count
        rw [Buffer.WriteT_tensors _ _ _ _ _ _ hw]
        refine ⟨Store.SizeInv_alloc _ _ ?_ rfl, Nat.lt_succ_self _⟩
        rw [Device.AllocateBuffer_tensors]
        exact hd
  · intro self s r hr
    unfold GPUTensor.NewView GPUTensor.lift at hr
    split at hr
    · cases hr
    · next x st hx =>
      simp only [Except.ok.injEq] at hr
      rw [← hr]
      refine ⟨BaseTensor.NewView_SizeInv _ GPUTensor.device_view_ctor_SizeInv _ hd _ _ _ hx, ?_⟩
      unfold BaseTensor.NewView at hx
      dsimp only at hx
      split at hx
      · cases hx
      · split at hx
        · cases hx
        · simp only [Except.ok.injEq, Store.alloc, Prod.mk.injEq] at hx
          show x < st.count
          rw [← hx.1, ← hx.2]
          exact Nat.lt_succ_self _
  · intro self i r hself hr
    unfold GPUTensor.SubTensor GPUTensor.lift at hr
    split at hr
    · cases hr
    · next x st hx =>
      simp only [Except.ok.injEq] at hr
      rw [← hr]
      exact BaseTensor.SubTensor_SizeInv _ GPUTensor.device_sub_ctor_SizeInv _ hd _ _ hself _ hx
  · intro self other d1 ho hr
    unfold GPUTensor.assign at hr
    split at hr
    · cases hr
    · split at hr
      · simp only [Except.ok.injEq] at hr
        rw [← hr]
        exact hd
      · exact GPUTensor.device_assign_body_SizeInv d d1 hd self other ho hr
  · intro self s
    exact BaseTensor.Reshape_SizeInv _ hd self s

/-- C8 (witness): the example states satisfy the invariant, hence so do the states
after constructing a `(4, 5)` host tensor and after reshaping the device tensor to
`(2, 1024)`. -/
theorem size_invariant_witness :
    (exampleHost.tensors.SizeInv ∧ exampleDevice.tensors.SizeInv)
    ∧ (CPUTensor.ctor exampleHost ⟨[4, 5]⟩).2.tensors.SizeInv
    ∧ (GPUTensor.Reshape exampleDevice 0 ⟨[2, 1024]⟩).2.tensors.SizeInv :=
  ⟨⟨fun _ _ => rfl, fun _ _ => rfl⟩,
   ((size_invariant exampleHost exampleDevice (fun _ _ => rfl) (fun _ _ => rfl)).2.1
      ⟨[4, 5]⟩).1,
   (size_invariant exampleHost exampleDevice (fun _ _ => rfl) (fun _ _ => rfl)).2.2.2.2.2.2.2.2.2.2.2.2.2.2.2.2
      0 ⟨[2, 1024]⟩⟩

/-! ### C9: memoization of sub-tensor views -/

theorem BaseTensor.SubTensors_keep {β : Type}
    (subCtor : BaseTensor β → Nat → Except Fault (BaseTensor β))
    (calls : List (Nat × Nat)) (st1 st2 : Store β)
    (hrun : BaseTensor.SubTensors subCtor st1 calls = .ok st2)
    (self i v : Nat) (hself : self < st1.count)
    (hslot : (st1.objs self).views_.getD i none = some v) :
    (st2.objs self).shape_ = (st1.objs self).shape_
    ∧ (st2.objs self).views_.getD i none = some v := by
  induction calls generalizing st1 with
  | nil =>
    simp only [BaseTensor.SubTensors, Except.ok.injEq] at hrun
    rw [← hrun]
    exact ⟨rfl, hslot⟩
  | cons c rest ih =>
    obtain ⟨u, j⟩ := c
    unfold BaseTensor.SubTensors at hrun
    cases hcall : BaseTensor.SubTensor subCtor st1 u j with
    | error e =>
      rw [hcall] at hrun
      cases hrun
    | ok r =>
      obtain ⟨w, st⟩ := r
      rw [hcall] at hrun
      have hfr := BaseTensor.SubTensor_frame subCtor st1 st u j w hcall
      have hk := hfr.2 self hself
      have := ih st hrun (by omega) (hk.2.2.2.2 i v hslot)
      exact ⟨this.1.trans hk.2.1, this.2⟩

/-- C9: on a tensor `self` of rank above one and for `i < shape(0)`, the first
`SubTensor(i)` (slot `i` of the view table still empty, the derived class's
constructor returning `view`) creates exactly one object, `view`, stores it in
slot `i`, makes the table at least `i + 1` long and leaves every other slot and
every other object as it was; after any run of further `SubTensor` calls (on any
object and index) `SubTensor(i)` returns that same object and changes nothing, in
particular it creates no object. -/
theorem BaseTensor.SubTensor_memoized {β : Type}
    (subCtor : BaseTensor β → Nat → Except Fault (BaseTensor β)) (st : Store β)
    (self i : Nat) (view : BaseTensor β) (hself : self < st.count)
    (hrank : 1 < (st.objs self).rank) (hi : i < (st.objs self).shape 0)
    (hfirst : (st.objs self).views_.getD i none = none)
    (hctor : subCtor { st.objs self with views_ := BaseTensor.grow (st.objs self).views_ i } i
      = .ok view) :
    ∃ st1, BaseTensor.SubTensor subCtor st self i = .ok (st.count, st1)
      ∧ st1.count = st.count + 1
      ∧ st1.objs st.count = view
      ∧ (∀ k, k < st.count → k ≠ self → st1.objs k = st.objs k)
      ∧ i + 1 ≤ (st1.objs self).views_.length
      ∧ (st1.objs self).views_.getD i none = some st.count
      ∧ (∀ k, k ≠ i → (st1.objs self).views_.getD k none = (st.objs self).views_.getD k none)
      ∧ ∀ (calls : List (Nat × Nat)) (st2 : Store β),
          BaseTensor.SubTensors subCtor st1 calls = .ok st2 →
          BaseTensor.SubTensor subCtor st2 self i = .ok (st.count, st2) := by
  obtain ⟨st1, vs, hrun, hcount, hobjs, hlen, hslot, hkeep⟩ :=
    BaseTensor.SubTensor_miss subCtor st self i view hrank hi hfirst hctor
  have hself1 : st1.objs self = { st.objs self with views_ := vs } := by
    rw [hobjs self, if_pos rfl]
  refine ⟨st1, hrun, hcount, ?_, ?_, ?_, ?_, ?_, ?_⟩
  · rw [hobjs st.count, if_neg (by omega), if_pos rfl]
  · intro k hk hks
    rw [hobjs k, if_neg hks, if_neg (by omega)]
  · rw [hself1]
    exact hlen
  · rw [hself1]
    exact hslot
  · intro k hk
    rw [hself1]
    exact hkeep k hk
  · intro calls st2 hcalls
    have hslot1 : (st1.objs self).views_.getD i none = some st.count := by
      rw [hself1]
      exact hslot
    have hk := BaseTensor.SubTensors_keep subCtor calls st1 st2 hcalls self i st.count
      (by omega) hslot1
    have hshape : (st2.objs self).shape_ = (st.objs self).shape_ := by
      rw [hk.1, hself1]
    apply BaseTensor.SubTensor_hit subCtor st2 self i st.count
    · unfold BaseTensor.rank
      rw [hshape]
      exact hrank
    · unfold BaseTensor.shape
      rw [hshape]
      exact hi
    · exact hk.2

/-- C9 (witness): on the example state, `t[1]` is created as object `1`, and after
the calls `t[0]`, `t[1]`, `t[0]` the call `t[1]` still returns object `1` without
changing the state. -/
theorem BaseTensor.SubTensor_memoized_witness :
    (0 < exampleHost.tensors.count
      ∧ 1 < (exampleHost.tensors.objs 0).rank ∧ 1 < (exampleHost.tensors.objs 0).shape 0
      ∧ (exampleHost.tensors.objs 0).views_.getD 1 (none : Option Nat) = none)
    ∧ ∃ st1, BaseTensor.SubTensor CPUTensor.sub_ctor exampleHost.tensors 0 1 = .ok (1, st1)
        ∧ st1.count = 2
        ∧ ∀ st2, BaseTensor.SubTensors CPUTensor.sub_ctor st1 [(0, 0), (0, 1), (0, 0)] = .ok st2 →
            BaseTensor.SubTensor CPUTensor.sub_ctor st2 0 1 = .ok (1, st2) := by
  refine ⟨⟨by decide, by decide, by decide, by decide⟩, ?_⟩
  obtain ⟨st1, h1, h2, _, _, _, _, _, h8⟩ :=
    BaseTensor.SubTensor_memoized CPUTensor.sub_ctor exampleHost.tensors 0 1 _
      (by decide) (by decide) (by decide) (by decide) rfl
  exact ⟨st1, h1, h2, fun st2 hst2 => h8 _ st2 hst2⟩

/-! ### C10: `TotalElementCount` -/

/-- C10 (counterexample): the shape with extents `(2^32, 2^32)` is non-empty and
has positive extents only, but its `TotalElementCount()` is `0`: it is neither
the product `2^64` of the extents nor positive. -/
theorem Shape.TotalElementCount_wraps :
    ¬ ((Shape.mk [4294967296, 4294967296]).TotalElementCount = 4294967296 * 4294967296)
    ∧ ¬ (0 < (Shape.mk [4294967296, 4294967296]).TotalElementCount) := by
  decide

/-- C10 (amended): `TotalElementCount()` is `0` for the empty shape and otherwise
the product of the extents reduced modulo `2^64`; for a non-empty shape whose
product of extents is below `2^64` it is exactly that product (so extents
`(a, b, c)` with `a*b*c < 2^64` give `a*b*c`), and it is then positive when all
extents are positive. -/
theorem Shape.TotalElementCount_product (s : Shape) (a b c : Nat) :
    s.TotalElementCount = (if s.rank = 0 then 0 else s.data_.prod % SIZE_MOD)
    ∧ (0 < s.rank → s.Fits → s.TotalElementCount = s.data_.prod)
    ∧ (a * b * c < SIZE_MOD → (Shape.mk [a, b, c]).TotalElementCount = a * b * c)
    ∧ (0 < s.rank → s.Fits → (∀ d ∈ s.data_, 0 < d) → 0 < s.TotalElementCount) := by
  refine ⟨Shape.TotalElementCount_eq s, Shape.TotalElementCount_of_Fits s, ?_, ?_⟩
  · intro h
    have hf : (Shape.mk [a, b, c]).Fits := by
      simpa [Shape.Fits, Nat.mul_assoc] using h
    rw [Shape.TotalElementCount_of_Fits _ (by simp [Shape.rank]) hf]
    simp [Nat.mul_assoc]
  · intro hr hf hpos
    rw [Shape.TotalElementCount_of_Fits s hr hf]
    exact List.prod_pos hpos

/-- C10 (witness): the shape `(15, 30, 45)` of the test suite. -/
theorem Shape.TotalElementCount_product_witness :
    (0 < (Shape.mk [15, 30, 45]).rank ∧ (Shape.mk [15, 30, 45]).Fits
      ∧ 15 * 30 * 45 < SIZE_MOD ∧ (∀ d ∈ (Shape.mk [15, 30, 45]).data_, 0 < d))
    ∧ (Shape.mk [15, 30, 45]).TotalElementCount = 20250
    ∧ (Shape.mk [15, 30, 45]).TotalElementCount = 15 * 30 * 45
    ∧ 0 < (Shape.mk [15, 30, 45]).TotalElementCount :=
  ⟨⟨by decide, by decide, by decide, by decide⟩,
   (Shape.TotalElementCount_product ⟨[15, 30, 45]⟩ 15 30 45).2.1 (by decide) (by decide),
   (Shape.TotalElementCount_product ⟨[15, 30, 45]⟩ 15 30 45).2.2.1 (by decide),
   (Shape.TotalElementCount_product ⟨[15, 30, 45]⟩ 15 30 45).2.2.2 (by decide) (by decide)
     (by decide)⟩

/-! ### C11: `ElementShape` and the comparison of shapes -/

theorem Shape.data_eq_iff (a b : List Nat) :
    a = b ↔ a.length = b.length ∧ ∀ k, k < a.length → a.getD k 0 = b.getD k 0 := by
  constructor
  · rintro rfl
    exact ⟨rfl, fun _ _ => rfl⟩
  · rintro ⟨hl, hk⟩
    apply List.ext_getElem hl
    intro n h1 h2
    have := hk n h1
    simpa [List.getD_eq_getElem?_getD, List.getElem?_eq_getElem h1,
      List.getElem?_eq_getElem h2] using this

/-- C11: for a shape `s` of rank `n > 1`, `s.ElementShape()` has rank `n - 1`, its
extents are those of `s` from the second on, in order (`ElementShape()[k] ==
s[k+1]`), and `s.TotalElementCount() == s[0] * s.ElementShape().TotalElementCount()`
holds as a comparison of `size_t` values (the product on the right is the `size_t`
product; it is the exact product when the element count of `s` is below `2^64`).
Two shapes compare equal with `==` iff they have the same rank and pairwise equal
extents, and `!=` is the negation. -/
theorem Shape.ElementShape_spec (s : Shape) (hr : 1 < s.rank) :
    s.ElementShape.rank = s.rank - 1
    ∧ s.data_ = s.index 0 :: s.ElementShape.data_
    ∧ (∀ k, k < s.rank - 1 → s.ElementShape.index k = s.index (k + 1))
    ∧ s.TotalElementCount = (s.index 0 * s.ElementShape.TotalElementCount) % SIZE_MOD
    ∧ (s.Fits → s.TotalElementCount = s.index 0 * s.ElementShape.TotalElementCount)
    ∧ (∀ a b : Shape, (a.operator_eq b = true
          ↔ a.rank = b.rank ∧ ∀ k, k < a.rank → a.index k = b.index k)
        ∧ a.operator_ne b = !a.operator_eq b) := by
  obtain ⟨data⟩ := s
  cases data with
  | nil => simp [Shape.rank] at hr
  | cons d0 rest =>
    have hrest : 0 < rest.length := by
      simp only [Shape.rank, List.length_cons] at hr
      omega
    have hne : rest ≠ [] := fun hn => by simp [hn] at hrest
    have hE : (Shape.mk rest).TotalElementCount = rest.prod % SIZE_MOD := by
      rw [Shape.TotalElementCount_eq, if_neg (by simpa [Shape.rank] using hne)]
    have hT : (Shape.mk (d0 :: rest)).TotalElementCount = (d0 * rest.prod) % SIZE_MOD := by
      rw [Shape.TotalElementCount_eq, if_neg (by simp [Shape.rank])]
      simp
    have hES : (Shape.mk (d0 :: rest)).ElementShape = Shape.mk rest := rfl
    have hi0 : (Shape.mk (d0 :: rest)).index 0 = d0 := rfl
    refine ⟨by simp [Shape.ElementShape, Shape.rank], by rw [hES, hi0], ?_, ?_, ?_, ?_⟩
    · intro k _
      rfl
    · rw [hES, hi0, hE, hT, Nat.mul_mod_mod]
    · intro hf
      have hprod : d0 * rest.prod < SIZE_MOD := by
        simpa [Shape.Fits] using hf
      rw [hES, hi0, hE, hT, Nat.mod_eq_of_lt hprod]
      by_cases hd : d0 = 0
      · simp [hd]
      · have hle : rest.prod ≤ d0 * rest.prod := Nat.le_mul_of_pos_left _ (by omega)
        rw [Nat.mod_eq_of_lt (by omega)]
    · intro a b
      constructor
      · unfold Shape.operator_eq Shape.rank Shape.index
        rw [decide_eq_true_iff]
        exact Shape.data_eq_iff a.data_ b.data_
      · unfold Shape.operator_ne Shape.operator_eq
        by_cases h : a.data_ = b.data_ <;> simp [h]

/-- C11 (witness): the shape `(15, 30, 45)` of the test suite, whose element shape
is `(30, 45)`. -/
theorem Shape.ElementShape_spec_witness :
    1 < (Shape.mk [15, 30, 45]).rank
    ∧ (Shape.mk [15, 30, 45]).ElementShape = Shape.mk [30, 45]
    ∧ (Shape.mk [15, 30, 45]).TotalElementCount
        = (15 * (Shape.mk [30, 45]).TotalElementCount) % SIZE_MOD :=
  ⟨by decide, rfl, (Shape.ElementShape_spec ⟨[15, 30, 45]⟩ (by decide)).2.2.2.1⟩


/-! ### C12: the round trip `ToGPU().ToHost()` -/

theorem Device.float_of_frag {α : Type} (d : Device α) (x : α) (w i : Nat) :
    d.float_of (MemByte.frag x w i 0) (MemByte.frag x w i 1) (MemByte.frag x w i 2)
      (MemByte.frag x w i 3) = x := by
  unfold Device.float_of MemByte.whole
  simp only [and_self, if_true]

theorem Device.floats_congr {α : Type} (d : Device α) (f g : Nat → MemByte α) (k : Nat)
    (h : ∀ j, j < sizeof_float → f (k * sizeof_float + j) = g (k * sizeof_float + j)) :
    d.floats f k = d.floats g k := by
  have h0 := h 0 (by decide)
  rw [Nat.add_zero] at h0
  unfold Device.floats
  rw [h0, h 1 (by decide), h 2 (by decide), h 3 (by decide)]

theorem Device.floats_ofFloats {α : Type} (d : Device α) (w : Nat) (ptr : Nat → α) (k : Nat) :
    d.floats (MemByte.ofFloats w ptr) k = ptr k := by
  have h4 : sizeof_float = 4 := rfl
  have e0 : k * 4 / 4 = k := by omega
  have e1 : (k * 4 + 1) / 4 = k := by omega
  have e2 : (k * 4 + 2) / 4 = k := by omega
  have e3 : (k * 4 + 3) / 4 = k := by omega
  have m0 : k * 4 % 4 = 0 := by omega
  have m1 : (k * 4 + 1) % 4 = 1 := by omega
  have m2 : (k * 4 + 2) % 4 = 2 := by omega
  have m3 : (k * 4 + 3) % 4 = 3 := by omega
  unfold Device.floats MemByte.ofFloats
  simp only [h4]
  rw [e0, e1, e2, e3, m0, m1, m2, m3]
  exact Device.float_of_frag d (ptr k) w k

theorem Device.clEnqueueWriteBuffer_dbytes {α : Type} (d : Device α) (m : cl_mem)
    (offset nbytes : Nat) (ptr : Nat → MemByte α) (a y : Nat) :
    (d.clEnqueueWriteBuffer m offset nbytes ptr).dbytes a y
      = if a = m.alloc ∧ m.origin + offset ≤ y ∧ y < m.origin + offset + nbytes
        then ptr (y - (m.origin + offset)) else d.dbytes a y := rfl

theorem Buffer.WriteT_whole {α : Type} (d : Device α) (m : cl_mem) (n : Nat) (ptr : Nat → α)
    (hfit : n * sizeof_float < SIZE_MOD) :
    (Buffer.CLBuffer m (n * sizeof_float)).WriteT d ptr 0 0
      = .ok (d.clEnqueueWriteBuffer m 0 (n * sizeof_float)
          (MemByte.ofFloats d.writes.length ptr)) := by
  have h4 : sizeof_float = 4 := rfl
  unfold Buffer.WriteT Buffer.nelemsOrAll
  simp only [Buffer.size, if_true]
  rw [if_pos (by rw [h4]; omega)]
  simp only []
  have hdiv : n * sizeof_float / sizeof_float = n := by rw [h4]; omega
  rw [hdiv, Nat.zero_add, Nat.mod_eq_of_lt hfit, if_neg (by omega)]
  unfold Buffer.Write
  simp only [Buffer.size, Buffer.cl_buffer]
  rw [if_neg (by omega)]

theorem Buffer.Read_whole {α : Type} (d : Device α) (m : cl_mem) (n : Nat)
    (hpos : 0 < n) (hfit : n * sizeof_float < SIZE_MOD) :
    (Buffer.CLBuffer m (n * sizeof_float)).nelemsOrAll n = .ok n
    ∧ (Buffer.CLBuffer m (n * sizeof_float)).Read d ((n * sizeof_float) % SIZE_MOD) 0
        = .ok (d.clEnqueueReadBuffer m 0) := by
  constructor
  · unfold Buffer.nelemsOrAll
    rw [if_neg (by omega)]
  · unfold Buffer.Read
    simp only [Buffer.size, Buffer.cl_buffer]
    rw [Nat.mod_eq_of_lt hfit, if_neg (by omega)]

theorem GPUTensor.ofCPU_ok {α : Type} (h : Host α) (d : Device α) (t n : Nat)
    (hn : (h.tensors.objs t).shape_.TotalElementCount = n) (hpos : 0 < n)
    (hfit : n * sizeof_float < SIZE_MOD) :
    GPUTensor.ofCPU h d t
      = .ok (d.tensors.count,
          Device.clEnqueueWriteBuffer
            { dbytes := d.dbytes, decode := d.decode, writes := d.writes,
              nalloc := d.nalloc + 1, released := d.released,
              tensors :=
                (d.tensors.alloc
                  { is_view_ := false, shape_ := (h.tensors.objs t).shape_, size_ := n,
                    views_ := [],
                    buffer_ := some (Buffer.CLBuffer
                      { alloc := d.nalloc, origin := 0, size := n * sizeof_float,
                        is_sub := false } (n * sizeof_float)) }).2 }
            { alloc := d.nalloc, origin := 0, size := n * sizeof_float, is_sub := false }
            0 (n * sizeof_float)
            (MemByte.ofFloats d.writes.length
              (fun k => h.mem ((h.tensors.objs t).buffer_ + k)))) := by
  have h4 : sizeof_float = 4 := rfl
  unfold GPUTensor.ofCPU
  simp only [BaseTensor.ctor, hn]
  unfold Device.AllocateBuffer
  rw [Nat.mod_eq_of_lt hfit, if_neg (by rw [h4]; omega)]
  simp only []
  rw [Buffer.WriteT_whole _ _ n _ hfit]
  rfl

theorem Device.write_then_dmem {α : Type} (d : Device α) (m : cl_mem) (n w : Nat)
    (ptr : Nat → α) (k : Nat) (hm : m.origin = 0) (hk : k < n) :
    (d.clEnqueueWriteBuffer m 0 (n * sizeof_float) (MemByte.ofFloats w ptr)).dmem m.alloc k
      = ptr k := by
  have h4 : sizeof_float = 4 := rfl
  unfold Device.dmem
  rw [← Device.floats_ofFloats d w ptr k]
  apply Device.floats_congr
  intro j hj
  rw [Device.clEnqueueWriteBuffer_dbytes, hm, if_pos ⟨rfl, by omega, by rw [h4] at hj ⊢; omega⟩]
  rfl

theorem Device.write_then_read {α : Type} (d : Device α) (m : cl_mem) (n w : Nat)
    (ptr : Nat → α) (k : Nat) (hm : m.origin = 0) (hk : k < n) :
    (d.clEnqueueWriteBuffer m 0 (n * sizeof_float) (MemByte.ofFloats w ptr)).floats
        ((d.clEnqueueWriteBuffer m 0 (n * sizeof_float)
          (MemByte.ofFloats w ptr)).clEnqueueReadBuffer m 0) k
      = ptr k := by
  rw [← Device.write_then_dmem d m n w ptr k hm hk]
  unfold Device.dmem
  apply Device.floats_congr
  intro j _
  unfold Device.clEnqueueReadBuffer
  rw [hm, Nat.add_zero, Nat.zero_add]

theorem Device.write_dmem_other {α : Type} (d : Device α) (m : cl_mem) (offset nbytes : Nat)
    (ptr : Nat → MemByte α) (a k : Nat) (ha : a ≠ m.alloc) :
    (d.clEnqueueWriteBuffer m offset nbytes ptr).dmem a k = d.dmem a k := by
  unfold Device.dmem
  apply Device.floats_congr
  intro j _
  rw [Device.clEnqueueWriteBuffer_dbytes, if_neg (fun hc => ha hc.1)]


theorem CPUTensor.ofGPU_ok {α : Type} (h : Host α) (d : Device α) (g n : Nat) (m : cl_mem)
    (hshape : (d.tensors.objs g).shape_.TotalElementCount = n)
    (hbuf : (d.tensors.objs g).buffer_ = some (Buffer.CLBuffer m (n * sizeof_float)))
    (hpos : 0 < n) (hfit : n * sizeof_float < SIZE_MOD) :
    CPUTensor.ofGPU h d g
      = .ok (h.tensors.count,
          { mem := Host.fill h.mem h.brk n (d.floats (d.clEnqueueReadBuffer m 0)),
            brk := h.brk + n,
            freed := h.freed, junk := h.junk,
            tensors :=
              (h.tensors.alloc
                { is_view_ := false, shape_ := (d.tensors.objs g).shape_, size_ := n,
                  views_ := [], buffer_ := h.brk }).2 }) := by
  have h4 : sizeof_float = 4 := rfl
  have hdiv : n * sizeof_float / sizeof_float = n := by rw [h4]; omega
  have hR := Buffer.Read_whole d m n hpos hfit
  unfold CPUTensor.ofGPU
  simp only [BaseTensor.ctor, hshape, hbuf, Host.new_float]
  rw [hR.1]
  simp only []
  rw [hR.2]
  simp only [Nat.mod_eq_of_lt hfit, hdiv]
  rfl

/-- C12 (counterexample): a default-constructed host tensor (empty shape, no
element) cannot be moved to the device. `ToGPU()` asks for a device buffer of
`0` bytes, which `clCreateBuffer` refuses, and the `Check` of the constructor
aborts: `h.ToGPU().ToHost()` has no value. -/
theorem CPUTensor.ToGPU_of_empty_aborts :
    ((CPUTensor.default_ctor exampleHost).2.tensors.objs
        (CPUTensor.default_ctor exampleHost).1).shape_ = ⟨[]⟩
    ∧ CPUTensor.ToGPU (CPUTensor.default_ctor exampleHost).2 exampleDevice
        (CPUTensor.default_ctor exampleHost).1 = .error (Fault.Check, exampleDevice)
    ∧ (CPUTensor.ToGPU_ToHost (CPUTensor.default_ctor exampleHost).2 exampleDevice
        (CPUTensor.default_ctor exampleHost).1).isNone = true :=
  ⟨rfl, rfl, rfl⟩

/-- C12 (amended): for every host tensor `h` with at least one element (and a
byte size below `2^64`), `h.ToGPU().ToHost()` returns: the device tensor and the
host tensor made have the shape of `h`, element `k` of both is, unchanged, element
`k` of `h` for every linear index `k`; every host object other than the new one
and every cell allocated before are unchanged, as are the device objects other
than the new one; both new tensors are not views and own fresh storage (a new
device allocation, a new host block at the allocation frontier). For a tensor
without elements `ToGPU()` aborts on its `Check`. -/
theorem CPUTensor.ToGPU_ToHost_roundtrip {α : Type} (h : Host α) (d : Device α) (t : Nat)
    (hsz : (h.tensors.objs t).size_ = (h.tensors.objs t).shape_.TotalElementCount) :
    (0 < (h.tensors.objs t).size_ → (h.tensors.objs t).size_ * sizeof_float < SIZE_MOD →
      ∃ d1 h1,
        CPUTensor.ToGPU h d t = .ok (d.tensors.count, d1)
        ∧ GPUTensor.ToHost h d1 d.tensors.count = .ok (h.tensors.count, h1)
        ∧ CPUTensor.ToGPU_ToHost h d t = some (d.tensors.count, h.tensors.count, h1, d1)
        ∧ (h1.tensors.objs h.tensors.count).shape_ = (h.tensors.objs t).shape_
        ∧ (h1.tensors.objs h.tensors.count).size_ = (h.tensors.objs t).size_
        ∧ (d1.tensors.objs d.tensors.count).shape_ = (h.tensors.objs t).shape_
        ∧ (∀ k, k < (h.tensors.objs t).size_ →
            CPUTensor.elem h1 (h1.tensors.objs h.tensors.count) k
              = CPUTensor.elem h (h.tensors.objs t) k)
        ∧ (∀ k, k < (h.tensors.objs t).size_ →
            d1.dmem d.nalloc k = CPUTensor.elem h (h.tensors.objs t) k)
        ∧ (∀ j, j ≠ h.tensors.count → h1.tensors.objs j = h.tensors.objs j)
        ∧ (∀ a, a < h.brk → h1.mem a = h.mem a)
        ∧ (∀ j, j ≠ d.tensors.count → d1.tensors.objs j = d.tensors.objs j)
        ∧ (∀ a k, a ≠ d.nalloc → d1.dmem a k = d.dmem a k)
        ∧ (h1.tensors.objs h.tensors.count).is_view_ = false
        ∧ (h1.tensors.objs h.tensors.count).buffer_ = h.brk
        ∧ h1.brk = h.brk + (h.tensors.objs t).size_
        ∧ (d1.tensors.objs d.tensors.count).is_view_ = false
        ∧ (d1.tensors.objs d.tensors.count).buffer_
            = some (Buffer.CLBuffer
                ⟨d.nalloc, 0, (h.tensors.objs t).size_ * sizeof_float, false⟩
                ((h.tensors.objs t).size_ * sizeof_float))
        ∧ d1.nalloc = d.nalloc + 1)
    ∧ ((h.tensors.objs t).size_ = 0 → CPUTensor.ToGPU h d t = .error (Fault.Check, d)) := by
  constructor
  · intro hpos hfit
    have hn : (h.tensors.objs t).shape_.TotalElementCount = (h.tensors.objs t).size_ :=
      hsz.symm
    have hG := GPUTensor.ofCPU_ok h d t _ hn hpos hfit
    have h4 : sizeof_float = 4 := rfl
    have hdiv : (h.tensors.objs t).size_ * sizeof_float / sizeof_float
        = (h.tensors.objs t).size_ := by rw [h4]; omega
    refine ⟨_, _, hG,
      CPUTensor.ofGPU_ok h _ d.tensors.count (h.tensors.objs t).size_
        ⟨d.nalloc, 0, (h.tensors.objs t).size_ * sizeof_float, false⟩ ?_ ?_ hpos hfit,
      ?_, ?_, ?_, ?_, ?_, ?_, ?_, ?_, ?_, ?_, ?_, ?_, rfl, ?_, ?_, rfl⟩
    · simp only [Device.clEnqueueWriteBuffer, Store.alloc_objs, if_true]
      exact hn
    · simp only [Device.clEnqueueWriteBuffer, Store.alloc_objs, if_true]
    · unfold CPUTensor.ToGPU_ToHost CPUTensor.ToGPU GPUTensor.ToHost
      rw [hG]
      simp only []
      rw [CPUTensor.ofGPU_ok h _ d.tensors.count (h.tensors.objs t).size_
        ⟨d.nalloc, 0, (h.tensors.objs t).size_ * sizeof_float, false⟩
        (by simp only [Device.clEnqueueWriteBuffer, Store.alloc_objs, if_true]; exact hn)
        (by simp only [Device.clEnqueueWriteBuffer, Store.alloc_objs, if_true]) hpos hfit]
    · simp only [Device.clEnqueueWriteBuffer, Store.alloc_objs, if_true]
    · simp only [Device.clEnqueueWriteBuffer, Store.alloc_objs, if_true]
    · simp only [Device.clEnqueueWriteBuffer, Store.alloc_objs, if_true]
    · intro k hk
      unfold CPUTensor.elem
      simp only [Store.alloc_objs, if_true]
      rw [Host.fill_apply, if_pos (by omega), Nat.add_sub_cancel_left]
      exact Device.write_then_read _ _ _ _ _ k rfl hk
    · intro k hk
      unfold CPUTensor.elem
      exact Device.write_then_dmem _
        ⟨d.nalloc, 0, (h.tensors.objs t).size_ * sizeof_float, false⟩ _ _ _ k rfl hk
    · intro j hj
      simp only [Store.alloc_objs]
      rw [if_neg hj]
    · intro a ha
      simp only []
      rw [Host.fill_apply, if_neg (by omega)]
    · intro j hj
      simp only [Device.clEnqueueWriteBuffer, Store.alloc_objs]
      rw [if_neg hj]
    · intro a k ha
      exact Device.write_dmem_other _
        ⟨d.nalloc, 0, (h.tensors.objs t).size_ * sizeof_float, false⟩ _ _ _ a k ha
    · simp only [Store.alloc_objs, if_true]
    · simp only [Store.alloc_objs, if_true]
    · simp only [Device.clEnqueueWriteBuffer, Store.alloc_objs, if_true]
    · simp only [Device.clEnqueueWriteBuffer, Store.alloc_objs, if_true]
  · intro h0
    unfold CPUTensor.ToGPU GPUTensor.ofCPU
    simp only [BaseTensor.ctor, ← hsz, h0, Nat.zero_mul, Nat.zero_mod]
    rfl

/-- C12 (witness): the `(2, 3)` tensor of `exampleHost`. -/
theorem CPUTensor.ToGPU_ToHost_roundtrip_witness :
    (exampleHost.tensors.objs 0).size_ = (exampleHost.tensors.objs 0).shape_.TotalElementCount
    ∧ 0 < (exampleHost.tensors.objs 0).size_
    ∧ (exampleHost.tensors.objs 0).size_ * sizeof_float < SIZE_MOD
    ∧ ∃ d1 h1, CPUTensor.ToGPU_ToHost exampleHost exampleDevice 0 = some (1, 1, h1, d1)
        ∧ CPUTensor.elem h1 (h1.tensors.objs 1) 5 = 15 :=
  ⟨by decide, by decide, by decide,
   match (CPUTensor.ToGPU_ToHost_roundtrip exampleHost exampleDevice 0 (by decide)).1
      (by decide) (by decide) with
   | ⟨d1, h1, _, _, hrt, _, _, _, hel, _⟩ => ⟨d1, h1, hrt, hel 5 (by decide)⟩⟩


/-! ### C13: `PrepareFinalWorkSize` -/

theorem Kernel.WorkSize.value_assign (w : Kernel.WorkSize) (d v e : Nat) :
    (w.assign d v).value e = if e = d ∧ d < w.values.length then v else w.value e := by
  unfold Kernel.WorkSize.assign Kernel.WorkSize.value
  simp only [List.getD_eq_getElem?_getD, List.getElem?_set]
  by_cases h : d = e
  · subst h
    by_cases hl : d < w.values.length
    · simp [hl]
    · simp [hl, List.getElem?_eq_none (Nat.le_of_not_lt hl)]
  · rw [if_neg h, if_neg (fun hc => h hc.1.symm)]

theorem Kernel.PrepareFinalWorkSize_loop (lws gws : Kernel.WorkSize) (n : Nat) :
    ((List.range n).foldl
        (fun g d => g.assign d (Kernel.PrepareFinalWorkSize.entry (g.value d) (lws.value d)))
        gws).dimensions = gws.dimensions
    ∧ ((List.range n).foldl
        (fun g d => g.assign d (Kernel.PrepareFinalWorkSize.entry (g.value d) (lws.value d)))
        gws).values.length = gws.values.length
    ∧ ∀ e, ((List.range n).foldl
        (fun g d => g.assign d (Kernel.PrepareFinalWorkSize.entry (g.value d) (lws.value d)))
        gws).value e
        = if e < n ∧ e < gws.values.length
          then Kernel.PrepareFinalWorkSize.entry (gws.value e) (lws.value e)
          else gws.value e := by
  induction n with
  | zero =>
    refine ⟨rfl, rfl, fun e => ?_⟩
    rw [if_neg (by omega)]
    rfl
  | succ n ih =>
    obtain ⟨ih1, ih2, ih3⟩ := ih
    rw [List.range_succ, List.foldl_append, List.foldl_cons, List.foldl_nil]
    refine ⟨ih1, ?_, fun e => ?_⟩
    · rw [← ih2]
      simp [Kernel.WorkSize.assign]
    · rw [Kernel.WorkSize.value_assign, ih2]
      have hwn := ih3 n
      rw [if_neg (show ¬ (n < n ∧ n < gws.values.length) from fun hc => Nat.lt_irrefl n hc.1)]
        at hwn
      rw [hwn]
      by_cases he : e = n
      · subst he
        by_cases hl : e < gws.values.length
        · rw [if_pos (show e = e ∧ e < gws.values.length from ⟨rfl, hl⟩),
            if_pos (show e < e + 1 ∧ e < gws.values.length from ⟨Nat.lt_succ_self e, hl⟩)]
        · rw [if_neg (show ¬ (e = e ∧ e < gws.values.length) from fun hc => hl hc.2),
            if_neg (show ¬ (e < e + 1 ∧ e < gws.values.length) from fun hc => hl hc.2)]
          exact hwn
      · rw [if_neg (show ¬ (e = n ∧ n < gws.values.length) from fun hc => he hc.1), ih3 e]
        by_cases hc : e < n ∧ e < gws.values.length
        · rw [if_pos hc,
            if_pos (show e < n + 1 ∧ e < gws.values.length from ⟨by omega, hc.2⟩)]
        · rw [if_neg hc,
            if_neg (show ¬ (e < n + 1 ∧ e < gws.values.length) from by omega)]

theorem Kernel.multiple_gap (l a b : Nat) (ha : l ∣ a) (hb : l ∣ b) (hab : a < b) :
    a + l ≤ b := by
  obtain ⟨x, rfl⟩ := ha
  obtain ⟨y, rfl⟩ := hb
  have hl : 0 < l := by
    rcases Nat.eq_zero_or_pos l with h0 | h0
    · subst h0
      simp at hab
    · exact h0
  have hxy : x < y := lt_of_mul_lt_mul_left hab (Nat.zero_le l)
  calc l * x + l = l * (x + 1) := by ring
    _ ≤ l * y := Nat.mul_le_mul_left l hxy

/-- On one entry: when `l` is positive and at most `2^16` and some multiple of `l`
at or above `g` is representable in `size_t`, the loop body yields the least
multiple of `l` that is at least `g`. -/
theorem Kernel.PrepareFinalWorkSize.entry_spec (g l : Nat) (hl : 0 < l)
    (hl16 : l ≤ Kernel.UINT16_MOD) (hfit : ∃ m, l ∣ m ∧ g ≤ m ∧ m < SIZE_MOD) :
    l ∣ Kernel.PrepareFinalWorkSize.entry g l
    ∧ g ≤ Kernel.PrepareFinalWorkSize.entry g l
    ∧ Kernel.PrepareFinalWorkSize.entry g l < g + l
    ∧ (∀ m, l ∣ m → g ≤ m → Kernel.PrepareFinalWorkSize.entry g l ≤ m)
    ∧ (l ∣ g → Kernel.PrepareFinalWorkSize.entry g l = g) := by
  have h16 : Kernel.UINT16_MOD = 65536 := rfl
  have hM : SIZE_MOD = 18446744073709551616 := rfl
  have hrl : g % l < l := Nat.mod_lt g hl
  have hrem : (g % l) % Kernel.UINT16_MOD = g % l := Nat.mod_eq_of_lt (by omega)
  have hdm : l * (g / l) + g % l = g := Nat.div_add_mod g l
  unfold Kernel.PrepareFinalWorkSize.entry
  simp only [hrem]
  by_cases h0 : g % l = 0
  · rw [if_neg (by simpa using h0)]
    have hdvd : l ∣ g := Nat.dvd_of_mod_eq_zero h0
    exact ⟨hdvd, Nat.le_refl g, by omega, fun m _ hm => hm, fun _ => rfl⟩
  · rw [if_pos h0]
    have hdvd : l ∣ g + (l - g % l) := by
      refine ⟨g / l + 1, ?_⟩
      have : l * (g / l + 1) = l * (g / l) + l := by ring
      omega
    have hleast : ∀ m, l ∣ m → g ≤ m → g + (l - g % l) ≤ m := by
      intro m hm hgm
      by_contra hlt
      have hgap := Kernel.multiple_gap l m (g + (l - g % l)) hm hdvd (by omega)
      omega
    obtain ⟨m, hm1, hm2, hm3⟩ := hfit
    have hlt := hleast m hm1 hm2
    have hsub : (l + SIZE_MOD - g % l) % SIZE_MOD = l - g % l := by
      have : l + SIZE_MOD - g % l = (l - g % l) + SIZE_MOD := by omega
      rw [this, Nat.add_mod_right, Nat.mod_eq_of_lt (by omega)]
    rw [hsub, Nat.mod_eq_of_lt (by omega)]
    refine ⟨hdvd, by omega, by omega, hleast, fun hg => ?_⟩
    exact absurd (Nat.mod_eq_zero_of_dvd hg) h0

/-- C13 (counterexample): two dispatch sizes that are not the least multiple of
the local extent at or above the global extent.  For `g = 2^64 - 1` and `l = 2`
the addition wraps around and the result is `0`, which is below `g`.  For `g =
65536` and `l = 131072` the remainder `65536` does not fit the 16 bits it is
stored in, is taken for `0`, and `g` is left as it is, although it is not a
multiple of `l`. -/
theorem Kernel.PrepareFinalWorkSize_not_least :
    (Kernel.PrepareFinalWorkSize (Kernel.WorkSize.ctor1 18446744073709551615)
        (Kernel.WorkSize.ctor1 2)).value 0 = 0
    ∧ ¬ (18446744073709551615
          ≤ (Kernel.PrepareFinalWorkSize (Kernel.WorkSize.ctor1 18446744073709551615)
              (Kernel.WorkSize.ctor1 2)).value 0)
    ∧ (Kernel.PrepareFinalWorkSize (Kernel.WorkSize.ctor1 65536)
        (Kernel.WorkSize.ctor1 131072)).value 0 = 65536
    ∧ ¬ (131072 ∣ (Kernel.PrepareFinalWorkSize (Kernel.WorkSize.ctor1 65536)
          (Kernel.WorkSize.ctor1 131072)).value 0) := by
  decide

/-- C13 (amended): for a work size of 1 to 3 dimensions and every dimension `d` of
it in which the local extent `l` is positive and at most `2^16` and some multiple
of `l` at or above the global extent `g` is below `2^64`, the dispatch size
computed by `PrepareFinalWorkSize` is in dimension `d` the least multiple of `l`
that is at least `g` (it is `g` itself when `g` is a multiple of `l`, and always
below `g + l`); the number of dimensions is unchanged; `g = 100`, `l = 32` gives
`128`. -/
theorem Kernel.PrepareFinalWorkSize_spec (gws lws : Kernel.WorkSize) (d : Nat)
    (hdim : 1 ≤ gws.dimensions ∧ gws.dimensions ≤ 3) (hlen : gws.values.length = 3)
    (hd : d < gws.dimensions) (hl : 0 < lws.value d) (hl16 : lws.value d ≤ Kernel.UINT16_MOD)
    (hfit : ∃ m, lws.value d ∣ m ∧ gws.value d ≤ m ∧ m < SIZE_MOD) :
    lws.value d ∣ (Kernel.PrepareFinalWorkSize gws lws).value d
    ∧ gws.value d ≤ (Kernel.PrepareFinalWorkSize gws lws).value d
    ∧ (Kernel.PrepareFinalWorkSize gws lws).value d < gws.value d + lws.value d
    ∧ (∀ m, lws.value d ∣ m → gws.value d ≤ m →
        (Kernel.PrepareFinalWorkSize gws lws).value d ≤ m)
    ∧ (lws.value d ∣ gws.value d → (Kernel.PrepareFinalWorkSize gws lws).value d = gws.value d)
    ∧ (Kernel.PrepareFinalWorkSize gws lws).dimensions = gws.dimensions
    ∧ (Kernel.PrepareFinalWorkSize (Kernel.WorkSize.ctor1 100) (Kernel.WorkSize.ctor1 32)).value 0
        = 128 := by
  have hloop := Kernel.PrepareFinalWorkSize_loop lws gws gws.dimensions
  have hv : (Kernel.PrepareFinalWorkSize gws lws).value d
      = Kernel.PrepareFinalWorkSize.entry (gws.value d) (lws.value d) := by
    unfold Kernel.PrepareFinalWorkSize
    rw [hloop.2.2 d, if_pos ⟨hd, by omega⟩]
  obtain ⟨h1, h2, h3, h4, h5⟩ :=
    Kernel.PrepareFinalWorkSize.entry_spec (gws.value d) (lws.value d) hl hl16 hfit
  rw [hv]
  exact ⟨h1, h2, h3, h4, h5, hloop.1, by decide⟩

/-- C13 (witness): the second dimension of the global size `(100, 50)` with the
local size `(32, 8)`: `50` becomes `56`. -/
theorem Kernel.PrepareFinalWorkSize_spec_witness :
    (Kernel.PrepareFinalWorkSize (Kernel.WorkSize.ctor2 100 50)
        (Kernel.WorkSize.ctor2 32 8)).value 1 < 50 + 8
    ∧ 8 ∣ (Kernel.PrepareFinalWorkSize (Kernel.WorkSize.ctor2 100 50)
        (Kernel.WorkSize.ctor2 32 8)).value 1 :=
  ⟨(Kernel.PrepareFinalWorkSize_spec (Kernel.WorkSize.ctor2 100 50) (Kernel.WorkSize.ctor2 32 8) 1
      (by decide) (by decide) (by decide) (by decide) (by decide)
      ⟨56, by decide, by decide, by decide⟩).2.2.1,
   (Kernel.PrepareFinalWorkSize_spec (Kernel.WorkSize.ctor2 100 50) (Kernel.WorkSize.ctor2 32 8) 1
      (by decide) (by decide) (by decide) (by decide) (by decide)
      ⟨56, by decide, by decide, by decide⟩).1⟩


/-! ### C14: positional argument binding -/

theorem Kernel.BindNextArgument_true (cl : KernelRuntime) (k k1 : Kernel) (a : Argument)
    (h : k.BindNextArgument cl a = .ok (true, k1)) :
    ∃ v, a.arg = .ok v
      ∧ k1.cur_index_ = k.cur_index_ + 1
      ∧ (∀ s, k1.args s = if s = k.cur_index_ then some v else k.args s)
      ∧ k1.enqueued = k.enqueued := by
  unfold Kernel.BindNextArgument at h
  cases ha : a.arg with
  | error f => rw [ha] at h; cases h
  | ok v =>
    rw [ha] at h
    simp only [] at h
    by_cases hc : cl.clSetKernelArg k.cur_index_ v = false
    · rw [if_pos hc] at h
      cases h
    · rw [if_neg hc] at h
      cases h
      exact ⟨v, rfl, rfl, fun _ => rfl, rfl⟩

theorem Kernel.BindNextArgument_false (cl : KernelRuntime) (k k1 : Kernel) (a : Argument)
    (h : k.BindNextArgument cl a = .ok (false, k1)) : k1 = k := by
  unfold Kernel.BindNextArgument at h
  cases ha : a.arg with
  | error f => rw [ha] at h; cases h
  | ok v =>
    rw [ha] at h
    simp only [] at h
    by_cases hc : cl.clSetKernelArg k.cur_index_ v = false
    · rw [if_pos hc] at h
      cases h
      rfl
    · rw [if_neg hc] at h
      cases h

theorem Kernel.Run2_true (cl : KernelRuntime) (k k1 : Kernel) (gws lws : Kernel.WorkSize)
    (h : k.Run2 cl gws lws = .ok (true, k1)) :
    k1.cur_index_ = 0 ∧ k1.args = k.args
    ∧ k1.enqueued
        = k.enqueued ++ [{ gws := Kernel.PrepareFinalWorkSize gws lws, lws := lws,
                           args := k.args }] := by
  unfold Kernel.Run2 at h
  by_cases hd : gws.dimensions = lws.dimensions
  · rw [if_neg (not_not.mpr hd)] at h
    simp only [] at h
    by_cases hc : cl.clEnqueueNDRangeKernel (Kernel.PrepareFinalWorkSize gws lws) lws = false
    · rw [if_pos hc] at h
      cases h
    · rw [if_neg hc] at h
      cases h
      exact ⟨rfl, rfl, rfl⟩
  · rw [if_pos hd] at h
    cases h

theorem Kernel.Run_nil_true (cl : KernelRuntime) (k k1 : Kernel) (gws : Kernel.WorkSize)
    (lws : Option Kernel.WorkSize) (h : k.Run cl gws lws [] = .ok (true, k1)) :
    k1.cur_index_ = 0 ∧ k1.args = k.args
    ∧ k1.enqueued
        = k.enqueued ++ [{ gws := Kernel.PrepareFinalWorkSize gws
                                    (lws.getD (Kernel.CalculateLocalWorkSize gws)),
                           lws := lws.getD (Kernel.CalculateLocalWorkSize gws),
                           args := k.args }] := by
  unfold Kernel.Run at h
  cases lws with
  | none => exact Kernel.Run2_true cl k k1 gws _ h
  | some l => exact Kernel.Run2_true cl k k1 gws l h

/-- A successful variadic `Run`: the arguments went to the slots from the cursor
on, the other slots are untouched, one launch was enqueued with these slots, and
the cursor is `0`. -/
theorem Kernel.Run_true (cl : KernelRuntime) (gws : Kernel.WorkSize)
    (lws : Option Kernel.WorkSize) (args : List Argument) (k k1 : Kernel)
    (h : k.Run cl gws lws args = .ok (true, k1)) :
    k1.cur_index_ = 0
    ∧ k1.enqueued
        = k.enqueued ++ [{ gws := Kernel.PrepareFinalWorkSize gws
                                    (lws.getD (Kernel.CalculateLocalWorkSize gws)),
                           lws := lws.getD (Kernel.CalculateLocalWorkSize gws),
                           args := k1.args }]
    ∧ (∀ j a, args[j]? = some a →
        ∃ v, a.arg = .ok v ∧ k1.args (k.cur_index_ + j) = some v)
    ∧ (∀ s, s < k.cur_index_ ∨ k.cur_index_ + args.length ≤ s → k1.args s = k.args s) := by
  induction args generalizing k with
  | nil =>
    obtain ⟨h1, h2, h3⟩ := Kernel.Run_nil_true cl k k1 gws lws h
    refine ⟨h1, ?_, ?_, ?_⟩
    · rw [h3, h2]
    · intro j a hja
      simp at hja
    · intro s _
      rw [h2]
  | cons head tail ih =>
    unfold Kernel.Run at h
    cases hb : k.BindNextArgument cl head with
    | error f => rw [hb] at h; cases h
    | ok r =>
      obtain ⟨b, k2⟩ := r
      rw [hb] at h
      cases b with
      | false => cases h
      | true =>
        simp only [] at h
        obtain ⟨v, hv, hcur, hargs, henq⟩ := Kernel.BindNextArgument_true cl k k2 head hb
        obtain ⟨i1, i2, i3, i4⟩ := ih k2 h
        refine ⟨i1, ?_, ?_, ?_⟩
        · rw [i2, henq]
        · intro j a hja
          cases j with
          | zero =>
            simp only [List.getElem?_cons_zero, Option.some.injEq] at hja
            subst hja
            refine ⟨v, hv, ?_⟩
            rw [Nat.add_zero, i4 k.cur_index_ (Or.inl (by omega)), hargs, if_pos rfl]
          | succ j =>
            simp only [List.getElem?_cons_succ] at hja
            obtain ⟨w, hw1, hw2⟩ := i3 j a hja
            refine ⟨w, hw1, ?_⟩
            rw [← hw2, hcur]
            congr 1
            omega
        · intro s hs
          simp only [List.length_cons] at hs
          rw [i4 s (by omega), hargs, if_neg (by omega)]

/-- Consecutive successful calls of `Run` from cursor `0`: each call enqueues one
launch, whose slots `0 .. n-1` hold the `n` arguments of that call, and the cursor
is `0` afterwards. -/
theorem Kernel.Runs_true (cl : KernelRuntime) (cs : List Kernel.Call) (k k1 : Kernel)
    (bs : List Bool) (h0 : k.cur_index_ = 0) (h : Kernel.Runs cl k cs = .ok (bs, k1))
    (hall : ∀ b ∈ bs, b = true) :
    k1.cur_index_ = 0
    ∧ ∃ launches : List Kernel.Launch,
        k1.enqueued = k.enqueued ++ launches
        ∧ launches.length = cs.length
        ∧ ∀ (i : Nat) (c : Kernel.Call) (L : Kernel.Launch),
            cs[i]? = some c → launches[i]? = some L →
            ∀ (j : Nat) (a : Argument), c.args[j]? = some a →
              ∃ v, a.arg = .ok v ∧ L.args j = some v := by
  induction cs generalizing k bs with
  | nil =>
    unfold Kernel.Runs at h
    cases h
    exact ⟨h0, [], by simp, rfl, fun i c L hc => by cases hc⟩
  | cons c cs ih =>
    unfold Kernel.Runs at h
    cases hr : k.Run cl c.gws c.lws c.args with
    | error f => rw [hr] at h; cases h
    | ok r =>
      obtain ⟨b, k2⟩ := r
      rw [hr] at h
      simp only [] at h
      cases hrs : Kernel.Runs cl k2 cs with
      | error f => rw [hrs] at h; cases h
      | ok r2 =>
        obtain ⟨bs2, k3⟩ := r2
        rw [hrs] at h
        cases h
        have hb : b = true := hall b (by simp)
        subst hb
        obtain ⟨r1, r2, r3, _⟩ := Kernel.Run_true cl c.gws c.lws c.args k k2 hr
        obtain ⟨i1, launches, i2, i3, i4⟩ :=
          ih k2 bs2 r1 hrs (fun b hb => hall b (by simp [hb]))
        refine ⟨i1,
          Kernel.Launch.mk
            (Kernel.PrepareFinalWorkSize c.gws (c.lws.getD (Kernel.CalculateLocalWorkSize c.gws)))
            (c.lws.getD (Kernel.CalculateLocalWorkSize c.gws)) k2.args :: launches,
          ?_, by simp [i3], ?_⟩
        · rw [i2, r2, List.append_assoc]
          rfl
        · intro i c1 L hc hL j a hja
          cases i with
          | zero =>
            simp only [List.getElem?_cons_zero, Option.some.injEq] at hc hL
            subst hc
            subst hL
            obtain ⟨v, hv1, hv2⟩ := r3 j a hja
            rw [h0, Nat.zero_add] at hv2
            exact ⟨v, hv1, hv2⟩
          | succ i =>
            simp only [List.getElem?_cons_succ] at hc hL
            exact i4 i c1 L hc hL j a hja


/-- A call of the variadic `Run` returns `true` when no argument trips an
assertion, the runtime accepts each argument at its slot, the two work sizes have
the same number of dimensions and the runtime accepts the launch. -/
theorem Kernel.Run_succeeds (cl : KernelRuntime) (gws : Kernel.WorkSize)
    (lws : Option Kernel.WorkSize) (args : List Argument) (k : Kernel)
    (hargs : ∀ (j : Nat) (a : Argument), args[j]? = some a →
      ∃ v, a.arg = .ok v ∧ cl.clSetKernelArg (k.cur_index_ + j) v = true)
    (hdim : gws.dimensions = (lws.getD (Kernel.CalculateLocalWorkSize gws)).dimensions)
    (hrun : cl.clEnqueueNDRangeKernel
        (Kernel.PrepareFinalWorkSize gws (lws.getD (Kernel.CalculateLocalWorkSize gws)))
        (lws.getD (Kernel.CalculateLocalWorkSize gws)) = true) :
    ∃ k1, k.Run cl gws lws args = .ok (true, k1) := by
  induction args generalizing k with
  | nil =>
    unfold Kernel.Run
    cases lws with
    | none =>
      simp only [Option.getD_none] at hdim hrun
      unfold Kernel.Run1 Kernel.Run2
      rw [if_neg (not_not.mpr hdim)]
      simp only []
      rw [if_neg (by rw [hrun]; decide)]
      exact ⟨_, rfl⟩
    | some l =>
      simp only [Option.getD_some] at hdim hrun
      unfold Kernel.Run2
      simp only [hdim, not_true_eq_false, if_false, hrun, Bool.true_eq_false]
      exact ⟨_, rfl⟩
  | cons head tail ih =>
    obtain ⟨v, hv, hok⟩ := hargs 0 head (by simp)
    rw [Nat.add_zero] at hok
    have hb : k.BindNextArgument cl head
        = .ok (true, { k with args := fun s => if s = k.cur_index_ then some v else k.args s,
                              cur_index_ := k.cur_index_ + 1 }) := by
      unfold Kernel.BindNextArgument
      rw [hv]
      simp only []
      rw [if_neg (by rw [hok]; decide)]
    unfold Kernel.Run
    rw [hb]
    simp only []
    apply ih
    intro j a hja
    obtain ⟨w, hw1, hw2⟩ := hargs (j + 1) a (by simpa using hja)
    refine ⟨w, hw1, ?_⟩
    rw [← hw2]
    congr 1
    simp only []
    omega

/-- C14: kernel argument binding is positional.  A successful `BindNextArgument`
stores the value in the slot the cursor points to, leaves the other slots alone
and advances the cursor by exactly one; a failed one changes nothing.  Starting
from cursor `0`, a successful call `Run(gws[, lws], a1, ..., an)` has bound `a_j` to
slot `j-1`, has enqueued one launch with these slots, and leaves the cursor at `0`;
hence in any number of consecutive successful calls each call launches with its
own arguments in the slots `0 .. n-1`.  Such a call does succeed when the runtime
accepts the arguments and the launch. -/
theorem Kernel.Run_positional (cl : KernelRuntime) (k : Kernel) :
    (∀ a k1, k.BindNextArgument cl a = .ok (true, k1) →
        k1.cur_index_ = k.cur_index_ + 1
        ∧ ∃ v, a.arg = .ok v ∧ k1.args k.cur_index_ = some v
            ∧ ∀ s, s ≠ k.cur_index_ → k1.args s = k.args s)
    ∧ (∀ a k1, k.BindNextArgument cl a = .ok (false, k1) → k1 = k)
    ∧ (k.cur_index_ = 0 → ∀ gws lws args k1, k.Run cl gws lws args = .ok (true, k1) →
        k1.cur_index_ = 0
        ∧ (∀ (j : Nat) (a : Argument), args[j]? = some a →
            ∃ v, a.arg = .ok v ∧ k1.args j = some v)
        ∧ (∀ s, args.length ≤ s → k1.args s = k.args s)
        ∧ k1.enqueued
            = k.enqueued ++ [Kernel.Launch.mk
                (Kernel.PrepareFinalWorkSize gws (lws.getD (Kernel.CalculateLocalWorkSize gws)))
                (lws.getD (Kernel.CalculateLocalWorkSize gws)) k1.args])
    ∧ (k.cur_index_ = 0 → ∀ cs bs k1, Kernel.Runs cl k cs = .ok (bs, k1) →
        (∀ b ∈ bs, b = true) →
        k1.cur_index_ = 0
        ∧ ∃ launches : List Kernel.Launch,
            k1.enqueued = k.enqueued ++ launches
            ∧ launches.length = cs.length
            ∧ ∀ (i : Nat) (c : Kernel.Call) (L : Kernel.Launch),
                cs[i]? = some c → launches[i]? = some L →
                ∀ (j : Nat) (a : Argument), c.args[j]? = some a →
                  ∃ v, a.arg = .ok v ∧ L.args j = some v)
    ∧ (∀ gws lws args,
        (∀ (j : Nat) (a : Argument), args[j]? = some a →
          ∃ v, a.arg = .ok v ∧ cl.clSetKernelArg (k.cur_index_ + j) v = true) →
        gws.dimensions = (lws.getD (Kernel.CalculateLocalWorkSize gws)).dimensions →
        cl.clEnqueueNDRangeKernel
          (Kernel.PrepareFinalWorkSize gws (lws.getD (Kernel.CalculateLocalWorkSize gws)))
          (lws.getD (Kernel.CalculateLocalWorkSize gws)) = true →
        ∃ k1, k.Run cl gws lws args = .ok (true, k1)) := by
  refine ⟨?_, ?_, ?_, ?_, ?_⟩
  · intro a k1 h
    obtain ⟨v, hv, hcur, hargs, _⟩ := Kernel.BindNextArgument_true cl k k1 a h
    refine ⟨hcur, v, hv, ?_, ?_⟩
    · rw [hargs, if_pos rfl]
    · intro s hs
      rw [hargs, if_neg hs]
  · intro a k1 h
    exact Kernel.BindNextArgument_false cl k k1 a h
  · intro h0 gws lws args k1 h
    obtain ⟨r1, r2, r3, r4⟩ := Kernel.Run_true cl gws lws args k k1 h
    refine ⟨r1, ?_, ?_, r2⟩
    · intro j a hja
      obtain ⟨v, hv1, hv2⟩ := r3 j a hja
      rw [h0, Nat.zero_add] at hv2
      exact ⟨v, hv1, hv2⟩
    · intro s hs
      exact r4 s (Or.inr (by omega))
  · intro h0 cs bs k1 h hall
    exact Kernel.Runs_true cl cs k k1 bs h0 h hall
  · intro gws lws args h1 h2 h3
    exact Kernel.Run_succeeds cl gws lws args k h1 h2 h3

/-- C14 (witness): the call `kernel->Run(WorkSize(100), buffer, LocalMemory(20),
1337, 4.2f)` of the comment in `Kernel.h` on a new kernel, with a runtime that
accepts it: it returns `true`, the cursor is `0` afterwards, and slot `2` holds
`1337`. -/
theorem Kernel.Run_positional_witness :
    Kernel.ctor.cur_index_ = 0
    ∧ ∃ k1, Kernel.ctor.Run KernelRuntime.accepting (Kernel.WorkSize.ctor1 100) none
          Kernel.exampleArguments = .ok (true, k1)
        ∧ k1.cur_index_ = 0
        ∧ ∃ v, (Argument.other 4 1337).arg = .ok v ∧ k1.args 2 = some v :=
  ⟨rfl, _, rfl,
   ((Kernel.Run_positional KernelRuntime.accepting Kernel.ctor).2.2.1 rfl
      (Kernel.WorkSize.ctor1 100) none Kernel.exampleArguments _ rfl).1,
   ((Kernel.Run_positional KernelRuntime.accepting Kernel.ctor).2.2.1 rfl
      (Kernel.WorkSize.ctor1 100) none Kernel.exampleArguments _ rfl).2.1 2
      (Argument.other 4 1337) rfl⟩


/-! ### C17: the halo lookup table -/

theorem KernelManager.lookup_inner (P : Nat → Prop) [DecidablePred P] (y : Nat)
    (xs : List Nat) (t : List Nat × List Nat) :
    xs.foldl (fun t x => if P x then (t.1 ++ [x], t.2 ++ [y]) else t) t
      = (t.1 ++ xs.filter (fun x => decide (P x)),
         t.2 ++ (xs.filter (fun x => decide (P x))).map (fun _ => y)) := by
  induction xs generalizing t with
  | nil => simp
  | cons x xs ih =>
    rw [List.foldl_cons, ih]
    by_cases hp : P x
    · simp [hp, List.filter_cons]
    · simp [hp, List.filter_cons]

theorem KernelManager.lookup_outer (Q : Nat → Nat → Prop) [∀ x y, Decidable (Q x y)]
    (xs ys : List Nat) (t : List Nat × List Nat) :
    ys.foldl (fun t y => xs.foldl (fun t x => if Q x y then (t.1 ++ [x], t.2 ++ [y]) else t) t) t
      = (t.1 ++ ys.flatMap (fun y => xs.filter (fun x => decide (Q x y))),
         t.2 ++ ys.flatMap
            (fun y => (xs.filter (fun x => decide (Q x y))).map (fun _ => y))) := by
  induction ys generalizing t with
  | nil => simp
  | cons y ys ih =>
    rw [List.foldl_cons, KernelManager.lookup_inner (fun x => Q x y) y xs t, ih]
    simp [List.flatMap_cons, List.append_assoc]

theorem KernelManager.lookup_table_eq_halo (hw hh : Nat) (hfw : 16 + 2 * hw < SIZE_MOD)
    (hfh : 16 + 2 * hh < SIZE_MOD) :
    KernelManager.lookup_table hw hh
      = ((KernelManager.halo hw hh).map Prod.fst, (KernelManager.halo hw hh).map Prod.snd) := by
  have hM : SIZE_MOD = 18446744073709551616 := rfl
  have e1 : (KernelManager.kTileHeight + 2 * hh) % SIZE_MOD = 16 + 2 * hh :=
    Nat.mod_eq_of_lt hfh
  have e2 : (KernelManager.kTileWidth + 2 * hw) % SIZE_MOD = 16 + 2 * hw :=
    Nat.mod_eq_of_lt hfw
  have e3 : (KernelManager.kTileWidth + hw) % SIZE_MOD = 16 + hw :=
    Nat.mod_eq_of_lt (by show 16 + hw < SIZE_MOD; omega)
  have e4 : (KernelManager.kTileHeight + hh) % SIZE_MOD = 16 + hh :=
    Nat.mod_eq_of_lt (by show 16 + hh < SIZE_MOD; omega)
  unfold KernelManager.lookup_table KernelManager.halo
  rw [e1, e2, e3, e4,
    KernelManager.lookup_outer (fun x y => x < hw ∨ x ≥ 16 + hw ∨ y < hh ∨ y ≥ 16 + hh)]
  simp only [List.nil_append, List.filter_flatMap, List.map_flatMap, List.filter_map,
    List.map_map]
  have hfun : ∀ y : Nat,
      (fun x => decide (x < hw ∨ x ≥ 16 + hw ∨ y < hh ∨ y ≥ 16 + hh))
        = ((fun p : Nat × Nat => decide (¬ (hw ≤ p.1 ∧ p.1 < 16 + hw ∧ hh ≤ p.2 ∧ p.2 < 16 + hh)))
            ∘ fun x => (x, y)) := by
    intro y
    funext x
    simp only [Function.comp, decide_eq_decide]
    omega
  congr 1
  · congr 1
    funext y
    rw [hfun y]
    simp [Function.comp_def]
  · congr 1
    funext y
    rw [hfun y]
    simp [Function.comp_def]

theorem KernelManager.mem_halo (hw hh x y : Nat) :
    (x, y) ∈ KernelManager.halo hw hh
      ↔ x < 16 + 2 * hw ∧ y < 16 + 2 * hh
        ∧ ¬ (hw ≤ x ∧ x < 16 + hw ∧ hh ≤ y ∧ y < 16 + hh) := by
  unfold KernelManager.halo
  simp only [List.mem_filter, List.mem_flatMap, List.mem_map, List.mem_range, Prod.mk.injEq,
    decide_eq_true_eq]
  constructor
  · rintro ⟨⟨b, hb, a, ha, rfl, rfl⟩, hout⟩
    exact ⟨ha, hb, hout⟩
  · rintro ⟨hx, hy, hout⟩
    exact ⟨⟨y, hy, x, hx, rfl, rfl⟩, hout⟩

theorem KernelManager.nodup_halo (hw hh : Nat) : (KernelManager.halo hw hh).Nodup := by
  unfold KernelManager.halo
  apply List.Nodup.filter
  have hrm : (List.range (16 + 2 * hh)).flatMap
      (fun y => (List.range (16 + 2 * hw)).map (fun x => (x, y)))
      = (List.product (List.range (16 + 2 * hh)) (List.range (16 + 2 * hw))).map Prod.swap := by
    simp [List.product, List.map_flatMap, Function.comp_def]
  rw [hrm]
  exact List.Nodup.map Prod.swap_injective
    (List.Nodup.product (List.nodup_range _) (List.nodup_range _))

theorem KernelManager.length_halo (hw hh : Nat) :
    (KernelManager.halo hw hh).length = (16 + 2 * hw) * (16 + 2 * hh) - 256 := by
  rw [← List.toFinset_card_of_nodup (KernelManager.nodup_halo hw hh)]
  have hset : (KernelManager.halo hw hh).toFinset
      = (Finset.range (16 + 2 * hw) ×ˢ Finset.range (16 + 2 * hh))
          \ (Finset.Ico hw (16 + hw) ×ˢ Finset.Ico hh (16 + hh)) := by
    ext ⟨x, y⟩
    simp only [List.mem_toFinset, KernelManager.mem_halo, Finset.mem_sdiff, Finset.mem_product,
      Finset.mem_range, Finset.mem_Ico]
    constructor
    · rintro ⟨h1, h2, h3⟩
      exact ⟨⟨h1, h2⟩, fun hc => h3 ⟨hc.1.1, hc.1.2, hc.2.1, hc.2.2⟩⟩
    · rintro ⟨⟨h1, h2⟩, h3⟩
      exact ⟨h1, h2, fun hc => h3 ⟨⟨hc.1, hc.2.1⟩, hc.2.2.1, hc.2.2.2⟩⟩
  have hsub : Finset.Ico hw (16 + hw) ×ˢ Finset.Ico hh (16 + hh)
      ⊆ Finset.range (16 + 2 * hw) ×ˢ Finset.range (16 + 2 * hh) := by
    intro p hp
    simp only [Finset.mem_product, Finset.mem_Ico, Finset.mem_range] at hp ⊢
    omega
  rw [hset, Finset.card_sdiff hsub, Finset.card_product, Finset.card_product, Finset.card_range,
    Finset.card_range, Nat.card_Ico, Nat.card_Ico]
  have e1 : 16 + hw - hw = 16 := by omega
  have e2 : 16 + hh - hh = 16 := by omega
  rw [e1, e2]

theorem KernelManager.halo_eq_nil (hw hh : Nat) :
    KernelManager.halo hw hh = [] ↔ hw = 0 ∧ hh = 0 := by
  rw [List.eq_nil_iff_forall_not_mem]
  constructor
  · intro h
    have h00 := h (0, 0)
    rw [KernelManager.mem_halo] at h00
    omega
  · rintro ⟨rfl, rfl⟩ ⟨x, y⟩
    rw [KernelManager.mem_halo]
    omega

/-- C17: for half-extents `hw` and `hh` (with `16 + 2*hw` and `16 + 2*hh` below
`2^64`, as for every size the kernel tables can be indexed with) the two lists
generated by `convolution_kernel` are the `x` and the `y` coordinates of the list
`halo hw hh`: the points of the expanded tile outside the interior, in row-major
order.  Both lists have `(16 + 2*hw) * (16 + 2*hh) - 256` entries, no point occurs
twice, and the table is empty exactly when `hw = hh = 0`. -/
theorem KernelManager.lookup_table_spec (hw hh : Nat) (hfw : 16 + 2 * hw < SIZE_MOD)
    (hfh : 16 + 2 * hh < SIZE_MOD) :
    KernelManager.lookup_table hw hh
      = ((KernelManager.halo hw hh).map Prod.fst, (KernelManager.halo hw hh).map Prod.snd)
    ∧ (∀ x y, (x, y) ∈ KernelManager.halo hw hh
        ↔ x < 16 + 2 * hw ∧ y < 16 + 2 * hh
          ∧ ¬ (hw ≤ x ∧ x < 16 + hw ∧ hh ≤ y ∧ y < 16 + hh))
    ∧ (KernelManager.lookup_table hw hh).1.length = (16 + 2 * hw) * (16 + 2 * hh) - 256
    ∧ (KernelManager.lookup_table hw hh).2.length = (16 + 2 * hw) * (16 + 2 * hh) - 256
    ∧ (KernelManager.halo hw hh).Nodup
    ∧ ((KernelManager.lookup_table hw hh).1 = [] ↔ hw = 0 ∧ hh = 0)
    ∧ ((KernelManager.lookup_table hw hh).2 = [] ↔ hw = 0 ∧ hh = 0) := by
  have heq := KernelManager.lookup_table_eq_halo hw hh hfw hfh
  refine ⟨heq, KernelManager.mem_halo hw hh, ?_, ?_, KernelManager.nodup_halo hw hh, ?_, ?_⟩
  · rw [heq]
    simp only [List.length_map]
    exact KernelManager.length_halo hw hh
  · rw [heq]
    simp only [List.length_map]
    exact KernelManager.length_halo hw hh
  · rw [heq]
    simp only [List.map_eq_nil_iff]
    exact KernelManager.halo_eq_nil hw hh
  · rw [heq]
    simp only [List.map_eq_nil_iff]
    exact KernelManager.halo_eq_nil hw hh

/-- C17 (witness): the `3 x 3` kernel, half-extents `1` and `1`: the table has
`18 * 18 - 256 = 68` entries and starts with the top row of the expanded tile. -/
theorem KernelManager.lookup_table_spec_witness :
    (16 + 2 * 1 < SIZE_MOD)
    ∧ (KernelManager.lookup_table 1 1).1.length = 68
    ∧ (KernelManager.lookup_table 1 1).1.take 3 = [0, 1, 2]
    ∧ (KernelManager.lookup_table 1 1).2.take 3 = [0, 0, 0] :=
  ⟨by decide,
   (KernelManager.lookup_table_spec 1 1 (by decide) (by decide)).2.2.1,
   by rw [(KernelManager.lookup_table_spec 1 1 (by decide) (by decide)).1]; decide,
   by rw [(KernelManager.lookup_table_spec 1 1 (by decide) (by decide)).1]; decide⟩


/-! ### C18: `LoadKernels` -/

theorem KernelManager.AllOk_concat (cl : ProgramRuntime) (l : List CLCall) (c : CLCall) :
    KernelManager.AllOk cl (l ++ [c]) ↔ KernelManager.AllOk cl l ∧ cl l.length c = true := by
  unfold KernelManager.AllOk
  constructor
  · intro h
    refine ⟨fun j c1 hj => h j c1 ?_, h l.length c (List.getElem?_concat_length l c)⟩
    obtain ⟨hlt, _⟩ := List.getElem?_eq_some_iff.mp hj
    rw [List.getElem?_append_left hlt]
    exact hj
  · rintro ⟨h1, h2⟩ j c1 hj
    by_cases hlt : j < l.length
    · rw [List.getElem?_append_left hlt] at hj
      exact h1 j c1 hj
    · rw [List.getElem?_append_right (by omega)] at hj
      have hj0 : j = l.length := by
        by_contra hne
        rw [List.getElem?_eq_none (by simp only [List.length_singleton]; omega)] at hj
        cases hj
      subst hj0
      simp only [Nat.sub_self, List.getElem?_cons_zero, Option.some.injEq] at hj
      subst hj
      exact h2

theorem KernelManager.map_get_set (ps : List (String × Option Nat)) (key : String)
    (v : Option Nat) :
    KernelManager.map_get (KernelManager.map_set ps key v) key = v
    ∧ KernelManager.map_count (KernelManager.map_set ps key v) key ≠ 0 := by
  unfold KernelManager.map_get KernelManager.map_count KernelManager.map_set
  simp [List.lookup_cons]

theorem KernelManager.lookup_set_ne (ps : List (String × Option Nat)) (key name : String)
    (v : Option Nat) (h : name ≠ key) :
    (KernelManager.map_set ps key v).lookup name = ps.lookup name := by
  unfold KernelManager.map_set
  have hne : (name == key) = false := by simpa using h
  rw [List.lookup_cons, hne]
  simp only []
  induction ps with
  | nil => rfl
  | cons e ps ih =>
    obtain ⟨k, p⟩ := e
    by_cases hk : k = key
    · subst hk
      have h1 : (name == k) = false := hne
      simp [List.filter_cons, List.lookup_cons, h1, ih]
    · have h2 : (k != key) = true := by simpa using hk
      simp only [List.filter_cons, h2, if_true, List.lookup_cons, ih]

theorem KernelManager.ProgramsValid_set (m m1 : KernelManager) (key : String) (p : Nat)
    (hv : m.ProgramsValid)
    (hp : m1.programs_ = KernelManager.map_set m.programs_ key (some p)) :
    m1.ProgramsValid := by
  intro name hc
  by_cases hn : name = key
  · subst hn
    rw [hp, (KernelManager.map_get_set m.programs_ name (some p)).1]
    simp
  · have hl := KernelManager.lookup_set_ne m.programs_ key name (some p) hn
    have h1 : KernelManager.map_count m1.programs_ name
        = KernelManager.map_count m.programs_ name := by
      unfold KernelManager.map_count
      rw [hp, hl]
    have h2 : KernelManager.map_get m1.programs_ name
        = KernelManager.map_get m.programs_ name := by
      unfold KernelManager.map_get
      rw [hp, hl]
    rw [h2]
    exact hv name (by rw [← h1]; exact hc)

theorem KernelManager.ProgramsValid_of_eq (m m1 : KernelManager) (hv : m.ProgramsValid)
    (hp : m1.programs_ = m.programs_) : m1.ProgramsValid := by
  intro name hc
  rw [hp] at hc ⊢
  exact hv name hc

/-- The creation step, for a program the map holds: one call of `CreateKernel`,
whose outcome is the result. -/
theorem KernelManager.LoadKernels.create_ok (cl : ProgramRuntime) (pn kn : String) (i : Nat)
    (m : KernelManager) (program : Nat)
    (hget : KernelManager.map_get m.programs_ pn = some program) :
    KernelManager.LoadKernels.create cl pn kn i m
      = .ok (cl m.calls.length (CLCall.CreateKernel program kn),
          { m with calls := m.calls ++ [CLCall.CreateKernel program kn],
                   kernels_ := m.kernels_.set i
                      (if cl m.calls.length (CLCall.CreateKernel program kn)
                       then some m.calls.length else none) }) := by
  unfold KernelManager.LoadKernels.create
  rw [hget]
  simp only [KernelManager.CreateKernel]
  by_cases hc : cl m.calls.length (CLCall.CreateKernel program kn) = true
  · simp [hc]
  · simp [hc]


/-- One pass of the loop body from a state whose map holds no null pointer: with
a runtime that never fails it makes its calls and goes on; with any runtime whose
earlier calls all succeeded it makes an initial part of these calls, goes on with
the same state when they all succeed, and otherwise stops at the first call that
fails: it returns `false` right after that call, unless the call is a compilation
whose build fails, in which case it aborts inside the call. -/
theorem KernelManager.LoadKernels.body_run (cl : ProgramRuntime) (pn kn : String) (i : Nat)
    (m : KernelManager) (hv : m.ProgramsValid) :
    ∃ mI, KernelManager.LoadKernels.body (fun _ _ => true) pn kn i m = .ok (true, mI)
      ∧ mI.ProgramsValid ∧ m.calls <+: mI.calls
      ∧ (KernelManager.AllOk cl m.calls →
          (∃ b m1, KernelManager.LoadKernels.body cl pn kn i m = .ok (b, m1)
            ∧ m1.calls <+: mI.calls
            ∧ (b = true → m1 = mI ∧ KernelManager.AllOk cl m1.calls)
            ∧ (b = false → ∃ pre c, m1.calls = pre ++ [c] ∧ KernelManager.AllOk cl pre
                ∧ cl pre.length c = false
                ∧ KernelManager.BuildAborts cl pre.length c = false))
          ∨ (KernelManager.LoadKernels.body cl pn kn i m = .error Fault.Check
            ∧ ∃ pre c, pre ++ [c] <+: mI.calls ∧ KernelManager.AllOk cl pre
                ∧ cl pre.length c = false
                ∧ KernelManager.BuildAborts cl pre.length c = true)) := by
  by_cases hcount : KernelManager.map_count m.programs_ pn = 0
  · -- the program is compiled first
    have hgetI := (KernelManager.map_get_set m.programs_ pn (some m.calls.length)).1
    have hbodyI : KernelManager.LoadKernels.body (fun _ _ => true) pn kn i m
        = KernelManager.LoadKernels.create (fun _ _ => true) pn kn i
            { m with calls := m.calls ++ [CLCall.CreateProgramFromFile (ProgramSource.file pn)],
                     programs_ := KernelManager.map_set m.programs_ pn (some m.calls.length) } := by
      unfold KernelManager.LoadKernels.body
      rw [if_pos hcount]
      rfl
    rw [hbodyI, KernelManager.LoadKernels.create_ok _ pn kn i _ m.calls.length hgetI]
    refine ⟨_, rfl, ?_, ?_, ?_⟩
    · exact KernelManager.ProgramsValid_set m _ pn m.calls.length hv rfl
    · simp only [List.append_assoc]
      exact List.prefix_append _ _
    · intro hok
      by_cases h1 : cl m.calls.length (CLCall.CreateProgramFromFile (ProgramSource.file pn)) = true
      · left
        have hbody : KernelManager.LoadKernels.body cl pn kn i m
            = KernelManager.LoadKernels.create cl pn kn i
                { m with calls := m.calls
                            ++ [CLCall.CreateProgramFromFile (ProgramSource.file pn)],
                         programs_ :=
                            KernelManager.map_set m.programs_ pn (some m.calls.length) } := by
          unfold KernelManager.LoadKernels.body
          rw [if_pos hcount]
          simp only [KernelManager.CreateProgramFromFile, h1, if_true]
        rw [hbody, KernelManager.LoadKernels.create_ok _ pn kn i _ m.calls.length hgetI]
        have hok1 : KernelManager.AllOk cl
            (m.calls ++ [CLCall.CreateProgramFromFile (ProgramSource.file pn)]) :=
          (KernelManager.AllOk_concat cl _ _).mpr ⟨hok, h1⟩
        refine ⟨_, _, rfl, ?_, ?_, ?_⟩
        · exact List.prefix_rfl
        · intro h2
          simp only [] at h2
          refine ⟨?_, ?_⟩
          · simp only [h2, if_true]
          · exact (KernelManager.AllOk_concat cl _ _).mpr ⟨hok1, h2⟩
        · intro h2
          exact ⟨_, _, rfl, hok1, h2, rfl⟩
      · have h1f : cl m.calls.length (CLCall.CreateProgramFromFile (ProgramSource.file pn))
            = false := by simpa using h1
        by_cases hs : cl m.calls.length (CLCall.BuildStatus (ProgramSource.file pn)) = true
        · left
          refine ⟨false,
            { m with calls := m.calls ++ [CLCall.CreateProgramFromFile (ProgramSource.file pn)],
                     programs_ := KernelManager.map_set m.programs_ pn none }, ?_, ?_, ?_, ?_⟩
          · unfold KernelManager.LoadKernels.body
            rw [if_pos hcount]
            simp only [KernelManager.CreateProgramFromFile, h1f, hs, if_true,
              Bool.false_eq_true, if_false]
          · exact List.prefix_append _ _
          · intro hc
            cases hc
          · intro _
            refine ⟨_, _, rfl, hok, h1f, ?_⟩
            unfold KernelManager.BuildAborts
            simp only [h1f, hs, Bool.not_false, Bool.not_true, Bool.and_false]
        · right
          have hsf : cl m.calls.length (CLCall.BuildStatus (ProgramSource.file pn))
              = false := by simpa using hs
          refine ⟨?_, m.calls, CLCall.CreateProgramFromFile (ProgramSource.file pn), ?_, hok,
            h1f, ?_⟩
          · unfold KernelManager.LoadKernels.body
            rw [if_pos hcount]
            simp only [KernelManager.CreateProgramFromFile, h1f, hsf, Bool.false_eq_true,
              if_false]
          · exact ⟨[CLCall.CreateKernel m.calls.length kn], rfl⟩
          · unfold KernelManager.BuildAborts
            simp only [h1f, hsf, Bool.not_false, Bool.and_self]
  · -- the map holds the program
    obtain ⟨program, hget⟩ := Option.ne_none_iff_exists'.mp (hv pn hcount)
    have hbody : ∀ rt : ProgramRuntime, KernelManager.LoadKernels.body rt pn kn i m
        = KernelManager.LoadKernels.create rt pn kn i m := by
      intro rt
      unfold KernelManager.LoadKernels.body
      rw [if_neg hcount]
    rw [hbody, KernelManager.LoadKernels.create_ok _ pn kn i m program hget]
    refine ⟨_, rfl, ?_, List.prefix_append _ _, ?_⟩
    · exact KernelManager.ProgramsValid_of_eq m _ hv rfl
    · intro hok
      left
      rw [hbody, KernelManager.LoadKernels.create_ok _ pn kn i m program hget]
      refine ⟨_, _, rfl, List.prefix_rfl, ?_, ?_⟩
      · intro h2
        have h2c : cl m.calls.length (CLCall.CreateKernel program kn) = true := h2
        refine ⟨?_, ?_⟩
        · simp only [h2c, if_true]
        · exact (KernelManager.AllOk_concat cl _ _).mpr ⟨hok, h2c⟩
      · intro h2
        exact ⟨_, _, rfl, hok, h2, rfl⟩


/-- The loop of `LoadKernels` from a state whose map holds no null pointer; see
`body_run`. -/
theorem KernelManager.LoadKernels.loop_run (cl : ProgramRuntime) (reg : List (String × String))
    (i : Nat) (m : KernelManager) (hv : m.ProgramsValid) :
    ∃ mI, KernelManager.LoadKernels.loop (fun _ _ => true) reg i m = .ok (true, mI)
      ∧ m.calls <+: mI.calls
      ∧ (KernelManager.AllOk cl m.calls →
          (∃ b m1, KernelManager.LoadKernels.loop cl reg i m = .ok (b, m1)
            ∧ m1.calls <+: mI.calls
            ∧ (b = true → m1 = mI ∧ KernelManager.AllOk cl m1.calls)
            ∧ (b = false → ∃ pre c, m1.calls = pre ++ [c] ∧ KernelManager.AllOk cl pre
                ∧ cl pre.length c = false
                ∧ KernelManager.BuildAborts cl pre.length c = false))
          ∨ (KernelManager.LoadKernels.loop cl reg i m = .error Fault.Check
            ∧ ∃ pre c, pre ++ [c] <+: mI.calls ∧ KernelManager.AllOk cl pre
                ∧ cl pre.length c = false
                ∧ KernelManager.BuildAborts cl pre.length c = true)) := by
  induction reg generalizing i m with
  | nil =>
    refine ⟨m, rfl, List.prefix_rfl,
      fun hok => Or.inl ⟨true, m, rfl, List.prefix_rfl, ?_, ?_⟩⟩
    · intro _
      exact ⟨rfl, hok⟩
    · intro hc
      cases hc
  | cons e rest ih =>
    obtain ⟨mB, hbI, hvB, hpre, hrun⟩ := KernelManager.LoadKernels.body_run cl e.1 e.2 i m hv
    obtain ⟨mI, hlI, hpre2, hrun2⟩ := ih (i + 1) mB hvB
    refine ⟨mI, ?_, hpre.trans hpre2, ?_⟩
    · rw [KernelManager.LoadKernels.loop, hbI]
      exact hlI
    · intro hok
      rcases hrun hok with ⟨b, m1, hb, hp1, ht, hf⟩ | ⟨he, pre, c, hp, hokp, hfail, hab⟩
      · cases b with
        | false =>
          refine Or.inl ⟨false, m1, ?_, hp1.trans hpre2, ?_, ?_⟩
          · rw [KernelManager.LoadKernels.loop, hb]
          · intro hc
            cases hc
          · intro _
            exact hf rfl
        | true =>
          obtain ⟨hm1, hok1⟩ := ht rfl
          subst hm1
          rcases hrun2 hok1 with ⟨b2, m2, hb2, hp2, ht2, hf2⟩ | ⟨he2, hrest⟩
          · refine Or.inl ⟨b2, m2, ?_, hp2, ht2, hf2⟩
            rw [KernelManager.LoadKernels.loop, hb]
            exact hb2
          · refine Or.inr ⟨?_, hrest⟩
            rw [KernelManager.LoadKernels.loop, hb]
            exact he2
      · refine Or.inr ⟨?_, pre, c, hp.trans hpre2, hokp, hfail, hab⟩
        rw [KernelManager.LoadKernels.loop, he]

theorem KernelManager.ProgramsValid_init : KernelManager.init.ProgramsValid := by
  intro name hc
  exact absurd rfl hc


theorem KernelManager.LoadKernels.ideal_facts :
    (KernelManager.LoadKernels.state
        (KernelManager.LoadKernels (fun _ _ => true) KernelManager.init)).calls
      = KernelManager.LoadKernels.expected KernelList [] 0
    ∧ KernelManager.compiled (KernelManager.LoadKernels.expected KernelList [] 0)
      = ["Misc", "Arithmetic", "Activations", "LinearAlgebra", "Pooling"]
    ∧ KernelManager.compiled (KernelManager.LoadKernels.expected KernelList [] 0)
      = (KernelList.map Prod.fst).dedup
    ∧ KernelManager.created (KernelManager.LoadKernels.expected KernelList [] 0)
      = KernelList.map (fun e =>
          ((KernelManager.LoadKernels.expected KernelList [] 0).indexOf
              (CLCall.CreateProgramFromFile (ProgramSource.file e.1)), e.2))
    ∧ (KernelManager.LoadKernels.state
        (KernelManager.LoadKernels (fun _ _ => true) KernelManager.init)).kernels_.map
        (fun k => k.bind (fun j => (KernelManager.LoadKernels.expected KernelList [] 0)[j]?))
      = KernelList.map (fun e =>
          some (CLCall.CreateKernel
            ((KernelManager.LoadKernels.expected KernelList [] 0).indexOf
              (CLCall.CreateProgramFromFile (ProgramSource.file e.1))) e.2)) := by
  refine ⟨?_, ?_, ?_, ?_, ?_⟩ <;> decide

theorem KernelManager.AllOk_prefix_last (cl : ProgramRuntime) (pre : List CLCall) (c : CLCall)
    (full : List CLCall) (hp : pre ++ [c] <+: full) (hok : KernelManager.AllOk cl full) :
    cl pre.length c = true := by
  obtain ⟨t, rfl⟩ := hp
  apply hok pre.length c
  rw [List.getElem?_append_left (by simp)]
  exact List.getElem?_concat_length pre c

theorem KernelManager.AllOk_of_prefix (cl : ProgramRuntime) (pre full : List CLCall)
    (hp : pre <+: full) (hok : KernelManager.AllOk cl full) : KernelManager.AllOk cl pre := by
  obtain ⟨t, rfl⟩ := hp
  intro j c hj
  apply hok j c
  obtain ⟨hlt, _⟩ := List.getElem?_eq_some_iff.mp hj
  rw [List.getElem?_append_left hlt]
  exact hj

/-- A log that is not all successes has a first call that fails. -/
theorem KernelManager.first_failure_exists (cl : ProgramRuntime) (full : List CLCall)
    (h : ¬ KernelManager.AllOk cl full) :
    ∃ pre c, pre ++ [c] <+: full ∧ KernelManager.AllOk cl pre ∧ cl pre.length c = false := by
  induction full using List.reverseRecOn with
  | nil => exact absurd (fun j c hj => by cases hj) h
  | append_singleton l c ih =>
    by_cases hl : KernelManager.AllOk cl l
    · refine ⟨l, c, List.prefix_rfl, hl, ?_⟩
      cases hc : cl l.length c with
      | false => rfl
      | true => exact absurd ((KernelManager.AllOk_concat cl l c).mpr ⟨hl, hc⟩) h
    · obtain ⟨pre, c1, hp, hok, hf⟩ := ih hl
      exact ⟨pre, c1, hp.trans (List.prefix_append _ _), hok, hf⟩

/-- The first call of a log that fails is determined by the log and the runtime. -/
theorem KernelManager.first_failure_unique (cl : ProgramRuntime) (full p1 p2 : List CLCall)
    (c1 c2 : CLCall) (h1 : p1 ++ [c1] <+: full) (h2 : p2 ++ [c2] <+: full)
    (ok1 : KernelManager.AllOk cl p1) (ok2 : KernelManager.AllOk cl p2)
    (f1 : cl p1.length c1 = false) (f2 : cl p2.length c2 = false) :
    p1 = p2 ∧ c1 = c2 := by
  have key : ∀ (q1 q2 : List CLCall) (d1 d2 : CLCall), q1 ++ [d1] <+: full →
      q2 ++ [d2] <+: full → KernelManager.AllOk cl q2 → cl q1.length d1 = false →
      ¬ q1.length < q2.length := by
    intro q1 q2 d1 d2 g1 g2 okq fq hlt
    have e1 : full[q1.length]? = some d1 := by
      obtain ⟨t, rfl⟩ := g1
      rw [List.getElem?_append_left (by simp)]
      exact List.getElem?_concat_length q1 d1
    have e2 : q2[q1.length]? = some d1 := by
      obtain ⟨t, ht⟩ := g2
      rw [← ht, List.append_assoc, List.getElem?_append_left hlt] at e1
      exact e1
    rw [okq q1.length d1 e2] at fq
    cases fq
  have hlen : p1.length = p2.length := by
    have a := key p1 p2 c1 c2 h1 h2 ok2 f1
    have b := key p2 p1 c2 c1 h2 h1 ok1 f2
    omega
  have hl : (p1 ++ [c1]).length = (p2 ++ [c2]).length := by
    rw [List.length_append, List.length_append, hlen, List.length_singleton,
      List.length_singleton]
  have hpre : p1 ++ [c1] <+: p2 ++ [c2] :=
    List.prefix_of_prefix_length_le h1 h2 (Nat.le_of_eq hl)
  have heq : p1 ++ [c1] = p2 ++ [c2] := hpre.eq_of_length hl
  have hinj := List.append_inj heq hlen
  exact ⟨hinj.1, List.singleton_inj.mp hinj.2⟩

/-- C18 (counterexample): on a device on which the build of the first program
fails, `LoadKernels` does not return `false`: `Device::CreateProgram` calls
`PrintBuildLog` before it tests the result of `clBuildProgram`, and the `Check` of
`PrintBuildLog` aborts.  When the file of the first program cannot be opened,
`LoadKernels` does return `false`, after that one call. -/
theorem KernelManager.LoadKernels_failed_build_aborts :
    KernelManager.failing_builds KernelManager.init.calls.length
        (CLCall.CreateProgramFromFile (ProgramSource.file "Misc")) = false
    ∧ KernelManager.LoadKernels KernelManager.failing_builds KernelManager.init
        = .error Fault.Check
    ∧ (KernelManager.LoadKernels KernelManager.missing_files KernelManager.init).toOption.map
        (fun r => (r.1, r.2.calls))
      = some (false, [CLCall.CreateProgramFromFile (ProgramSource.file "Misc")]) :=
  ⟨rfl, rfl, by decide⟩

/-- C18 (amended): `LoadKernels` on the manager as it is at program start.  The
calls the registry prescribes are, in the order of the registry, for each entry the
compilation of its hosting program when that name has not occurred before, then the
creation of its kernel.  When every one of them succeeds, `LoadKernels` makes
exactly these calls and returns `true`: it has compiled the 5 programs `Misc`,
`Arithmetic`, `Activations`, `LinearAlgebra`, `Pooling`, one per distinct program name
of the registry, and created 22 kernels, the kernel of entry `i` from the program
compiled for the program name of entry `i`, and `kernels_[i]` points to it.
Otherwise it makes the prescribed calls up to the first one that fails: when that
call returns null (a kernel that cannot be created, a program whose file cannot be
loaded) it returns `false` right after it; when that call is a compilation whose
build fails, the `Check` of `PrintBuildLog` aborts.  Whenever it returns, the calls
made are an initial part of the prescribed ones, no program has been compiled
twice, and the result is `true` exactly when every prescribed call succeeds. -/
theorem KernelManager.LoadKernels_spec (cl : ProgramRuntime) :
    (KernelManager.AllOk cl (KernelManager.LoadKernels.expected KernelList [] 0) →
      ∃ m, KernelManager.LoadKernels cl KernelManager.init = .ok (true, m)
        ∧ m.calls = KernelManager.LoadKernels.expected KernelList [] 0
        ∧ KernelManager.compiled m.calls
            = ["Misc", "Arithmetic", "Activations", "LinearAlgebra", "Pooling"]
        ∧ KernelManager.compiled m.calls = (KernelList.map Prod.fst).dedup
        ∧ (KernelManager.compiled m.calls).length = 5
        ∧ KernelList.length = 22
        ∧ (KernelManager.created m.calls).length = 22
        ∧ KernelManager.created m.calls
            = KernelList.map (fun e =>
                (m.calls.indexOf (CLCall.CreateProgramFromFile (ProgramSource.file e.1)),
                 e.2))
        ∧ m.kernels_.map (fun k => k.bind (fun j => m.calls[j]?))
            = KernelList.map (fun e =>
                some (CLCall.CreateKernel
                  (m.calls.indexOf (CLCall.CreateProgramFromFile (ProgramSource.file e.1)))
                  e.2)))
    ∧ (∀ pre c, pre ++ [c] <+: KernelManager.LoadKernels.expected KernelList [] 0 →
        KernelManager.AllOk cl pre → cl pre.length c = false →
        (KernelManager.BuildAborts cl pre.length c = false →
          ∃ m, KernelManager.LoadKernels cl KernelManager.init = .ok (false, m)
            ∧ m.calls = pre ++ [c])
        ∧ (KernelManager.BuildAborts cl pre.length c = true →
          KernelManager.LoadKernels cl KernelManager.init = .error Fault.Check))
    ∧ (¬ KernelManager.AllOk cl (KernelManager.LoadKernels.expected KernelList [] 0) →
        ∃ pre c, pre ++ [c] <+: KernelManager.LoadKernels.expected KernelList [] 0
          ∧ KernelManager.AllOk cl pre ∧ cl pre.length c = false)
    ∧ (∀ b m, KernelManager.LoadKernels cl KernelManager.init = .ok (b, m) →
        m.calls <+: KernelManager.LoadKernels.expected KernelList [] 0
        ∧ (KernelManager.compiled m.calls).Nodup
        ∧ (b = true ↔
            KernelManager.AllOk cl (KernelManager.LoadKernels.expected KernelList [] 0))) := by
  obtain ⟨mI, hI, _, hrun⟩ :=
    KernelManager.LoadKernels.loop_run cl KernelList 0 KernelManager.init
      KernelManager.ProgramsValid_init
  have hrun0 := hrun (fun j c hj => by cases hj)
  obtain ⟨f1, f2, f3, f4, f5⟩ := KernelManager.LoadKernels.ideal_facts
  have hstate : KernelManager.LoadKernels.state
      (KernelManager.LoadKernels (fun _ _ => true) KernelManager.init) = mI := by
    unfold KernelManager.LoadKernels
    rw [hI]
    rfl
  rw [hstate] at f1 f5
  rw [f1] at hrun0
  have hL : KernelManager.LoadKernels cl KernelManager.init
      = KernelManager.LoadKernels.loop cl KernelList 0 KernelManager.init := rfl
  have hnodup : ∀ m : KernelManager,
      m.calls <+: KernelManager.LoadKernels.expected KernelList [] 0 →
      (KernelManager.compiled m.calls).Nodup := by
    intro m hpre
    apply List.Nodup.sublist ((List.IsPrefix.filterMap _ hpre).sublist)
    have h2 := f2
    unfold KernelManager.compiled at h2
    rw [h2]
    decide
  refine ⟨?_, ?_, KernelManager.first_failure_exists cl _, ?_⟩
  · intro hok
    rcases hrun0 with ⟨b, m, hb, hpre, ht, hf⟩ | ⟨_, pre, c, hp, _, hfail, _⟩
    · cases b with
      | false =>
        obtain ⟨pre, c, hc, _, hfail, _⟩ := hf rfl
        rw [hc] at hpre
        rw [KernelManager.AllOk_prefix_last cl pre c _ hpre hok] at hfail
        cases hfail
      | true =>
        obtain ⟨hm, _⟩ := ht rfl
        have hcalls : m.calls = KernelManager.LoadKernels.expected KernelList [] 0 := by
          rw [hm]
          exact f1
        refine ⟨m, by rw [hL, hb], hcalls, ?_, ?_, ?_, by decide, ?_, ?_, ?_⟩
        · rw [hcalls]
          exact f2
        · rw [hcalls]
          exact f3
        · rw [hcalls, f2]
          rfl
        · rw [hcalls, f4]
          simp
          decide
        · rw [hcalls]
          exact f4
        · rw [hm, f1]
          exact f5
    · rw [KernelManager.AllOk_prefix_last cl pre c _ hp hok] at hfail
      cases hfail
  · intro pre c hp hokp hfail
    rcases hrun0 with ⟨b, m, hb, hpre, ht, hf⟩ | ⟨he, pre1, c1, hp1, hok1, hfail1, hab1⟩
    · cases b with
      | true =>
        obtain ⟨hm, hokm⟩ := ht rfl
        subst hm
        rw [f1] at hokm
        rw [KernelManager.AllOk_prefix_last cl pre c _ hp hokm] at hfail
        cases hfail
      | false =>
        obtain ⟨pre1, c1, hc1, hok1, hfail1, hab1⟩ := hf rfl
        have hp1 : pre1 ++ [c1] <+: KernelManager.LoadKernels.expected KernelList [] 0 := by
          rw [← hc1]
          exact hpre
        obtain ⟨e1, e2⟩ := KernelManager.first_failure_unique cl _ pre pre1 c c1 hp hp1 hokp hok1
          hfail hfail1
        subst e1
        subst e2
        refine ⟨fun _ => ⟨m, by rw [hL, hb], hc1⟩, fun hab => ?_⟩
        rw [hab1] at hab
        cases hab
    · obtain ⟨e1, e2⟩ := KernelManager.first_failure_unique cl _ pre pre1 c c1 hp hp1 hokp hok1
        hfail hfail1
      subst e1
      subst e2
      refine ⟨fun hab => ?_, fun _ => by rw [hL, he]⟩
      rw [hab1] at hab
      cases hab
  · intro b m hbm
    rcases hrun0 with ⟨b1, m1, hb1, hpre, ht, hf⟩ | ⟨he, _⟩
    · rw [hL, hb1] at hbm
      simp only [Except.ok.injEq, Prod.mk.injEq] at hbm
      obtain ⟨e1, e2⟩ := hbm
      subst e1
      subst e2
      refine ⟨hpre, hnodup _ hpre, ?_, ?_⟩
      · intro hbt
        obtain ⟨hm, hok⟩ := ht hbt
        rw [hm, f1] at hok
        exact hok
      · intro hok
        cases b1 with
        | true => rfl
        | false =>
          obtain ⟨pre, c, hc, _, hfail, _⟩ := hf rfl
          rw [hc] at hpre
          rw [KernelManager.AllOk_prefix_last cl pre c _ hpre hok] at hfail
          cases hfail
    · rw [hL, he] at hbm
      cases hbm

/-- C18 (witness): with a runtime that never fails `LoadKernels` returns `true`
after compiling 5 programs. -/
theorem KernelManager.LoadKernels_spec_witness :
    KernelManager.AllOk (fun _ _ => true) (KernelManager.LoadKernels.expected KernelList [] 0)
    ∧ ∃ m, KernelManager.LoadKernels (fun _ _ => true) KernelManager.init = .ok (true, m)
        ∧ (KernelManager.compiled m.calls).length = 5 :=
  ⟨fun _ _ _ => rfl,
   match (KernelManager.LoadKernels_spec (fun _ _ => true)).1 (fun _ _ _ => rfl) with
   | ⟨m, h, _, _, _, h5, _⟩ => ⟨m, h, h5⟩⟩


/-! ### C15, C16, C19: the size-specialised convolution kernels -/

/-- The compiling branch of `convolution_kernel`, when the compilation succeeds. -/
theorem KernelManager.convolution_kernel_miss (cl : ProgramRuntime) (m : KernelManager)
    (w h : Nat)
    (hb : w / 2 < kMaxConvolutionKernelHalfSize ∧ h / 2 < kMaxConvolutionKernelHalfSize)
    (hempty : m.convolution_kernels_ (w / 2) (h / 2) = none)
    (hbuild : cl m.calls.length
        (CLCall.CreateProgramFromFile (KernelManager.convolution_source w h)) = true) :
    m.convolution_kernel cl w h
      = .ok (KernelManager.made cl (m.calls.length + 1)
                (CLCall.CreateKernel m.calls.length "Convolution2D"),
          KernelManager.store_kernels
            { m with calls := m.calls ++ KernelManager.convolution_calls w h m.calls.length }
            (w / 2) (h / 2)
            (KernelManager.made cl (m.calls.length + 1)
              (CLCall.CreateKernel m.calls.length "Convolution2D"))
            (KernelManager.made cl (m.calls.length + 2)
              (CLCall.CreateKernel m.calls.length "CrossCorrelation2D"))
            (KernelManager.made cl (m.calls.length + 3)
              (CLCall.CreateKernel m.calls.length "Convolution2DGradients"))) := by
  have hbuild1 : cl m.calls.length
      (CLCall.CreateProgramFromFile
        (ProgramSource.convolution w h (KernelManager.lookup_table (w / 2) (h / 2)).1
          (KernelManager.lookup_table (w / 2) (h / 2)).2)) = true := hbuild
  unfold KernelManager.convolution_kernel
  simp only [hb, and_self, not_true_eq_false, if_false, hempty,
    KernelManager.CreateProgramFromFile, hbuild1, if_true, KernelManager.CreateKernel,
    List.length_append, List.length_singleton, List.length_cons, List.length_nil,
    List.append_assoc, List.singleton_append, List.cons_append, List.nil_append,
    KernelManager.made, KernelManager.convolution_calls, KernelManager.convolution_source,
    KernelManager.store_kernels]

/-- The other branch of `convolution_kernel`. -/
theorem KernelManager.convolution_kernel_hit (cl : ProgramRuntime) (m : KernelManager)
    (w h k : Nat)
    (hb : w / 2 < kMaxConvolutionKernelHalfSize ∧ h / 2 < kMaxConvolutionKernelHalfSize)
    (hfull : m.convolution_kernels_ (w / 2) (h / 2) = some k) :
    m.convolution_kernel cl w h = .ok (some k, m) := by
  unfold KernelManager.convolution_kernel
  simp only [hb, and_self, not_true_eq_false, if_false, hfull]

/-- Once the convolution kernel of a size is in its table, each of the three
methods returns what its own table holds for that size and changes nothing. -/
theorem KernelManager.get_hit (cl : ProgramRuntime) (m : KernelManager) (w h k : Nat)
    (hb : w / 2 < kMaxConvolutionKernelHalfSize ∧ h / 2 < kMaxConvolutionKernelHalfSize)
    (hfull : m.convolution_kernels_ (w / 2) (h / 2) = some k) (g : KernelManager.Getter) :
    m.get cl g w h = .ok (m.table g (w / 2) (h / 2), m) := by
  have hc := KernelManager.convolution_kernel_hit cl m w h k hb hfull
  cases g with
  | convolution =>
    unfold KernelManager.get KernelManager.table
    simp only [hc, hfull]
  | cross_correlation =>
    unfold KernelManager.get KernelManager.table KernelManager.cross_correlation_kernel
    simp only [hb, and_self, not_true_eq_false, if_false]
    cases hx : m.cross_correlation_kernels_ (w / 2) (h / 2) with
    | none => simp only [hc, hx]
    | some k2 => rfl
  | convolution_gradient =>
    unfold KernelManager.get KernelManager.table KernelManager.convolution_gradient_kernel
    simp only [hb, and_self, not_true_eq_false, if_false]
    cases hx : m.convolution_gradient_kernels_ (w / 2) (h / 2) with
    | none => simp only [hc, hx]
    | some k2 => rfl


theorem KernelManager.table_after_compile (cl : ProgramRuntime) (m : KernelManager) (w h : Nat)
    (g : KernelManager.Getter) (a b : Nat) :
    (KernelManager.after_compile cl m w h).table g a b
      = if a = w / 2 ∧ b = h / 2 then
          (match g with
           | KernelManager.Getter.convolution =>
             KernelManager.made cl (m.calls.length + 1)
               (CLCall.CreateKernel m.calls.length "Convolution2D")
           | KernelManager.Getter.cross_correlation =>
             KernelManager.made cl (m.calls.length + 2)
               (CLCall.CreateKernel m.calls.length "CrossCorrelation2D")
           | KernelManager.Getter.convolution_gradient =>
             KernelManager.made cl (m.calls.length + 3)
               (CLCall.CreateKernel m.calls.length "Convolution2DGradients"))
        else m.table g a b := by
  cases g <;> rfl

/-- The first call for a size, whichever of the three methods it is, compiles
(when the compilation succeeds) and returns what it stored in its own table. -/
theorem KernelManager.get_miss (cl : ProgramRuntime) (m : KernelManager) (w h : Nat)
    (hb : w / 2 < kMaxConvolutionKernelHalfSize ∧ h / 2 < kMaxConvolutionKernelHalfSize)
    (hempty : ∀ g, m.table g (w / 2) (h / 2) = none)
    (hbuild : cl m.calls.length
        (CLCall.CreateProgramFromFile (KernelManager.convolution_source w h)) = true)
    (g : KernelManager.Getter) :
    m.get cl g w h
      = .ok ((KernelManager.after_compile cl m w h).table g (w / 2) (h / 2),
             KernelManager.after_compile cl m w h) := by
  have hc := KernelManager.convolution_kernel_miss cl m w h hb
    (hempty KernelManager.Getter.convolution) hbuild
  cases g with
  | convolution =>
    have ht := KernelManager.table_after_compile cl m w h KernelManager.Getter.convolution
      (w / 2) (h / 2)
    rw [if_pos ⟨rfl, rfl⟩] at ht
    rw [ht]
    unfold KernelManager.get
    exact hc
  | cross_correlation =>
    have he : m.cross_correlation_kernels_ (w / 2) (h / 2) = none :=
      hempty KernelManager.Getter.cross_correlation
    unfold KernelManager.get KernelManager.cross_correlation_kernel
    simp only [hb, and_self, not_true_eq_false, if_false, he, hc]
    rfl
  | convolution_gradient =>
    have he : m.convolution_gradient_kernels_ (w / 2) (h / 2) = none :=
      hempty KernelManager.Getter.convolution_gradient
    unfold KernelManager.get KernelManager.convolution_gradient_kernel
    simp only [hb, and_self, not_true_eq_false, if_false, he, hc]
    rfl

/-- Calls for a size whose convolution kernel is in its table return the table
entries and leave the manager as it is. -/
theorem KernelManager.gets_hit (cl : ProgramRuntime) (m : KernelManager) (w h k : Nat)
    (hb : w / 2 < kMaxConvolutionKernelHalfSize ∧ h / 2 < kMaxConvolutionKernelHalfSize)
    (hfull : m.convolution_kernels_ (w / 2) (h / 2) = some k) (gs : List KernelManager.Getter) :
    KernelManager.gets cl m (gs.map (fun g => (g, w, h)))
      = .ok (gs.map (fun g => m.table g (w / 2) (h / 2)), m) := by
  induction gs with
  | nil => rfl
  | cons g gs ih =>
    simp only [List.map_cons]
    unfold KernelManager.gets
    rw [KernelManager.get_hit cl m w h k hb hfull g]
    simp only []
    rw [ih]


theorem KernelManager.after_compile_facts (cl : ProgramRuntime) (m : KernelManager) (w h : Nat) :
    (KernelManager.after_compile cl m w h).calls
      = m.calls ++ KernelManager.convolution_calls w h m.calls.length
    ∧ (KernelManager.after_compile cl m w h).calls.length = m.calls.length + 4
    ∧ KernelManager.builds (KernelManager.after_compile cl m w h).calls
      = KernelManager.builds m.calls ++ [KernelManager.convolution_source w h]
    ∧ (KernelManager.after_compile cl m w h).kernels_ = m.kernels_
    ∧ (KernelManager.after_compile cl m w h).programs_ = m.programs_ := by
  refine ⟨rfl, ?_, ?_, rfl, rfl⟩
  · show (m.calls ++ KernelManager.convolution_calls w h m.calls.length).length = _
    rw [List.length_append]
    rfl
  · show KernelManager.builds (m.calls ++ KernelManager.convolution_calls w h m.calls.length) = _
    unfold KernelManager.builds
    rw [List.filterMap_append]
    rfl

/-- C15 (counterexample): a size is compiled again as long as its table entry is
null.  On the manager at program start, with a runtime in which the compilation
succeeds but the kernel `Convolution2D` cannot be created, two calls
`convolution_kernel(3, 3)` both return null and both compile the program for
`3 x 3`: it is compiled twice. -/
theorem KernelManager.convolution_recompiled :
    (KernelManager.gets_log KernelManager.failing_Convolution2D KernelManager.init
          [(KernelManager.Getter.convolution, 3, 3),
           (KernelManager.Getter.convolution, 3, 3)]).map
        (fun r => (r.1, KernelManager.builds r.2))
      = some ([none, none],
          [KernelManager.convolution_source 3 3, KernelManager.convolution_source 3 3]) := by
  decide

/-- C15 (amended): for a kernel size `(w, h)` within the tables whose table entries
are still null, when the first compilation returns a program from which the kernel
`Convolution2D` can be created: over any sequence of calls of `convolution_kernel`,
`cross_correlation_kernel` and `convolution_gradient_kernel` with that size, the
first call compiles the specialised program (one compilation, followed by the
creation of the three kernels) and every later call compiles nothing and returns
the pointer the first compilation stored for it; the table entries of all other
sizes, the registered kernels and the map of programs are unchanged. -/
theorem KernelManager.convolution_compiled_once (cl : ProgramRuntime) (m : KernelManager)
    (w h : Nat)
    (hb : w / 2 < kMaxConvolutionKernelHalfSize ∧ h / 2 < kMaxConvolutionKernelHalfSize)
    (hempty : ∀ g, m.table g (w / 2) (h / 2) = none)
    (hbuild : cl m.calls.length
        (CLCall.CreateProgramFromFile (KernelManager.convolution_source w h)) = true)
    (hconv : cl (m.calls.length + 1) (CLCall.CreateKernel m.calls.length "Convolution2D") = true)
    (g : KernelManager.Getter) (gs : List KernelManager.Getter) :
    m.get cl g w h
      = .ok ((KernelManager.after_compile cl m w h).table g (w / 2) (h / 2),
             KernelManager.after_compile cl m w h)
    ∧ KernelManager.gets cl m ((g :: gs).map (fun g => (g, w, h)))
      = .ok ((g :: gs).map (fun g => (KernelManager.after_compile cl m w h).table g (w / 2) (h / 2)),
             KernelManager.after_compile cl m w h)
    ∧ (KernelManager.after_compile cl m w h).calls
      = m.calls ++ KernelManager.convolution_calls w h m.calls.length
    ∧ KernelManager.builds (KernelManager.after_compile cl m w h).calls
      = KernelManager.builds m.calls ++ [KernelManager.convolution_source w h]
    ∧ (∀ g1, (KernelManager.after_compile cl m w h).get cl g1 w h
        = .ok ((KernelManager.after_compile cl m w h).table g1 (w / 2) (h / 2),
               KernelManager.after_compile cl m w h))
    ∧ (KernelManager.after_compile cl m w h).convolution_kernels_ (w / 2) (h / 2)
      = some (m.calls.length + 1)
    ∧ (∀ g1 a b, ¬ (a = w / 2 ∧ b = h / 2) →
        (KernelManager.after_compile cl m w h).table g1 a b = m.table g1 a b)
    ∧ (KernelManager.after_compile cl m w h).kernels_ = m.kernels_
    ∧ (KernelManager.after_compile cl m w h).programs_ = m.programs_ := by
  have hfull : (KernelManager.after_compile cl m w h).convolution_kernels_ (w / 2) (h / 2)
      = some (m.calls.length + 1) := by
    have ht := KernelManager.table_after_compile cl m w h KernelManager.Getter.convolution
      (w / 2) (h / 2)
    rw [if_pos ⟨rfl, rfl⟩] at ht
    simp only [KernelManager.made, hconv, if_true] at ht
    exact ht
  have hfirst := KernelManager.get_miss cl m w h hb hempty hbuild g
  obtain ⟨f1, _, f3, f4, f5⟩ := KernelManager.after_compile_facts cl m w h
  refine ⟨hfirst, ?_, f1, f3, ?_, hfull, ?_, f4, f5⟩
  · simp only [List.map_cons]
    unfold KernelManager.gets
    rw [hfirst]
    simp only []
    rw [KernelManager.gets_hit cl _ w h _ hb hfull gs]
  · intro g1
    exact KernelManager.get_hit cl _ w h _ hb hfull g1
  · intro g1 a b hab
    rw [KernelManager.table_after_compile, if_neg hab]

/-- C15 (witness): on the manager at program start, with a runtime that never
fails, the size `3 x 3` requested through `cross_correlation_kernel`,
`convolution_kernel` and `convolution_gradient_kernel`: one compilation, and the
convolution kernel is the object made by call number `1`. -/
theorem KernelManager.convolution_compiled_once_witness :
    (3 / 2 < kMaxConvolutionKernelHalfSize ∧ 3 / 2 < kMaxConvolutionKernelHalfSize)
    ∧ KernelManager.builds (KernelManager.after_compile (fun _ _ => true) KernelManager.init 3 3).calls
      = KernelManager.builds KernelManager.init.calls ++ [KernelManager.convolution_source 3 3]
    ∧ (KernelManager.after_compile (fun _ _ => true) KernelManager.init 3 3).convolution_kernels_
        (3 / 2) (3 / 2) = some (KernelManager.init.calls.length + 1) :=
  ⟨by decide,
   (KernelManager.convolution_compiled_once (fun _ _ => true) KernelManager.init 3 3 (by decide)
      (fun g => by cases g <;> rfl) rfl rfl KernelManager.Getter.cross_correlation
      [KernelManager.Getter.convolution, KernelManager.Getter.convolution_gradient]).2.2.2.1,
   (KernelManager.convolution_compiled_once (fun _ _ => true) KernelManager.init 3 3 (by decide)
      (fun g => by cases g <;> rfl) rfl rfl KernelManager.Getter.cross_correlation
      [KernelManager.Getter.convolution, KernelManager.Getter.convolution_gradient]).2.2.2.2.2.1⟩


/-- When `CreateProgramFromFile` returns null for the size-specialised program
(the file cannot be loaded), for a size within the tables that has not been
requested before, each of `convolution_kernel`, `cross_correlation_kernel` and
`convolution_gradient_kernel` calls `CreateKernel` through that null pointer, which
is undefined; none of them returns null. -/
theorem KernelManager.get_of_failed_compilation (cl : ProgramRuntime)
    (m : KernelManager) (w h : Nat)
    (hb : w / 2 < kMaxConvolutionKernelHalfSize ∧ h / 2 < kMaxConvolutionKernelHalfSize)
    (hempty : ∀ g, m.table g (w / 2) (h / 2) = none)
    (hfail : cl m.calls.length
        (CLCall.CreateProgramFromFile (KernelManager.convolution_source w h)) = false)
    (hnull : cl m.calls.length
        (CLCall.BuildStatus (KernelManager.convolution_source w h)) = true)
    (g : KernelManager.Getter) :
    m.get cl g w h = .error Fault.Null
    ∧ ∀ m1, m.get cl g w h ≠ .ok (none, m1) := by
  have hfail1 : cl m.calls.length
      (CLCall.CreateProgramFromFile
        (ProgramSource.convolution w h (KernelManager.lookup_table (w / 2) (h / 2)).1
          (KernelManager.lookup_table (w / 2) (h / 2)).2)) = false := hfail
  have hnull1 : cl m.calls.length
      (CLCall.BuildStatus
        (ProgramSource.convolution w h (KernelManager.lookup_table (w / 2) (h / 2)).1
          (KernelManager.lookup_table (w / 2) (h / 2)).2)) = true := hnull
  have he1 : m.convolution_kernels_ (w / 2) (h / 2) = none :=
    hempty KernelManager.Getter.convolution
  have hc : m.convolution_kernel cl w h = .error Fault.Null := by
    unfold KernelManager.convolution_kernel
    simp only [hb, and_self, not_true_eq_false, if_false, he1,
      KernelManager.CreateProgramFromFile, hfail1, hnull1, Bool.false_eq_true, if_true]
  have hg : m.get cl g w h = .error Fault.Null := by
    cases g with
    | convolution =>
      unfold KernelManager.get
      exact hc
    | cross_correlation =>
      have he : m.cross_correlation_kernels_ (w / 2) (h / 2) = none :=
        hempty KernelManager.Getter.cross_correlation
      unfold KernelManager.get KernelManager.cross_correlation_kernel
      simp only [hb, and_self, not_true_eq_false, if_false, he, hc]
    | convolution_gradient =>
      have he : m.convolution_gradient_kernels_ (w / 2) (h / 2) = none :=
        hempty KernelManager.Getter.convolution_gradient
      unfold KernelManager.get KernelManager.convolution_gradient_kernel
      simp only [hb, and_self, not_true_eq_false, if_false, he, hc]
  refine ⟨hg, fun m1 hc1 => ?_⟩
  rw [hg] at hc1
  cases hc1

/-- C19 (what the code does): on the manager at program start, with a runtime in
which `CreateProgramFromFile` returns null (the program file cannot be opened), the
calls `convolution_kernel(3, 3)`, `cross_correlation_kernel(3, 3)` and
`convolution_gradient_kernel(3, 3)` each call `CreateKernel` through the null
program pointer, which is undefined; none of them returns null. -/
theorem KernelManager.failed_compilation_dereferenced :
    KernelManager.missing_files KernelManager.init.calls.length
        (CLCall.CreateProgramFromFile (KernelManager.convolution_source 3 3)) = false
    ∧ KernelManager.init.convolution_kernel KernelManager.missing_files 3 3
        = .error Fault.Null
    ∧ KernelManager.init.cross_correlation_kernel KernelManager.missing_files 3 3
        = .error Fault.Null
    ∧ KernelManager.init.convolution_gradient_kernel KernelManager.missing_files 3 3
        = .error Fault.Null
    ∧ ∀ g m1, KernelManager.init.get KernelManager.missing_files g 3 3 ≠ .ok (none, m1) :=
  ⟨rfl,
   (KernelManager.get_of_failed_compilation KernelManager.missing_files
      KernelManager.init 3 3 (by decide) (fun g => by cases g <;> rfl) rfl rfl
      KernelManager.Getter.convolution).1,
   (KernelManager.get_of_failed_compilation KernelManager.missing_files
      KernelManager.init 3 3 (by decide) (fun g => by cases g <;> rfl) rfl rfl
      KernelManager.Getter.cross_correlation).1,
   (KernelManager.get_of_failed_compilation KernelManager.missing_files
      KernelManager.init 3 3 (by decide) (fun g => by cases g <;> rfl) rfl rfl
      KernelManager.Getter.convolution_gradient).1,
   fun g m1 => (KernelManager.get_of_failed_compilation KernelManager.missing_files
      KernelManager.init 3 3 (by decide) (fun g => by cases g <;> rfl) rfl rfl g).2 m1⟩

/-! ### C20: `CLBuffer::Clear` -/

theorem Buffer.Clear.chunks_zero (offset : Nat) : Buffer.Clear.chunks offset 0 = [] := rfl

theorem Buffer.Clear.chunks_step (offset length : Nat) (hpos : 0 < length) :
    Buffer.Clear.chunks offset length
      = (offset, min length 1048576)
          :: Buffer.Clear.chunks (offset + min length 1048576) (length - min length 1048576) := by
  unfold Buffer.Clear.chunks
  have hn : (length + 1048575) / 1048576
      = (length - min length 1048576 + 1048575) / 1048576 + 1 := by omega
  rw [hn, List.range_succ_eq_map, List.map_cons, List.map_map]
  congr 1
  apply List.map_congr_left
  intro k hmem
  rw [List.mem_range] at hmem
  simp only [Function.comp, Nat.succ_eq_add_one, Prod.mk.injEq]
  constructor <;> omega

theorem Buffer.Clear.getElem?_chunks (offset length k : Nat) :
    (Buffer.Clear.chunks offset length)[k]?
      = if k * 1048576 < length
        then some (offset + k * 1048576, min (length - k * 1048576) 1048576) else none := by
  unfold Buffer.Clear.chunks
  rw [List.getElem?_map]
  by_cases hk : k * 1048576 < length
  · rw [if_pos hk, List.getElem?_range (by omega)]
    rfl
  · rw [if_neg hk, List.getElem?_eq_none (by rw [List.length_range]; omega)]
    rfl

theorem Buffer.Clear.mem_chunks (offset length : Nat) (w : Nat × Nat) :
    w ∈ Buffer.Clear.chunks offset length
      ↔ ∃ k, k * 1048576 < length
          ∧ w = (offset + k * 1048576, min (length - k * 1048576) 1048576) := by
  unfold Buffer.Clear.chunks
  simp only [List.mem_map, List.mem_range]
  constructor
  · rintro ⟨k, hk, rfl⟩
    exact ⟨k, by omega, rfl⟩
  · rintro ⟨k, hk, rfl⟩
    exact ⟨k, by omega, rfl⟩


/-- The loop of `Clear` returns, having issued the writes `chunks`: the bytes it was
asked to clear are `0` afterwards and every other byte of device memory is as
before. -/
theorem Buffer.Clear.loop_spec {α : Type} (b : Buffer) (offset : Nat)
    (hsize : b.size < SIZE_MOD) :
    ∀ (length i : Nat) (d : Device α),
      offset + i + length ≤ b.size →
      ∃ d1, Buffer.Clear.loop b offset length i d = .ok d1
        ∧ d1.writes = d.writes
            ++ (Buffer.Clear.chunks (offset + i) length).map
                (fun w => (b.cl_buffer, w.1, w.2, fun _ => MemByte.raw 0))
        ∧ d1.tensors = d.tensors ∧ d1.nalloc = d.nalloc ∧ d1.released = d.released
        ∧ d1.decode = d.decode
        ∧ ∀ a y, d1.dbytes a y
            = if a = b.cl_buffer.alloc ∧ b.cl_buffer.origin + (offset + i) ≤ y
                ∧ y < b.cl_buffer.origin + (offset + i) + length
              then MemByte.raw 0 else d.dbytes a y := by
  have hM : SIZE_MOD = 18446744073709551616 := rfl
  intro length
  induction length using Nat.strong_induction_on with
  | _ length ih =>
    intro i d hle
    unfold Buffer.Clear.loop
    by_cases h0 : length = 0
    · subst h0
      rw [dif_pos rfl, Buffer.Clear.chunks_zero, List.map_nil, List.append_nil]
      refine ⟨d, rfl, rfl, rfl, rfl, rfl, rfl, fun a y => ?_⟩
      rw [if_neg (by omega)]
    · rw [dif_neg h0]
      have hpos : 0 < length := Nat.pos_of_ne_zero h0
      have hmin : min length (1024 * 1024) = min length 1048576 := rfl
      have hoff : (offset + i) % SIZE_MOD = offset + i := Nat.mod_eq_of_lt (by omega)
      have hi : (i + min length 1048576) % SIZE_MOD = i + min length 1048576 :=
        Nat.mod_eq_of_lt (by omega)
      rw [hmin, hoff, hi]
      have hw : b.Write d (fun _ => (MemByte.raw 0 : MemByte α)) (min length 1048576) (offset + i)
          = .ok (d.clEnqueueWriteBuffer b.cl_buffer (offset + i) (min length 1048576)
              (fun _ => MemByte.raw 0)) := by
        unfold Buffer.Write
        rw [if_neg (by omega)]
      rw [hw]
      simp only []
      obtain ⟨d1, hd1, t1, t2, t3, t4, t5, t6⟩ :=
        ih (length - min length 1048576) (by omega) (i + min length 1048576)
          (d.clEnqueueWriteBuffer b.cl_buffer (offset + i) (min length 1048576)
            (fun _ => MemByte.raw 0)) (by omega)
      refine ⟨d1, hd1, ?_, t2, t3, t4, t5, ?_⟩
      · rw [t1, Buffer.Clear.chunks_step (offset + i) length hpos, List.map_cons,
          Nat.add_assoc]
        show (d.writes ++ [(b.cl_buffer, offset + i, min length 1048576,
          fun _ => MemByte.raw 0)]) ++ _ = _
        rw [List.append_assoc]
        rfl
      · intro a y
        rw [t6 a y, Device.clEnqueueWriteBuffer_dbytes]
        by_cases ha : a = b.cl_buffer.alloc
        · by_cases h1 : b.cl_buffer.origin + (offset + (i + min length 1048576)) ≤ y
              ∧ y < b.cl_buffer.origin + (offset + (i + min length 1048576))
                  + (length - min length 1048576)
          · rw [if_pos ⟨ha, h1⟩, if_pos ⟨ha, by omega, by omega⟩]
          · rw [if_neg (fun hc => h1 hc.2)]
            by_cases h2 : b.cl_buffer.origin + (offset + i) ≤ y
                ∧ y < b.cl_buffer.origin + (offset + i) + min length 1048576
            · rw [if_pos ⟨ha, h2⟩, if_pos ⟨ha, by omega, by omega⟩]
            · rw [if_neg (fun hc => h2 hc.2), if_neg (fun hc => by omega)]
        · rw [if_neg (fun hc => ha hc.1), if_neg (fun hc => ha hc.1),
            if_neg (fun hc => ha hc.1)]

theorem Buffer.Clear.chunks_facts (offset length : Nat) :
    (Buffer.Clear.chunks offset length).length = (length + 1048575) / 1048576
    ∧ (∀ k, (Buffer.Clear.chunks offset length)[k]?
        = if k * 1048576 < length
          then some (offset + k * 1048576, min (length - k * 1048576) 1048576) else none)
    ∧ (∀ w, w ∈ Buffer.Clear.chunks offset length → 0 < w.2 ∧ w.2 ≤ 1048576)
    ∧ (∀ k w1 w2, (Buffer.Clear.chunks offset length)[k]? = some w1 →
        (Buffer.Clear.chunks offset length)[k + 1]? = some w2 → w2.1 = w1.1 + w1.2)
    ∧ (Buffer.Clear.chunks offset length).Pairwise (fun w1 w2 => w1.1 + w1.2 ≤ w2.1)
    ∧ (∀ x, (∃ w, w ∈ Buffer.Clear.chunks offset length ∧ w.1 ≤ x ∧ x < w.1 + w.2)
        ↔ (offset ≤ x ∧ x < offset + length))
    ∧ (length = 0 → Buffer.Clear.chunks offset length = []) := by
  refine ⟨?_, Buffer.Clear.getElem?_chunks offset length, ?_, ?_, ?_, ?_, ?_⟩
  · unfold Buffer.Clear.chunks
    rw [List.length_map, List.length_range]
  · intro w hw
    obtain ⟨k, hk, rfl⟩ := (Buffer.Clear.mem_chunks offset length w).mp hw
    simp only []
    omega
  · intro k w1 w2 h1 h2
    rw [Buffer.Clear.getElem?_chunks] at h1 h2
    by_cases hk : (k + 1) * 1048576 < length
    · rw [if_pos hk] at h2
      rw [if_pos (by omega)] at h1
      cases h1
      cases h2
      simp only []
      omega
    · rw [if_neg hk] at h2
      cases h2
  · unfold Buffer.Clear.chunks
    rw [List.pairwise_map]
    apply List.Pairwise.imp_of_mem _ (List.pairwise_lt_range _)
    intro k1 k2 hm1 hm2 hlt
    rw [List.mem_range] at hm1 hm2
    simp only []
    omega
  · intro x
    constructor
    · rintro ⟨w, hw, hx1, hx2⟩
      obtain ⟨k, hk, rfl⟩ := (Buffer.Clear.mem_chunks offset length w).mp hw
      simp only [] at hx1 hx2
      omega
    · rintro ⟨hx1, hx2⟩
      refine ⟨(offset + (x - offset) / 1048576 * 1048576,
          min (length - (x - offset) / 1048576 * 1048576) 1048576), ?_, ?_, ?_⟩
      · exact (Buffer.Clear.mem_chunks offset length _).mpr ⟨(x - offset) / 1048576, by omega, rfl⟩
      · simp only []
        omega
      · simp only []
        omega
  · rintro rfl
    rfl


/-- C20: for `offset + length <= size()` (a `size_t`), `CLBuffer::Clear(offset,
length)` terminates; the calls of `clEnqueueWriteBuffer` it makes are exactly
`ceil(length / 2^20)` writes of zero bytes to the buffer, of which number `k` starts
at byte `offset + k * 2^20` and has `min(length - k * 2^20, 2^20)` bytes: each has at least
one and at most `2^20` bytes, each starts where the one before ends, they are
pairwise disjoint and cover exactly the bytes `[offset, offset + length)`, and for
`length = 0` there is none.  Afterwards every byte of the buffer in `[offset,
offset + length)` is `0`, and every other byte of device memory is what it was, as
is everything else in the device state. -/
theorem Buffer.Clear_spec {α : Type} (b : Buffer) (d : Device α) (offset length : Nat)
    (hsize : b.size < SIZE_MOD) (hle : offset + length ≤ b.size) :
    ∃ d1, b.Clear d offset length = .ok d1
      ∧ d1.writes = d.writes
          ++ (Buffer.Clear.chunks offset length).map
              (fun w => (b.cl_buffer, w.1, w.2, fun _ => MemByte.raw 0))
      ∧ (Buffer.Clear.chunks offset length).length = (length + 1048575) / 1048576
      ∧ (∀ k, (Buffer.Clear.chunks offset length)[k]?
          = if k * 1048576 < length
            then some (offset + k * 1048576, min (length - k * 1048576) 1048576) else none)
      ∧ (∀ w, w ∈ Buffer.Clear.chunks offset length → 0 < w.2 ∧ w.2 ≤ 1048576)
      ∧ (∀ k w1 w2, (Buffer.Clear.chunks offset length)[k]? = some w1 →
          (Buffer.Clear.chunks offset length)[k + 1]? = some w2 → w2.1 = w1.1 + w1.2)
      ∧ (Buffer.Clear.chunks offset length).Pairwise (fun w1 w2 => w1.1 + w1.2 ≤ w2.1)
      ∧ (∀ x, (∃ w, w ∈ Buffer.Clear.chunks offset length ∧ w.1 ≤ x ∧ x < w.1 + w.2)
          ↔ (offset ≤ x ∧ x < offset + length))
      ∧ (length = 0 → Buffer.Clear.chunks offset length = [])
      ∧ (∀ x, offset ≤ x → x < offset + length →
          d1.dbytes b.cl_buffer.alloc (b.cl_buffer.origin + x) = MemByte.raw 0)
      ∧ (∀ a y, (a ≠ b.cl_buffer.alloc ∨ y < b.cl_buffer.origin + offset
              ∨ b.cl_buffer.origin + offset + length ≤ y) →
            d1.dbytes a y = d.dbytes a y)
      ∧ d1.tensors = d.tensors ∧ d1.nalloc = d.nalloc ∧ d1.released = d.released
      ∧ d1.decode = d.decode := by
  obtain ⟨d1, hd1, t1, t2, t3, t4, t5, t6⟩ :=
    Buffer.Clear.loop_spec b offset hsize length 0 d (by omega)
  obtain ⟨c1, c2, c3, c4, c5, c6, c7⟩ := Buffer.Clear.chunks_facts offset length
  have hlen : length ≤ b.size := by omega
  rw [Nat.add_zero] at t1
  refine ⟨d1, ?_, t1, c1, c2, c3, c4, c5, c6, c7, ?_, ?_, t2, t3, t4, t5⟩
  · unfold Buffer.Clear
    rw [if_neg (not_not.mpr hlen)]
    exact hd1
  · intro x hx1 hx2
    rw [t6, if_pos ⟨rfl, by omega, by omega⟩]
  · intro a y hout
    rw [t6, if_neg (fun hc => by omega)]

/-- C20 (witness): clearing `3 MiB + 5` bytes from offset `4096` of a buffer of
`4 MiB`: four writes, the last of `5` bytes; the last byte cleared is `0`
afterwards, the byte after it is as before. -/
theorem Buffer.Clear_spec_witness :
    (4194304 < SIZE_MOD ∧ 4096 + 3145733 ≤ 4194304)
    ∧ (Buffer.Clear.chunks 4096 3145733).length = 4
    ∧ (Buffer.Clear.chunks 4096 3145733)[3]? = some (4096 + 3 * 1048576, 5)
    ∧ ∃ d1, (Buffer.CLBuffer ⟨0, 0, 4194304, false⟩ 4194304).Clear exampleDevice 4096 3145733
          = .ok d1
        ∧ d1.writes.length = 5
        ∧ d1.dbytes 0 3149828 = MemByte.raw 0
        ∧ d1.dbytes 0 3149829 = exampleDevice.dbytes 0 3149829 :=
  ⟨by decide,
   match Buffer.Clear_spec (Buffer.CLBuffer ⟨0, 0, 4194304, false⟩ 4194304) exampleDevice
      4096 3145733 (by decide) (by decide) with
   | ⟨d1, h, hw, hlen, hk, _, _, _, _, _, hz, hf, _⟩ =>
     ⟨hlen, (hk 3).trans (by decide), d1, h,
      by rw [hw, List.length_append, List.length_map, hlen]; rfl,
      hz 3149828 (by decide) (by decide),
      hf 0 3149829 (Or.inr (Or.inr (by decide)))⟩⟩


/-! ### C37: element access is row-major -/

theorem Shape.inRange_prod_pos (ds cs : List Nat) (hin : Shape.inRange ds cs) : 0 < ds.prod := by
  induction ds generalizing cs with
  | nil => simp
  | cons d ds ih =>
    cases cs with
    | nil => exact hin.elim
    | cons c cs =>
      rw [List.prod_cons]
      exact Nat.mul_pos (by have := hin.1; omega) (ih cs hin.2)

theorem Shape.inRange_length (ds cs : List Nat) (hin : Shape.inRange ds cs) :
    cs.length = ds.length := by
  induction ds generalizing cs with
  | nil =>
    cases cs with
    | nil => rfl
    | cons c cs => exact hin.elim
  | cons d ds ih =>
    cases cs with
    | nil => exact hin.elim
    | cons c cs =>
      rw [List.length_cons, List.length_cons, ih cs hin.2]

theorem Shape.rowMajorFrom_lt (ds cs : List Nat) (acc P : Nat) (hin : Shape.inRange ds cs)
    (hacc : acc < P) : Shape.rowMajorFrom acc ds cs < P * ds.prod := by
  induction ds generalizing cs acc P with
  | nil =>
    cases cs with
    | nil =>
      rw [List.prod_nil, Nat.mul_one]
      exact hacc
    | cons c cs => exact hin.elim
  | cons d ds ih =>
    cases cs with
    | nil => exact hin.elim
    | cons c cs =>
      have hc : c < d := hin.1
      have h1 : acc * d + c < P * d := by
        have h2 : (acc + 1) * d ≤ P * d := Nat.mul_le_mul_right d hacc
        rw [Nat.add_mul, Nat.one_mul] at h2
        omega
      have h3 := ih cs (acc * d + c) (P * d) hin.2 h1
      rw [List.prod_cons, ← Nat.mul_assoc]
      exact h3

theorem Shape.rowMajorFrom_inj (ds cs cs' : List Nat) (acc acc' : Nat)
    (hin : Shape.inRange ds cs) (hin' : Shape.inRange ds cs')
    (heq : Shape.rowMajorFrom acc ds cs = Shape.rowMajorFrom acc' ds cs') :
    acc = acc' ∧ cs = cs' := by
  induction ds generalizing cs cs' acc acc' with
  | nil =>
    cases cs with
    | cons c cs => exact hin.elim
    | nil =>
      cases cs' with
      | cons c cs' => exact hin'.elim
      | nil => exact ⟨heq, rfl⟩
  | cons d ds ih =>
    cases cs with
    | nil => exact hin.elim
    | cons c cs =>
      cases cs' with
      | nil => exact hin'.elim
      | cons c' cs' =>
        have hc : c < d := hin.1
        have hc' : c' < d := hin'.1
        obtain ⟨h1, h2⟩ := ih cs cs' (acc * d + c) (acc' * d + c') hin.2 hin'.2 heq
        have hd : 0 < d := by omega
        have ha : acc = acc' := by
          have e1 : (acc * d + c) / d = acc := by
            rw [Nat.add_comm, Nat.add_mul_div_right _ _ hd, Nat.div_eq_of_lt hc, Nat.zero_add]
          have e2 : (acc' * d + c') / d = acc' := by
            rw [Nat.add_comm, Nat.add_mul_div_right _ _ hd, Nat.div_eq_of_lt hc', Nat.zero_add]
          rw [← e1, ← e2, h1]
        subst ha
        have hcc : c = c' := by omega
        subst hcc
        subst h2
        exact ⟨rfl, rfl⟩

theorem Shape.coordsOf_spec (ds : List Nat) (k acc : Nat) (hk : k < ds.prod) :
    Shape.inRange ds (Shape.coordsOf ds k)
    ∧ Shape.rowMajorFrom acc ds (Shape.coordsOf ds k) = acc * ds.prod + k := by
  induction ds generalizing k acc with
  | nil =>
    rw [List.prod_nil] at hk
    have hk0 : k = 0 := by omega
    subst hk0
    refine ⟨trivial, ?_⟩
    rw [List.prod_nil, Nat.mul_one, Nat.add_zero]
    rfl
  | cons d ds ih =>
    rw [List.prod_cons] at hk
    have hp : 0 < ds.prod := by
      rcases Nat.eq_zero_or_pos ds.prod with h0 | h0
      · rw [h0, Nat.mul_zero] at hk
        omega
      · exact h0
    have hq : k / ds.prod < d := by
      rw [Nat.div_lt_iff_lt_mul hp]
      exact hk
    have hr : k % ds.prod < ds.prod := Nat.mod_lt _ hp
    obtain ⟨i1, i2⟩ := ih (k % ds.prod) (acc * d + k / ds.prod) hr
    refine ⟨⟨hq, i1⟩, ?_⟩
    show Shape.rowMajorFrom (acc * d + k / ds.prod) ds (Shape.coordsOf ds (k % ds.prod))
      = acc * (d :: ds).prod + k
    rw [i2, List.prod_cons, Nat.add_mul, Nat.mul_assoc, Nat.add_assoc]
    congr 1
    rw [Nat.mul_comm]
    exact Nat.div_add_mod k ds.prod

/-- The recursion of `LinearIndex` from dimension `pre.length` on: with in-range
coordinates no `size_t` operation wraps around and no assertion fails. -/
theorem CPUTensor.LinearIndex_from (t : CPUTensor) (pre post cs : List Nat) (acc : Nat)
    (hdata : t.shape_.data_ = pre ++ post) (hin : Shape.inRange post cs)
    (hacc : acc < pre.prod) (hfit : (pre ++ post).prod < SIZE_MOD)
    (hsize : t.size_ = (pre ++ post).prod) :
    CPUTensor.LinearIndex t acc pre.length cs = .ok (Shape.rowMajorFrom acc post cs) := by
  induction post generalizing pre cs acc with
  | nil =>
    cases cs with
    | cons c cs => exact hin.elim
    | nil =>
      rw [List.append_nil] at hdata hsize
      unfold CPUTensor.LinearIndex
      have h1 : acc < t.size_ := by rw [hsize]; exact hacc
      have h2 : pre.length = BaseTensor.rank t := by
        unfold BaseTensor.rank Shape.rank
        rw [hdata]
      rw [if_neg (not_not.mpr h1), if_neg (not_not.mpr h2)]
      rfl
  | cons d post ih =>
    cases cs with
    | nil => exact hin.elim
    | cons c cs =>
      have hc : c < d := hin.1
      have hpos : 0 < post.prod := Shape.inRange_prod_pos post cs hin.2
      have h1 : acc * d + c < pre.prod * d := by
        have h2 : (acc + 1) * d ≤ pre.prod * d := Nat.mul_le_mul_right d hacc
        rw [Nat.add_mul, Nat.one_mul] at h2
        omega
      have hprod : (pre ++ d :: post).prod = pre.prod * d * post.prod := by
        rw [List.prod_append, List.prod_cons, Nat.mul_assoc]
      have hle : pre.prod * d ≤ pre.prod * d * post.prod := Nat.le_mul_of_pos_right _ hpos
      have hlt : acc * d + c < SIZE_MOD := by
        rw [hprod] at hfit
        omega
      have hrank : pre.length < BaseTensor.rank t := by
        unfold BaseTensor.rank Shape.rank
        rw [hdata, List.length_append, List.length_cons]
        omega
      have hshape : BaseTensor.shape t pre.length = d := by
        unfold BaseTensor.shape Shape.index
        rw [hdata]
        simp only [List.getD_eq_getElem?_getD]
        rw [List.getElem?_append_right (Nat.le_refl _), Nat.sub_self]
        simp
      have hdata1 : t.shape_.data_ = (pre ++ [d]) ++ post := by
        rw [hdata, List.append_assoc]
        rfl
      have hacc1 : acc * d + c < (pre ++ [d]).prod := by
        rw [List.prod_append, List.prod_cons, List.prod_nil, Nat.mul_one]
        exact h1
      have heq : (pre ++ [d]) ++ post = pre ++ d :: post := by
        rw [List.append_assoc]
        rfl
      have hfit1 : ((pre ++ [d]) ++ post).prod < SIZE_MOD := by
        rw [heq]
        exact hfit
      have hsize1 : t.size_ = ((pre ++ [d]) ++ post).prod := by
        rw [heq]
        exact hsize
      have hstep := ih (pre ++ [d]) cs (acc * d + c) hdata1 hin.2 hacc1 hfit1 hsize1
      have hlen : (pre ++ [d]).length = pre.length + 1 := by
        rw [List.length_append]
        rfl
      rw [hlen] at hstep
      unfold CPUTensor.LinearIndex
      rw [if_neg (not_not.mpr hrank), hshape]
      have hm1 : (acc * d) % SIZE_MOD = acc * d := Nat.mod_eq_of_lt (by omega)
      rw [hm1, Nat.mod_eq_of_lt hlt]
      exact hstep

/-- What `LinearIndex(0, 0, indices...)` returns for in-range indices. -/
theorem CPUTensor.LinearIndex_of_InRange (t : CPUTensor) (coords : List Nat)
    (hs : t.SizeInv) (hf : t.shape_.Fits) (hr : 0 < t.rank)
    (hin : t.shape_.InRange coords) :
    CPUTensor.LinearIndex t 0 0 coords = .ok (t.shape_.rowMajor coords)
    ∧ t.shape_.rowMajor coords < t.size_ := by
  have hsize : t.size_ = t.shape_.data_.prod := by
    rw [hs]
    exact Shape.TotalElementCount_of_Fits _ hr hf
  constructor
  · exact CPUTensor.LinearIndex_from t [] t.shape_.data_ coords 0 rfl hin (by simp) hf hsize
  · have h := Shape.rowMajorFrom_lt t.shape_.data_ coords 0 1 hin (by omega)
    rw [Nat.one_mul] at h
    rw [hsize]
    exact h

/-- C37: host element access is row-major.  For a tensor whose element count is
representable (`Fits`) and whose `size_` is that count (`SizeInv`), of rank at
least one: `LinearIndex(0, 0, c0, ..., ck)` with every `c_j < d_j` returns
`((c0*d1 + c1)*d2 + ...)*dk + ck` without a failed assertion, this position is below
`size()`, distinct in-range tuples get distinct positions, and every position below
`size()` is that of an in-range tuple. -/
theorem CPUTensor.Element_row_major {α : Type} (h : Host α) (t : CPUTensor)
    (hs : t.SizeInv) (hf : t.shape_.Fits) (hr : 0 < t.rank) :
    (∀ coords, t.shape_.InRange coords →
      CPUTensor.LinearIndex t 0 0 coords = .ok (t.shape_.rowMajor coords)
      ∧ CPUTensor.Element h t coords = .ok (h.mem (t.buffer_ + t.shape_.rowMajor coords))
      ∧ t.shape_.rowMajor coords < t.size_)
    ∧ (∀ coords coords', t.shape_.InRange coords → t.shape_.InRange coords' →
        t.shape_.rowMajor coords = t.shape_.rowMajor coords' → coords = coords')
    ∧ (∀ k, k < t.size_ → ∃ coords, t.shape_.InRange coords
        ∧ CPUTensor.LinearIndex t 0 0 coords = .ok k) := by
  have hsize : t.size_ = t.shape_.data_.prod := by
    rw [hs]
    exact Shape.TotalElementCount_of_Fits _ hr hf
  refine ⟨?_, ?_, ?_⟩
  · intro coords hin
    obtain ⟨h1, h2⟩ := CPUTensor.LinearIndex_of_InRange t coords hs hf hr hin
    refine ⟨h1, ?_, h2⟩
    unfold CPUTensor.Element
    rw [h1]
    rfl
  · intro coords coords' hin hin' heq
    exact (Shape.rowMajorFrom_inj t.shape_.data_ coords coords' 0 0 hin hin' heq).2
  · intro k hk
    rw [hsize] at hk
    obtain ⟨i1, i2⟩ := Shape.coordsOf_spec t.shape_.data_ k 0 hk
    refine ⟨Shape.coordsOf t.shape_.data_ k, i1, ?_⟩
    rw [(CPUTensor.LinearIndex_of_InRange t _ hs hf hr i1).1]
    unfold Shape.rowMajor
    rw [i2, Nat.zero_mul, Nat.zero_add]

theorem CPUTensor.Element_row_major_witness :
    (∀ coords, (exampleHost.tensors.objs 0).shape_.InRange coords →
      CPUTensor.LinearIndex (exampleHost.tensors.objs 0) 0 0 coords
        = .ok ((exampleHost.tensors.objs 0).shape_.rowMajor coords)
      ∧ CPUTensor.Element exampleHost (exampleHost.tensors.objs 0) coords
        = .ok (exampleHost.mem ((exampleHost.tensors.objs 0).buffer_
            + (exampleHost.tensors.objs 0).shape_.rowMajor coords))
      ∧ (exampleHost.tensors.objs 0).shape_.rowMajor coords < (exampleHost.tensors.objs 0).size_)
    ∧ (∀ coords coords', (exampleHost.tensors.objs 0).shape_.InRange coords →
        (exampleHost.tensors.objs 0).shape_.InRange coords' →
        (exampleHost.tensors.objs 0).shape_.rowMajor coords
          = (exampleHost.tensors.objs 0).shape_.rowMajor coords' → coords = coords')
    ∧ (∀ k, k < (exampleHost.tensors.objs 0).size_ →
        ∃ coords, (exampleHost.tensors.objs 0).shape_.InRange coords
        ∧ CPUTensor.LinearIndex (exampleHost.tensors.objs 0) 0 0 coords = .ok k) :=
  CPUTensor.Element_row_major exampleHost (exampleHost.tensors.objs 0)
    rfl (by decide) (by decide)

/-! ### C24: the elementwise operations -/

theorem CPUTensor.write_brk {α : Type} (h : Host α) (t : CPUTensor) (k : Nat) (x : α) :
    (CPUTensor.write h t k x).brk = h.brk :=
  rfl

theorem CPUTensor.write_freed {α : Type} (h : Host α) (t : CPUTensor) (k : Nat) (x : α) :
    (CPUTensor.write h t k x).freed = h.freed :=
  rfl

theorem CPUTensor.write_tensors {α : Type} (h : Host α) (t : CPUTensor) (k : Nat) (x : α) :
    (CPUTensor.write h t k x).tensors = h.tensors :=
  rfl

theorem CPUTensor.write_mem {α : Type} (h : Host α) (t : CPUTensor) (k : Nat) (x : α) (a : Nat) :
    (CPUTensor.write h t k x).mem a = if a = t.buffer_ + k then x else h.mem a :=
  rfl

/-- The loop of the elementwise operations in closed form: when the output starts
at or before each input, or after its end, cell `k` of the output gets the value
computed from the cells `k` of the inputs as they were at the start. -/
theorem CPUTensor.pointwise_loop {α : Type} (g : α → α → α) (h : Host α)
    (x y out : CPUTensor) (N n : Nat) (hn : n ≤ N)
    (hx : out.buffer_ ≤ x.buffer_ ∨ x.buffer_ + N ≤ out.buffer_)
    (hy : out.buffer_ ≤ y.buffer_ ∨ y.buffer_ + N ≤ out.buffer_) :
    (∀ a, ((List.range n).foldl
        (fun h1 k => CPUTensor.write h1 out k (g (CPUTensor.elem h1 x k) (CPUTensor.elem h1 y k)))
        h).mem a
      = if out.buffer_ ≤ a ∧ a < out.buffer_ + n
        then g (h.mem (x.buffer_ + (a - out.buffer_))) (h.mem (y.buffer_ + (a - out.buffer_)))
        else h.mem a)
    ∧ ((List.range n).foldl
        (fun h1 k => CPUTensor.write h1 out k (g (CPUTensor.elem h1 x k) (CPUTensor.elem h1 y k)))
        h).brk = h.brk
    ∧ ((List.range n).foldl
        (fun h1 k => CPUTensor.write h1 out k (g (CPUTensor.elem h1 x k) (CPUTensor.elem h1 y k)))
        h).freed = h.freed
    ∧ ((List.range n).foldl
        (fun h1 k => CPUTensor.write h1 out k (g (CPUTensor.elem h1 x k) (CPUTensor.elem h1 y k)))
        h).tensors = h.tensors := by
  induction n with
  | zero =>
    refine ⟨?_, rfl, rfl, rfl⟩
    intro a
    rw [if_neg (by omega)]
    rfl
  | succ n ih =>
    obtain ⟨i1, i2, i3, i4⟩ := ih (by omega)
    rw [List.range_succ, List.foldl_append, List.foldl_cons, List.foldl_nil]
    refine ⟨?_, ?_, ?_, ?_⟩
    · intro a
      rw [CPUTensor.write_mem]
      by_cases ha : a = out.buffer_ + n
      · rw [if_pos ha, if_pos (by omega)]
        have e : a - out.buffer_ = n := by omega
        rw [e]
        have ex := i1 (x.buffer_ + n)
        rw [if_neg (by omega)] at ex
        have ey := i1 (y.buffer_ + n)
        rw [if_neg (by omega)] at ey
        exact congrArg₂ g ex ey
      · rw [if_neg ha, i1]
        by_cases hr : out.buffer_ ≤ a ∧ a < out.buffer_ + n
        · rw [if_pos hr, if_pos (by omega)]
        · rw [if_neg hr, if_neg (by omega)]
    · rw [CPUTensor.write_brk]
      exact i2
    · rw [CPUTensor.write_freed]
      exact i3
    · rw [CPUTensor.write_tensors]
      exact i4

theorem CPUTensor.pointwise_Sets {α : Type} (g : α → α → α) (h : Host α) (x y out : CPUTensor)
    (n : Nat)
    (hx : out.buffer_ ≤ x.buffer_ ∨ x.buffer_ + n ≤ out.buffer_)
    (hy : out.buffer_ ≤ y.buffer_ ∨ y.buffer_ + n ≤ out.buffer_) :
    CPUTensor.Sets
      (.ok ((List.range n).foldl
        (fun h1 k => CPUTensor.write h1 out k (g (CPUTensor.elem h1 x k) (CPUTensor.elem h1 y k)))
        h))
      h out n (fun k => g (CPUTensor.elem h x k) (CPUTensor.elem h y k)) := by
  obtain ⟨i1, i2, i3, i4⟩ := CPUTensor.pointwise_loop g h x y out n n (Nat.le_refl n) hx hy
  refine ⟨_, rfl, ?_, ?_, i2, i3, i4⟩
  · intro k hk
    have e := i1 (out.buffer_ + k)
    rw [if_pos (by omega)] at e
    have e1 : out.buffer_ + k - out.buffer_ = k := by omega
    rw [e1] at e
    exact e
  · intro a ha
    rw [i1, if_neg ha]

theorem CPUTensor.BINARY_OPERATION_Sets {α : Type} (op : α → α → α) (h : Host α)
    (x y out : CPUTensor) (hxy : x.shape_ = y.shape_) (hyo : y.shape_ = out.shape_)
    (hx : out.buffer_ ≤ x.buffer_ ∨ x.buffer_ + x.size_ ≤ out.buffer_)
    (hy : out.buffer_ ≤ y.buffer_ ∨ y.buffer_ + x.size_ ≤ out.buffer_) :
    CPUTensor.Sets (CPUTensor.BINARY_OPERATION op h x y out) h out x.size_
      (fun k => op (CPUTensor.elem h x k) (CPUTensor.elem h y k)) := by
  unfold CPUTensor.BINARY_OPERATION
  have e1 : x.shape_.operator_eq y.shape_ = true := by
    unfold Shape.operator_eq
    rw [hxy]
    simp
  have e2 : y.shape_.operator_eq out.shape_ = true := by
    unfold Shape.operator_eq
    rw [hyo]
    simp
  rw [if_neg (not_not.mpr e1), if_neg (not_not.mpr e2)]
  exact CPUTensor.pointwise_Sets op h x y out x.size_ hx hy

theorem CPUTensor.TENSOR_SCALAR_OPERATION_Sets {α : Type} (op : α → α → α) (h : Host α)
    (x : CPUTensor) (v : α) (out : CPUTensor) (hxo : x.shape_ = out.shape_)
    (hx : out.buffer_ ≤ x.buffer_ ∨ x.buffer_ + x.size_ ≤ out.buffer_) :
    CPUTensor.Sets (CPUTensor.TENSOR_SCALAR_OPERATION op h x v out) h out x.size_
      (fun k => op (CPUTensor.elem h x k) v) := by
  unfold CPUTensor.TENSOR_SCALAR_OPERATION
  have e1 : x.shape_.operator_eq out.shape_ = true := by
    unfold Shape.operator_eq
    rw [hxo]
    simp
  rw [if_neg (not_not.mpr e1)]
  exact CPUTensor.pointwise_Sets (fun a _ => op a v) h x x out x.size_ hx hx

theorem CPUTensor.add_scaled_Sets {α : Type} [Add α] [Mul α] (h : Host α)
    (x y : CPUTensor) (f : α) (out : CPUTensor) (hxy : x.shape_ = y.shape_)
    (hyo : y.shape_ = out.shape_)
    (hx : out.buffer_ ≤ x.buffer_ ∨ x.buffer_ + x.size_ ≤ out.buffer_)
    (hy : out.buffer_ ≤ y.buffer_ ∨ y.buffer_ + x.size_ ≤ out.buffer_) :
    CPUTensor.Sets (CPUTensor.add_scaled h x y f out) h out x.size_
      (fun k => CPUTensor.elem h x k + CPUTensor.elem h y k * f) := by
  unfold CPUTensor.add_scaled
  have e1 : x.shape_.operator_eq y.shape_ = true := by
    unfold Shape.operator_eq
    rw [hxy]
    simp
  have e2 : y.shape_.operator_eq out.shape_ = true := by
    unfold Shape.operator_eq
    rw [hyo]
    simp
  rw [if_neg (not_not.mpr e1), if_neg (not_not.mpr e2)]
  exact CPUTensor.pointwise_Sets (fun a b => a + b * f) h x y out x.size_ hx hy

theorem CPUTensor.operator_binary_spec {α : Type} (op : α → α → α) (h : Host α)
    (self other : Nat) (hself : self < h.tensors.count) (hother : other < h.tensors.count)
    (hxy : (h.tensors.objs self).shape_ = (h.tensors.objs other).shape_)
    (hsx : (h.tensors.objs self).SizeInv)
    (hbx : (h.tensors.objs self).buffer_ + (h.tensors.objs self).size_ ≤ h.brk)
    (hby : (h.tensors.objs other).buffer_ + (h.tensors.objs self).size_ ≤ h.brk) :
    ∃ h2, CPUTensor.operator_binary op h self other = .ok (h.tensors.count, h2)
      ∧ (h2.tensors.objs h.tensors.count).shape_ = (h.tensors.objs self).shape_
      ∧ (h2.tensors.objs h.tensors.count).size_ = (h.tensors.objs self).size_
      ∧ (∀ k, k < (h.tensors.objs self).size_ →
          CPUTensor.elem h2 (h2.tensors.objs h.tensors.count) k
            = op (CPUTensor.elem h (h.tensors.objs self) k)
                (CPUTensor.elem h (h.tensors.objs other) k))
      ∧ (∀ a, a < h.brk → h2.mem a = h.mem a) := by
  have hne1 : ¬ self = h.tensors.count := by omega
  have hne2 : ¬ other = h.tensors.count := by omega
  have hr1 : (CPUTensor.ctor h (h.tensors.objs self).shape_).1 = h.tensors.count := rfl
  have ho1 : (CPUTensor.ctor h (h.tensors.objs self).shape_).2.tensors.objs self
      = h.tensors.objs self := by
    show (if self = h.tensors.count then _ else h.tensors.objs self) = _
    rw [if_neg hne1]
  have ho2 : (CPUTensor.ctor h (h.tensors.objs self).shape_).2.tensors.objs other
      = h.tensors.objs other := by
    show (if other = h.tensors.count then _ else h.tensors.objs other) = _
    rw [if_neg hne2]
  have ho3 : (CPUTensor.ctor h (h.tensors.objs self).shape_).2.tensors.objs h.tensors.count
      = { BaseTensor.ctor (h.tensors.objs self).shape_ 0 with buffer_ := h.brk } := by
    show (if h.tensors.count = h.tensors.count then _ else _) = _
    rw [if_pos rfl]
    rfl
  have hmem : (CPUTensor.ctor h (h.tensors.objs self).shape_).2.mem = h.mem := rfl
  have hsz : (h.tensors.objs self).size_ = (h.tensors.objs self).shape_.TotalElementCount := hsx
  obtain ⟨h2, e1, e2, e3, _, _, e6⟩ := CPUTensor.BINARY_OPERATION_Sets op
    (CPUTensor.ctor h (h.tensors.objs self).shape_).2 (h.tensors.objs self)
    (h.tensors.objs other)
    { BaseTensor.ctor (h.tensors.objs self).shape_ 0 with buffer_ := h.brk }
    hxy hxy.symm (Or.inr hbx) (Or.inr hby)
  refine ⟨h2, ?_, ?_, ?_, ?_, ?_⟩
  · unfold CPUTensor.operator_binary
    simp only [hr1, ho1, ho2, ho3]
    rw [e1]
  · rw [e6, ho3]
    rfl
  · rw [e6, ho3]
    exact hsz.symm
  · intro k hk
    rw [e6, ho3]
    exact e2 k hk
  · intro a ha
    have hb : ¬ (h.brk ≤ a ∧ a < h.brk + (h.tensors.objs self).size_) := by omega
    exact e3 a hb

/-- C24: the elementwise operations of the host.  `x` and `y` are the tensor objects
`self` and `other`, of equal shape, and `out` a tensor of that shape whose buffer is
the buffer of `x` or of `y` or apart from both (it starts at or before each input,
or after its end).  Then `add`, `sub`, `mul`, `div` end without abort and set
`out[k] = x[k] op y[k]` at every linear index `k < x.size()`, the variants with a
scalar set `out[k] = x[k] op v`, and the fused `add(x, y, v, out)` sets `out[k] =
x[k] + v*y[k]` (the source computes `x[k] + y[k]*v`; multiplication commutes), all
of them changing nothing else.  The same holds with `out` the tensor `x` itself,
which is what the operators `+=`, `-=`, `*=`, `/=` do; and after `x op= y` the
elements of `x` are those of the new tensor that `x op y` returns from the old
state. -/
theorem CPUTensor.elementwise_spec {α : Type} [Add α] [Sub α] [Mul α] [Div α] (h : Host α)
    (self other : Nat) (out : CPUTensor) (v : α)
    (hself : self < h.tensors.count) (hother : other < h.tensors.count)
    (hxy : (h.tensors.objs self).shape_ = (h.tensors.objs other).shape_)
    (hyo : (h.tensors.objs other).shape_ = out.shape_)
    (hx : out.buffer_ ≤ (h.tensors.objs self).buffer_
      ∨ (h.tensors.objs self).buffer_ + (h.tensors.objs self).size_ ≤ out.buffer_)
    (hy : out.buffer_ ≤ (h.tensors.objs other).buffer_
      ∨ (h.tensors.objs other).buffer_ + (h.tensors.objs self).size_ ≤ out.buffer_)
    (hyx : (h.tensors.objs self).buffer_ ≤ (h.tensors.objs other).buffer_
      ∨ (h.tensors.objs other).buffer_ + (h.tensors.objs self).size_
          ≤ (h.tensors.objs self).buffer_)
    (hsx : (h.tensors.objs self).SizeInv)
    (hbx : (h.tensors.objs self).buffer_ + (h.tensors.objs self).size_ ≤ h.brk)
    (hby : (h.tensors.objs other).buffer_ + (h.tensors.objs self).size_ ≤ h.brk)
    (hcomm : ∀ a b : α, a * b = b * a) :
    (CPUTensor.Sets (CPUTensor.add h (h.tensors.objs self) (h.tensors.objs other) out) h out
        (h.tensors.objs self).size_
        (fun k => CPUTensor.elem h (h.tensors.objs self) k
          + CPUTensor.elem h (h.tensors.objs other) k)
      ∧ CPUTensor.Sets (CPUTensor.sub h (h.tensors.objs self) (h.tensors.objs other) out) h out
        (h.tensors.objs self).size_
        (fun k => CPUTensor.elem h (h.tensors.objs self) k
          - CPUTensor.elem h (h.tensors.objs other) k)
      ∧ CPUTensor.Sets (CPUTensor.mul h (h.tensors.objs self) (h.tensors.objs other) out) h out
        (h.tensors.objs self).size_
        (fun k => CPUTensor.elem h (h.tensors.objs self) k
          * CPUTensor.elem h (h.tensors.objs other) k)
      ∧ CPUTensor.Sets (CPUTensor.div h (h.tensors.objs self) (h.tensors.objs other) out) h out
        (h.tensors.objs self).size_
        (fun k => CPUTensor.elem h (h.tensors.objs self) k
          / CPUTensor.elem h (h.tensors.objs other) k))
    ∧ (CPUTensor.Sets (CPUTensor.add_scalar h (h.tensors.objs self) v out) h out
        (h.tensors.objs self).size_ (fun k => CPUTensor.elem h (h.tensors.objs self) k + v)
      ∧ CPUTensor.Sets (CPUTensor.sub_scalar h (h.tensors.objs self) v out) h out
        (h.tensors.objs self).size_ (fun k => CPUTensor.elem h (h.tensors.objs self) k - v)
      ∧ CPUTensor.Sets (CPUTensor.mul_scalar h (h.tensors.objs self) v out) h out
        (h.tensors.objs self).size_ (fun k => CPUTensor.elem h (h.tensors.objs self) k * v)
      ∧ CPUTensor.Sets (CPUTensor.div_scalar h (h.tensors.objs self) v out) h out
        (h.tensors.objs self).size_ (fun k => CPUTensor.elem h (h.tensors.objs self) k / v))
    ∧ CPUTensor.Sets
        (CPUTensor.add_scaled h (h.tensors.objs self) (h.tensors.objs other) v out) h out
        (h.tensors.objs self).size_
        (fun k => CPUTensor.elem h (h.tensors.objs self) k
          + v * CPUTensor.elem h (h.tensors.objs other) k)
    ∧ (∀ op : α → α → α,
        CPUTensor.Sets (CPUTensor.operator_assign op h self other) h (h.tensors.objs self)
          (h.tensors.objs self).size_
          (fun k => op (CPUTensor.elem h (h.tensors.objs self) k)
            (CPUTensor.elem h (h.tensors.objs other) k))
        ∧ CPUTensor.Sets (CPUTensor.operator_assign_scalar op h self v) h (h.tensors.objs self)
          (h.tensors.objs self).size_
          (fun k => op (CPUTensor.elem h (h.tensors.objs self) k) v))
    ∧ CPUTensor.Sets
        (CPUTensor.add_scaled h (h.tensors.objs self) (h.tensors.objs other) v
          (h.tensors.objs self)) h (h.tensors.objs self)
        (h.tensors.objs self).size_
        (fun k => CPUTensor.elem h (h.tensors.objs self) k
          + v * CPUTensor.elem h (h.tensors.objs other) k)
    ∧ (∀ op : α → α → α, ∃ h1 r h2,
        CPUTensor.operator_assign op h self other = .ok h1
        ∧ CPUTensor.operator_binary op h self other = .ok (r, h2)
        ∧ (h2.tensors.objs r).shape_ = (h1.tensors.objs self).shape_
        ∧ (h2.tensors.objs r).size_ = (h1.tensors.objs self).size_
        ∧ ∀ k, k < (h1.tensors.objs self).size_ →
            CPUTensor.elem h1 (h1.tensors.objs self) k
              = CPUTensor.elem h2 (h2.tensors.objs r) k) := by
  have hrefl : (h.tensors.objs self).buffer_ ≤ (h.tensors.objs self).buffer_
      ∨ (h.tensors.objs self).buffer_ + (h.tensors.objs self).size_
          ≤ (h.tensors.objs self).buffer_ := Or.inl (Nat.le_refl _)
  have hfused : ∀ o : CPUTensor,
      CPUTensor.Sets (CPUTensor.add_scaled h (h.tensors.objs self) (h.tensors.objs other) v o)
        h o (h.tensors.objs self).size_
        (fun k => CPUTensor.elem h (h.tensors.objs self) k
          + CPUTensor.elem h (h.tensors.objs other) k * v) →
      CPUTensor.Sets (CPUTensor.add_scaled h (h.tensors.objs self) (h.tensors.objs other) v o)
        h o (h.tensors.objs self).size_
        (fun k => CPUTensor.elem h (h.tensors.objs self) k
          + v * CPUTensor.elem h (h.tensors.objs other) k) := by
    intro o ho
    obtain ⟨h1, e1, e2, e3⟩ := ho
    refine ⟨h1, e1, ?_, e3⟩
    intro k hk
    rw [e2 k hk]
    show _ + _ * v = _ + v * _
    rw [hcomm]
  refine ⟨⟨?_, ?_, ?_, ?_⟩, ⟨?_, ?_, ?_, ?_⟩, ?_, ?_, ?_, ?_⟩
  · exact CPUTensor.BINARY_OPERATION_Sets _ h _ _ out hxy hyo hx hy
  · exact CPUTensor.BINARY_OPERATION_Sets _ h _ _ out hxy hyo hx hy
  · exact CPUTensor.BINARY_OPERATION_Sets _ h _ _ out hxy hyo hx hy
  · exact CPUTensor.BINARY_OPERATION_Sets _ h _ _ out hxy hyo hx hy
  · exact CPUTensor.TENSOR_SCALAR_OPERATION_Sets _ h _ v out (hxy.trans hyo) hx
  · exact CPUTensor.TENSOR_SCALAR_OPERATION_Sets _ h _ v out (hxy.trans hyo) hx
  · exact CPUTensor.TENSOR_SCALAR_OPERATION_Sets _ h _ v out (hxy.trans hyo) hx
  · exact CPUTensor.TENSOR_SCALAR_OPERATION_Sets _ h _ v out (hxy.trans hyo) hx
  · exact hfused out (CPUTensor.add_scaled_Sets h _ _ v out hxy hyo hx hy)
  · intro op
    exact ⟨CPUTensor.BINARY_OPERATION_Sets op h _ _ _ hxy hxy.symm hrefl hyx,
      CPUTensor.TENSOR_SCALAR_OPERATION_Sets op h _ v _ rfl hrefl⟩
  · exact hfused _ (CPUTensor.add_scaled_Sets h _ _ v _ hxy hxy.symm hrefl hyx)
  · intro op
    obtain ⟨h1, a1, a2, _, _, _, a6⟩ :=
      CPUTensor.BINARY_OPERATION_Sets op h (h.tensors.objs self) (h.tensors.objs other)
        (h.tensors.objs self) hxy hxy.symm hrefl hyx
    obtain ⟨h2, b1, b2, b3, b4, _⟩ :=
      CPUTensor.operator_binary_spec op h self other hself hother hxy hsx hbx hby
    refine ⟨h1, h.tensors.count, h2, a1, b1, ?_, ?_, ?_⟩
    · rw [a6, b2]
    · rw [a6, b3]
    · intro k hk
      rw [a6] at hk ⊢
      rw [a2 k hk, b4 k hk]

theorem CPUTensor.elementwise_spec_witness :
    CPUTensor.Sets
      (CPUTensor.add exampleHost3 (exampleHost3.tensors.objs 0) (exampleHost3.tensors.objs 1)
        (exampleHost3.tensors.objs 2))
      exampleHost3 (exampleHost3.tensors.objs 2) 3
      (fun k => CPUTensor.elem exampleHost3 (exampleHost3.tensors.objs 0) k
        + CPUTensor.elem exampleHost3 (exampleHost3.tensors.objs 1) k) :=
  (CPUTensor.elementwise_spec exampleHost3 0 1 (exampleHost3.tensors.objs 2) 5
    (by decide) (by decide) (by decide) (by decide) (by decide) (by decide) (by decide)
    rfl (by decide) (by decide) Int.mul_comm).1.1

/-! ### Loops that may abort -/

theorem forEach_nil {ι σ : Type} (body : ι → σ → Except Fault σ) (s : σ) :
    forEach [] body s = .ok s :=
  rfl

theorem forEach_cons_ok {ι σ : Type} (i : ι) (l : List ι) (body : ι → σ → Except Fault σ)
    (s s1 : σ) (hi : body i s = .ok s1) :
    forEach (i :: l) body s = forEach l body s1 := by
  show (match body i s with
    | Except.error f => Except.error f
    | Except.ok s1 => forEach l body s1) = _
  rw [hi]

theorem forEach_cons_error {ι σ : Type} (i : ι) (l : List ι) (body : ι → σ → Except Fault σ)
    (s : σ) (f : Fault) (hi : body i s = .error f) :
    forEach (i :: l) body s = .error f := by
  show (match body i s with
    | Except.error f => Except.error f
    | Except.ok s1 => forEach l body s1) = _
  rw [hi]

theorem forEach_append {ι σ : Type} (l1 l2 : List ι) (body : ι → σ → Except Fault σ)
    (s s1 : σ) (h1 : forEach l1 body s = .ok s1) :
    forEach (l1 ++ l2) body s = forEach l2 body s1 := by
  induction l1 generalizing s with
  | nil =>
    rw [forEach_nil] at h1
    cases h1
    rfl
  | cons i l1 ih =>
    cases hb : body i s with
    | error f =>
      rw [forEach_cons_error i l1 body s f hb] at h1
      cases h1
    | ok s2 =>
      rw [forEach_cons_ok i l1 body s s2 hb] at h1
      rw [List.cons_append, forEach_cons_ok i _ body s s2 hb]
      exact ih s2 h1

/-- A loop over `0 .. n - 1` with an invariant: when every iteration, started in a
state the invariant allows, ends without abort in a state the invariant allows
for the next index, so does the loop. -/
theorem forEach_range_inv {σ : Type} (n : Nat) (body : Nat → σ → Except Fault σ)
    (P : Nat → σ → Prop) (s : σ) (h0 : P 0 s)
    (hstep : ∀ i, i < n → ∀ s1, P i s1 → ∃ s2, body i s1 = .ok s2 ∧ P (i + 1) s2) :
    ∃ s1, forEach (List.range n) body s = .ok s1 ∧ P n s1 := by
  induction n with
  | zero => exact ⟨s, rfl, h0⟩
  | succ n ih =>
    obtain ⟨s1, e1, p1⟩ := ih (fun i hi => hstep i (by omega))
    obtain ⟨s2, e2, p2⟩ := hstep n (by omega) s1 p1
    refine ⟨s2, ?_, p2⟩
    rw [List.range_succ, forEach_append _ _ body s s1 e1, forEach_cons_ok n [] body s1 s2 e2]
    rfl

/-- A loop over a list with an invariant on the part of the list already done. -/
theorem forEach_list_inv {ι σ : Type} (l : List ι) (body : ι → σ → Except Fault σ)
    (P : List ι → σ → Prop) (s : σ) (h0 : P [] s)
    (hstep : ∀ done i, (∃ rest, l = done ++ i :: rest) → ∀ s1, P done s1 →
      ∃ s2, body i s1 = .ok s2 ∧ P (done ++ [i]) s2) :
    ∃ s1, forEach l body s = .ok s1 ∧ P l s1 := by
  have key : ∀ (todo done : List ι) (s0 : σ), l = done ++ todo → P done s0 →
      ∃ s1, forEach todo body s0 = .ok s1 ∧ P l s1 := by
    intro todo
    induction todo with
    | nil =>
      intro done s0 hl hp
      rw [List.append_nil] at hl
      rw [hl]
      exact ⟨s0, rfl, hp⟩
    | cons i rest ih =>
      intro done s0 hl hp
      obtain ⟨s2, e2, p2⟩ := hstep done i ⟨rest, hl⟩ s0 hp
      have hl2 : l = (done ++ [i]) ++ rest := by
        rw [hl, List.append_assoc]
        rfl
      obtain ⟨s3, e3, p3⟩ := ih (done ++ [i]) s2 hl2 p2
      exact ⟨s3, by rw [forEach_cons_ok i rest body s0 s2 e2]; exact e3, p3⟩
  exact key l [] s rfl h0

/-- A loop whose iterations never abort is a fold. -/
theorem forEach_eq_foldl {ι σ : Type} (l : List ι) (body : ι → σ → Except Fault σ)
    (f : σ → ι → σ) (s : σ) (hb : ∀ i, i ∈ l → ∀ s1, body i s1 = .ok (f s1 i)) :
    forEach l body s = .ok (l.foldl f s) := by
  induction l generalizing s with
  | nil => rfl
  | cons i l ih =>
    rw [forEach_cons_ok i l body s (f s i) (hb i (List.mem_cons_self i l) s), List.foldl_cons]
    exact ih (f s i) (fun j hj => hb j (List.mem_cons_of_mem i hj))

/-! ### States that differ in the cells of one tensor -/

theorem Host.Modifies.refl {α : Type} (h : Host α) (p n : Nat) : Host.Modifies h h p n :=
  ⟨fun _ _ => rfl, rfl, rfl, rfl⟩

theorem Host.Modifies.write {α : Type} (h h1 : Host α) (t : CPUTensor) (n k : Nat) (x : α)
    (hm : Host.Modifies h h1 t.buffer_ n) (hk : k < n) :
    Host.Modifies h (CPUTensor.write h1 t k x) t.buffer_ n := by
  obtain ⟨m1, m2, m3, m4⟩ := hm
  refine ⟨?_, m2, m3, m4⟩
  intro a ha
  rw [CPUTensor.write_mem, if_neg (by omega)]
  exact m1 a ha

theorem Host.Modifies.elem_eq {α : Type} (h h1 : Host α) (t u : CPUTensor) (n k : Nat)
    (hm : Host.Modifies h h1 t.buffer_ n)
    (hk : ¬ (t.buffer_ ≤ u.buffer_ + k ∧ u.buffer_ + k < t.buffer_ + n)) :
    CPUTensor.elem h1 u k = CPUTensor.elem h u k :=
  hm.1 (u.buffer_ + k) hk

/-! ### Tensors of rank one to four -/

theorem CPUTensor.OfShape.size_eq (t : CPUTensor) (dims : List Nat) (hne : dims ≠ [])
    (ht : t.OfShape dims) : t.size_ = dims.prod := by
  obtain ⟨h1, h2, h3⟩ := ht
  have hr : 0 < t.shape_.rank := by
    unfold Shape.rank
    rw [h1]
    exact List.length_pos.mpr hne
  rw [h2, Shape.TotalElementCount_of_Fits _ hr h3, h1]

theorem CPUTensor.OfShape.rank_eq (t : CPUTensor) (dims : List Nat) (ht : t.OfShape dims) :
    t.rank = dims.length := by
  unfold BaseTensor.rank Shape.rank
  rw [ht.1]

theorem CPUTensor.OfShape.shape_eq (t : CPUTensor) (dims : List Nat) (ht : t.OfShape dims)
    (i : Nat) : t.shape i = dims.getD i 0 := by
  unfold BaseTensor.shape Shape.index
  rw [ht.1]

/-- Element access at in-range coordinates of a tensor in good standing. -/
theorem CPUTensor.OfShape.LinearIndex_eq (t : CPUTensor) (dims coords : List Nat)
    (hne : dims ≠ []) (ht : t.OfShape dims) (hin : Shape.inRange dims coords) :
    CPUTensor.LinearIndex t 0 0 coords = .ok (Shape.rowMajorFrom 0 dims coords)
    ∧ Shape.rowMajorFrom 0 dims coords < dims.prod := by
  have hr : 0 < t.rank := by
    rw [CPUTensor.OfShape.rank_eq t dims ht]
    exact List.length_pos.mpr hne
  have hin1 : t.shape_.InRange coords := by
    unfold Shape.InRange
    rw [ht.1]
    exact hin
  obtain ⟨e1, e2⟩ := CPUTensor.LinearIndex_of_InRange t coords ht.2.1 ht.2.2 hr hin1
  unfold Shape.rowMajor at e1 e2
  rw [ht.1] at e1 e2
  rw [CPUTensor.OfShape.size_eq t dims hne ht] at e2
  exact ⟨e1, e2⟩

theorem CPUTensor.Element_of_LinearIndex {α : Type} (h : Host α) (t : CPUTensor)
    (coords : List Nat) (k : Nat) (hk : CPUTensor.LinearIndex t 0 0 coords = .ok k) :
    CPUTensor.Element h t coords = .ok (CPUTensor.elem h t k) := by
  unfold CPUTensor.Element
  rw [hk]

theorem CPUTensor.setElement_of_LinearIndex {α : Type} (h : Host α) (t : CPUTensor)
    (coords : List Nat) (k : Nat) (x : α) (hk : CPUTensor.LinearIndex t 0 0 coords = .ok k) :
    CPUTensor.setElement h t coords x = .ok (CPUTensor.write h t k x) := by
  unfold CPUTensor.setElement
  rw [hk]

theorem CPUTensor.addElement_of_LinearIndex {α : Type} [Add α] (h : Host α) (t : CPUTensor)
    (coords : List Nat) (k : Nat) (x : α) (hk : CPUTensor.LinearIndex t 0 0 coords = .ok k) :
    CPUTensor.addElement h t coords x
      = .ok (CPUTensor.write h t k (CPUTensor.elem h t k + x)) := by
  unfold CPUTensor.addElement
  rw [hk]

theorem CPUTensor.OfShape.index1 (t : CPUTensor) (n i : Nat) (ht : t.OfShape [n]) (hi : i < n) :
    CPUTensor.LinearIndex t 0 0 [i] = .ok i := by
  have e := (CPUTensor.OfShape.LinearIndex_eq t [n] [i] (by simp) ht ⟨hi, trivial⟩).1
  have e1 : Shape.rowMajorFrom 0 [n] [i] = i := by
    show 0 * n + i = i
    omega
  rw [e1] at e
  exact e

theorem CPUTensor.OfShape.index2 (t : CPUTensor) (R C r c : Nat) (ht : t.OfShape [R, C])
    (hr : r < R) (hc : c < C) :
    CPUTensor.LinearIndex t 0 0 [r, c] = .ok (r * C + c) ∧ r * C + c < R * C := by
  have e := CPUTensor.OfShape.LinearIndex_eq t [R, C] [r, c] (by simp) ht ⟨hr, hc, trivial⟩
  have e1 : Shape.rowMajorFrom 0 [R, C] [r, c] = r * C + c := by
    show (0 * R + r) * C + c = r * C + c
    rw [Nat.zero_mul, Nat.zero_add]
  have e2 : [R, C].prod = R * C := by simp
  rw [e1, e2] at e
  exact e

theorem CPUTensor.OfShape.index3 (t : CPUTensor) (A B C a b c : Nat) (ht : t.OfShape [A, B, C])
    (ha : a < A) (hb : b < B) (hc : c < C) :
    CPUTensor.LinearIndex t 0 0 [a, b, c] = .ok ((a * B + b) * C + c)
    ∧ (a * B + b) * C + c < A * B * C := by
  have e := CPUTensor.OfShape.LinearIndex_eq t [A, B, C] [a, b, c] (by simp) ht
    ⟨ha, hb, hc, trivial⟩
  have e1 : Shape.rowMajorFrom 0 [A, B, C] [a, b, c] = (a * B + b) * C + c := by
    show ((0 * A + a) * B + b) * C + c = (a * B + b) * C + c
    rw [Nat.zero_mul, Nat.zero_add]
  have e2 : [A, B, C].prod = A * B * C := by
    simp [Nat.mul_assoc]
  rw [e1, e2] at e
  exact e

theorem CPUTensor.OfShape.index4 (t : CPUTensor) (A B C D a b c d : Nat)
    (ht : t.OfShape [A, B, C, D]) (ha : a < A) (hb : b < B) (hc : c < C) (hd : d < D) :
    CPUTensor.LinearIndex t 0 0 [a, b, c, d] = .ok (((a * B + b) * C + c) * D + d)
    ∧ ((a * B + b) * C + c) * D + d < A * B * C * D := by
  have e := CPUTensor.OfShape.LinearIndex_eq t [A, B, C, D] [a, b, c, d] (by simp) ht
    ⟨ha, hb, hc, hd, trivial⟩
  have e1 : Shape.rowMajorFrom 0 [A, B, C, D] [a, b, c, d] = ((a * B + b) * C + c) * D + d := by
    show (((0 * A + a) * B + b) * C + c) * D + d = ((a * B + b) * C + c) * D + d
    rw [Nat.zero_mul, Nat.zero_add]
  have e2 : [A, B, C, D].prod = A * B * C * D := by
    simp [Nat.mul_assoc]
  rw [e1, e2] at e
  exact e

theorem sumTo_succ {α : Type} [Zero α] [Add α] (n : Nat) (f : Nat → α) :
    sumTo (n + 1) f = sumTo n f + f n := by
  unfold sumTo
  rw [List.range_succ, List.foldl_append]
  rfl

theorem sumTo_congr {α : Type} [Zero α] [Add α] (n : Nat) (f g : Nat → α)
    (hfg : ∀ i, i < n → f i = g i) : sumTo n f = sumTo n g := by
  induction n with
  | zero => rfl
  | succ n ih =>
    rw [sumTo_succ, sumTo_succ, ih (fun i hi => hfg i (by omega)), hfg n (by omega)]

theorem sumTo_eq_sum {α : Type} [AddCommMonoid α] (n : Nat) (f : Nat → α) :
    sumTo n f = ∑ i in Finset.range n, f i := by
  induction n with
  | zero => rfl
  | succ n ih => rw [sumTo_succ, Finset.sum_range_succ, ih]

/-! ### C21: `matvecmul` -/

theorem CPUTensor.Apart.not_mem (o t : CPUTensor) (n k : Nat) (hap : o.Apart t)
    (hn : n ≤ o.size_) (hk : k < t.size_) :
    ¬ (o.buffer_ ≤ t.buffer_ + k ∧ t.buffer_ + k < o.buffer_ + n) := by
  unfold CPUTensor.Apart at hap
  omega

/-- The loop nest of `matvecmul` and `transposed_matvecmul`: for every `i < n` the
cell `i` of the output is cleared and then the products `a i j * b j`, `j < m`, are
added to it, where the factors are read from tensors apart from the output. -/
theorem CPUTensor.dot_loop {α : Type} [Zero α] [Add α] [Mul α] (h : Host α)
    (output : CPUTensor) (n m : Nat) (ho : output.OfShape [n])
    (rd : Nat → Nat → Host α → Except Fault α) (val : Nat → Nat → α)
    (hrd : ∀ i j h1, i < n → j < m → Host.Modifies h h1 output.buffer_ n →
      rd i j h1 = .ok (val i j)) :
    ∃ h1,
      forEach (List.range n)
        (fun i h1 =>
          match CPUTensor.setElement h1 output [i] 0 with
          | .error f => .error f
          | .ok h2 =>
            forEach (List.range m)
              (fun j h3 =>
                match rd i j h3 with
                | .error f => .error f
                | .ok x => CPUTensor.addElement h3 output [i] x)
              h2)
        h = .ok h1
      ∧ Host.Modifies h h1 output.buffer_ n
      ∧ ∀ i, i < n → CPUTensor.elem h1 output i = sumTo m (val i) := by
  have key := forEach_range_inv n
    (fun i h1 =>
      match CPUTensor.setElement h1 output [i] 0 with
      | .error f => .error f
      | .ok h2 =>
        forEach (List.range m)
          (fun j h3 =>
            match rd i j h3 with
            | .error f => .error f
            | .ok x => CPUTensor.addElement h3 output [i] x)
          h2)
    (fun i h1 => Host.Modifies h h1 output.buffer_ n
      ∧ ∀ i', i' < i → CPUTensor.elem h1 output i' = sumTo m (val i'))
    h ⟨Host.Modifies.refl h _ _, fun i' hi' => absurd hi' (Nat.not_lt_zero _)⟩ ?_
  · obtain ⟨h1, e1, p1, p2⟩ := key
    exact ⟨h1, e1, p1, p2⟩
  · intro i hi h1 ⟨p1, p2⟩
    have hset := CPUTensor.setElement_of_LinearIndex h1 output [i] i (0 : α)
      (CPUTensor.OfShape.index1 output n i ho hi)
    have hidx := CPUTensor.OfShape.index1 output n i ho hi
    have inner := forEach_range_inv m
      (fun j h3 =>
        match rd i j h3 with
        | .error f => .error f
        | .ok x => CPUTensor.addElement h3 output [i] x)
      (fun j h3 => Host.Modifies h h3 output.buffer_ n
        ∧ (∀ i', i' < i → CPUTensor.elem h3 output i' = sumTo m (val i'))
        ∧ CPUTensor.elem h3 output i = sumTo j (val i))
      (CPUTensor.write h1 output i 0)
      ⟨Host.Modifies.write h h1 output n i 0 p1 hi,
        fun i' hi' => by
          rw [CPUTensor.elem_write_other h1 output output i i' 0 (by omega)]
          exact p2 i' hi',
        CPUTensor.elem_write_same h1 output output i i 0 rfl⟩ ?_
    · obtain ⟨h4, e4, q1, q2, q3⟩ := inner
      refine ⟨h4, ?_, q1, ?_⟩
      · simp only [hset]
        exact e4
      · intro i' hi'
        by_cases he : i' = i
        · rw [he]
          exact q3
        · exact q2 i' (by omega)
    · intro j hj h3 ⟨q1, q2, q3⟩
      refine ⟨CPUTensor.write h3 output i (CPUTensor.elem h3 output i + val i j), ?_, ?_, ?_, ?_⟩
      · simp only [hrd i j h3 hi hj q1]
        exact CPUTensor.addElement_of_LinearIndex h3 output [i] i _ hidx
      · exact Host.Modifies.write h h3 output n i _ q1 hi
      · intro i' hi'
        rw [CPUTensor.elem_write_other h3 output output i i' _ (by omega)]
        exact q2 i' hi'
      · rw [CPUTensor.elem_write_same h3 output output i i _ rfl, q3, sumTo_succ]

theorem CPUTensor.matvecmul_run {α : Type} [Zero α] [Add α] [Mul α] (h : Host α)
    (matrix vector output : CPUTensor) (R C : Nat)
    (hM : matrix.OfShape [R, C]) (hv : vector.OfShape [C]) (ho : output.OfShape [R])
    (hoM : output.Apart matrix) (hov : output.Apart vector) :
    ∃ h1, CPUTensor.matvecmul h matrix vector output = .ok h1
      ∧ Host.Modifies h h1 output.buffer_ R
      ∧ ∀ r, r < R → CPUTensor.elem h1 output r
          = sumTo C (fun c => CPUTensor.elem h matrix (r * C + c) * CPUTensor.elem h vector c) := by
  have hMsize : matrix.size_ = R * C := by
    rw [CPUTensor.OfShape.size_eq matrix [R, C] (by simp) hM]
    simp
  have hvsize : vector.size_ = C := by
    rw [CPUTensor.OfShape.size_eq vector [C] (by simp) hv]
    simp
  have hosize : output.size_ = R := by
    rw [CPUTensor.OfShape.size_eq output [R] (by simp) ho]
    simp
  have hrd : ∀ i j h1, i < R → j < C → Host.Modifies h h1 output.buffer_ R →
      (match CPUTensor.Element h1 matrix [i, j] with
        | Except.error f => Except.error f
        | Except.ok m =>
          match CPUTensor.Element h1 vector [j] with
          | Except.error f => Except.error f
          | Except.ok v => (Except.ok (m * v) : Except Fault α))
      = Except.ok (CPUTensor.elem h matrix (i * C + j) * CPUTensor.elem h vector j) := by
    intro i j h1 hi hj hm
    obtain ⟨x1, x2⟩ := CPUTensor.OfShape.index2 matrix R C i j hM hi hj
    rw [CPUTensor.Element_of_LinearIndex h1 matrix [i, j] _ x1,
      CPUTensor.Element_of_LinearIndex h1 vector [j] _ (CPUTensor.OfShape.index1 vector C j hv hj)]
    simp only []
    rw [Host.Modifies.elem_eq h h1 output matrix R (i * C + j) hm
        (CPUTensor.Apart.not_mem output matrix R _ hoM (by omega) (by omega)),
      Host.Modifies.elem_eq h h1 output vector R j hm
        (CPUTensor.Apart.not_mem output vector R _ hov (by omega) (by omega))]
  obtain ⟨h1, e1, e2, e3⟩ := CPUTensor.dot_loop h output R C ho
    (fun i j h1 =>
      match CPUTensor.Element h1 matrix [i, j] with
      | .error f => .error f
      | .ok m =>
        match CPUTensor.Element h1 vector [j] with
        | .error f => .error f
        | .ok v => .ok (m * v))
    (fun i j => CPUTensor.elem h matrix (i * C + j) * CPUTensor.elem h vector j) hrd
  refine ⟨h1, ?_, e2, e3⟩
  unfold CPUTensor.matvecmul
  have r1 := CPUTensor.OfShape.rank_eq matrix _ hM
  have r2 := CPUTensor.OfShape.rank_eq vector _ hv
  have r3 := CPUTensor.OfShape.rank_eq output _ ho
  have s1 : matrix.shape 0 = R := CPUTensor.OfShape.shape_eq matrix _ hM 0
  have s2 : matrix.shape 1 = C := CPUTensor.OfShape.shape_eq matrix _ hM 1
  have s3 : vector.shape 0 = C := CPUTensor.OfShape.shape_eq vector _ hv 0
  have s4 : output.shape 0 = R := CPUTensor.OfShape.shape_eq output _ ho 0
  rw [if_neg (not_not.mpr ⟨r1, r2, r3⟩), s1, s2, s3, s4, if_neg (not_not.mpr rfl),
    if_neg (not_not.mpr rfl), ← e1]
  congr 1
  funext i h1
  cases CPUTensor.setElement h1 output [i] 0 with
  | error f => rfl
  | ok h2 =>
    show forEach _ _ _ = forEach _ _ _
    congr 1
    funext j h3
    cases CPUTensor.Element h3 matrix [i, j] with
    | error f => rfl
    | ok m =>
      cases CPUTensor.Element h3 vector [j] with
      | error f => rfl
      | ok v => rfl

theorem CPUTensor.value1 {α : Type} (h : Host α) (t : CPUTensor) (n i : Nat)
    (ht : t.OfShape [n]) : CPUTensor.value h t [i] = CPUTensor.elem h t i := by
  unfold CPUTensor.value Shape.rowMajor
  rw [ht.1]
  show CPUTensor.elem h t (0 * n + i) = _
  rw [Nat.zero_mul, Nat.zero_add]

theorem CPUTensor.value2 {α : Type} (h : Host α) (t : CPUTensor) (R C r c : Nat)
    (ht : t.OfShape [R, C]) : CPUTensor.value h t [r, c] = CPUTensor.elem h t (r * C + c) := by
  unfold CPUTensor.value Shape.rowMajor
  rw [ht.1]
  show CPUTensor.elem h t ((0 * R + r) * C + c) = _
  rw [Nat.zero_mul, Nat.zero_add]

theorem CPUTensor.value3 {α : Type} (h : Host α) (t : CPUTensor) (A B C a b c : Nat)
    (ht : t.OfShape [A, B, C]) :
    CPUTensor.value h t [a, b, c] = CPUTensor.elem h t ((a * B + b) * C + c) := by
  unfold CPUTensor.value Shape.rowMajor
  rw [ht.1]
  show CPUTensor.elem h t (((0 * A + a) * B + b) * C + c) = _
  rw [Nat.zero_mul, Nat.zero_add]

theorem CPUTensor.value4 {α : Type} (h : Host α) (t : CPUTensor) (A B C D a b c d : Nat)
    (ht : t.OfShape [A, B, C, D]) :
    CPUTensor.value h t [a, b, c, d] = CPUTensor.elem h t (((a * B + b) * C + c) * D + d) := by
  unfold CPUTensor.value Shape.rowMajor
  rw [ht.1]
  show CPUTensor.elem h t ((((0 * A + a) * B + b) * C + c) * D + d) = _
  rw [Nat.zero_mul, Nat.zero_add]

theorem CPUTensor.Element1 {α : Type} (h : Host α) (t : CPUTensor) (n i : Nat)
    (ht : t.OfShape [n]) (hi : i < n) :
    CPUTensor.Element h t [i] = .ok (CPUTensor.elem h t i) :=
  CPUTensor.Element_of_LinearIndex h t [i] i (CPUTensor.OfShape.index1 t n i ht hi)

theorem CPUTensor.Element2 {α : Type} (h : Host α) (t : CPUTensor) (R C r c : Nat)
    (ht : t.OfShape [R, C]) (hr : r < R) (hc : c < C) :
    CPUTensor.Element h t [r, c] = .ok (CPUTensor.elem h t (r * C + c)) :=
  CPUTensor.Element_of_LinearIndex h t [r, c] _ (CPUTensor.OfShape.index2 t R C r c ht hr hc).1

theorem CPUTensor.Element3 {α : Type} (h : Host α) (t : CPUTensor) (A B C a b c : Nat)
    (ht : t.OfShape [A, B, C]) (ha : a < A) (hb : b < B) (hc : c < C) :
    CPUTensor.Element h t [a, b, c] = .ok (CPUTensor.elem h t ((a * B + b) * C + c)) :=
  CPUTensor.Element_of_LinearIndex h t [a, b, c] _
    (CPUTensor.OfShape.index3 t A B C a b c ht ha hb hc).1

theorem CPUTensor.Element4 {α : Type} (h : Host α) (t : CPUTensor) (A B C D a b c d : Nat)
    (ht : t.OfShape [A, B, C, D]) (ha : a < A) (hb : b < B) (hc : c < C) (hd : d < D) :
    CPUTensor.Element h t [a, b, c, d]
      = .ok (CPUTensor.elem h t (((a * B + b) * C + c) * D + d)) :=
  CPUTensor.Element_of_LinearIndex h t [a, b, c, d] _
    (CPUTensor.OfShape.index4 t A B C D a b c d ht ha hb hc hd).1

theorem CPUTensor.size1 (t : CPUTensor) (n : Nat) (ht : t.OfShape [n]) : t.size_ = n := by
  rw [CPUTensor.OfShape.size_eq t [n] (by simp) ht]
  simp

theorem CPUTensor.size2 (t : CPUTensor) (R C : Nat) (ht : t.OfShape [R, C]) :
    t.size_ = R * C := by
  rw [CPUTensor.OfShape.size_eq t [R, C] (by simp) ht]
  simp

theorem CPUTensor.size3 (t : CPUTensor) (A B C : Nat) (ht : t.OfShape [A, B, C]) :
    t.size_ = A * B * C := by
  rw [CPUTensor.OfShape.size_eq t [A, B, C] (by simp) ht]
  simp [Nat.mul_assoc]

theorem CPUTensor.size4 (t : CPUTensor) (A B C D : Nat) (ht : t.OfShape [A, B, C, D]) :
    t.size_ = A * B * C * D := by
  rw [CPUTensor.OfShape.size_eq t [A, B, C, D] (by simp) ht]
  simp [Nat.mul_assoc]

/-- C21: `matvecmul`.  For a matrix `M` of shape `(R, C)`, a vector `v` of shape
`(C)` and an output of shape `(R)` whose cells are apart from those of `M` and `v`,
the call ends without abort, `output[r]` is the sum of `M[r,c]*v[c]` over `c < C`
(added up in the order of `c`, from zero) for every `r < R`, the elements of `M`
and `v` and everything else but the cells of the output are unchanged, and a run
from a state that differs only in the cells of the output gives the same output. -/
theorem CPUTensor.matvecmul_spec {α : Type} [Zero α] [Add α] [Mul α] (h : Host α)
    (matrix vector output : CPUTensor) (R C : Nat)
    (hM : matrix.OfShape [R, C]) (hv : vector.OfShape [C]) (ho : output.OfShape [R])
    (hoM : output.Apart matrix) (hov : output.Apart vector) :
    ∃ h1, CPUTensor.matvecmul h matrix vector output = .ok h1
      ∧ (∀ r, r < R → CPUTensor.Element h1 output [r]
          = .ok (sumTo C (fun c =>
              CPUTensor.value h matrix [r, c] * CPUTensor.value h vector [c])))
      ∧ (∀ r c, r < R → c < C →
          CPUTensor.Element h1 matrix [r, c] = CPUTensor.Element h matrix [r, c])
      ∧ (∀ c, c < C → CPUTensor.Element h1 vector [c] = CPUTensor.Element h vector [c])
      ∧ Host.Modifies h h1 output.buffer_ R
      ∧ ∀ h0, Host.Modifies h h0 output.buffer_ R →
          ∃ h2, CPUTensor.matvecmul h0 matrix vector output = .ok h2
            ∧ ∀ r, r < R →
              CPUTensor.Element h2 output [r] = CPUTensor.Element h1 output [r] := by
  have hMsize := CPUTensor.size2 matrix R C hM
  have hvsize := CPUTensor.size1 vector C hv
  have hosize := CPUTensor.size1 output R ho
  obtain ⟨h1, e1, e2, e3⟩ := CPUTensor.matvecmul_run h matrix vector output R C hM hv ho hoM hov
  refine ⟨h1, e1, ?_, ?_, ?_, e2, ?_⟩
  · intro r hr
    rw [CPUTensor.Element1 h1 output R r ho hr, e3 r hr]
    congr 2
    funext c
    rw [CPUTensor.value2 h matrix R C r c hM, CPUTensor.value1 h vector C c hv]
  · intro r c hr hc
    have hlt := (CPUTensor.OfShape.index2 matrix R C r c hM hr hc).2
    rw [CPUTensor.Element2 h1 matrix R C r c hM hr hc, CPUTensor.Element2 h matrix R C r c hM hr hc,
      Host.Modifies.elem_eq h h1 output matrix R _ e2
        (CPUTensor.Apart.not_mem output matrix R _ hoM (by omega) (by omega))]
  · intro c hc
    rw [CPUTensor.Element1 h1 vector C c hv hc, CPUTensor.Element1 h vector C c hv hc,
      Host.Modifies.elem_eq h h1 output vector R _ e2
        (CPUTensor.Apart.not_mem output vector R _ hov (by omega) (by omega))]
  · intro h0 hm0
    obtain ⟨h2, f1, _, f3⟩ :=
      CPUTensor.matvecmul_run h0 matrix vector output R C hM hv ho hoM hov
    refine ⟨h2, f1, ?_⟩
    intro r hr
    rw [CPUTensor.Element1 h2 output R r ho hr, CPUTensor.Element1 h1 output R r ho hr,
      f3 r hr, e3 r hr]
    congr 1
    apply sumTo_congr
    intro c hc
    have hlt := (CPUTensor.OfShape.index2 matrix R C r c hM hr hc).2
    rw [Host.Modifies.elem_eq h h0 output matrix R _ hm0
        (CPUTensor.Apart.not_mem output matrix R _ hoM (by omega) (by omega)),
      Host.Modifies.elem_eq h h0 output vector R _ hm0
        (CPUTensor.Apart.not_mem output vector R _ hov (by omega) (by omega))]

theorem CPUTensor.matvecmul_spec_witness :
    ∃ h1, CPUTensor.matvecmul exampleHostLA (exampleHostLA.tensors.objs 0)
        (exampleHostLA.tensors.objs 1) (exampleHostLA.tensors.objs 2) = .ok h1
      ∧ CPUTensor.Element h1 (exampleHostLA.tensors.objs 2) [1] = .ok 164 :=
  match CPUTensor.matvecmul_spec exampleHostLA (exampleHostLA.tensors.objs 0)
      (exampleHostLA.tensors.objs 1) (exampleHostLA.tensors.objs 2) 2 3
      (by decide) (by decide) (by decide) (by decide) (by decide) with
  | ⟨h1, e1, e2, _⟩ => ⟨h1, e1, (e2 1 (by decide)).trans (congrArg Except.ok (by decide))⟩

/-! ### C22: `transposed_matvecmul` and `vecmul` -/

theorem CPUTensor.transposed_matvecmul_run {α : Type} [Zero α] [Add α] [Mul α] (h : Host α)
    (matrix vector output : CPUTensor) (R C : Nat)
    (hM : matrix.OfShape [R, C]) (hv : vector.OfShape [R]) (ho : output.OfShape [C])
    (hoM : output.Apart matrix) (hov : output.Apart vector) :
    ∃ h1, CPUTensor.transposed_matvecmul h matrix vector output = .ok h1
      ∧ Host.Modifies h h1 output.buffer_ C
      ∧ ∀ c, c < C → CPUTensor.elem h1 output c
          = sumTo R (fun r => CPUTensor.elem h matrix (r * C + c) * CPUTensor.elem h vector r) := by
  have hMsize := CPUTensor.size2 matrix R C hM
  have hvsize := CPUTensor.size1 vector R hv
  have hosize := CPUTensor.size1 output C ho
  have hrd : ∀ i j h1, i < C → j < R → Host.Modifies h h1 output.buffer_ C →
      (match CPUTensor.Element h1 matrix [j, i] with
        | Except.error f => Except.error f
        | Except.ok m =>
          match CPUTensor.Element h1 vector [j] with
          | Except.error f => Except.error f
          | Except.ok v => (Except.ok (m * v) : Except Fault α))
      = Except.ok (CPUTensor.elem h matrix (j * C + i) * CPUTensor.elem h vector j) := by
    intro i j h1 hi hj hm
    obtain ⟨x1, x2⟩ := CPUTensor.OfShape.index2 matrix R C j i hM hj hi
    rw [CPUTensor.Element_of_LinearIndex h1 matrix [j, i] _ x1,
      CPUTensor.Element_of_LinearIndex h1 vector [j] _ (CPUTensor.OfShape.index1 vector R j hv hj)]
    simp only []
    rw [Host.Modifies.elem_eq h h1 output matrix C (j * C + i) hm
        (CPUTensor.Apart.not_mem output matrix C _ hoM (by omega) (by omega)),
      Host.Modifies.elem_eq h h1 output vector C j hm
        (CPUTensor.Apart.not_mem output vector C _ hov (by omega) (by omega))]
  obtain ⟨h1, e1, e2, e3⟩ := CPUTensor.dot_loop h output C R ho
    (fun i j h1 =>
      match CPUTensor.Element h1 matrix [j, i] with
      | .error f => .error f
      | .ok m =>
        match CPUTensor.Element h1 vector [j] with
        | .error f => .error f
        | .ok v => .ok (m * v))
    (fun i j => CPUTensor.elem h matrix (j * C + i) * CPUTensor.elem h vector j) hrd
  refine ⟨h1, ?_, e2, e3⟩
  unfold CPUTensor.transposed_matvecmul
  have r1 := CPUTensor.OfShape.rank_eq matrix _ hM
  have r2 := CPUTensor.OfShape.rank_eq vector _ hv
  have r3 := CPUTensor.OfShape.rank_eq output _ ho
  have s1 : matrix.shape 0 = R := CPUTensor.OfShape.shape_eq matrix _ hM 0
  have s2 : matrix.shape 1 = C := CPUTensor.OfShape.shape_eq matrix _ hM 1
  have s3 : vector.shape 0 = R := CPUTensor.OfShape.shape_eq vector _ hv 0
  have s4 : output.shape 0 = C := CPUTensor.OfShape.shape_eq output _ ho 0
  rw [if_neg (not_not.mpr ⟨r1, r2, r3⟩), s1, s2, s3, s4, if_neg (not_not.mpr rfl),
    if_neg (not_not.mpr rfl), ← e1]
  congr 1
  funext i h1
  cases CPUTensor.setElement h1 output [i] 0 with
  | error f => rfl
  | ok h2 =>
    show forEach _ _ _ = forEach _ _ _
    congr 1
    funext j h3
    cases CPUTensor.Element h3 matrix [j, i] with
    | error f => rfl
    | ok m =>
      cases CPUTensor.Element h3 vector [j] with
      | error f => rfl
      | ok v => rfl

theorem CPUTensor.vecmul_run {α : Type} [Zero α] [Add α] [Mul α] (h : Host α)
    (x y : CPUTensor) (n : Nat) (hx : x.OfShape [n]) (hy : y.OfShape [n]) :
    CPUTensor.vecmul h x y
      = .ok (sumTo n (fun i => CPUTensor.elem h x i * CPUTensor.elem h y i)) := by
  unfold CPUTensor.vecmul
  have r1 : x.rank = 1 := CPUTensor.OfShape.rank_eq x _ hx
  have s1 : x.shape 0 = n := CPUTensor.OfShape.shape_eq x _ hx 0
  have e1 : x.shape_.operator_eq y.shape_ = true := by
    unfold Shape.operator_eq
    rw [hx.1, hy.1]
    simp
  rw [if_neg (not_not.mpr r1), if_neg (not_not.mpr e1), s1]
  apply forEach_eq_foldl
  intro i hi res
  rw [List.mem_range] at hi
  rw [CPUTensor.Element1 h x n i hx hi, CPUTensor.Element1 h y n i hy hi]

theorem sumTo_adjoint {α : Type} [CommSemiring α] (R C : Nat) (m : Nat → Nat → α)
    (v w : Nat → α) :
    sumTo R (fun r => sumTo C (fun c => m r c * v c) * w r)
      = sumTo C (fun c => v c * sumTo R (fun r => m r c * w r)) := by
  rw [sumTo_eq_sum, sumTo_eq_sum]
  have e1 : ∀ r, sumTo C (fun c => m r c * v c) * w r
      = ∑ c in Finset.range C, m r c * v c * w r := by
    intro r
    rw [sumTo_eq_sum, Finset.sum_mul]
  have e2 : ∀ c, v c * sumTo R (fun r => m r c * w r)
      = ∑ r in Finset.range R, m r c * v c * w r := by
    intro c
    rw [sumTo_eq_sum, Finset.mul_sum]
    apply Finset.sum_congr rfl
    intro r _
    ring
  simp only [e1, e2]
  exact Finset.sum_comm

/-- C22: `transposed_matvecmul`.  For a matrix `M` of shape `(R, C)`, a vector `w` of
shape `(R)` and an output of shape `(C)` apart from both, over a commutative
semiring of values (exact arithmetic): the call ends without abort with `output[c]`
the sum of `M[r,c]*w[r]` over `r < R`; `matvecmul` applied to a tensor `Mt` of
shape `(C, R)` with `Mt[c,r] = M[r,c]` gives the same output; and it is the adjoint
of `matvecmul`: for every `v` of shape `(C)`, with `a = matvecmul(M, v)` and `b =
transposed_matvecmul(M, w)` computed into outputs apart from everything else,
`vecmul(a, w) = vecmul(v, b)`. -/
theorem CPUTensor.transposed_matvecmul_spec {α : Type} [CommSemiring α] (h : Host α)
    (matrix w output : CPUTensor) (R C : Nat)
    (hM : matrix.OfShape [R, C]) (hw : w.OfShape [R]) (ho : output.OfShape [C])
    (hoM : output.Apart matrix) (how : output.Apart w) :
    (∃ h1, CPUTensor.transposed_matvecmul h matrix w output = .ok h1
      ∧ (∀ c, c < C → CPUTensor.Element h1 output [c]
          = .ok (sumTo R (fun r => CPUTensor.value h matrix [r, c] * CPUTensor.value h w [r])))
      ∧ Host.Modifies h h1 output.buffer_ C
      ∧ ∀ Mt : CPUTensor, Mt.OfShape [C, R] → output.Apart Mt →
          (∀ r c, r < R → c < C →
            CPUTensor.value h Mt [c, r] = CPUTensor.value h matrix [r, c]) →
          ∃ h2, CPUTensor.matvecmul h Mt w output = .ok h2
            ∧ ∀ c, c < C →
              CPUTensor.Element h2 output [c] = CPUTensor.Element h1 output [c])
    ∧ ∀ v a : CPUTensor, v.OfShape [C] → a.OfShape [R] →
        a.Apart matrix → a.Apart v → a.Apart w → output.Apart v → output.Apart a →
        ∃ h1 h2 s, CPUTensor.matvecmul h matrix v a = .ok h1
          ∧ CPUTensor.transposed_matvecmul h1 matrix w output = .ok h2
          ∧ CPUTensor.vecmul h2 a w = .ok s
          ∧ CPUTensor.vecmul h2 v output = .ok s := by
  have hMsize := CPUTensor.size2 matrix R C hM
  have hwsize := CPUTensor.size1 w R hw
  have hosize := CPUTensor.size1 output C ho
  constructor
  · obtain ⟨h1, e1, e2, e3⟩ :=
      CPUTensor.transposed_matvecmul_run h matrix w output R C hM hw ho hoM how
    refine ⟨h1, e1, ?_, e2, ?_⟩
    · intro c hc
      rw [CPUTensor.Element1 h1 output C c ho hc, e3 c hc]
      congr 2
      funext r
      rw [CPUTensor.value2 h matrix R C r c hM, CPUTensor.value1 h w R r hw]
    · intro Mt hMt hoMt htr
      obtain ⟨h2, f1, _, f3⟩ := CPUTensor.matvecmul_run h Mt w output C R hMt hw ho hoMt how
      refine ⟨h2, f1, ?_⟩
      intro c hc
      rw [CPUTensor.Element1 h2 output C c ho hc, CPUTensor.Element1 h1 output C c ho hc,
        f3 c hc, e3 c hc]
      congr 1
      apply sumTo_congr
      intro r hr
      have ht := htr r c hr hc
      rw [CPUTensor.value2 h Mt C R c r hMt, CPUTensor.value2 h matrix R C r c hM] at ht
      rw [ht]
  · intro v a hv ha haM hav haw hov hoa
    have hvsize := CPUTensor.size1 v C hv
    have hasize := CPUTensor.size1 a R ha
    obtain ⟨h1, e1, e2, e3⟩ := CPUTensor.matvecmul_run h matrix v a R C hM hv ha haM hav
    obtain ⟨h2, f1, f2, f3⟩ :=
      CPUTensor.transposed_matvecmul_run h1 matrix w output R C hM hw ho hoM how
    have hoa1 : a.Apart output := by
      unfold CPUTensor.Apart at hoa ⊢
      omega
    have ka : ∀ r, r < R → CPUTensor.elem h2 a r
        = sumTo C (fun c => CPUTensor.elem h matrix (r * C + c) * CPUTensor.elem h v c) := by
      intro r hr
      rw [Host.Modifies.elem_eq h1 h2 output a C r f2
        (CPUTensor.Apart.not_mem output a C _ hoa (by omega) (by omega)), e3 r hr]
    have kw : ∀ r, r < R → CPUTensor.elem h2 w r = CPUTensor.elem h w r := by
      intro r hr
      rw [Host.Modifies.elem_eq h1 h2 output w C r f2
          (CPUTensor.Apart.not_mem output w C _ how (by omega) (by omega)),
        Host.Modifies.elem_eq h h1 a w R r e2
          (CPUTensor.Apart.not_mem a w R _ haw (by omega) (by omega))]
    have kv : ∀ c, c < C → CPUTensor.elem h2 v c = CPUTensor.elem h v c := by
      intro c hc
      rw [Host.Modifies.elem_eq h1 h2 output v C c f2
          (CPUTensor.Apart.not_mem output v C _ hov (by omega) (by omega)),
        Host.Modifies.elem_eq h h1 a v R c e2
          (CPUTensor.Apart.not_mem a v R _ hav (by omega) (by omega))]
    have ko : ∀ c, c < C → CPUTensor.elem h2 output c
        = sumTo R (fun r => CPUTensor.elem h matrix (r * C + c) * CPUTensor.elem h w r) := by
      intro c hc
      rw [f3 c hc]
      apply sumTo_congr
      intro r hr
      have hlt := (CPUTensor.OfShape.index2 matrix R C r c hM hr hc).2
      rw [Host.Modifies.elem_eq h h1 a matrix R _ e2
          (CPUTensor.Apart.not_mem a matrix R _ haM (by omega) (by omega)),
        Host.Modifies.elem_eq h h1 a w R r e2
          (CPUTensor.Apart.not_mem a w R _ haw (by omega) (by omega))]
    refine ⟨h1, h2, _, e1, f1, CPUTensor.vecmul_run h2 a w R ha hw, ?_⟩
    rw [CPUTensor.vecmul_run h2 v output C hv ho]
    congr 1
    have l1 : sumTo C (fun i => CPUTensor.elem h2 v i * CPUTensor.elem h2 output i)
        = sumTo C (fun c => CPUTensor.elem h v c
            * sumTo R (fun r => CPUTensor.elem h matrix (r * C + c) * CPUTensor.elem h w r)) := by
      apply sumTo_congr
      intro c hc
      rw [kv c hc, ko c hc]
    have l2 : sumTo R (fun i => CPUTensor.elem h2 a i * CPUTensor.elem h2 w i)
        = sumTo R (fun r =>
            sumTo C (fun c => CPUTensor.elem h matrix (r * C + c) * CPUTensor.elem h v c)
              * CPUTensor.elem h w r) := by
      apply sumTo_congr
      intro r hr
      rw [ka r hr, kw r hr]
    rw [l1, l2]
    exact (sumTo_adjoint R C (fun r c => CPUTensor.elem h matrix (r * C + c))
      (fun c => CPUTensor.elem h v c) (fun r => CPUTensor.elem h w r)).symm

theorem CPUTensor.transposed_matvecmul_spec_witness :
    ∃ h1 h2 s, CPUTensor.matvecmul exampleHostLA (exampleHostLA.tensors.objs 0)
        (exampleHostLA.tensors.objs 1) (exampleHostLA.tensors.objs 2) = .ok h1
      ∧ CPUTensor.transposed_matvecmul h1 (exampleHostLA.tensors.objs 0)
          (exampleHostLA.tensors.objs 4) (exampleHostLA.tensors.objs 3) = .ok h2
      ∧ CPUTensor.vecmul h2 (exampleHostLA.tensors.objs 2) (exampleHostLA.tensors.objs 4) = .ok s
      ∧ CPUTensor.vecmul h2 (exampleHostLA.tensors.objs 1) (exampleHostLA.tensors.objs 3)
          = .ok s :=
  (CPUTensor.transposed_matvecmul_spec exampleHostLA (exampleHostLA.tensors.objs 0)
    (exampleHostLA.tensors.objs 4) (exampleHostLA.tensors.objs 3) 2 3
    (by decide) (by decide) (by decide) (by decide) (by decide)).2
    (exampleHostLA.tensors.objs 1) (exampleHostLA.tensors.objs 2)
    (by decide) (by decide) (by decide) (by decide) (by decide) (by decide) (by decide)

/-! ### C23: `transposed_vecmul` -/

theorem CPUTensor.index2_ne (Y i j i' j' : Nat) (hj : j < Y) (hj' : j' < Y)
    (hne : i ≠ i' ∨ j ≠ j') : i * Y + j ≠ i' * Y + j' := by
  intro he
  have hY : 0 < Y := by omega
  have h1 : (i * Y + j) / Y = i := by
    rw [Nat.add_comm, Nat.add_mul_div_right _ _ hY, Nat.div_eq_of_lt hj, Nat.zero_add]
  have h2 : (i' * Y + j') / Y = i' := by
    rw [Nat.add_comm, Nat.add_mul_div_right _ _ hY, Nat.div_eq_of_lt hj', Nat.zero_add]
  have h3 : i = i' := by rw [← h1, ← h2, he]
  subst h3
  omega

theorem CPUTensor.transposed_vecmul_run {α : Type} [Mul α] (h : Host α)
    (x y output : CPUTensor) (X Y : Nat)
    (hx : x.OfShape [X]) (hy : y.OfShape [Y]) (ho : output.OfShape [X, Y])
    (hox : output.Apart x) (hoy : output.Apart y) :
    ∃ h1, CPUTensor.transposed_vecmul h x y output = .ok h1
      ∧ Host.Modifies h h1 output.buffer_ (X * Y)
      ∧ ∀ i j, i < X → j < Y → CPUTensor.elem h1 output (i * Y + j)
          = CPUTensor.elem h x i * CPUTensor.elem h y j := by
  have hxsize := CPUTensor.size1 x X hx
  have hysize := CPUTensor.size1 y Y hy
  have hosize := CPUTensor.size2 output X Y ho
  have key := forEach_range_inv X
    (fun row h1 =>
      forEach (List.range Y)
        (fun col h2 =>
          match CPUTensor.Element h2 x [row] with
          | .error f => .error f
          | .ok xr =>
            match CPUTensor.Element h2 y [col] with
            | .error f => .error f
            | .ok yc => CPUTensor.setElement h2 output [row, col] (xr * yc))
        h1)
    (fun i h1 => Host.Modifies h h1 output.buffer_ (X * Y)
      ∧ ∀ i' j, i' < i → j < Y → CPUTensor.elem h1 output (i' * Y + j)
          = CPUTensor.elem h x i' * CPUTensor.elem h y j)
    h ⟨Host.Modifies.refl h _ _, fun i' j hi' => absurd hi' (Nat.not_lt_zero _)⟩ ?_
  · obtain ⟨h1, e1, p1, p2⟩ := key
    refine ⟨h1, ?_, p1, fun i j hi hj => p2 i j hi hj⟩
    unfold CPUTensor.transposed_vecmul
    have r1 : x.rank = 1 := CPUTensor.OfShape.rank_eq x _ hx
    have r2 : y.rank = 1 := CPUTensor.OfShape.rank_eq y _ hy
    have r3 : output.rank = 2 := CPUTensor.OfShape.rank_eq output _ ho
    have s1 : x.shape 0 = X := CPUTensor.OfShape.shape_eq x _ hx 0
    have s2 : y.shape 0 = Y := CPUTensor.OfShape.shape_eq y _ hy 0
    have s3 : output.shape 0 = X := CPUTensor.OfShape.shape_eq output _ ho 0
    have s4 : output.shape 1 = Y := CPUTensor.OfShape.shape_eq output _ ho 1
    rw [if_neg (not_not.mpr ⟨r1, r2, r3⟩), s1, s2, s3, s4, if_neg (not_not.mpr rfl),
      if_neg (not_not.mpr rfl)]
    exact e1
  · intro i hi h1 ⟨p1, p2⟩
    have inner := forEach_range_inv Y
      (fun col h2 =>
        match CPUTensor.Element h2 x [i] with
        | .error f => .error f
        | .ok xr =>
          match CPUTensor.Element h2 y [col] with
          | .error f => .error f
          | .ok yc => CPUTensor.setElement h2 output [i, col] (xr * yc))
      (fun j h2 => Host.Modifies h h2 output.buffer_ (X * Y)
        ∧ (∀ i' j', i' < i → j' < Y → CPUTensor.elem h2 output (i' * Y + j')
            = CPUTensor.elem h x i' * CPUTensor.elem h y j')
        ∧ ∀ j', j' < j → CPUTensor.elem h2 output (i * Y + j')
            = CPUTensor.elem h x i * CPUTensor.elem h y j')
      h1 ⟨p1, p2, fun j' hj' => absurd hj' (Nat.not_lt_zero _)⟩ ?_
    · obtain ⟨h4, e4, q1, q2, q3⟩ := inner
      refine ⟨h4, e4, q1, ?_⟩
      intro i' j hi' hj
      by_cases he : i' = i
      · rw [he]
        exact q3 j hj
      · exact q2 i' j (by omega) hj
    · intro j hj h2 ⟨q1, q2, q3⟩
      obtain ⟨x1, x2⟩ := CPUTensor.OfShape.index2 output X Y i j ho hi hj
      refine ⟨CPUTensor.write h2 output (i * Y + j)
        (CPUTensor.elem h x i * CPUTensor.elem h y j), ?_, ?_, ?_, ?_⟩
      · simp only [CPUTensor.Element1 h2 x X i hx hi, CPUTensor.Element1 h2 y Y j hy hj]
        rw [CPUTensor.setElement_of_LinearIndex h2 output [i, j] _ _ x1,
          Host.Modifies.elem_eq h h2 output x (X * Y) i q1
            (CPUTensor.Apart.not_mem output x (X * Y) _ hox (by omega) (by omega)),
          Host.Modifies.elem_eq h h2 output y (X * Y) j q1
            (CPUTensor.Apart.not_mem output y (X * Y) _ hoy (by omega) (by omega))]
      · exact Host.Modifies.write h h2 output (X * Y) _ _ q1 x2
      · intro i' j' hi' hj'
        rw [CPUTensor.elem_write_other h2 output output _ _ _
          (by
            have := CPUTensor.index2_ne Y i' j' i j hj' hj (Or.inl (by omega))
            omega)]
        exact q2 i' j' hi' hj'
      · intro j' hj'
        by_cases he : j' = j
        · rw [he]
          exact CPUTensor.elem_write_same h2 output output _ _ _ rfl
        · rw [CPUTensor.elem_write_other h2 output output _ _ _ (by omega)]
          exact q3 j' (by omega)

/-- C23: `transposed_vecmul`.  For `x` of shape `(X)`, `y` of shape `(Y)` and an
output of shape `(X, Y)` apart from both, the call ends without abort with
`output[i,j] = x[i]*y[j]` for all `i < X` and `j < Y`, whatever the output held
before, and changes nothing but the cells of the output. -/
theorem CPUTensor.transposed_vecmul_spec {α : Type} [Mul α] (h : Host α)
    (x y output : CPUTensor) (X Y : Nat)
    (hx : x.OfShape [X]) (hy : y.OfShape [Y]) (ho : output.OfShape [X, Y])
    (hox : output.Apart x) (hoy : output.Apart y) :
    ∃ h1, CPUTensor.transposed_vecmul h x y output = .ok h1
      ∧ (∀ i j, i < X → j < Y → CPUTensor.Element h1 output [i, j]
          = .ok (CPUTensor.value h x [i] * CPUTensor.value h y [j]))
      ∧ Host.Modifies h h1 output.buffer_ (X * Y)
      ∧ ∀ h0, Host.Modifies h h0 output.buffer_ (X * Y) →
          ∃ h2, CPUTensor.transposed_vecmul h0 x y output = .ok h2
            ∧ ∀ i j, i < X → j < Y →
              CPUTensor.Element h2 output [i, j] = CPUTensor.Element h1 output [i, j] := by
  have hxsize := CPUTensor.size1 x X hx
  have hysize := CPUTensor.size1 y Y hy
  have hosize := CPUTensor.size2 output X Y ho
  obtain ⟨h1, e1, e2, e3⟩ := CPUTensor.transposed_vecmul_run h x y output X Y hx hy ho hox hoy
  refine ⟨h1, e1, ?_, e2, ?_⟩
  · intro i j hi hj
    rw [CPUTensor.Element2 h1 output X Y i j ho hi hj, e3 i j hi hj,
      CPUTensor.value1 h x X i hx, CPUTensor.value1 h y Y j hy]
  · intro h0 hm0
    obtain ⟨h2, f1, _, f3⟩ := CPUTensor.transposed_vecmul_run h0 x y output X Y hx hy ho hox hoy
    refine ⟨h2, f1, ?_⟩
    intro i j hi hj
    rw [CPUTensor.Element2 h2 output X Y i j ho hi hj,
      CPUTensor.Element2 h1 output X Y i j ho hi hj, f3 i j hi hj, e3 i j hi hj,
      Host.Modifies.elem_eq h h0 output x (X * Y) i hm0
        (CPUTensor.Apart.not_mem output x (X * Y) _ hox (by omega) (by omega)),
      Host.Modifies.elem_eq h h0 output y (X * Y) j hm0
        (CPUTensor.Apart.not_mem output y (X * Y) _ hoy (by omega) (by omega))]

theorem CPUTensor.transposed_vecmul_spec_witness :
    ∃ h1, CPUTensor.transposed_vecmul exampleHostLA (exampleHostLA.tensors.objs 1)
        (exampleHostLA.tensors.objs 2) (exampleHostLA.tensors.objs 5) = .ok h1
      ∧ CPUTensor.Element h1 (exampleHostLA.tensors.objs 5) [2, 1] = .ok 120 :=
  match CPUTensor.transposed_vecmul_spec exampleHostLA (exampleHostLA.tensors.objs 1)
      (exampleHostLA.tensors.objs 2) (exampleHostLA.tensors.objs 5) 3 2
      (by decide) (by decide) (by decide) (by decide) (by decide) with
  | ⟨h1, e1, e2, _⟩ =>
    ⟨h1, e1, (e2 2 1 (by decide) (by decide)).trans (congrArg Except.ok (by decide))⟩

/-! ### C25: `argmax` -/

/-- C25: `argmax` starts its running maximum at `FLT_MIN`, the smallest positive
normalized `float`, and not at the least `float`.  On the tensor `(-2.0, -1.0)` it
returns the index `0`, although the element at index `1` is larger. -/
theorem CPUTensor.argmax_of_negative :
    (CPUTensor.argmax FLT_MIN_units exampleHostNeg (exampleHostNeg.tensors.objs 0)).toOption
      = some 0
    ∧ CPUTensor.elem exampleHostNeg (exampleHostNeg.tensors.objs 0) 0
      < CPUTensor.elem exampleHostNeg (exampleHostNeg.tensors.objs 0) 1 := by
  decide

/-! ### C26: `mse` -/

theorem CPUTensor.mse_run {α : Type} [Zero α] [Add α] [Sub α] [Mul α] (h : Host α)
    (x y : CPUTensor) (n : Nat) (hx : x.OfShape [n]) (hy : y.OfShape [n]) :
    CPUTensor.mse h x y
      = .ok (sumTo n (fun i => (CPUTensor.elem h y i - CPUTensor.elem h x i)
          * (CPUTensor.elem h y i - CPUTensor.elem h x i))) := by
  unfold CPUTensor.mse
  have r1 : 0 < x.rank := by
    rw [CPUTensor.OfShape.rank_eq x _ hx]
    exact Nat.zero_lt_one
  have s1 : x.shape 0 = n := CPUTensor.OfShape.shape_eq x _ hx 0
  have e1 : x.shape_.operator_eq y.shape_ = true := by
    unfold Shape.operator_eq
    rw [hx.1, hy.1]
    simp
  rw [if_neg (not_not.mpr e1), if_neg (not_not.mpr r1), s1]
  apply forEach_eq_foldl
  intro i hi res
  rw [List.mem_range] at hi
  rw [CPUTensor.Element1 h y n i hy hi, CPUTensor.Element1 h x n i hx hi]

theorem CPUTensor.LinearIndex_one_index (t : CPUTensor) (i : Nat) (hr : 1 < t.rank) :
    CPUTensor.LinearIndex t 0 0 [i] = .error Fault.Assert := by
  unfold CPUTensor.LinearIndex
  rw [if_neg (not_not.mpr (by omega : 0 < t.rank))]
  unfold CPUTensor.LinearIndex
  by_cases hs : (0 * BaseTensor.shape t 0 % SIZE_MOD + i) % SIZE_MOD < t.size_
  · rw [if_neg (not_not.mpr hs), if_pos (by omega)]
  · rw [if_pos hs]

/-- C26, counterexample: for `x = (0, 0)` and `y = (1, 1)` the mean of the squared
differences is `1`, and `mse(x, y)` returns `2`. -/
theorem CPUTensor.mse_not_mean :
    CPUTensor.mse exampleHostQ (exampleHostQ.tensors.objs 0) (exampleHostQ.tensors.objs 1)
      = .ok 2
    ∧ (1 / 2 : ℚ) * sumTo 2 (fun k =>
        (CPUTensor.elem exampleHostQ (exampleHostQ.tensors.objs 1) k
          - CPUTensor.elem exampleHostQ (exampleHostQ.tensors.objs 0) k) ^ 2) = 1 := by
  have e := CPUTensor.mse_run exampleHostQ (exampleHostQ.tensors.objs 0)
    (exampleHostQ.tensors.objs 1) 2 (by decide) (by decide)
  have v : ∀ k, CPUTensor.elem exampleHostQ (exampleHostQ.tensors.objs 1) k
      - CPUTensor.elem exampleHostQ (exampleHostQ.tensors.objs 0) k
      = if 2 ≤ k then 0 else 1 := by
    intro k
    show (if 1 + 2 * 1 + k ≤ 2 then (0 : ℚ) else 1) - (if 1 + 2 * 0 + k ≤ 2 then (0 : ℚ) else 1)
      = if 2 ≤ k then 0 else 1
    by_cases hk : 2 ≤ k
    · rw [if_neg (by omega), if_neg (by omega), if_pos hk]
      norm_num
    · rw [if_neg (by omega), if_pos (by omega), if_neg hk]
      norm_num
  constructor
  · rw [e]
    congr 1
    simp only [v]
    norm_num [sumTo, List.range_succ]
  · simp only [v]
    norm_num [sumTo, List.range_succ]

/-- C26, amended: for tensors `x` and `y` of the same shape `(n)`, `mse(x, y)` returns
the sum over `k < n` of `(y[k] - x[k])^2`, added up in the order of `k` and not
divided by `n` (the objective `MSE` halves it: `C = 0.5 * sum((y - a)^2)`).  For
tensors of equal shape, of rank two or more and with `shape(0) > 0`, the access
`y(i)` with one index fails its assertion. -/
theorem CPUTensor.mse_spec {α : Type} [Zero α] [Add α] [Sub α] [Mul α] (h : Host α)
    (x y : CPUTensor) (hxy : x.shape_ = y.shape_) (hsx : x.SizeInv) (hsy : y.SizeInv)
    (hf : x.shape_.Fits) :
    (x.rank = 1 →
      CPUTensor.mse h x y
        = .ok (sumTo x.size_ (fun k => (CPUTensor.value h y [k] - CPUTensor.value h x [k])
            * (CPUTensor.value h y [k] - CPUTensor.value h x [k]))))
    ∧ (1 < x.rank → 0 < x.shape 0 → CPUTensor.mse h x y = .error Fault.Assert) := by
  constructor
  · intro hr
    have hd : ∃ n, x.shape_.data_ = [n] := by
      unfold BaseTensor.rank Shape.rank at hr
      match hx : x.shape_.data_, hr with
      | [n], _ => exact ⟨n, rfl⟩
    obtain ⟨n, hn⟩ := hd
    have hx : x.OfShape [n] := ⟨by rw [← hn], hsx, hf⟩
    have hy : y.OfShape [n] := ⟨by rw [← hxy, ← hn], hsy, by rw [← hxy]; exact hf⟩
    rw [CPUTensor.mse_run h x y n hx hy, CPUTensor.size1 x n hx]
    congr 2
    funext k
    rw [CPUTensor.value1 h y n k hy, CPUTensor.value1 h x n k hx]
  · intro hr hpos
    unfold CPUTensor.mse
    have e1 : x.shape_.operator_eq y.shape_ = true := by
      unfold Shape.operator_eq
      rw [hxy]
      simp
    have hyr : 1 < y.rank := by
      unfold BaseTensor.rank at hr ⊢
      rw [← hxy]
      exact hr
    rw [if_neg (not_not.mpr e1), if_neg (not_not.mpr (by omega : 0 < x.rank))]
    obtain ⟨m, hm⟩ : ∃ m, x.shape 0 = m + 1 := ⟨x.shape 0 - 1, by omega⟩
    rw [hm, List.range_succ_eq_map]
    apply forEach_cons_error
    unfold CPUTensor.Element
    rw [CPUTensor.LinearIndex_one_index y 0 hyr]

theorem CPUTensor.mse_spec_witness :
    CPUTensor.mse exampleHost3 (exampleHost3.tensors.objs 0) (exampleHost3.tensors.objs 1)
      = .ok 27 :=
  ((CPUTensor.mse_spec exampleHost3 (exampleHost3.tensors.objs 0)
    (exampleHost3.tensors.objs 1) (by decide) rfl rfl (by decide)).1 (by decide)).trans
    (congrArg Except.ok (by decide))

/-! ### C27, C28, C39: max pooling on the host -/

/-- C27: `maxpool` starts the maximum of every window at `FLT_MIN`, the smallest
positive normalized `float`.  For the input of shape `(1, 2, 2)` holding `(-2.0,
-1.0, -3.0, -4.0)` and one `2 x 2` window, the output cell is `FLT_MIN`, which is
above every value of the window (whose maximum is `-1.0`). -/
theorem CPUTensor.maxpool_of_negative :
    CPUTensor.cells
      (CPUTensor.maxpool FLT_MIN_units exampleHostPool (exampleHostPool.tensors.objs 0) 2 2
        (exampleHostPool.tensors.objs 3))
      (exampleHostPool.tensors.objs 3) 1 = some [FLT_MIN_units]
    ∧ ∀ k, k < 4 →
        CPUTensor.elem exampleHostPool (exampleHostPool.tensors.objs 0) k < FLT_MIN_units := by
  decide

/-- C28: `maxpool_gradients` starts the maximum of every window at `FLT_MIN` too.  For
the input of shape `(1, 2, 2)` holding `(-2.0, -1.0, -3.0, -4.0)`, one `2 x 2` window
and the gradient `1.0`, the output is `(1.0, 0, 0, 0)`: the gradient goes to the
position `(0, 0)` of the window, while the maximum of the window, `-1.0`, is at the
position `(0, 1)`. -/
theorem CPUTensor.maxpool_gradients_of_negative :
    CPUTensor.cells
      (CPUTensor.maxpool_gradients FLT_MIN_units exampleHostPool
        (exampleHostPool.tensors.objs 0) (exampleHostPool.tensors.objs 1) 2 2
        (exampleHostPool.tensors.objs 2))
      (exampleHostPool.tensors.objs 2) 4
      = some [CPUTensor.elem exampleHostPool (exampleHostPool.tensors.objs 1) 0, 0, 0, 0]
    ∧ (∀ k, k < 4 →
        CPUTensor.elem exampleHostPool (exampleHostPool.tensors.objs 0) k
          ≤ CPUTensor.elem exampleHostPool (exampleHostPool.tensors.objs 0) 1)
    ∧ CPUTensor.elem exampleHostPool (exampleHostPool.tensors.objs 0) 0
        < CPUTensor.elem exampleHostPool (exampleHostPool.tensors.objs 0) 1 := by
  decide

/-- C39: `maxpool_gradients` asserts nothing about the spatial extents of its
output.  With an input of shape `(1, 2, 2)` whose maximum is at `(0, 0, 1)`,
gradients of shape `(1, 1, 1)`, an output of shape `(1, 4, 1)` and `2 x 2` windows,
all the assertions at the top of the function hold and no assertion of the element
accesses fails, yet the function writes `output(0, 0, 1)`, whose last index is not
below the extent `1` of the output (the write goes to the cell of `output(0, 1, 0)`). -/
theorem CPUTensor.maxpool_gradients_out_of_extent :
    ((exampleHostPoolShape.tensors.objs 0).rank = 3
      ∧ (exampleHostPoolShape.tensors.objs 2).rank = 3
      ∧ (exampleHostPoolShape.tensors.objs 0).shape 0
          = (exampleHostPoolShape.tensors.objs 2).shape 0
      ∧ pooled_extent ((exampleHostPoolShape.tensors.objs 0).shape 1) 2
          = (exampleHostPoolShape.tensors.objs 1).shape 1
      ∧ pooled_extent ((exampleHostPoolShape.tensors.objs 0).shape 2) 2
          = (exampleHostPoolShape.tensors.objs 1).shape 2)
    ∧ (match CPUTensor.maxpool_gradients.logged FLT_MIN_units exampleHostPoolShape
          (exampleHostPoolShape.tensors.objs 0) (exampleHostPoolShape.tensors.objs 1) 2 2
          (exampleHostPoolShape.tensors.objs 2) with
        | .error _ => none
        | .ok s => s.2.getLast?)
        = some ⟨exampleHostPoolShape.tensors.objs 2, [0, 0, 1]⟩
    ∧ ¬ (exampleHostPoolShape.tensors.objs 2).shape_.InRange [0, 0, 1]
    ∧ CPUTensor.cells
        (CPUTensor.maxpool_gradients FLT_MIN_units exampleHostPoolShape
          (exampleHostPoolShape.tensors.objs 0) (exampleHostPoolShape.tensors.objs 1) 2 2
          (exampleHostPoolShape.tensors.objs 2))
        (exampleHostPoolShape.tensors.objs 2) 4
        = some [0, CPUTensor.elem exampleHostPoolShape (exampleHostPoolShape.tensors.objs 1) 0,
            0, 0] := by
  decide

/-! ### Loop nests as runs over a list of tasks -/

theorem forEach_map {ι κ σ : Type} (l : List ι) (g : ι → κ) (body : κ → σ → Except Fault σ)
    (s : σ) : forEach (l.map g) body s = forEach l (fun i s1 => body (g i) s1) s := by
  induction l generalizing s with
  | nil => rfl
  | cons i l ih =>
    rw [List.map_cons]
    cases hb : body (g i) s with
    | error f =>
      rw [forEach_cons_error (g i) _ body s f hb,
        forEach_cons_error i l (fun i s1 => body (g i) s1) s f hb]
    | ok s1 =>
      rw [forEach_cons_ok (g i) _ body s s1 hb,
        forEach_cons_ok i l (fun i s1 => body (g i) s1) s s1 hb]
      exact ih s1

theorem forEach_append_eq {ι σ : Type} (l1 l2 : List ι) (body : ι → σ → Except Fault σ)
    (s : σ) :
    forEach (l1 ++ l2) body s
      = match forEach l1 body s with
        | .error f => .error f
        | .ok s1 => forEach l2 body s1 := by
  induction l1 generalizing s with
  | nil => rfl
  | cons i l1 ih =>
    rw [List.cons_append]
    cases hb : body i s with
    | error f =>
      rw [forEach_cons_error i _ body s f hb, forEach_cons_error i l1 body s f hb]
    | ok s1 =>
      rw [forEach_cons_ok i _ body s s1 hb, forEach_cons_ok i l1 body s s1 hb]
      exact ih s1

theorem forEach_flatMap {ι κ σ : Type} (l : List ι) (g : ι → List κ)
    (body : κ → σ → Except Fault σ) (s : σ) :
    forEach (l.flatMap g) body s = forEach l (fun i s1 => forEach (g i) body s1) s := by
  induction l generalizing s with
  | nil => rfl
  | cons i l ih =>
    rw [List.flatMap_cons, forEach_append_eq]
    cases hb : forEach (g i) body s with
    | error f =>
      rw [forEach_cons_error i l (fun i s1 => forEach (g i) body s1) s f hb]
    | ok s1 =>
      rw [forEach_cons_ok i l (fun i s1 => forEach (g i) body s1) s s1 hb]
      exact ih s1

theorem forEach_congr {ι σ : Type} (l : List ι) (body body1 : ι → σ → Except Fault σ) (s : σ)
    (hb : ∀ i, i ∈ l → ∀ s1, body i s1 = body1 i s1) :
    forEach l body s = forEach l body1 s := by
  induction l generalizing s with
  | nil => rfl
  | cons i l ih =>
    have h1 := hb i (List.mem_cons_self i l) s
    cases hb1 : body1 i s with
    | error f =>
      rw [forEach_cons_error i l body1 s f hb1, forEach_cons_error i l body s f (h1.trans hb1)]
    | ok s1 =>
      rw [forEach_cons_ok i l body1 s s1 hb1, forEach_cons_ok i l body s s1 (h1.trans hb1)]
      exact ih s1 (fun j hj => hb j (List.mem_cons_of_mem i hj))

theorem foldl_flatMap {ι κ β : Type} (l : List ι) (g : ι → List κ) (f : β → κ → β) (v : β) :
    (l.flatMap g).foldl f v = l.foldl (fun v1 i => (g i).foldl f v1) v := by
  induction l generalizing v with
  | nil => rfl
  | cons i l ih =>
    rw [List.flatMap_cons, List.foldl_append, List.foldl_cons]
    exact ih _

/-- A fold over `0 .. n - 1` that changes the value at one index only. -/
theorem foldl_range_single {β : Type} (n i0 : Nat) (f : β → Nat → β) (g : β → β) (v : β)
    (hi0 : i0 < n) (hne : ∀ i, i < n → i ≠ i0 → ∀ v1, f v1 i = v1) (heq : ∀ v1, f v1 i0 = g v1) :
    (List.range n).foldl f v = g v := by
  induction n with
  | zero => omega
  | succ n ih =>
    rw [List.range_succ, List.foldl_append, List.foldl_cons, List.foldl_nil]
    by_cases hn : i0 = n
    · subst hn
      have hid : (List.range i0).foldl f v = v := by
        clear ih
        have : ∀ m, m ≤ i0 → (List.range m).foldl f v = v := by
          intro m
          induction m with
          | zero => intro _; rfl
          | succ m ihm =>
            intro hm
            rw [List.range_succ, List.foldl_append, List.foldl_cons, List.foldl_nil,
              ihm (by omega)]
            exact hne m (by omega) (by omega) v
        exact this i0 (Nat.le_refl _)
      rw [hid]
      exact heq v
    · rw [ih (by omega) (fun i hi hi2 => hne i (by omega) hi2)]
      exact hne n (by omega) (fun h => hn h.symm) _

/-- A fold over `0 .. n - 1` that never changes the value. -/
theorem foldl_range_none {β : Type} (n : Nat) (f : β → Nat → β) (v : β)
    (hne : ∀ i, i < n → ∀ v1, f v1 i = v1) : (List.range n).foldl f v = v := by
  induction n with
  | zero => rfl
  | succ n ih =>
    rw [List.range_succ, List.foldl_append, List.foldl_cons, List.foldl_nil,
      ih (fun i hi => hne i (by omega))]
    exact hne n (by omega) v

theorem foldl_range_congr {β : Type} (n : Nat) (f g : β → Nat → β) (v : β)
    (hfg : ∀ i, i < n → ∀ v1, f v1 i = g v1 i) :
    (List.range n).foldl f v = (List.range n).foldl g v := by
  apply List.foldl_ext
  intro a b hb
  exact hfg b (List.mem_range.mp hb) a

theorem CPUTensor.write_self {α : Type} (h : Host α) (t : CPUTensor) (k : Nat) :
    CPUTensor.write h t k (CPUTensor.elem h t k) = h := by
  unfold CPUTensor.write CPUTensor.elem
  have hm : Host.store h.mem (t.buffer_ + k) (h.mem (t.buffer_ + k)) = h.mem := by
    funext a
    rw [Host.store_apply]
    split
    · next ha => rw [ha]
    · rfl
  rw [hm]

/-- A run over a list of tasks each of which replaces the value `v` of one cell of
the tensor `out` by `g t v`, where `g t` does not depend on the cells of `out`: the
cell `k` ends with the value the tasks for `k` give it, in their order. -/
theorem forEach_cells {τ α : Type} (tasks : List τ) (body : τ → Host α → Except Fault (Host α))
    (out : CPUTensor) (n : Nat) (idx : τ → Nat) (g : τ → α → α) (h0 h : Host α)
    (hh : Host.Modifies h0 h out.buffer_ n)
    (hbody : ∀ t, t ∈ tasks → ∀ h1, Host.Modifies h0 h1 out.buffer_ n →
      idx t < n
      ∧ body t h1 = .ok (CPUTensor.write h1 out (idx t) (g t (CPUTensor.elem h1 out (idx t))))) :
    ∃ h1, forEach tasks body h = .ok h1
      ∧ Host.Modifies h0 h1 out.buffer_ n
      ∧ ∀ k, CPUTensor.elem h1 out k
          = tasks.foldl (fun v t => if idx t = k then g t v else v) (CPUTensor.elem h out k) := by
  induction tasks generalizing h with
  | nil => exact ⟨h, rfl, hh, fun k => rfl⟩
  | cons t tasks ih =>
    obtain ⟨hi, hb⟩ := hbody t (List.mem_cons_self t tasks) h hh
    obtain ⟨h1, e1, m1, v1⟩ := ih (CPUTensor.write h out (idx t) (g t (CPUTensor.elem h out (idx t))))
      (Host.Modifies.write h0 h out n (idx t) _ hh hi)
      (fun t1 ht1 => hbody t1 (List.mem_cons_of_mem t ht1))
    refine ⟨h1, ?_, m1, ?_⟩
    · rw [forEach_cons_ok t tasks body h _ hb]
      exact e1
    · intro k
      rw [v1 k, List.foldl_cons]
      congr 1
      by_cases hk : idx t = k
      · rw [if_pos hk, ← hk]
        exact CPUTensor.elem_write_same h out out _ _ _ rfl
      · rw [if_neg hk]
        exact CPUTensor.elem_write_other h out out _ _ _ (by omega)

/-! ### The conversions between `int` and `size_t` -/

theorem to_int_eq (z : Int) (h1 : -2147483648 ≤ z) (h2 : z < 2147483648) : to_int z = z := by
  unfold to_int
  rw [Int.bmod_def]
  split <;> omega

theorem to_size_t_eq (n : Nat) (h : n < 18446744073709551616) : to_size_t (n : Int) = n := by
  unfold to_size_t
  omega

theorem int_range_eq (hh : Nat) :
    int_range (-(hh : Int)) (hh : Int) = (List.range (2 * hh + 1)).map (fun (k : Nat) => -(hh : Int) + (k : Int)) := by
  unfold int_range
  have e : ((hh : Int) + 1 - -(hh : Int)).toNat = 2 * hh + 1 := by omega
  rw [e]

/-! ### The window sums of `convolution` and `cross_correlation` -/

theorem to_int_inside (v W : Int) (hv1 : -2147483648 ≤ v) (hv2 : v < 4294967296)
    (hW : W < 2147483648) :
    (0 ≤ to_int v ∧ to_int v < W) ↔ (0 ≤ v ∧ v < W) := by
  unfold to_int
  rw [Int.bmod_def]
  split <;> omega

/-- One step of the scan of a window: the test of the source position and the two
kernel indices in terms of the natural scan position `(j, i)`. -/
theorem window_step (H W hh hw y x j i : Nat) (hH : IntSized H) (hW : IntSized W)
    (hkh : IntSized (2 * hh + 1)) (hkw : IntSized (2 * hw + 1))
    (hy : y < H) (hx : x < W) (hj : j < 2 * hh + 1) (hi : i < 2 * hw + 1) :
    ((0 ≤ to_int ((x : Int) + (-(hw : Int) + (i : Int)))
        ∧ to_int ((x : Int) + (-(hw : Int) + (i : Int))) < to_int (W : Int)
        ∧ 0 ≤ to_int ((y : Int) + (-(hh : Int) + (j : Int)))
        ∧ to_int ((y : Int) + (-(hh : Int) + (j : Int))) < to_int (H : Int))
      ↔ (hh ≤ y + j ∧ y + j < H + hh ∧ hw ≤ x + i ∧ x + i < W + hw))
    ∧ ((hh ≤ y + j ∧ y + j < H + hh ∧ hw ≤ x + i ∧ x + i < W + hw) →
        to_size_t (to_int ((y : Int) + (-(hh : Int) + (j : Int)))) = y + j - hh
        ∧ to_size_t (to_int ((x : Int) + (-(hw : Int) + (i : Int)))) = x + i - hw)
    ∧ to_size_t (to_int (-(-(hh : Int) + (j : Int)) + (hh : Int))) = 2 * hh - j
    ∧ to_size_t (to_int (-(-(hw : Int) + (i : Int)) + (hw : Int))) = 2 * hw - i
    ∧ to_size_t (to_int (-(hh : Int) + (j : Int) + (hh : Int))) = j
    ∧ to_size_t (to_int (-(hw : Int) + (i : Int) + (hw : Int))) = i := by
  unfold IntSized at hH hW hkh hkw
  have eW : to_int (W : Int) = W := to_int_eq _ (by omega) (by omega)
  have eH : to_int (H : Int) = H := to_int_eq _ (by omega) (by omega)
  have ix := to_int_inside ((x : Int) + (-(hw : Int) + (i : Int))) W (by omega) (by omega)
    (by omega)
  have iy := to_int_inside ((y : Int) + (-(hh : Int) + (j : Int))) H (by omega) (by omega)
    (by omega)
  refine ⟨?_, ?_, ?_, ?_, ?_, ?_⟩
  · rw [eW, eH]
    constructor
    · intro ⟨a1, a2, a3, a4⟩
      have b1 := ix.mp ⟨a1, a2⟩
      have b2 := iy.mp ⟨a3, a4⟩
      omega
    · intro hc
      have b1 := ix.mpr (by omega)
      have b2 := iy.mpr (by omega)
      exact ⟨b1.1, b1.2, b2.1, b2.2⟩
  · intro hc
    rw [to_int_eq _ (by omega) (by omega), to_int_eq _ (by omega) (by omega)]
    unfold to_size_t
    omega
  · rw [to_int_eq _ (by omega) (by omega)]
    unfold to_size_t
    omega
  · rw [to_int_eq _ (by omega) (by omega)]
    unfold to_size_t
    omega
  · rw [to_int_eq _ (by omega) (by omega)]
    unfold to_size_t
    omega
  · rw [to_int_eq _ (by omega) (by omega)]
    unfold to_size_t
    omega

theorem half_to_int (hh : Nat) (hkh : IntSized (2 * hh + 1)) :
    to_int (((2 * hh + 1 : Nat) : Int) / 2) = (hh : Int) := by
  unfold IntSized at hkh
  rw [to_int_eq _ (by omega) (by omega)]
  omega

theorem CPUTensor.convolution_sum_run {α : Type} [Zero α] [Add α] [Mul α] (h : Host α)
    (input kernels : CPUTensor) (F C H W hh hw f c y x : Nat)
    (hK : kernels.OfShape [F, C, 2 * hh + 1, 2 * hw + 1]) (hI : input.OfShape [C, H, W])
    (hH : IntSized H) (hW : IntSized W)
    (hkh : IntSized (2 * hh + 1)) (hkw : IntSized (2 * hw + 1))
    (hf : f < F) (hc : c < C) (hy : y < H) (hx : x < W) :
    CPUTensor.convolution.sum h input kernels (hw : Int) (hh : Int) f c y x
      = .ok (windowSum H W hh hw
          (fun j i => CPUTensor.elem h kernels
            (((f * C + c) * (2 * hh + 1) + (2 * hh - j)) * (2 * hw + 1) + (2 * hw - i)))
          (fun sy sx => CPUTensor.elem h input ((c * H + sy) * W + sx)) y x) := by
  unfold CPUTensor.convolution.sum windowSum
  have s1 : input.shape 1 = H := CPUTensor.OfShape.shape_eq input _ hI 1
  have s2 : input.shape 2 = W := CPUTensor.OfShape.shape_eq input _ hI 2
  rw [int_range_eq hh, int_range_eq hw, forEach_map, s1, s2]
  apply forEach_eq_foldl
  intro j hj sum
  rw [List.mem_range] at hj
  rw [forEach_map]
  apply forEach_eq_foldl
  intro i hi sum1
  rw [List.mem_range] at hi
  obtain ⟨w1, w2, w3, w4, _, _⟩ := window_step H W hh hw y x j i hH hW hkh hkw hy hx hj hi
  simp only []
  by_cases hcnd : hh ≤ y + j ∧ y + j < H + hh ∧ hw ≤ x + i ∧ x + i < W + hw
  · obtain ⟨z1, z2⟩ := w2 hcnd
    rw [if_pos (w1.mpr hcnd), if_pos hcnd, w3, w4, z1, z2,
      CPUTensor.Element4 h kernels F C (2 * hh + 1) (2 * hw + 1) f c (2 * hh - j) (2 * hw - i)
        hK hf hc (by omega) (by omega),
      CPUTensor.Element3 h input C H W c (y + j - hh) (x + i - hw) hI hc (by omega) (by omega)]
  · rw [if_neg (fun hn => hcnd (w1.mp hn)), if_neg hcnd]

theorem CPUTensor.cross_correlation_sum_run {α : Type} [Zero α] [Add α] [Mul α] (h : Host α)
    (input kernels : CPUTensor) (A B H W hh hw a b y x : Nat)
    (hK : kernels.OfShape [A, B, 2 * hh + 1, 2 * hw + 1]) (hI : input.OfShape [A, H, W])
    (hH : IntSized H) (hW : IntSized W)
    (hkh : IntSized (2 * hh + 1)) (hkw : IntSized (2 * hw + 1))
    (ha : a < A) (hb : b < B) (hy : y < H) (hx : x < W) :
    CPUTensor.cross_correlation.sum h input kernels (hw : Int) (hh : Int) a b y x
      = .ok (windowSum H W hh hw
          (fun j i => CPUTensor.elem h kernels
            (((a * B + b) * (2 * hh + 1) + j) * (2 * hw + 1) + i))
          (fun sy sx => CPUTensor.elem h input ((a * H + sy) * W + sx)) y x) := by
  unfold CPUTensor.cross_correlation.sum windowSum
  have s1 : input.shape 1 = H := CPUTensor.OfShape.shape_eq input _ hI 1
  have s2 : input.shape 2 = W := CPUTensor.OfShape.shape_eq input _ hI 2
  rw [int_range_eq hh, int_range_eq hw, forEach_map, s1, s2]
  apply forEach_eq_foldl
  intro j hj sum
  rw [List.mem_range] at hj
  rw [forEach_map]
  apply forEach_eq_foldl
  intro i hi sum1
  rw [List.mem_range] at hi
  obtain ⟨w1, w2, _, _, w5, w6⟩ := window_step H W hh hw y x j i hH hW hkh hkw hy hx hj hi
  simp only []
  by_cases hcnd : hh ≤ y + j ∧ y + j < H + hh ∧ hw ≤ x + i ∧ x + i < W + hw
  · obtain ⟨z1, z2⟩ := w2 hcnd
    rw [if_pos (w1.mpr hcnd), if_pos hcnd, w5, w6, z1, z2,
      CPUTensor.Element4 h kernels A B (2 * hh + 1) (2 * hw + 1) a b j i hK ha hb hj hi,
      CPUTensor.Element3 h input A H W a (y + j - hh) (x + i - hw) hI ha (by omega) (by omega)]
  · rw [if_neg (fun hn => hcnd (w1.mp hn)), if_neg hcnd]

/-! ### The loop nest of `convolution` and `cross_correlation` -/

theorem CPUTensor.index3_eq_iff (H W a y x a' y' x' : Nat) (hy : y < H) (hy' : y' < H)
    (hx : x < W) (hx' : x' < W) :
    (a * H + y) * W + x = (a' * H + y') * W + x' ↔ a = a' ∧ y = y' ∧ x = x' := by
  constructor
  · intro he
    by_cases h1 : a * H + y = a' * H + y'
    · by_cases h2 : a = a'
      · subst h2
        have : x = x' := by
          rw [h1] at he
          omega
        exact ⟨rfl, by omega, this⟩
      · exact absurd h1 (CPUTensor.index2_ne H a y a' y' hy hy' (Or.inl h2))
    · exact absurd he (CPUTensor.index2_ne W _ x _ x' hx hx' (Or.inl h1))
  · intro ⟨h1, h2, h3⟩
    rw [h1, h2, h3]

theorem CPUTensor.ClearT_Modifies {α : Type} [Zero α] (h : Host α) (t : CPUTensor) :
    Host.Modifies h (CPUTensor.ClearT h t) t.buffer_ t.size_ := by
  refine ⟨?_, rfl, rfl, rfl⟩
  intro a ha
  show Host.memset h.mem t.buffer_ t.size_ a = h.mem a
  rw [Host.memset_apply, if_neg ha]

theorem CPUTensor.ClearT_elem {α : Type} [Zero α] (h : Host α) (t : CPUTensor) (k : Nat)
    (hk : k < t.size_) : CPUTensor.elem (CPUTensor.ClearT h t) t k = 0 := by
  show Host.memset h.mem t.buffer_ t.size_ (t.buffer_ + k) = 0
  rw [Host.memset_apply, if_pos (by omega)]

theorem Host.Modifies.trans {α : Type} (h0 h1 h2 : Host α) (p n : Nat)
    (m1 : Host.Modifies h0 h1 p n) (m2 : Host.Modifies h1 h2 p n) : Host.Modifies h0 h2 p n := by
  obtain ⟨a1, a2, a3, a4⟩ := m1
  obtain ⟨b1, b2, b3, b4⟩ := m2
  exact ⟨fun a ha => (b1 a ha).trans (a1 a ha), b2.trans a2, b3.trans a3, b4.trans a4⟩

/-- The four outer loops of `convolution` and `cross_correlation`: for all `a < A`,
`b < B` and all positions `(y, x)` the sum `val a b y x` is added to the cell
`(tc a b, y, x)` of the output.  At the end the cell `(o, y, x)` holds what it held
plus the sums of the pairs `(a, b)` with `tc a b = o`, added in the order of the
loops. -/
theorem CPUTensor.acc_nest {α : Type} [Add α] (h0 h : Host α) (output : CPUTensor)
    (O H W A B : Nat) (ho : output.OfShape [O, H, W]) (tc : Nat → Nat → Nat)
    (htc : ∀ a b, a < A → b < B → tc a b < O)
    (S : Nat → Nat → Nat → Nat → Host α → Except Fault α) (val : Nat → Nat → Nat → Nat → α)
    (hS : ∀ a b y x h1, a < A → b < B → y < H → x < W →
      Host.Modifies h0 h1 output.buffer_ (O * H * W) → S a b y x h1 = .ok (val a b y x))
    (hh : Host.Modifies h0 h output.buffer_ (O * H * W)) :
    ∃ h1,
      forEach (List.range A)
        (fun a h1 =>
          forEach (List.range B)
            (fun b h2 =>
              forEach (List.range H)
                (fun y h3 =>
                  forEach (List.range W)
                    (fun x h4 =>
                      match S a b y x h4 with
                      | .error f => .error f
                      | .ok s => CPUTensor.addElement h4 output [tc a b, y, x] s)
                    h3)
                h2)
            h1)
        h = .ok h1
      ∧ Host.Modifies h0 h1 output.buffer_ (O * H * W)
      ∧ ∀ o y x, o < O → y < H → x < W →
          CPUTensor.elem h1 output ((o * H + y) * W + x)
            = (List.range A).foldl
                (fun v a => (List.range B).foldl
                  (fun v b => if tc a b = o then v + val a b y x else v) v)
                (CPUTensor.elem h output ((o * H + y) * W + x)) := by
  have key := forEach_cells
    ((List.range A).flatMap (fun a => (List.range B).flatMap (fun b =>
      (List.range H).flatMap (fun y => (List.range W).map (fun x => (a, b, y, x))))))
    (fun (t : Nat × Nat × Nat × Nat) h4 =>
      match S t.1 t.2.1 t.2.2.1 t.2.2.2 h4 with
      | .error f => .error f
      | .ok s => CPUTensor.addElement h4 output [tc t.1 t.2.1, t.2.2.1, t.2.2.2] s)
    output (O * H * W)
    (fun t => (tc t.1 t.2.1 * H + t.2.2.1) * W + t.2.2.2)
    (fun t v => v + val t.1 t.2.1 t.2.2.1 t.2.2.2) h0 h hh ?_
  · obtain ⟨h1, e1, m1, v1⟩ := key
    refine ⟨h1, ?_, m1, ?_⟩
    · rw [← e1]
      simp only [forEach_flatMap, forEach_map]
    · intro o y0 x0 ho1 hy0 hx0
      rw [v1]
      simp only [foldl_flatMap, List.foldl_map]
      apply foldl_range_congr
      intro a ha v
      apply foldl_range_congr
      intro b hb v2
      by_cases hto : tc a b = o
      · rw [if_pos hto]
        rw [foldl_range_single H y0 _ (fun v3 => v3 + val a b y0 x0) v2 hy0]
        · intro y hy hne v3
          apply foldl_range_none
          intro x hx v4
          rw [if_neg]
          intro he
          exact hne ((CPUTensor.index3_eq_iff H W _ y x o y0 x0 hy hy0 hx hx0).mp he).2.1
        · intro v3
          rw [foldl_range_single W x0 _ (fun v4 => v4 + val a b y0 x0) v3 hx0]
          · intro x hx hne v4
            rw [if_neg]
            intro he
            exact hne ((CPUTensor.index3_eq_iff H W _ y0 x o y0 x0 hy0 hy0 hx hx0).mp he).2.2
          · intro v4
            rw [if_pos]
            rw [hto]
      · rw [if_neg hto]
        apply foldl_range_none
        intro y hy v3
        apply foldl_range_none
        intro x hx v4
        rw [if_neg]
        intro he
        exact hto ((CPUTensor.index3_eq_iff H W _ y x o y0 x0 hy hy0 hx hx0).mp he).1
  · intro t ht h1 hm
    simp only [List.mem_flatMap, List.mem_map, List.mem_range] at ht
    obtain ⟨a, ha, b, hb, y, hy, x, hx, rfl⟩ := ht
    obtain ⟨i1, i2⟩ := CPUTensor.OfShape.index3 output O H W (tc a b) y x ho (htc a b ha hb) hy hx
    refine ⟨i2, ?_⟩
    simp only [hS a b y x h1 ha hb hy hx hm]
    exact CPUTensor.addElement_of_LinearIndex h1 output _ _ _ i1

theorem windowSum_congr {α : Type} [Zero α] [Add α] [Mul α] (H W hh hw : Nat)
    (kval ival kval1 ival1 : Nat → Nat → α) (y x : Nat)
    (hk : ∀ j i, j < 2 * hh + 1 → i < 2 * hw + 1 → kval j i = kval1 j i)
    (hi : ∀ sy sx, sy < H → sx < W → ival sy sx = ival1 sy sx) :
    windowSum H W hh hw kval ival y x = windowSum H W hh hw kval1 ival1 y x := by
  unfold windowSum
  apply foldl_range_congr
  intro j hj v
  apply foldl_range_congr
  intro i hi1 v1
  by_cases hc : hh ≤ y + j ∧ y + j < H + hh ∧ hw ≤ x + i ∧ x + i < W + hw
  · rw [if_pos hc, if_pos hc, hk j i hj hi1, hi _ _ (by omega) (by omega)]
  · rw [if_neg hc, if_neg hc]

theorem foldl_add_eq_sumTo {α : Type} [Zero α] [Add α] (n : Nat) (f : Nat → α) :
    (List.range n).foldl (fun v c => v + f c) 0 = sumTo n f :=
  rfl

theorem CPUTensor.convolution_run {α : Type} [Zero α] [Add α] [Mul α] (h : Host α)
    (input kernels output : CPUTensor) (F C H W hh hw : Nat)
    (hI : input.OfShape [C, H, W]) (hK : kernels.OfShape [F, C, 2 * hh + 1, 2 * hw + 1])
    (hO : output.OfShape [F, H, W])
    (hH : IntSized H) (hW : IntSized W)
    (hkh : IntSized (2 * hh + 1)) (hkw : IntSized (2 * hw + 1))
    (hoI : output.Apart input) (hoK : output.Apart kernels) :
    ∃ h1, CPUTensor.convolution h input kernels output = .ok h1
      ∧ Host.Modifies h h1 output.buffer_ (F * H * W)
      ∧ ∀ f y x, f < F → y < H → x < W →
          CPUTensor.elem h1 output ((f * H + y) * W + x)
            = sumTo C (fun c => windowSum H W hh hw
                (fun j i => CPUTensor.elem h kernels
                  (((f * C + c) * (2 * hh + 1) + (2 * hh - j)) * (2 * hw + 1) + (2 * hw - i)))
                (fun sy sx => CPUTensor.elem h input ((c * H + sy) * W + sx)) y x) := by
  have hIsize := CPUTensor.size3 input C H W hI
  have hKsize := CPUTensor.size4 kernels F C (2 * hh + 1) (2 * hw + 1) hK
  have hOsize := CPUTensor.size3 output F H W hO
  have hclear : Host.Modifies h (CPUTensor.ClearT h output) output.buffer_ (F * H * W) := by
    rw [← hOsize]
    exact CPUTensor.ClearT_Modifies h output
  have hS : ∀ a b y x h1, a < F → b < C → y < H → x < W →
      Host.Modifies h h1 output.buffer_ (F * H * W) →
      CPUTensor.convolution.sum h1 input kernels (hw : Int) (hh : Int) a b y x
        = .ok (windowSum H W hh hw
            (fun j i => CPUTensor.elem h kernels
              (((a * C + b) * (2 * hh + 1) + (2 * hh - j)) * (2 * hw + 1) + (2 * hw - i)))
            (fun sy sx => CPUTensor.elem h input ((b * H + sy) * W + sx)) y x) := by
    intro a b y x h1 ha hb hy hx hm
    rw [CPUTensor.convolution_sum_run h1 input kernels F C H W hh hw a b y x hK hI hH hW hkh hkw
      ha hb hy hx]
    congr 1
    apply windowSum_congr
    · intro j i hj hi
      have hlt := (CPUTensor.OfShape.index4 kernels F C (2 * hh + 1) (2 * hw + 1) a b
        (2 * hh - j) (2 * hw - i) hK ha hb (by omega) (by omega)).2
      exact Host.Modifies.elem_eq h h1 output kernels (F * H * W) _ hm
        (CPUTensor.Apart.not_mem output kernels (F * H * W) _ hoK (by omega) (by omega))
    · intro sy sx hsy hsx
      have hlt := (CPUTensor.OfShape.index3 input C H W b sy sx hI hb hsy hsx).2
      exact Host.Modifies.elem_eq h h1 output input (F * H * W) _ hm
        (CPUTensor.Apart.not_mem output input (F * H * W) _ hoI (by omega) (by omega))
  obtain ⟨h1, e1, m1, v1⟩ := CPUTensor.acc_nest h (CPUTensor.ClearT h output) output F H W F C hO
    (fun a _ => a) (fun a b ha hb => ha)
    (fun a b y x h1 => CPUTensor.convolution.sum h1 input kernels (hw : Int) (hh : Int) a b y x)
    _ hS hclear
  refine ⟨h1, ?_, m1, ?_⟩
  · unfold CPUTensor.convolution
    have r1 : kernels.rank = 4 := CPUTensor.OfShape.rank_eq kernels _ hK
    have r2 : input.rank = 3 := CPUTensor.OfShape.rank_eq input _ hI
    have r3 : output.rank = 3 := CPUTensor.OfShape.rank_eq output _ hO
    have k0 : kernels.shape 0 = F := CPUTensor.OfShape.shape_eq kernels _ hK 0
    have k1 : kernels.shape 1 = C := CPUTensor.OfShape.shape_eq kernels _ hK 1
    have k2 : kernels.shape 2 = 2 * hh + 1 := CPUTensor.OfShape.shape_eq kernels _ hK 2
    have k3 : kernels.shape 3 = 2 * hw + 1 := CPUTensor.OfShape.shape_eq kernels _ hK 3
    have i0 : input.shape 0 = C := CPUTensor.OfShape.shape_eq input _ hI 0
    have i1 : input.shape 1 = H := CPUTensor.OfShape.shape_eq input _ hI 1
    have i2 : input.shape 2 = W := CPUTensor.OfShape.shape_eq input _ hI 2
    have o0 : output.shape 0 = F := CPUTensor.OfShape.shape_eq output _ hO 0
    have es : input.shape_.ElementShape.operator_eq output.shape_.ElementShape = true := by
      unfold Shape.operator_eq Shape.ElementShape
      rw [hI.1, hO.1]
      simp
    rw [if_neg (not_not.mpr r1), if_neg (not_not.mpr ⟨r2, r3⟩), k0, k1, k2, k3, i0, i1, i2, o0,
      if_neg (not_not.mpr ⟨by omega, by omega⟩), if_neg (not_not.mpr ⟨rfl, rfl⟩),
      if_neg (not_not.mpr es)]
    simp only []
    rw [half_to_int hh hkh, half_to_int hw hkw]
    exact e1
  · intro f y x hf hy hx
    have hlt := (CPUTensor.OfShape.index3 output F H W f y x hO hf hy hx).2
    rw [v1 f y x hf hy hx, CPUTensor.ClearT_elem h output _ (by omega),
      foldl_range_single F f _
        (fun v => (List.range C).foldl (fun v b => v + windowSum H W hh hw
          (fun j i => CPUTensor.elem h kernels
            (((f * C + b) * (2 * hh + 1) + (2 * hh - j)) * (2 * hw + 1) + (2 * hw - i)))
          (fun sy sx => CPUTensor.elem h input ((b * H + sy) * W + sx)) y x) v) 0 hf]
    · rfl
    · intro a ha hne v
      apply foldl_range_none
      intro b hb v2
      rw [if_neg hne]
    · intro v
      apply foldl_range_congr
      intro b hb v2
      rw [if_pos rfl]

theorem CPUTensor.cross_correlation_run {α : Type} [Zero α] [Add α] [Mul α] (h : Host α)
    (input kernels output : CPUTensor) (A B H W hh hw : Nat)
    (hI : input.OfShape [A, H, W]) (hK : kernels.OfShape [A, B, 2 * hh + 1, 2 * hw + 1])
    (hO : output.OfShape [B, H, W])
    (hH : IntSized H) (hW : IntSized W)
    (hkh : IntSized (2 * hh + 1)) (hkw : IntSized (2 * hw + 1))
    (hoI : output.Apart input) (hoK : output.Apart kernels) :
    ∃ h1, CPUTensor.cross_correlation h input kernels output = .ok h1
      ∧ Host.Modifies h h1 output.buffer_ (B * H * W)
      ∧ ∀ b y x, b < B → y < H → x < W →
          CPUTensor.elem h1 output ((b * H + y) * W + x)
            = sumTo A (fun a => windowSum H W hh hw
                (fun j i => CPUTensor.elem h kernels
                  (((a * B + b) * (2 * hh + 1) + j) * (2 * hw + 1) + i))
                (fun sy sx => CPUTensor.elem h input ((a * H + sy) * W + sx)) y x) := by
  have hIsize := CPUTensor.size3 input A H W hI
  have hKsize := CPUTensor.size4 kernels A B (2 * hh + 1) (2 * hw + 1) hK
  have hOsize := CPUTensor.size3 output B H W hO
  have hclear : Host.Modifies h (CPUTensor.ClearT h output) output.buffer_ (B * H * W) := by
    rw [← hOsize]
    exact CPUTensor.ClearT_Modifies h output
  have hS : ∀ a b y x h1, a < A → b < B → y < H → x < W →
      Host.Modifies h h1 output.buffer_ (B * H * W) →
      CPUTensor.cross_correlation.sum h1 input kernels (hw : Int) (hh : Int) a b y x
        = .ok (windowSum H W hh hw
            (fun j i => CPUTensor.elem h kernels
              (((a * B + b) * (2 * hh + 1) + j) * (2 * hw + 1) + i))
            (fun sy sx => CPUTensor.elem h input ((a * H + sy) * W + sx)) y x) := by
    intro a b y x h1 ha hb hy hx hm
    rw [CPUTensor.cross_correlation_sum_run h1 input kernels A B H W hh hw a b y x hK hI hH hW
      hkh hkw ha hb hy hx]
    congr 1
    apply windowSum_congr
    · intro j i hj hi
      have hlt := (CPUTensor.OfShape.index4 kernels A B (2 * hh + 1) (2 * hw + 1) a b
        j i hK ha hb hj hi).2
      exact Host.Modifies.elem_eq h h1 output kernels (B * H * W) _ hm
        (CPUTensor.Apart.not_mem output kernels (B * H * W) _ hoK (by omega) (by omega))
    · intro sy sx hsy hsx
      have hlt := (CPUTensor.OfShape.index3 input A H W a sy sx hI ha hsy hsx).2
      exact Host.Modifies.elem_eq h h1 output input (B * H * W) _ hm
        (CPUTensor.Apart.not_mem output input (B * H * W) _ hoI (by omega) (by omega))
  obtain ⟨h1, e1, m1, v1⟩ := CPUTensor.acc_nest h (CPUTensor.ClearT h output) output B H W A B hO
    (fun _ b => b) (fun a b ha hb => hb)
    (fun a b y x h1 =>
      CPUTensor.cross_correlation.sum h1 input kernels (hw : Int) (hh : Int) a b y x)
    _ hS hclear
  refine ⟨h1, ?_, m1, ?_⟩
  · unfold CPUTensor.cross_correlation
    have r1 : kernels.rank = 4 := CPUTensor.OfShape.rank_eq kernels _ hK
    have r2 : input.rank = 3 := CPUTensor.OfShape.rank_eq input _ hI
    have r3 : output.rank = 3 := CPUTensor.OfShape.rank_eq output _ hO
    have k0 : kernels.shape 0 = A := CPUTensor.OfShape.shape_eq kernels _ hK 0
    have k1 : kernels.shape 1 = B := CPUTensor.OfShape.shape_eq kernels _ hK 1
    have k2 : kernels.shape 2 = 2 * hh + 1 := CPUTensor.OfShape.shape_eq kernels _ hK 2
    have k3 : kernels.shape 3 = 2 * hw + 1 := CPUTensor.OfShape.shape_eq kernels _ hK 3
    have i0 : input.shape 0 = A := CPUTensor.OfShape.shape_eq input _ hI 0
    have i1 : input.shape 1 = H := CPUTensor.OfShape.shape_eq input _ hI 1
    have i2 : input.shape 2 = W := CPUTensor.OfShape.shape_eq input _ hI 2
    have o0 : output.shape 0 = B := CPUTensor.OfShape.shape_eq output _ hO 0
    have es : input.shape_.ElementShape.operator_eq output.shape_.ElementShape = true := by
      unfold Shape.operator_eq Shape.ElementShape
      rw [hI.1, hO.1]
      simp
    rw [if_neg (not_not.mpr r1), if_neg (not_not.mpr ⟨r2, r3⟩), k0, k1, k2, k3, i0, i1, i2, o0,
      if_neg (not_not.mpr ⟨by omega, by omega⟩), if_neg (not_not.mpr ⟨rfl, rfl⟩),
      if_neg (not_not.mpr es)]
    simp only []
    rw [half_to_int hh hkh, half_to_int hw hkw]
    exact e1
  · intro b y x hb hy hx
    have hlt := (CPUTensor.OfShape.index3 output B H W b y x hO hb hy hx).2
    rw [v1 b y x hb hy hx, CPUTensor.ClearT_elem h output _ (by omega)]
    unfold sumTo
    apply foldl_range_congr
    intro a ha v
    rw [foldl_range_single B b _
      (fun v => v + windowSum H W hh hw
        (fun j i => CPUTensor.elem h kernels
          (((a * B + b) * (2 * hh + 1) + j) * (2 * hw + 1) + i))
        (fun sy sx => CPUTensor.elem h input ((a * H + sy) * W + sx)) y x) v hb]
    · intro b1 hb1 hne v2
      rw [if_neg hne]
    · intro v2
      rw [if_pos rfl]

/-! ### C30: convolution is cross-correlation with the flipped kernel -/

theorem CPUTensor.convolution_cross_correlation {α : Type} [Zero α] [Add α] [Mul α]
    (h : Host α) (input K K1 output : CPUTensor) (F C H W hh hw : Nat)
    (hI : input.OfShape [C, H, W]) (hK : K.OfShape [F, C, 2 * hh + 1, 2 * hw + 1])
    (hK1 : K1.OfShape [C, F, 2 * hh + 1, 2 * hw + 1]) (hO : output.OfShape [F, H, W])
    (hH : IntSized H) (hW : IntSized W)
    (hkh : IntSized (2 * hh + 1)) (hkw : IntSized (2 * hw + 1))
    (hoI : output.Apart input) (hoK : output.Apart K) (hoK1 : output.Apart K1)
    (hflip : ∀ f, f < F → ∀ c, c < C → ∀ j, j < 2 * hh + 1 → ∀ i, i < 2 * hw + 1 →
      CPUTensor.value h K1 [c, f, j, i] = CPUTensor.value h K [f, c, 2 * hh - j, 2 * hw - i]) :
    ∃ h1 h2, CPUTensor.convolution h input K output = .ok h1
      ∧ CPUTensor.cross_correlation h input K1 output = .ok h2
      ∧ ∀ f, f < F → ∀ y, y < H → ∀ x, x < W →
          CPUTensor.Element h1 output [f, y, x] = CPUTensor.Element h2 output [f, y, x] := by
  obtain ⟨h1, e1, _, v1⟩ := CPUTensor.convolution_run h input K output F C H W hh hw hI hK hO
    hH hW hkh hkw hoI hoK
  obtain ⟨h2, e2, _, v2⟩ := CPUTensor.cross_correlation_run h input K1 output C F H W hh hw hI hK1
    hO hH hW hkh hkw hoI hoK1
  refine ⟨h1, h2, e1, e2, ?_⟩
  intro f hf y hy x hx
  rw [CPUTensor.Element3 h1 output F H W f y x hO hf hy hx,
    CPUTensor.Element3 h2 output F H W f y x hO hf hy hx, v1 f y x hf hy hx, v2 f y x hf hy hx]
  congr 1
  apply sumTo_congr
  intro c hc
  apply windowSum_congr
  · intro j i hj hi
    have hfl := hflip f hf c hc j hj i hi
    rw [CPUTensor.value4 h K1 C F (2 * hh + 1) (2 * hw + 1) c f j i hK1,
      CPUTensor.value4 h K F C (2 * hh + 1) (2 * hw + 1) f c (2 * hh - j) (2 * hw - i) hK] at hfl
    exact hfl.symm
  · intro sy sx _ _
    rfl

/-- C30: convolution is cross-correlation with the kernel mirrored in both spatial
axes.  For an input of shape `(C, H, W)`, a kernel tensor `K` of shape `(F, C, kh,
kw)` with `kh = 2*hh + 1` and `kw = 2*hw + 1`, an output of shape `(F, H, W)` apart
from the other tensors, all extents below `2^31`, and a tensor `K1` of shape `(C, F,
kh, kw)` with `K1[c, f, j, i] = K[f, c, kh-1-j, kw-1-i]`: `convolution(input, K,
output)` and `cross_correlation(input, K1, output)` both end without abort and give
the same output, element by element, in any arithmetic.  In particular for `F = C =
1` and a kernel symmetric under the flip, `convolution` and `cross_correlation`
with this kernel give the same output. -/
theorem CPUTensor.convolution_flips_kernel {α : Type} [Zero α] [Add α] [Mul α]
    (h : Host α) (input K output : CPUTensor) (F C H W hh hw : Nat)
    (hI : input.OfShape [C, H, W]) (hK : K.OfShape [F, C, 2 * hh + 1, 2 * hw + 1])
    (hO : output.OfShape [F, H, W])
    (hH : IntSized H) (hW : IntSized W)
    (hkh : IntSized (2 * hh + 1)) (hkw : IntSized (2 * hw + 1))
    (hoI : output.Apart input) (hoK : output.Apart K) :
    (∀ K1 : CPUTensor, K1.OfShape [C, F, 2 * hh + 1, 2 * hw + 1] → output.Apart K1 →
      (∀ f, f < F → ∀ c, c < C → ∀ j, j < 2 * hh + 1 → ∀ i, i < 2 * hw + 1 →
        CPUTensor.value h K1 [c, f, j, i]
          = CPUTensor.value h K [f, c, 2 * hh + 1 - 1 - j, 2 * hw + 1 - 1 - i]) →
      ∃ h1 h2, CPUTensor.convolution h input K output = .ok h1
        ∧ CPUTensor.cross_correlation h input K1 output = .ok h2
        ∧ ∀ f, f < F → ∀ y, y < H → ∀ x, x < W →
            CPUTensor.Element h1 output [f, y, x] = CPUTensor.Element h2 output [f, y, x])
    ∧ (F = 1 → C = 1 →
      (∀ j, j < 2 * hh + 1 → ∀ i, i < 2 * hw + 1 →
        CPUTensor.value h K [0, 0, j, i]
          = CPUTensor.value h K [0, 0, 2 * hh + 1 - 1 - j, 2 * hw + 1 - 1 - i]) →
      ∃ h1 h2, CPUTensor.convolution h input K output = .ok h1
        ∧ CPUTensor.cross_correlation h input K output = .ok h2
        ∧ ∀ y, y < H → ∀ x, x < W →
            CPUTensor.Element h1 output [0, y, x] = CPUTensor.Element h2 output [0, y, x]) := by
  constructor
  · intro K1 hK1 hoK1 hflip
    exact CPUTensor.convolution_cross_correlation h input K K1 output F C H W hh hw hI hK hK1 hO
      hH hW hkh hkw hoI hoK hoK1
      (fun f hf c hc j hj i hi => by
        have e := hflip f hf c hc j hj i hi
        rw [Nat.add_sub_cancel, Nat.add_sub_cancel] at e
        exact e)
  · intro hF hC hsym
    subst hF
    subst hC
    obtain ⟨h1, h2, e1, e2, e3⟩ :=
      CPUTensor.convolution_cross_correlation h input K K output 1 1 H W hh hw hI hK hK hO
        hH hW hkh hkw hoI hoK hoK
        (fun f hf c hc j hj i hi => by
          have hf0 : f = 0 := by omega
          have hc0 : c = 0 := by omega
          subst hf0
          subst hc0
          have e := hsym j hj i hi
          rw [Nat.add_sub_cancel, Nat.add_sub_cancel] at e
          exact e)
    exact ⟨h1, h2, e1, e2, fun y hy x hx => e3 0 (by omega) y hy x hx⟩

theorem CPUTensor.convolution_flips_kernel_witness :
    ∃ h1 h2, CPUTensor.convolution exampleHostConv (exampleHostConv.tensors.objs 0)
        (exampleHostConv.tensors.objs 1) (exampleHostConv.tensors.objs 2) = .ok h1
      ∧ CPUTensor.cross_correlation exampleHostConv (exampleHostConv.tensors.objs 0)
        (exampleHostConv.tensors.objs 1) (exampleHostConv.tensors.objs 2) = .ok h2
      ∧ ∀ y, y < 2 → ∀ x, x < 2 →
          CPUTensor.Element h1 (exampleHostConv.tensors.objs 2) [0, y, x]
            = CPUTensor.Element h2 (exampleHostConv.tensors.objs 2) [0, y, x] :=
  (CPUTensor.convolution_flips_kernel exampleHostConv (exampleHostConv.tensors.objs 0)
    (exampleHostConv.tensors.objs 1) (exampleHostConv.tensors.objs 2) 1 1 2 2 1 1
    (by decide) (by decide) (by decide) (by decide) (by decide) (by decide) (by decide)
    (by decide) (by decide)).2 rfl rfl (by decide)

/-! ### C29: the identity kernel -/

theorem foldl_cond_add {α : Type} [AddCommMonoid α] (m : Nat) (c : Nat → Prop)
    [DecidablePred c] (t : Nat → α) (s0 : α) :
    (List.range m).foldl (fun s i => if c i then s + t i else s) s0
      = s0 + ∑ i in Finset.range m, if c i then t i else 0 := by
  induction m with
  | zero => simp
  | succ m ih =>
    rw [List.range_succ, List.foldl_append, ih, Finset.sum_range_succ, List.foldl_cons,
      List.foldl_nil]
    split
    · rw [add_assoc]
    · rw [add_zero]

theorem foldl_add_sum {α : Type} [AddCommMonoid α] (m : Nat) (t : Nat → α) (s0 : α) :
    (List.range m).foldl (fun s i => s + t i) s0 = s0 + ∑ i in Finset.range m, t i := by
  induction m with
  | zero => simp
  | succ m ih =>
    rw [List.range_succ, List.foldl_append, ih, Finset.sum_range_succ, List.foldl_cons,
      List.foldl_nil, add_assoc]

theorem windowSum_eq_sum {α : Type} [NonUnitalNonAssocSemiring α] (H W hh hw : Nat)
    (kval ival : Nat → Nat → α) (y x : Nat) :
    windowSum H W hh hw kval ival y x
      = ∑ j in Finset.range (2 * hh + 1), ∑ i in Finset.range (2 * hw + 1),
          if hh ≤ y + j ∧ y + j < H + hh then
            (if hw ≤ x + i ∧ x + i < W + hw then kval j i * ival (y + j - hh) (x + i - hw)
              else 0)
          else 0 := by
  unfold windowSum
  have inner : ∀ (j : Nat) (s : α),
      (List.range (2 * hw + 1)).foldl
        (fun sum i =>
          if hh ≤ y + j ∧ y + j < H + hh ∧ hw ≤ x + i ∧ x + i < W + hw then
            sum + kval j i * ival (y + j - hh) (x + i - hw)
          else sum) s
      = s + ∑ i in Finset.range (2 * hw + 1),
          if hh ≤ y + j ∧ y + j < H + hh then
            (if hw ≤ x + i ∧ x + i < W + hw then kval j i * ival (y + j - hh) (x + i - hw)
              else 0)
          else 0 := by
    intro j s
    rw [foldl_cond_add]
    congr 1
    apply Finset.sum_congr rfl
    intro i _
    by_cases h1 : hh ≤ y + j ∧ y + j < H + hh
    · by_cases h2 : hw ≤ x + i ∧ x + i < W + hw
      · rw [if_pos ⟨h1.1, h1.2, h2.1, h2.2⟩, if_pos h1, if_pos h2]
      · rw [if_neg (fun hc => h2 ⟨hc.2.2.1, hc.2.2.2⟩), if_pos h1, if_neg h2]
    · rw [if_neg (fun hc => h1 ⟨hc.1, hc.2.1⟩), if_neg h1]
  simp only [inner]
  rw [foldl_add_sum, zero_add]

/-- The scan positions `(y, j)` of a window dimension and the positions `(y + j - hh,
2*hh - j)` are exchanged by the flip of the kernel. -/
theorem sum_flip {α : Type} [AddCommMonoid α] (H hh : Nat) (Φ : Nat → Nat → α) :
    (∑ y in Finset.range H, ∑ j in Finset.range (2 * hh + 1),
      if hh ≤ y + j ∧ y + j < H + hh then Φ y j else 0)
    = ∑ y in Finset.range H, ∑ j in Finset.range (2 * hh + 1),
      if hh ≤ y + j ∧ y + j < H + hh then Φ (y + j - hh) (2 * hh - j) else 0 := by
  rw [← Finset.sum_product', ← Finset.sum_product', ← Finset.sum_filter, ← Finset.sum_filter]
  apply Finset.sum_nbij' (fun p => (p.1 + p.2 - hh, 2 * hh - p.2))
    (fun p => (p.1 + p.2 - hh, 2 * hh - p.2))
  · intro p hp
    simp only [Finset.mem_filter, Finset.mem_product, Finset.mem_range] at hp ⊢
    omega
  · intro p hp
    simp only [Finset.mem_filter, Finset.mem_product, Finset.mem_range] at hp ⊢
    omega
  · intro p hp
    simp only [Finset.mem_filter, Finset.mem_product, Finset.mem_range] at hp
    apply Prod.ext
    · show p.1 + p.2 - hh + (2 * hh - p.2) - hh = p.1
      omega
    · show 2 * hh - (2 * hh - p.2) = p.2
      omega
  · intro p hp
    simp only [Finset.mem_filter, Finset.mem_product, Finset.mem_range] at hp
    apply Prod.ext
    · show p.1 + p.2 - hh + (2 * hh - p.2) - hh = p.1
      omega
    · show 2 * hh - (2 * hh - p.2) = p.2
      omega
  · intro p hp
    simp only [Finset.mem_filter, Finset.mem_product, Finset.mem_range] at hp
    have e1 : p.1 + p.2 - hh + (2 * hh - p.2) - hh = p.1 := by omega
    have e2 : 2 * hh - (2 * hh - p.2) = p.2 := by omega
    show Φ p.1 p.2 = Φ (p.1 + p.2 - hh + (2 * hh - p.2) - hh) (2 * hh - (2 * hh - p.2))
    rw [e1, e2]

theorem sum6_reorder_left {α : Type} [AddCommMonoid α] (F C H W m n : Nat)
    (T : Nat → Nat → Nat → Nat → Nat → Nat → α) :
    (∑ f in Finset.range F, ∑ y in Finset.range H, ∑ x in Finset.range W,
      ∑ c in Finset.range C, ∑ j in Finset.range m, ∑ i in Finset.range n, T f c y j x i)
    = ∑ f in Finset.range F, ∑ c in Finset.range C, ∑ y in Finset.range H,
      ∑ j in Finset.range m, ∑ x in Finset.range W, ∑ i in Finset.range n, T f c y j x i := by
  apply Finset.sum_congr rfl
  intro f _
  calc (∑ y in Finset.range H, ∑ x in Finset.range W, ∑ c in Finset.range C,
          ∑ j in Finset.range m, ∑ i in Finset.range n, T f c y j x i)
      = ∑ y in Finset.range H, ∑ c in Finset.range C, ∑ x in Finset.range W,
          ∑ j in Finset.range m, ∑ i in Finset.range n, T f c y j x i :=
        Finset.sum_congr rfl (fun y _ => Finset.sum_comm)
    _ = ∑ c in Finset.range C, ∑ y in Finset.range H, ∑ x in Finset.range W,
          ∑ j in Finset.range m, ∑ i in Finset.range n, T f c y j x i := Finset.sum_comm
    _ = ∑ c in Finset.range C, ∑ y in Finset.range H, ∑ j in Finset.range m,
          ∑ x in Finset.range W, ∑ i in Finset.range n, T f c y j x i :=
        Finset.sum_congr rfl (fun c _ => Finset.sum_congr rfl (fun y _ => Finset.sum_comm))

theorem sum6_reorder_right {α : Type} [AddCommMonoid α] (F C H W m n : Nat)
    (T : Nat → Nat → Nat → Nat → Nat → Nat → α) :
    (∑ c in Finset.range C, ∑ y in Finset.range H, ∑ x in Finset.range W,
      ∑ f in Finset.range F, ∑ j in Finset.range m, ∑ i in Finset.range n, T f c y j x i)
    = ∑ f in Finset.range F, ∑ c in Finset.range C, ∑ y in Finset.range H,
      ∑ j in Finset.range m, ∑ x in Finset.range W, ∑ i in Finset.range n, T f c y j x i := by
  calc (∑ c in Finset.range C, ∑ y in Finset.range H, ∑ x in Finset.range W,
          ∑ f in Finset.range F, ∑ j in Finset.range m, ∑ i in Finset.range n, T f c y j x i)
      = ∑ c in Finset.range C, ∑ y in Finset.range H, ∑ f in Finset.range F,
          ∑ x in Finset.range W, ∑ j in Finset.range m, ∑ i in Finset.range n, T f c y j x i :=
        Finset.sum_congr rfl (fun c _ => Finset.sum_congr rfl (fun y _ => Finset.sum_comm))
    _ = ∑ c in Finset.range C, ∑ f in Finset.range F, ∑ y in Finset.range H,
          ∑ x in Finset.range W, ∑ j in Finset.range m, ∑ i in Finset.range n, T f c y j x i :=
        Finset.sum_congr rfl (fun c _ => Finset.sum_comm)
    _ = ∑ f in Finset.range F, ∑ c in Finset.range C, ∑ y in Finset.range H,
          ∑ x in Finset.range W, ∑ j in Finset.range m, ∑ i in Finset.range n, T f c y j x i :=
        Finset.sum_comm
    _ = ∑ f in Finset.range F, ∑ c in Finset.range C, ∑ y in Finset.range H,
          ∑ j in Finset.range m, ∑ x in Finset.range W, ∑ i in Finset.range n, T f c y j x i :=
        Finset.sum_congr rfl (fun f _ => Finset.sum_congr rfl (fun c _ =>
          Finset.sum_congr rfl (fun y _ => Finset.sum_comm)))

/-- The flip of the kernel in both window dimensions at once. -/
theorem sum_flip2 {α : Type} [AddCommMonoid α] (H W hh hw : Nat)
    (T : Nat → Nat → Nat → Nat → α) :
    (∑ y in Finset.range H, ∑ j in Finset.range (2 * hh + 1), ∑ x in Finset.range W,
      ∑ i in Finset.range (2 * hw + 1),
        if hh ≤ y + j ∧ y + j < H + hh then
          (if hw ≤ x + i ∧ x + i < W + hw then T y j x i else 0)
        else 0)
    = ∑ y in Finset.range H, ∑ j in Finset.range (2 * hh + 1), ∑ x in Finset.range W,
      ∑ i in Finset.range (2 * hw + 1),
        if hh ≤ y + j ∧ y + j < H + hh then
          (if hw ≤ x + i ∧ x + i < W + hw then
            T (y + j - hh) (2 * hh - j) (x + i - hw) (2 * hw - i) else 0)
        else 0 := by
  have pull : ∀ (S : Nat → Nat → Nat → Nat → α) (y j : Nat),
      (∑ x in Finset.range W, ∑ i in Finset.range (2 * hw + 1),
        if hh ≤ y + j ∧ y + j < H + hh then
          (if hw ≤ x + i ∧ x + i < W + hw then S y j x i else 0)
        else 0)
      = if hh ≤ y + j ∧ y + j < H + hh then
          (∑ x in Finset.range W, ∑ i in Finset.range (2 * hw + 1),
            if hw ≤ x + i ∧ x + i < W + hw then S y j x i else 0)
        else 0 := by
    intro S y j
    split
    · rfl
    · simp
  simp only [pull]
  rw [sum_flip H hh (fun y j => ∑ x in Finset.range W, ∑ i in Finset.range (2 * hw + 1),
    if hw ≤ x + i ∧ x + i < W + hw then T y j x i else 0)]
  apply Finset.sum_congr rfl
  intro y _
  apply Finset.sum_congr rfl
  intro j _
  by_cases hc : hh ≤ y + j ∧ y + j < H + hh
  · simp only [if_pos hc]
    exact sum_flip W hw (fun x i => T (y + j - hh) (2 * hh - j) x i)
  · simp only [if_neg hc]
    simp

/-- The adjoint identity of `convolution` and `cross_correlation` on window sums. -/
theorem conv_adjoint_sum {α : Type} [CommSemiring α] (F C H W hh hw : Nat)
    (G X : Nat → Nat → Nat → α) (K : Nat → Nat → Nat → Nat → α) :
    (∑ f in Finset.range F, ∑ y in Finset.range H, ∑ x in Finset.range W,
      G f y x * ∑ c in Finset.range C,
        windowSum H W hh hw (fun j i => K f c (2 * hh - j) (2 * hw - i)) (X c) y x)
    = ∑ c in Finset.range C, ∑ y in Finset.range H, ∑ x in Finset.range W,
      X c y x * ∑ f in Finset.range F,
        windowSum H W hh hw (fun j i => K f c j i) (G f) y x := by
  simp only [windowSum_eq_sum, Finset.mul_sum, mul_ite, mul_zero]
  rw [sum6_reorder_left F C H W (2 * hh + 1) (2 * hw + 1)
      (fun f c y j x i =>
        if hh ≤ y + j ∧ y + j < H + hh then
          (if hw ≤ x + i ∧ x + i < W + hw then
            G f y x * (K f c (2 * hh - j) (2 * hw - i) * X c (y + j - hh) (x + i - hw)) else 0)
        else 0),
    sum6_reorder_right F C H W (2 * hh + 1) (2 * hw + 1)
      (fun f c y j x i =>
        if hh ≤ y + j ∧ y + j < H + hh then
          (if hw ≤ x + i ∧ x + i < W + hw then
            X c y x * (K f c j i * G f (y + j - hh) (x + i - hw)) else 0)
        else 0)]
  apply Finset.sum_congr rfl
  intro f _
  apply Finset.sum_congr rfl
  intro c _
  rw [sum_flip2 H W hh hw
    (fun y j x i =>
      G f y x * (K f c (2 * hh - j) (2 * hw - i) * X c (y + j - hh) (x + i - hw)))]
  apply Finset.sum_congr rfl
  intro y _
  apply Finset.sum_congr rfl
  intro j hj
  apply Finset.sum_congr rfl
  intro x _
  apply Finset.sum_congr rfl
  intro i hi
  rw [Finset.mem_range] at hj hi
  split
  · next hc1 =>
    split
    · next hc2 =>
      have e1 : 2 * hh - (2 * hh - j) = j := by omega
      have e2 : 2 * hw - (2 * hw - i) = i := by omega
      have e3 : y + j - hh + (2 * hh - j) - hh = y := by omega
      have e4 : x + i - hw + (2 * hw - i) - hw = x := by omega
      rw [e1, e2, e3, e4]
      ring
    · rfl
  · rfl

/-! ### C31: `cross_correlation` is the adjoint of `convolution` -/

theorem sumTo3_eq_sum {α : Type} [AddCommMonoid α] (A B C : Nat) (t : Nat → Nat → Nat → α) :
    sumTo A (fun a => sumTo B (fun b => sumTo C (fun c => t a b c)))
      = ∑ a in Finset.range A, ∑ b in Finset.range B, ∑ c in Finset.range C, t a b c := by
  simp only [sumTo_eq_sum]

theorem CPUTensor.Apart.symm (a b : CPUTensor) (hab : a.Apart b) : b.Apart a := by
  unfold CPUTensor.Apart at hab ⊢
  omega

/-- C31: `cross_correlation` propagates the gradients of `convolution` to its input.
For an input `x` of shape `(C, H, W)`, a kernel tensor `K` of shape `(F, C, kh, kw)`
with `kh = 2*hh + 1` and `kw = 2*hw + 1`, gradients `g` of shape `(F, H, W)`, and
outputs `a` of shape `(F, H, W)` and `b` of shape `(C, H, W)` apart from the other
tensors (all extents below `2^31`), over exact arithmetic (a commutative semiring
of values): with `a = convolution(x, K)` and `b = cross_correlation(g, K)`, the sum
over `(f, y, x')` of `g[f,y,x'] * a[f,y,x']` equals the sum over `(c, y, x')` of
`x[c,y,x'] * b[c,y,x']`. -/
theorem CPUTensor.cross_correlation_adjoint {α : Type} [CommSemiring α] (h : Host α)
    (x K g a b : CPUTensor) (F C H W hh hw : Nat)
    (hX : x.OfShape [C, H, W]) (hK : K.OfShape [F, C, 2 * hh + 1, 2 * hw + 1])
    (hG : g.OfShape [F, H, W]) (hA : a.OfShape [F, H, W]) (hB : b.OfShape [C, H, W])
    (hH : IntSized H) (hW : IntSized W)
    (hkh : IntSized (2 * hh + 1)) (hkw : IntSized (2 * hw + 1))
    (haX : a.Apart x) (haK : a.Apart K) (haG : a.Apart g)
    (hbX : b.Apart x) (hbK : b.Apart K) (hbG : b.Apart g) (hbA : b.Apart a) :
    ∃ h1 h2, CPUTensor.convolution h x K a = .ok h1
      ∧ CPUTensor.cross_correlation h1 g K b = .ok h2
      ∧ sumTo F (fun f => sumTo H (fun y => sumTo W (fun x' =>
            CPUTensor.value h2 g [f, y, x'] * CPUTensor.value h2 a [f, y, x'])))
        = sumTo C (fun c => sumTo H (fun y => sumTo W (fun x' =>
            CPUTensor.value h2 x [c, y, x'] * CPUTensor.value h2 b [c, y, x']))) := by
  have hXsize := CPUTensor.size3 x C H W hX
  have hKsize := CPUTensor.size4 K F C (2 * hh + 1) (2 * hw + 1) hK
  have hGsize := CPUTensor.size3 g F H W hG
  have hAsize := CPUTensor.size3 a F H W hA
  have hBsize := CPUTensor.size3 b C H W hB
  obtain ⟨h1, e1, m1, v1⟩ := CPUTensor.convolution_run h x K a F C H W hh hw hX hK hA
    hH hW hkh hkw haX haK
  obtain ⟨h2, e2, m2, v2⟩ := CPUTensor.cross_correlation_run h1 g K b F C H W hh hw hG hK hB
    hH hW hkh hkw hbG hbK
  refine ⟨h1, h2, e1, e2, ?_⟩
  -- the elements of the five tensors in the final state
  have kG : ∀ f y x', f < F → y < H → x' < W →
      CPUTensor.value h2 g [f, y, x'] = CPUTensor.elem h g ((f * H + y) * W + x') := by
    intro f y x' hf hy hx
    have hlt := (CPUTensor.OfShape.index3 g F H W f y x' hG hf hy hx).2
    rw [CPUTensor.value3 h2 g F H W f y x' hG,
      Host.Modifies.elem_eq h1 h2 b g (C * H * W) _ m2
        (CPUTensor.Apart.not_mem b g (C * H * W) _ hbG (by omega) (by omega)),
      Host.Modifies.elem_eq h h1 a g (F * H * W) _ m1
        (CPUTensor.Apart.not_mem a g (F * H * W) _ haG (by omega) (by omega))]
  have kX : ∀ c y x', c < C → y < H → x' < W →
      CPUTensor.value h2 x [c, y, x'] = CPUTensor.elem h x ((c * H + y) * W + x') := by
    intro c y x' hc hy hx
    have hlt := (CPUTensor.OfShape.index3 x C H W c y x' hX hc hy hx).2
    rw [CPUTensor.value3 h2 x C H W c y x' hX,
      Host.Modifies.elem_eq h1 h2 b x (C * H * W) _ m2
        (CPUTensor.Apart.not_mem b x (C * H * W) _ hbX (by omega) (by omega)),
      Host.Modifies.elem_eq h h1 a x (F * H * W) _ m1
        (CPUTensor.Apart.not_mem a x (F * H * W) _ haX (by omega) (by omega))]
  have kA : ∀ f y x', f < F → y < H → x' < W →
      CPUTensor.value h2 a [f, y, x']
        = ∑ c in Finset.range C, windowSum H W hh hw
            (fun j i => CPUTensor.elem h K
              (((f * C + c) * (2 * hh + 1) + (2 * hh - j)) * (2 * hw + 1) + (2 * hw - i)))
            (fun sy sx => CPUTensor.elem h x ((c * H + sy) * W + sx)) y x' := by
    intro f y x' hf hy hx
    have hlt := (CPUTensor.OfShape.index3 a F H W f y x' hA hf hy hx).2
    rw [CPUTensor.value3 h2 a F H W f y x' hA,
      Host.Modifies.elem_eq h1 h2 b a (C * H * W) _ m2
        (CPUTensor.Apart.not_mem b a (C * H * W) _ hbA (by omega) (by omega)),
      v1 f y x' hf hy hx, sumTo_eq_sum]
  have kB : ∀ c y x', c < C → y < H → x' < W →
      CPUTensor.value h2 b [c, y, x']
        = ∑ f in Finset.range F, windowSum H W hh hw
            (fun j i => CPUTensor.elem h K
              (((f * C + c) * (2 * hh + 1) + j) * (2 * hw + 1) + i))
            (fun sy sx => CPUTensor.elem h g ((f * H + sy) * W + sx)) y x' := by
    intro c y x' hc hy hx
    rw [CPUTensor.value3 h2 b C H W c y x' hB, v2 c y x' hc hy hx, sumTo_eq_sum]
    apply Finset.sum_congr rfl
    intro f hf
    rw [Finset.mem_range] at hf
    apply windowSum_congr
    · intro j i hj hi
      have hlt := (CPUTensor.OfShape.index4 K F C (2 * hh + 1) (2 * hw + 1) f c j i hK hf hc
        hj hi).2
      exact Host.Modifies.elem_eq h h1 a K (F * H * W) _ m1
        (CPUTensor.Apart.not_mem a K (F * H * W) _ haK (by omega) (by omega))
    · intro sy sx hsy hsx
      have hlt := (CPUTensor.OfShape.index3 g F H W f sy sx hG hf hsy hsx).2
      exact Host.Modifies.elem_eq h h1 a g (F * H * W) _ m1
        (CPUTensor.Apart.not_mem a g (F * H * W) _ haG (by omega) (by omega))
  rw [sumTo3_eq_sum, sumTo3_eq_sum]
  have L : (∑ f in Finset.range F, ∑ y in Finset.range H, ∑ x' in Finset.range W,
        CPUTensor.value h2 g [f, y, x'] * CPUTensor.value h2 a [f, y, x'])
      = ∑ f in Finset.range F, ∑ y in Finset.range H, ∑ x' in Finset.range W,
        CPUTensor.elem h g ((f * H + y) * W + x') * ∑ c in Finset.range C,
          windowSum H W hh hw
            (fun j i => CPUTensor.elem h K
              (((f * C + c) * (2 * hh + 1) + (2 * hh - j)) * (2 * hw + 1) + (2 * hw - i)))
            (fun sy sx => CPUTensor.elem h x ((c * H + sy) * W + sx)) y x' := by
    apply Finset.sum_congr rfl
    intro f hf
    apply Finset.sum_congr rfl
    intro y hy
    apply Finset.sum_congr rfl
    intro x' hx
    rw [Finset.mem_range] at hf hy hx
    rw [kG f y x' hf hy hx, kA f y x' hf hy hx]
  have R : (∑ c in Finset.range C, ∑ y in Finset.range H, ∑ x' in Finset.range W,
        CPUTensor.value h2 x [c, y, x'] * CPUTensor.value h2 b [c, y, x'])
      = ∑ c in Finset.range C, ∑ y in Finset.range H, ∑ x' in Finset.range W,
        CPUTensor.elem h x ((c * H + y) * W + x') * ∑ f in Finset.range F,
          windowSum H W hh hw
            (fun j i => CPUTensor.elem h K
              (((f * C + c) * (2 * hh + 1) + j) * (2 * hw + 1) + i))
            (fun sy sx => CPUTensor.elem h g ((f * H + sy) * W + sx)) y x' := by
    apply Finset.sum_congr rfl
    intro c hc
    apply Finset.sum_congr rfl
    intro y hy
    apply Finset.sum_congr rfl
    intro x' hx
    rw [Finset.mem_range] at hc hy hx
    rw [kX c y x' hc hy hx, kB c y x' hc hy hx]
  rw [L, R]
  exact conv_adjoint_sum F C H W hh hw
    (fun f y x' => CPUTensor.elem h g ((f * H + y) * W + x'))
    (fun c y x' => CPUTensor.elem h x ((c * H + y) * W + x'))
    (fun f c j i => CPUTensor.elem h K (((f * C + c) * (2 * hh + 1) + j) * (2 * hw + 1) + i))

theorem CPUTensor.cross_correlation_adjoint_witness :
    ∃ h1 h2, CPUTensor.convolution exampleHostConv (exampleHostConv.tensors.objs 0)
        (exampleHostConv.tensors.objs 1) (exampleHostConv.tensors.objs 2) = .ok h1
      ∧ CPUTensor.cross_correlation h1 (exampleHostConv.tensors.objs 3)
        (exampleHostConv.tensors.objs 1) (exampleHostConv.tensors.objs 4) = .ok h2
      ∧ sumTo 1 (fun f => sumTo 2 (fun y => sumTo 2 (fun x' =>
            CPUTensor.value h2 (exampleHostConv.tensors.objs 3) [f, y, x']
              * CPUTensor.value h2 (exampleHostConv.tensors.objs 2) [f, y, x'])))
        = sumTo 1 (fun c => sumTo 2 (fun y => sumTo 2 (fun x' =>
            CPUTensor.value h2 (exampleHostConv.tensors.objs 0) [c, y, x']
              * CPUTensor.value h2 (exampleHostConv.tensors.objs 4) [c, y, x']))) :=
  CPUTensor.cross_correlation_adjoint exampleHostConv (exampleHostConv.tensors.objs 0)
    (exampleHostConv.tensors.objs 1) (exampleHostConv.tensors.objs 3)
    (exampleHostConv.tensors.objs 2) (exampleHostConv.tensors.objs 4) 1 1 2 2 1 1
    (by decide) (by decide) (by decide) (by decide) (by decide) (by decide) (by decide)
    (by decide) (by decide) (by decide) (by decide) (by decide) (by decide) (by decide)
    (by decide) (by decide)

/-! ### C32: `convolution_kernel_gradients` -/

theorem CPUTensor.index4_eq_iff (B C D a b c d a' b' c' d' : Nat) (hb : b < B) (hb' : b' < B)
    (hc : c < C) (hc' : c' < C) (hd : d < D) (hd' : d' < D) :
    ((a * B + b) * C + c) * D + d = ((a' * B + b') * C + c') * D + d'
      ↔ a = a' ∧ b = b' ∧ c = c' ∧ d = d' := by
  constructor
  · intro he
    have h1 := (CPUTensor.index3_eq_iff C D (a * B + b) c d (a' * B + b') c' d' hc hc' hd hd').mp he
    by_cases h2 : a = a'
    · subst h2
      have : b = b' := by omega
      exact ⟨rfl, this, h1.2.1, h1.2.2⟩
    · exact absurd h1.1 (CPUTensor.index2_ne B a b a' b' hb hb' (Or.inl h2))
  · intro ⟨h1, h2, h3, h4⟩
    rw [h1, h2, h3, h4]

/-- What `convolution_kernel_gradients` leaves in the cell `(f, c, j, i)` of its output:
for every position `(y, x)` of the gradients, in order, the product of the input
value at `(y + hh - j, x + hw - i)` and the gradient is added, where that position
is inside the input. -/
theorem CPUTensor.convolution_kernel_gradients_run {α : Type} [Zero α] [Add α] [Mul α]
    (h : Host α) (input gradients output : CPUTensor) (F C H W hh hw : Nat)
    (hI : input.OfShape [C, H, W]) (hG : gradients.OfShape [F, H, W])
    (hO : output.OfShape [F, C, 2 * hh + 1, 2 * hw + 1])
    (hH : IntSized H) (hW : IntSized W)
    (hkh : IntSized (2 * hh + 1)) (hkw : IntSized (2 * hw + 1))
    (hoI : output.Apart input) (hoG : output.Apart gradients) :
    ∃ h1, CPUTensor.convolution_kernel_gradients h input gradients output = .ok h1
      ∧ Host.Modifies h h1 output.buffer_ (F * C * (2 * hh + 1) * (2 * hw + 1))
      ∧ ∀ f c j i, f < F → c < C → j < 2 * hh + 1 → i < 2 * hw + 1 →
          CPUTensor.elem h1 output (((f * C + c) * (2 * hh + 1) + j) * (2 * hw + 1) + i)
            = (List.range H).foldl
                (fun v y => (List.range W).foldl
                  (fun v x =>
                    if j ≤ y + hh ∧ y + hh < H + j ∧ i ≤ x + hw ∧ x + hw < W + i then
                      v + CPUTensor.elem h input ((c * H + (y + hh - j)) * W + (x + hw - i))
                        * CPUTensor.elem h gradients ((f * H + y) * W + x)
                    else v) v)
                0 := by
  have hIsize := CPUTensor.size3 input C H W hI
  have hGsize := CPUTensor.size3 gradients F H W hG
  have hOsize := CPUTensor.size4 output F C (2 * hh + 1) (2 * hw + 1) hO
  have hclear : Host.Modifies h (CPUTensor.ClearT h output) output.buffer_
      (F * C * (2 * hh + 1) * (2 * hw + 1)) := by
    rw [← hOsize]
    exact CPUTensor.ClearT_Modifies h output
  have key := forEach_cells
    ((List.range F).flatMap (fun f => (List.range C).flatMap (fun c =>
      (List.range H).flatMap (fun y => (List.range W).flatMap (fun x =>
        (List.range (2 * hh + 1)).flatMap (fun j =>
          (List.range (2 * hw + 1)).map (fun i => (f, c, y, x, j, i))))))))
    (fun (t : Nat × Nat × Nat × Nat × Nat × Nat) h6 =>
      if 0 ≤ to_int ((t.2.2.2.1 : Int) + (-(hw : Int) + (t.2.2.2.2.2 : Int)))
          ∧ to_int ((t.2.2.2.1 : Int) + (-(hw : Int) + (t.2.2.2.2.2 : Int))) < to_int (W : Int)
          ∧ 0 ≤ to_int ((t.2.2.1 : Int) + (-(hh : Int) + (t.2.2.2.2.1 : Int)))
          ∧ to_int ((t.2.2.1 : Int) + (-(hh : Int) + (t.2.2.2.2.1 : Int))) < to_int (H : Int) then
        match CPUTensor.Element h6 input [t.2.1,
            to_size_t (to_int ((t.2.2.1 : Int) + (-(hh : Int) + (t.2.2.2.2.1 : Int)))),
            to_size_t (to_int ((t.2.2.2.1 : Int) + (-(hw : Int) + (t.2.2.2.2.2 : Int))))] with
        | .error f => .error f
        | .ok v =>
          match CPUTensor.Element h6 gradients [t.1, t.2.2.1, t.2.2.2.1] with
          | .error f => .error f
          | .ok g =>
            CPUTensor.addElement h6 output [t.1, t.2.1,
              to_size_t (to_int (-(-(hh : Int) + (t.2.2.2.2.1 : Int)) + (hh : Int))),
              to_size_t (to_int (-(-(hw : Int) + (t.2.2.2.2.2 : Int)) + (hw : Int)))] (v * g)
      else .ok h6)
    output (F * C * (2 * hh + 1) * (2 * hw + 1))
    (fun t => ((t.1 * C + t.2.1) * (2 * hh + 1) + (2 * hh - t.2.2.2.2.1)) * (2 * hw + 1)
      + (2 * hw - t.2.2.2.2.2))
    (fun t v =>
      if hh ≤ t.2.2.1 + t.2.2.2.2.1 ∧ t.2.2.1 + t.2.2.2.2.1 < H + hh
          ∧ hw ≤ t.2.2.2.1 + t.2.2.2.2.2 ∧ t.2.2.2.1 + t.2.2.2.2.2 < W + hw then
        v + CPUTensor.elem h input
            ((t.2.1 * H + (t.2.2.1 + t.2.2.2.2.1 - hh)) * W + (t.2.2.2.1 + t.2.2.2.2.2 - hw))
          * CPUTensor.elem h gradients ((t.1 * H + t.2.2.1) * W + t.2.2.2.1)
      else v)
    h (CPUTensor.ClearT h output) hclear ?_
  · obtain ⟨h1, e1, m1, v1⟩ := key
    refine ⟨h1, ?_, m1, ?_⟩
    · unfold CPUTensor.convolution_kernel_gradients
      have r1 : output.rank = 4 := CPUTensor.OfShape.rank_eq output _ hO
      have r2 : input.rank = 3 := CPUTensor.OfShape.rank_eq input _ hI
      have r3 : gradients.rank = 3 := CPUTensor.OfShape.rank_eq gradients _ hG
      have k0 : output.shape 0 = F := CPUTensor.OfShape.shape_eq output _ hO 0
      have k1 : output.shape 1 = C := CPUTensor.OfShape.shape_eq output _ hO 1
      have k2 : output.shape 2 = 2 * hh + 1 := CPUTensor.OfShape.shape_eq output _ hO 2
      have k3 : output.shape 3 = 2 * hw + 1 := CPUTensor.OfShape.shape_eq output _ hO 3
      have i0 : input.shape 0 = C := CPUTensor.OfShape.shape_eq input _ hI 0
      have i1 : input.shape 1 = H := CPUTensor.OfShape.shape_eq input _ hI 1
      have i2 : input.shape 2 = W := CPUTensor.OfShape.shape_eq input _ hI 2
      have g0 : gradients.shape 0 = F := CPUTensor.OfShape.shape_eq gradients _ hG 0
      have es : input.shape_.ElementShape.operator_eq gradients.shape_.ElementShape = true := by
        unfold Shape.operator_eq Shape.ElementShape
        rw [hI.1, hG.1]
        simp
      rw [if_neg (not_not.mpr r1), if_neg (not_not.mpr ⟨r2, r3⟩), k0, k1, k2, k3, i0, i1, i2, g0,
        if_neg (not_not.mpr ⟨by omega, by omega⟩), if_neg (not_not.mpr ⟨rfl, rfl⟩),
        if_neg (not_not.mpr es)]
      simp only []
      rw [half_to_int hh hkh, half_to_int hw hkw, int_range_eq hh, int_range_eq hw, ← e1]
      simp only [forEach_flatMap, forEach_map]
    · intro f0 c0 j0 i0 hf0 hc0 hj0 hi0
      have hlt := (CPUTensor.OfShape.index4 output F C (2 * hh + 1) (2 * hw + 1) f0 c0 j0 i0 hO
        hf0 hc0 hj0 hi0).2
      rw [v1, CPUTensor.ClearT_elem h output _ (by omega)]
      simp only [foldl_flatMap, List.foldl_map]
      rw [foldl_range_single F f0 _
        (fun v => (List.range H).foldl
          (fun v y => (List.range W).foldl
            (fun v x =>
              if j0 ≤ y + hh ∧ y + hh < H + j0 ∧ i0 ≤ x + hw ∧ x + hw < W + i0 then
                v + CPUTensor.elem h input ((c0 * H + (y + hh - j0)) * W + (x + hw - i0))
                  * CPUTensor.elem h gradients ((f0 * H + y) * W + x)
              else v) v) v) 0 hf0]
      · intro f hf hne v
        apply foldl_range_none
        intro c hc v2
        apply foldl_range_none
        intro y hy v3
        apply foldl_range_none
        intro x hx v4
        apply foldl_range_none
        intro j hj v5
        apply foldl_range_none
        intro i hi v6
        rw [if_neg]
        intro he
        exact hne ((CPUTensor.index4_eq_iff C (2 * hh + 1) (2 * hw + 1) f c (2 * hh - j)
          (2 * hw - i) f0 c0 j0 i0 hc hc0 (by omega) hj0 (by omega) hi0).mp he).1
      · intro v
        rw [foldl_range_single C c0 _
          (fun v => (List.range H).foldl
            (fun v y => (List.range W).foldl
              (fun v x =>
                if j0 ≤ y + hh ∧ y + hh < H + j0 ∧ i0 ≤ x + hw ∧ x + hw < W + i0 then
                  v + CPUTensor.elem h input ((c0 * H + (y + hh - j0)) * W + (x + hw - i0))
                    * CPUTensor.elem h gradients ((f0 * H + y) * W + x)
                else v) v) v) v hc0]
        · intro c hc hne v2
          apply foldl_range_none
          intro y hy v3
          apply foldl_range_none
          intro x hx v4
          apply foldl_range_none
          intro j hj v5
          apply foldl_range_none
          intro i hi v6
          rw [if_neg]
          intro he
          exact hne ((CPUTensor.index4_eq_iff C (2 * hh + 1) (2 * hw + 1) f0 c (2 * hh - j)
            (2 * hw - i) f0 c0 j0 i0 hc hc0 (by omega) hj0 (by omega) hi0).mp he).2.1
        · intro v2
          apply foldl_range_congr
          intro y hy v3
          apply foldl_range_congr
          intro x hx v4
          rw [foldl_range_single (2 * hh + 1) (2 * hh - j0) _
            (fun v =>
              if j0 ≤ y + hh ∧ y + hh < H + j0 ∧ i0 ≤ x + hw ∧ x + hw < W + i0 then
                v + CPUTensor.elem h input ((c0 * H + (y + hh - j0)) * W + (x + hw - i0))
                  * CPUTensor.elem h gradients ((f0 * H + y) * W + x)
              else v) v4 (by omega)]
          · intro j hj hne v5
            apply foldl_range_none
            intro i hi v6
            rw [if_neg]
            intro he
            have := ((CPUTensor.index4_eq_iff C (2 * hh + 1) (2 * hw + 1) f0 c0 (2 * hh - j)
              (2 * hw - i) f0 c0 j0 i0 hc0 hc0 (by omega) hj0 (by omega) hi0).mp he).2.2.1
            omega
          · intro v5
            rw [foldl_range_single (2 * hw + 1) (2 * hw - i0) _
              (fun v =>
                if j0 ≤ y + hh ∧ y + hh < H + j0 ∧ i0 ≤ x + hw ∧ x + hw < W + i0 then
                  v + CPUTensor.elem h input ((c0 * H + (y + hh - j0)) * W + (x + hw - i0))
                    * CPUTensor.elem h gradients ((f0 * H + y) * W + x)
                else v) v5 (by omega)]
            · intro i hi hne v6
              rw [if_neg]
              intro he
              have := ((CPUTensor.index4_eq_iff C (2 * hh + 1) (2 * hw + 1) f0 c0
                (2 * hh - (2 * hh - j0)) (2 * hw - i) f0 c0 j0 i0 hc0 hc0 (by omega) hj0
                (by omega) hi0).mp he).2.2.2
              omega
            · intro v6
              have e1 : 2 * hh - (2 * hh - j0) = j0 := by omega
              have e2 : 2 * hw - (2 * hw - i0) = i0 := by omega
              rw [e1, e2, if_pos rfl]
              by_cases hcnd : j0 ≤ y + hh ∧ y + hh < H + j0 ∧ i0 ≤ x + hw ∧ x + hw < W + i0
              · have a1 : y + (2 * hh - j0) - hh = y + hh - j0 := by omega
                have a2 : x + (2 * hw - i0) - hw = x + hw - i0 := by omega
                rw [if_pos hcnd, if_pos (by omega), a1, a2]
              · rw [if_neg hcnd, if_neg (by omega)]
  · intro t ht h1 hm
    simp only [List.mem_flatMap, List.mem_map, List.mem_range] at ht
    obtain ⟨f, hf, c, hc, y, hy, x, hx, j, hj, i, hi, rfl⟩ := ht
    obtain ⟨w1, w2, w3, w4, _, _⟩ := window_step H W hh hw y x j i hH hW hkh hkw hy hx hj hi
    obtain ⟨x1, x2⟩ := CPUTensor.OfShape.index4 output F C (2 * hh + 1) (2 * hw + 1) f c
      (2 * hh - j) (2 * hw - i) hO hf hc (by omega) (by omega)
    refine ⟨x2, ?_⟩
    simp only []
    by_cases hcnd : hh ≤ y + j ∧ y + j < H + hh ∧ hw ≤ x + i ∧ x + i < W + hw
    · obtain ⟨z1, z2⟩ := w2 hcnd
      have hlt1 := (CPUTensor.OfShape.index3 input C H W c (y + j - hh) (x + i - hw) hI hc
        (by omega) (by omega)).2
      have hlt2 := (CPUTensor.OfShape.index3 gradients F H W f y x hG hf hy hx).2
      rw [if_pos (w1.mpr hcnd), if_pos hcnd, w3, w4, z1, z2,
        CPUTensor.Element3 h1 input C H W c (y + j - hh) (x + i - hw) hI hc (by omega) (by omega),
        CPUTensor.Element3 h1 gradients F H W f y x hG hf hy hx]
      simp only []
      rw [CPUTensor.addElement_of_LinearIndex h1 output _ _ _ x1,
        Host.Modifies.elem_eq h h1 output input _ _ hm
          (CPUTensor.Apart.not_mem output input _ _ hoI (by omega) (by omega)),
        Host.Modifies.elem_eq h h1 output gradients _ _ hm
          (CPUTensor.Apart.not_mem output gradients _ _ hoG (by omega) (by omega))]
    · rw [if_neg (fun hn => hcnd (w1.mp hn)), if_neg hcnd, CPUTensor.write_self]

theorem sum5_reorder {α : Type} [AddCommMonoid α] (C H W m n : Nat)
    (T : Nat → Nat → Nat → Nat → Nat → α) :
    (∑ y in Finset.range H, ∑ x in Finset.range W, ∑ c in Finset.range C,
      ∑ j in Finset.range m, ∑ i in Finset.range n, T c j i y x)
    = ∑ c in Finset.range C, ∑ j in Finset.range m, ∑ i in Finset.range n,
      ∑ y in Finset.range H, ∑ x in Finset.range W, T c j i y x := by
  calc (∑ y in Finset.range H, ∑ x in Finset.range W, ∑ c in Finset.range C,
          ∑ j in Finset.range m, ∑ i in Finset.range n, T c j i y x)
      = ∑ y in Finset.range H, ∑ c in Finset.range C, ∑ x in Finset.range W,
          ∑ j in Finset.range m, ∑ i in Finset.range n, T c j i y x :=
        Finset.sum_congr rfl (fun y _ => Finset.sum_comm)
    _ = ∑ c in Finset.range C, ∑ y in Finset.range H, ∑ x in Finset.range W,
          ∑ j in Finset.range m, ∑ i in Finset.range n, T c j i y x := Finset.sum_comm
    _ = ∑ c in Finset.range C, ∑ y in Finset.range H, ∑ j in Finset.range m,
          ∑ x in Finset.range W, ∑ i in Finset.range n, T c j i y x :=
        Finset.sum_congr rfl (fun c _ => Finset.sum_congr rfl (fun y _ => Finset.sum_comm))
    _ = ∑ c in Finset.range C, ∑ j in Finset.range m, ∑ y in Finset.range H,
          ∑ x in Finset.range W, ∑ i in Finset.range n, T c j i y x :=
        Finset.sum_congr rfl (fun c _ => Finset.sum_comm)
    _ = ∑ c in Finset.range C, ∑ j in Finset.range m, ∑ y in Finset.range H,
          ∑ i in Finset.range n, ∑ x in Finset.range W, T c j i y x :=
        Finset.sum_congr rfl (fun c _ => Finset.sum_congr rfl (fun j _ =>
          Finset.sum_congr rfl (fun y _ => Finset.sum_comm)))
    _ = ∑ c in Finset.range C, ∑ j in Finset.range m, ∑ i in Finset.range n,
          ∑ y in Finset.range H, ∑ x in Finset.range W, T c j i y x :=
        Finset.sum_congr rfl (fun c _ => Finset.sum_congr rfl (fun j _ => Finset.sum_comm))

theorem sum_reflect2 {α : Type} [AddCommMonoid α] (hh hw : Nat) (Φ : Nat → Nat → α) :
    (∑ j in Finset.range (2 * hh + 1), ∑ i in Finset.range (2 * hw + 1), Φ j i)
    = ∑ j in Finset.range (2 * hh + 1), ∑ i in Finset.range (2 * hw + 1),
      Φ (2 * hh - j) (2 * hw - i) := by
  rw [← Finset.sum_range_reflect (fun j => ∑ i in Finset.range (2 * hw + 1), Φ j i)]
  apply Finset.sum_congr rfl
  intro j _
  rw [← Finset.sum_range_reflect (fun i => Φ (2 * hh + 1 - 1 - j) i)]
  apply Finset.sum_congr rfl
  intro i _
  rw [Nat.add_sub_cancel, Nat.add_sub_cancel]

/-- The adjoint identity of `convolution` and `convolution_kernel_gradients` on window
sums. -/
theorem kernel_gradient_sum {α : Type} [CommSemiring α] (F C H W hh hw : Nat)
    (G X : Nat → Nat → Nat → α) (K : Nat → Nat → Nat → Nat → α) :
    (∑ f in Finset.range F, ∑ y in Finset.range H, ∑ x in Finset.range W,
      G f y x * ∑ c in Finset.range C,
        windowSum H W hh hw (fun j i => K f c (2 * hh - j) (2 * hw - i)) (X c) y x)
    = ∑ f in Finset.range F, ∑ c in Finset.range C, ∑ j in Finset.range (2 * hh + 1),
      ∑ i in Finset.range (2 * hw + 1),
        K f c j i * ∑ y in Finset.range H, ∑ x in Finset.range W,
          if j ≤ y + hh ∧ y + hh < H + j ∧ i ≤ x + hw ∧ x + hw < W + i then
            X c (y + hh - j) (x + hw - i) * G f y x
          else 0 := by
  simp only [windowSum_eq_sum, Finset.mul_sum, mul_ite, mul_zero]
  apply Finset.sum_congr rfl
  intro f _
  rw [sum5_reorder C H W (2 * hh + 1) (2 * hw + 1)
    (fun c j i y x =>
      if hh ≤ y + j ∧ y + j < H + hh then
        (if hw ≤ x + i ∧ x + i < W + hw then
          G f y x * (K f c (2 * hh - j) (2 * hw - i) * X c (y + j - hh) (x + i - hw)) else 0)
      else 0)]
  apply Finset.sum_congr rfl
  intro c _
  rw [sum_reflect2 hh hw (fun j i => ∑ y in Finset.range H, ∑ x in Finset.range W,
    if j ≤ y + hh ∧ y + hh < H + j ∧ i ≤ x + hw ∧ x + hw < W + i then
      K f c j i * (X c (y + hh - j) (x + hw - i) * G f y x)
    else 0)]
  apply Finset.sum_congr rfl
  intro j hj
  apply Finset.sum_congr rfl
  intro i hi
  apply Finset.sum_congr rfl
  intro y _
  apply Finset.sum_congr rfl
  intro x _
  rw [Finset.mem_range] at hj hi
  by_cases h1 : hh ≤ y + j ∧ y + j < H + hh
  · by_cases h2 : hw ≤ x + i ∧ x + i < W + hw
    · have e1 : y + hh - (2 * hh - j) = y + j - hh := by omega
      have e2 : x + hw - (2 * hw - i) = x + i - hw := by omega
      rw [if_pos h1, if_pos h2, if_pos (by omega), e1, e2]
      ring
    · rw [if_pos h1, if_neg h2, if_neg (by omega)]
  · rw [if_neg h1, if_neg (by omega)]

theorem sumTo4_eq_sum {α : Type} [AddCommMonoid α] (A B C D : Nat)
    (t : Nat → Nat → Nat → Nat → α) :
    sumTo A (fun a => sumTo B (fun b => sumTo C (fun c => sumTo D (fun d => t a b c d))))
      = ∑ a in Finset.range A, ∑ b in Finset.range B, ∑ c in Finset.range C,
          ∑ d in Finset.range D, t a b c d := by
  simp only [sumTo_eq_sum]

theorem foldl2_cond_add {α : Type} [AddCommMonoid α] (H W : Nat) (c : Nat → Nat → Prop)
    [∀ y x, Decidable (c y x)] (t : Nat → Nat → α) :
    (List.range H).foldl
      (fun v y => (List.range W).foldl (fun v x => if c y x then v + t y x else v) v) 0
    = ∑ y in Finset.range H, ∑ x in Finset.range W, if c y x then t y x else 0 := by
  have inner : ∀ (y : Nat) (v : α),
      (List.range W).foldl (fun v x => if c y x then v + t y x else v) v
        = v + ∑ x in Finset.range W, if c y x then t y x else 0 :=
    fun y v => foldl_cond_add W (c y) (t y) v
  simp only [inner]
  rw [foldl_add_sum, zero_add]

/-- C32: `convolution_kernel_gradients` computes the gradient of `convolution` with
respect to the kernel weights.  For an input `x` of shape `(C, H, W)`, gradients `g`
of shape `(F, H, W)` and an output of the kernel shape `(F, C, kh, kw)` with `kh =
2*hh + 1` and `kw = 2*hw + 1`, apart from both (all extents below `2^31`), over exact
arithmetic (a commutative semiring of values), the call ends without abort and:
`output[f, c, j, i]` is the sum of `x[c, sy, sx] * g[f, y, x']` over the pairs of an
output position `(y, x')` and the input position `(sy, sx) = (y + hh - j, x' + hw - i)`
inside the input, which are the pairs for which `convolution` multiplies `K[f, c, j,
i]` by `x[c, sy, sx]` when it produces the output position `(f, y, x')`; for every
kernel tensor `K`, with `a = convolution(x, K)`, the sum of `g * a` equals the sum
of `K * output`; and a run from a state that differs only in the cells of the
output gives the same output. -/
theorem CPUTensor.convolution_kernel_gradients_spec {α : Type} [CommSemiring α] (h : Host α)
    (x g output : CPUTensor) (F C H W hh hw : Nat)
    (hX : x.OfShape [C, H, W]) (hG : g.OfShape [F, H, W])
    (hO : output.OfShape [F, C, 2 * hh + 1, 2 * hw + 1])
    (hH : IntSized H) (hW : IntSized W)
    (hkh : IntSized (2 * hh + 1)) (hkw : IntSized (2 * hw + 1))
    (hoX : output.Apart x) (hoG : output.Apart g) :
    ∃ h1, CPUTensor.convolution_kernel_gradients h x g output = .ok h1
      ∧ (∀ f, f < F → ∀ c, c < C → ∀ j, j < 2 * hh + 1 → ∀ i, i < 2 * hw + 1 →
          CPUTensor.Element h1 output [f, c, j, i]
            = .ok (∑ y in Finset.range H, ∑ x' in Finset.range W,
                if j ≤ y + hh ∧ y + hh < H + j ∧ i ≤ x' + hw ∧ x' + hw < W + i then
                  CPUTensor.value h x [c, y + hh - j, x' + hw - i] * CPUTensor.value h g [f, y, x']
                else 0))
      ∧ (∀ K a : CPUTensor, K.OfShape [F, C, 2 * hh + 1, 2 * hw + 1] → a.OfShape [F, H, W] →
          output.Apart K → a.Apart x → a.Apart K → a.Apart g → a.Apart output →
          ∃ h2, CPUTensor.convolution h1 x K a = .ok h2
            ∧ sumTo F (fun f => sumTo H (fun y => sumTo W (fun x' =>
                  CPUTensor.value h2 g [f, y, x'] * CPUTensor.value h2 a [f, y, x'])))
              = sumTo F (fun f => sumTo C (fun c => sumTo (2 * hh + 1) (fun j =>
                  sumTo (2 * hw + 1) (fun i =>
                    CPUTensor.value h2 K [f, c, j, i]
                      * CPUTensor.value h2 output [f, c, j, i])))))
      ∧ Host.Modifies h h1 output.buffer_ (F * C * (2 * hh + 1) * (2 * hw + 1))
      ∧ ∀ h0, Host.Modifies h h0 output.buffer_ (F * C * (2 * hh + 1) * (2 * hw + 1)) →
          ∃ h2, CPUTensor.convolution_kernel_gradients h0 x g output = .ok h2
            ∧ ∀ f, f < F → ∀ c, c < C → ∀ j, j < 2 * hh + 1 → ∀ i, i < 2 * hw + 1 →
              CPUTensor.Element h2 output [f, c, j, i]
                = CPUTensor.Element h1 output [f, c, j, i] := by
  have hXsize := CPUTensor.size3 x C H W hX
  have hGsize := CPUTensor.size3 g F H W hG
  have hOsize := CPUTensor.size4 output F C (2 * hh + 1) (2 * hw + 1) hO
  obtain ⟨h1, e1, m1, v1⟩ := CPUTensor.convolution_kernel_gradients_run h x g output F C H W hh hw
    hX hG hO hH hW hkh hkw hoX hoG
  -- the cells of the output as sums
  have cell : ∀ f c j i, f < F → c < C → j < 2 * hh + 1 → i < 2 * hw + 1 →
      CPUTensor.elem h1 output (((f * C + c) * (2 * hh + 1) + j) * (2 * hw + 1) + i)
        = ∑ y in Finset.range H, ∑ x' in Finset.range W,
            if j ≤ y + hh ∧ y + hh < H + j ∧ i ≤ x' + hw ∧ x' + hw < W + i then
              CPUTensor.elem h x ((c * H + (y + hh - j)) * W + (x' + hw - i))
                * CPUTensor.elem h g ((f * H + y) * W + x')
            else 0 := by
    intro f c j i hf hc hj hi
    rw [v1 f c j i hf hc hj hi]
    exact foldl2_cond_add H W
      (fun y x' => j ≤ y + hh ∧ y + hh < H + j ∧ i ≤ x' + hw ∧ x' + hw < W + i)
      (fun y x' => CPUTensor.elem h x ((c * H + (y + hh - j)) * W + (x' + hw - i))
        * CPUTensor.elem h g ((f * H + y) * W + x'))
  refine ⟨h1, e1, ?_, ?_, m1, ?_⟩
  · intro f hf c hc j hj i hi
    rw [CPUTensor.Element4 h1 output F C (2 * hh + 1) (2 * hw + 1) f c j i hO hf hc hj hi,
      cell f c j i hf hc hj hi]
    congr 1
    apply Finset.sum_congr rfl
    intro y _
    apply Finset.sum_congr rfl
    intro x' _
    rw [CPUTensor.value3 h x C H W c _ _ hX, CPUTensor.value3 h g F H W f y x' hG]
  · intro K a hK hA hoK haX haK haG haO
    have hKsize := CPUTensor.size4 K F C (2 * hh + 1) (2 * hw + 1) hK
    have hAsize := CPUTensor.size3 a F H W hA
    obtain ⟨h2, e2, m2, v2⟩ := CPUTensor.convolution_run h1 x K a F C H W hh hw hX hK hA
      hH hW hkh hkw haX haK
    refine ⟨h2, e2, ?_⟩
    have kG : ∀ f y x', f < F → y < H → x' < W →
        CPUTensor.value h2 g [f, y, x'] = CPUTensor.elem h g ((f * H + y) * W + x') := by
      intro f y x' hf hy hx
      have hlt := (CPUTensor.OfShape.index3 g F H W f y x' hG hf hy hx).2
      rw [CPUTensor.value3 h2 g F H W f y x' hG,
        Host.Modifies.elem_eq h1 h2 a g (F * H * W) _ m2
          (CPUTensor.Apart.not_mem a g (F * H * W) _ haG (by omega) (by omega)),
        Host.Modifies.elem_eq h h1 output g _ _ m1
          (CPUTensor.Apart.not_mem output g _ _ hoG (by omega) (by omega))]
    have kK : ∀ f c j i, f < F → c < C → j < 2 * hh + 1 → i < 2 * hw + 1 →
        CPUTensor.value h2 K [f, c, j, i]
          = CPUTensor.elem h1 K (((f * C + c) * (2 * hh + 1) + j) * (2 * hw + 1) + i) := by
      intro f c j i hf hc hj hi
      have hlt := (CPUTensor.OfShape.index4 K F C (2 * hh + 1) (2 * hw + 1) f c j i hK hf hc
        hj hi).2
      rw [CPUTensor.value4 h2 K F C (2 * hh + 1) (2 * hw + 1) f c j i hK,
        Host.Modifies.elem_eq h1 h2 a K (F * H * W) _ m2
          (CPUTensor.Apart.not_mem a K (F * H * W) _ haK (by omega) (by omega))]
    have kO : ∀ f c j i, f < F → c < C → j < 2 * hh + 1 → i < 2 * hw + 1 →
        CPUTensor.value h2 output [f, c, j, i]
          = ∑ y in Finset.range H, ∑ x' in Finset.range W,
              if j ≤ y + hh ∧ y + hh < H + j ∧ i ≤ x' + hw ∧ x' + hw < W + i then
                CPUTensor.elem h x ((c * H + (y + hh - j)) * W + (x' + hw - i))
                  * CPUTensor.elem h g ((f * H + y) * W + x')
              else 0 := by
      intro f c j i hf hc hj hi
      have hlt := (CPUTensor.OfShape.index4 output F C (2 * hh + 1) (2 * hw + 1) f c j i hO hf hc
        hj hi).2
      rw [CPUTensor.value4 h2 output F C (2 * hh + 1) (2 * hw + 1) f c j i hO,
        Host.Modifies.elem_eq h1 h2 a output (F * H * W) _ m2
          (CPUTensor.Apart.not_mem a output (F * H * W) _ haO (by omega) (by omega)),
        cell f c j i hf hc hj hi]
    have kA : ∀ f y x', f < F → y < H → x' < W →
        CPUTensor.value h2 a [f, y, x']
          = ∑ c in Finset.range C, windowSum H W hh hw
              (fun j i => CPUTensor.elem h1 K
                (((f * C + c) * (2 * hh + 1) + (2 * hh - j)) * (2 * hw + 1) + (2 * hw - i)))
              (fun sy sx => CPUTensor.elem h x ((c * H + sy) * W + sx)) y x' := by
      intro f y x' hf hy hx
      rw [CPUTensor.value3 h2 a F H W f y x' hA, v2 f y x' hf hy hx, sumTo_eq_sum]
      apply Finset.sum_congr rfl
      intro c hc
      rw [Finset.mem_range] at hc
      apply windowSum_congr
      · intro j i _ _
        rfl
      · intro sy sx hsy hsx
        have hlt := (CPUTensor.OfShape.index3 x C H W c sy sx hX hc hsy hsx).2
        exact Host.Modifies.elem_eq h h1 output x _ _ m1
          (CPUTensor.Apart.not_mem output x _ _ hoX (by omega) (by omega))
    rw [sumTo3_eq_sum, sumTo4_eq_sum]
    have L : (∑ f in Finset.range F, ∑ y in Finset.range H, ∑ x' in Finset.range W,
          CPUTensor.value h2 g [f, y, x'] * CPUTensor.value h2 a [f, y, x'])
        = ∑ f in Finset.range F, ∑ y in Finset.range H, ∑ x' in Finset.range W,
          CPUTensor.elem h g ((f * H + y) * W + x') * ∑ c in Finset.range C,
            windowSum H W hh hw
              (fun j i => CPUTensor.elem h1 K
                (((f * C + c) * (2 * hh + 1) + (2 * hh - j)) * (2 * hw + 1) + (2 * hw - i)))
              (fun sy sx => CPUTensor.elem h x ((c * H + sy) * W + sx)) y x' := by
      apply Finset.sum_congr rfl
      intro f hf
      apply Finset.sum_congr rfl
      intro y hy
      apply Finset.sum_congr rfl
      intro x' hx
      rw [Finset.mem_range] at hf hy hx
      rw [kG f y x' hf hy hx, kA f y x' hf hy hx]
    have R : (∑ f in Finset.range F, ∑ c in Finset.range C, ∑ j in Finset.range (2 * hh + 1),
          ∑ i in Finset.range (2 * hw + 1),
            CPUTensor.value h2 K [f, c, j, i] * CPUTensor.value h2 output [f, c, j, i])
        = ∑ f in Finset.range F, ∑ c in Finset.range C, ∑ j in Finset.range (2 * hh + 1),
          ∑ i in Finset.range (2 * hw + 1),
            CPUTensor.elem h1 K (((f * C + c) * (2 * hh + 1) + j) * (2 * hw + 1) + i)
              * ∑ y in Finset.range H, ∑ x' in Finset.range W,
                if j ≤ y + hh ∧ y + hh < H + j ∧ i ≤ x' + hw ∧ x' + hw < W + i then
                  CPUTensor.elem h x ((c * H + (y + hh - j)) * W + (x' + hw - i))
                    * CPUTensor.elem h g ((f * H + y) * W + x')
                else 0 := by
      apply Finset.sum_congr rfl
      intro f hf
      apply Finset.sum_congr rfl
      intro c hc
      apply Finset.sum_congr rfl
      intro j hj
      apply Finset.sum_congr rfl
      intro i hi
      rw [Finset.mem_range] at hf hc hj hi
      rw [kK f c j i hf hc hj hi, kO f c j i hf hc hj hi]
    rw [L, R]
    exact kernel_gradient_sum F C H W hh hw
      (fun f y x' => CPUTensor.elem h g ((f * H + y) * W + x'))
      (fun c y x' => CPUTensor.elem h x ((c * H + y) * W + x'))
      (fun f c j i => CPUTensor.elem h1 K (((f * C + c) * (2 * hh + 1) + j) * (2 * hw + 1) + i))
  · intro h0 hm0
    obtain ⟨h2, f1, _, f3⟩ := CPUTensor.convolution_kernel_gradients_run h0 x g output F C H W
      hh hw hX hG hO hH hW hkh hkw hoX hoG
    refine ⟨h2, f1, ?_⟩
    intro f hf c hc j hj i hi
    rw [CPUTensor.Element4 h2 output F C (2 * hh + 1) (2 * hw + 1) f c j i hO hf hc hj hi,
      CPUTensor.Element4 h1 output F C (2 * hh + 1) (2 * hw + 1) f c j i hO hf hc hj hi,
      f3 f c j i hf hc hj hi, v1 f c j i hf hc hj hi]
    congr 1
    apply foldl_range_congr
    intro y hy v
    apply foldl_range_congr
    intro x' hx v2
    by_cases hcnd : j ≤ y + hh ∧ y + hh < H + j ∧ i ≤ x' + hw ∧ x' + hw < W + i
    · have hlt1 := (CPUTensor.OfShape.index3 x C H W c (y + hh - j) (x' + hw - i) hX hc
        (by omega) (by omega)).2
      have hlt2 := (CPUTensor.OfShape.index3 g F H W f y x' hG hf hy hx).2
      rw [if_pos hcnd, if_pos hcnd,
        Host.Modifies.elem_eq h h0 output x _ _ hm0
          (CPUTensor.Apart.not_mem output x _ _ hoX (by omega) (by omega)),
        Host.Modifies.elem_eq h h0 output g _ _ hm0
          (CPUTensor.Apart.not_mem output g _ _ hoG (by omega) (by omega))]
    · rw [if_neg hcnd, if_neg hcnd]

theorem CPUTensor.convolution_kernel_gradients_spec_witness :
    ∃ h1, CPUTensor.convolution_kernel_gradients exampleHostConv
        (exampleHostConv.tensors.objs 0) (exampleHostConv.tensors.objs 3)
        (exampleHostConv.tensors.objs 5) = .ok h1
      ∧ CPUTensor.Element h1 (exampleHostConv.tensors.objs 5) [0, 0, 1, 1] = .ok 200 :=
  match CPUTensor.convolution_kernel_gradients_spec exampleHostConv
      (exampleHostConv.tensors.objs 0) (exampleHostConv.tensors.objs 3)
      (exampleHostConv.tensors.objs 5) 1 1 2 2 1 1
      (by decide) (by decide) (by decide) (by decide) (by decide) (by decide) (by decide)
      (by decide) (by decide) with
  | ⟨h1, e1, e2, _⟩ =>
    ⟨h1, e1, (e2 0 (by decide) 0 (by decide) 1 (by decide) 1 (by decide)).trans
      (congrArg Except.ok (by decide))⟩

/-! ### C33: equality of tensors -/

theorem floatEq_iff (a b : ℚ) :
    floatEq a b = true
      ↔ (a = b ∨ (max |a| |b| < 1 / 100 ∧ |a - b| ≤ 1 / 1000)
          ∨ (1 / 100 ≤ max |a| |b| ∧ |a - b| ≤ 1 / 100 * max |a| |b|)) := by
  unfold floatEq kFloatMaxAbsDiff kFloatMaxRelDiff
  by_cases hab : a = b
  · simp [hab]
  · rw [if_neg hab]
    simp only []
    by_cases hm : max |a| |b| < 1 / 100
    · rw [if_pos hm, decide_eq_true_iff]
      constructor
      · intro hd
        exact Or.inr (Or.inl ⟨hm, hd⟩)
      · intro hc
        rcases hc with h1 | h1 | h1
        · exact absurd h1 hab
        · exact h1.2
        · exact absurd hm (not_lt.mpr h1.1)
    · rw [if_neg hm, decide_eq_true_iff]
      constructor
      · intro hd
        refine Or.inr (Or.inr ⟨not_lt.mp hm, ?_⟩)
        rw [mul_comm]
        exact hd
      · intro hc
        rcases hc with h1 | h1 | h1
        · exact absurd h1 hab
        · exact absurd h1.1 hm
        · rw [mul_comm]
          exact h1.2

theorem floatEq_refl (a : ℚ) : floatEq a a = true := by
  unfold floatEq
  rw [if_pos rfl]

theorem floatEq_comm (a b : ℚ) : floatEq a b = floatEq b a := by
  have key : ∀ x y : ℚ, floatEq x y = true → floatEq y x = true := by
    intro x y hxy
    rw [floatEq_iff] at hxy ⊢
    rw [max_comm, abs_sub_comm]
    rcases hxy with h1 | h1 | h1
    · exact Or.inl h1.symm
    · exact Or.inr (Or.inl h1)
    · exact Or.inr (Or.inr h1)
  cases hab : floatEq a b with
  | true => exact (key a b hab).symm
  | false =>
    cases hba : floatEq b a with
    | true => rw [key b a hba] at hab; exact absurd hab (by decide)
    | false => rfl

/-- C33: equality of tensors.  Over exact values `floatEq(a, b)` holds iff `a == b`, or
`max(|a|,|b|) < 0.01` and `|a - b| <= 0.001`, or `max(|a|,|b|) >= 0.01` and `|a - b| <=
0.01 * max(|a|,|b|)`; it is reflexive and symmetric; and for tensors `t` and `u` whose
`size()` is the element count of their shape, `t == u` iff `u == t`, where both
hold iff the shapes are equal and `floatEq` holds of every pair of elements with
the same linear index. -/
theorem CPUTensor.operator_eq_spec (h : Host ℚ) (t u : CPUTensor) (ht : t.SizeInv)
    (hu : u.SizeInv) :
    (∀ a b : ℚ, floatEq a b = true
      ↔ (a = b ∨ (max |a| |b| < 1 / 100 ∧ |a - b| ≤ 1 / 1000)
          ∨ (1 / 100 ≤ max |a| |b| ∧ |a - b| ≤ 1 / 100 * max |a| |b|)))
    ∧ (∀ a : ℚ, floatEq a a = true)
    ∧ (∀ a b : ℚ, floatEq a b = true ↔ floatEq b a = true)
    ∧ (CPUTensor.operator_eq h t u = true
        ↔ t.shape_ = u.shape_
          ∧ ∀ k, k < t.size_ → floatEq (CPUTensor.elem h t k) (CPUTensor.elem h u k) = true)
    ∧ (CPUTensor.operator_eq h t u = true ↔ CPUTensor.operator_eq h u t = true)
    ∧ CPUTensor.operator_eq h t t = true := by
  have hiff : ∀ v w : CPUTensor, CPUTensor.operator_eq h v w = true
      ↔ v.shape_ = w.shape_
        ∧ ∀ k, k < v.size_ → floatEq (CPUTensor.elem h v k) (CPUTensor.elem h w k) = true := by
    intro v w
    unfold CPUTensor.operator_eq CPUTensor.isAlmostEqual Shape.operator_ne
    by_cases hs : v.shape_ = w.shape_
    · have hd : ¬ v.shape_.data_ ≠ w.shape_.data_ := by
        rw [hs]
        exact fun hn => hn rfl
      rw [decide_eq_false hd]
      simp only [Bool.false_eq_true, if_false, List.all_eq_true, List.mem_range]
      exact ⟨fun ha => ⟨hs, ha⟩, fun ha => ha.2⟩
    · have hd : v.shape_.data_ ≠ w.shape_.data_ := by
        intro hn
        apply hs
        cases hv : v.shape_
        cases hw : w.shape_
        rw [hv, hw] at hn
        simp only at hn
        rw [hn]
      rw [decide_eq_true hd]
      simp only [if_true, Bool.false_eq_true, false_iff]
      exact fun hc => hs hc.1
  refine ⟨floatEq_iff, floatEq_refl, fun a b => by rw [floatEq_comm], hiff t u, ?_, ?_⟩
  · rw [hiff t u, hiff u t]
    constructor
    · intro ⟨h1, h2⟩
      have hsz : u.size_ = t.size_ := by rw [ht, hu, h1]
      refine ⟨h1.symm, fun k hk => ?_⟩
      rw [floatEq_comm]
      exact h2 k (by omega)
    · intro ⟨h1, h2⟩
      have hsz : u.size_ = t.size_ := by rw [ht, hu, h1]
      refine ⟨h1.symm, fun k hk => ?_⟩
      rw [floatEq_comm]
      exact h2 k (by omega)
  · rw [hiff t t]
    exact ⟨rfl, fun k _ => floatEq_refl _⟩

theorem CPUTensor.operator_eq_spec_witness :
    (CPUTensor.operator_eq exampleHostQ (exampleHostQ.tensors.objs 0)
        (exampleHostQ.tensors.objs 1) = true
      ↔ CPUTensor.operator_eq exampleHostQ (exampleHostQ.tensors.objs 1)
        (exampleHostQ.tensors.objs 0) = true) :=
  (CPUTensor.operator_eq_spec exampleHostQ (exampleHostQ.tensors.objs 0)
    (exampleHostQ.tensors.objs 1) rfl rfl).2.2.2.2.1

/-! ### C38: the indices of the kernel cache -/

theorem KernelManager.CreateProgramFromFile_error (cl : ProgramRuntime) (m : KernelManager)
    (source : ProgramSource) (f : Fault)
    (h : m.CreateProgramFromFile cl source = .error f) : f = Fault.Check := by
  unfold KernelManager.CreateProgramFromFile at h
  split at h
  · cases h
  · split at h
    · cases h
    · cases h
      rfl

theorem KernelManager.convolution_kernel_in_bounds (cl : ProgramRuntime) (m : KernelManager)
    (w ht : Nat) (hw : w / 2 < kMaxConvolutionKernelHalfSize)
    (hh : ht / 2 < kMaxConvolutionKernelHalfSize) :
    m.convolution_kernel cl w ht ≠ .error Fault.Bounds := by
  unfold KernelManager.convolution_kernel
  simp only []
  rw [if_neg (not_not.mpr ⟨hw, hh⟩)]
  split
  · exact fun hc => by cases hc
  · split
    · next f hf =>
      intro hc
      cases hc
      cases KernelManager.CreateProgramFromFile_error cl m _ _ hf
    · split
      · exact fun hc => by cases hc
      · exact fun hc => by cases hc

/-- C38: for a kernel width and height below `kMaxConvolutionKernelSize = 11`, which
the device convolution routines assert, the cache indices `(width/2, height/2)` are
below `kMaxConvolutionKernelHalfSize = 6`, so that no call of `convolution_kernel`,
`cross_correlation_kernel` or `convolution_gradient_kernel` indexes one of the three
cache arrays out of bounds. -/
theorem KernelManager.cache_index_in_bounds (kernel_width kernel_height : Nat)
    (hw : kernel_width < kMaxConvolutionKernelSize)
    (hh : kernel_height < kMaxConvolutionKernelSize) :
    kMaxConvolutionKernelSize = 11
    ∧ kMaxConvolutionKernelHalfSize = 6
    ∧ kernel_width / 2 < kMaxConvolutionKernelHalfSize
    ∧ kernel_height / 2 < kMaxConvolutionKernelHalfSize
    ∧ ∀ (cl : ProgramRuntime) (m : KernelManager) (g : KernelManager.Getter),
        m.get cl g kernel_width kernel_height ≠ .error Fault.Bounds := by
  have e1 : kMaxConvolutionKernelSize = 11 := rfl
  have e2 : kMaxConvolutionKernelHalfSize = 6 := rfl
  rw [e1] at hw hh
  have b1 : kernel_width / 2 < kMaxConvolutionKernelHalfSize := by
    rw [e2]
    omega
  have b2 : kernel_height / 2 < kMaxConvolutionKernelHalfSize := by
    rw [e2]
    omega
  refine ⟨e1, e2, b1, b2, ?_⟩
  intro cl m g
  have hconv := KernelManager.convolution_kernel_in_bounds cl m kernel_width kernel_height b1 b2
  cases g with
  | convolution => exact hconv
  | cross_correlation =>
    show m.cross_correlation_kernel cl kernel_width kernel_height ≠ .error Fault.Bounds
    unfold KernelManager.cross_correlation_kernel
    simp only []
    rw [if_neg (not_not.mpr ⟨b1, b2⟩)]
    split
    · exact fun hc => by cases hc
    · split
      · next f hf =>
        intro hc
        cases hc
        exact hconv hf
      · exact fun hc => by cases hc
  | convolution_gradient =>
    show m.convolution_gradient_kernel cl kernel_width kernel_height ≠ .error Fault.Bounds
    unfold KernelManager.convolution_gradient_kernel
    simp only []
    rw [if_neg (not_not.mpr ⟨b1, b2⟩)]
    split
    · exact fun hc => by cases hc
    · split
      · next f hf =>
        intro hc
        cases hc
        exact hconv hf
      · exact fun hc => by cases hc

theorem KernelManager.cache_index_in_bounds_witness :
    10 / 2 < kMaxConvolutionKernelHalfSize
    ∧ ∀ (cl : ProgramRuntime) (m : KernelManager) (g : KernelManager.Getter),
        m.get cl g 10 7 ≠ .error Fault.Bounds :=
  ⟨(KernelManager.cache_index_in_bounds 10 7 (by decide) (by decide)).2.2.1,
    (KernelManager.cache_index_in_bounds 10 7 (by decide) (by decide)).2.2.2.2⟩

/-! ### C35: the work items of an elementwise kernel -/

theorem filter_flatMap {ι κ : Type} (l : List ι) (f : ι → List κ) (p : κ → Bool) :
    (l.flatMap f).filter p = l.flatMap (fun a => (f a).filter p) := by
  induction l with
  | nil => rfl
  | cons a l ih => rw [List.flatMap_cons, List.filter_append, ih, List.flatMap_cons]

theorem length_flatMap_const {ι κ : Type} (l : List ι) (f : ι → List κ) (m : Nat)
    (hf : ∀ a, a ∈ l → (f a).length = m) : (l.flatMap f).length = l.length * m := by
  induction l with
  | nil => simp
  | cons a l ih =>
    rw [List.flatMap_cons, List.length_append, hf a (List.mem_cons_self a l),
      ih (fun b hb => hf b (List.mem_cons_of_mem a hb)), List.length_cons, Nat.succ_mul,
      Nat.add_comm]

theorem filter_range_lt (m n : Nat) (hnm : n ≤ m) :
    (List.range m).filter (fun k => decide (k < n)) = List.range n := by
  induction m with
  | zero =>
    have : n = 0 := by omega
    subst this
    rfl
  | succ m ih =>
    rw [List.range_succ, List.filter_append]
    by_cases hn : n ≤ m
    · rw [ih hn]
      have : ¬ m < n := by omega
      simp [this]
    · have hn1 : n = m + 1 := by omega
      subst hn1
      have hall : (List.range m).filter (fun k => decide (k < m + 1)) = List.range m := by
        apply List.filter_eq_self.mpr
        intro a ha
        rw [List.mem_range] at ha
        simp only [decide_eq_true_eq]
        omega
      rw [hall]
      simp [List.range_succ]

theorem Kernel.CalculateLocalWorkSize_ctor1 (x : Nat) :
    Kernel.CalculateLocalWorkSize (Kernel.WorkSize.ctor1 x) = Kernel.WorkSize.ctor1 256 :=
  rfl

theorem Kernel.PrepareFinalWorkSize_ctor1 (x l : Nat) :
    (Kernel.PrepareFinalWorkSize (Kernel.WorkSize.ctor1 x) (Kernel.WorkSize.ctor1 l)).value 0
      = Kernel.PrepareFinalWorkSize.entry x l := by
  have e := (Kernel.PrepareFinalWorkSize_loop (Kernel.WorkSize.ctor1 l)
    (Kernel.WorkSize.ctor1 x) 1).2.2 0
  rw [if_pos ⟨Nat.zero_lt_one, Nat.succ_pos 2⟩] at e
  exact e

/-- The padded global size of the launch. -/
theorem elementwise_global_size (n : Nat) (hn : n < SIZE_MOD - 300) :
    threadcount n = (n + 9) / 10
    ∧ (Kernel.CalculateLocalWorkSize (Kernel.WorkSize.ctor1 (threadcount n))).value 0 = 256
    ∧ 256 ∣ (Kernel.PrepareFinalWorkSize (Kernel.WorkSize.ctor1 (threadcount n))
        (Kernel.CalculateLocalWorkSize (Kernel.WorkSize.ctor1 (threadcount n)))).value 0
    ∧ threadcount n ≤ (Kernel.PrepareFinalWorkSize (Kernel.WorkSize.ctor1 (threadcount n))
        (Kernel.CalculateLocalWorkSize (Kernel.WorkSize.ctor1 (threadcount n)))).value 0
    ∧ (Kernel.PrepareFinalWorkSize (Kernel.WorkSize.ctor1 (threadcount n))
        (Kernel.CalculateLocalWorkSize (Kernel.WorkSize.ctor1 (threadcount n)))).value 0
        < threadcount n + 256 := by
  have hM : SIZE_MOD = 18446744073709551616 := rfl
  rw [hM] at hn
  have ht : threadcount n = (n + 9) / 10 := by
    unfold threadcount kItemsPerThread ITEMS_PER_THREAD
    rw [hM]
    omega
  generalize threadcount n = t at ht ⊢
  have hs := Kernel.PrepareFinalWorkSize.entry_spec t 256 (by decide) (by decide)
    ⟨256 * ((t + 255) / 256), Dvd.intro _ rfl, by omega, by rw [hM, ht]; omega⟩
  rw [Kernel.CalculateLocalWorkSize_ctor1, Kernel.PrepareFinalWorkSize_ctor1]
  exact ⟨ht, rfl, hs.1, hs.2.1, hs.2.2.1⟩

theorem elementwise_dispatch_eq (n G : Nat)
    (hG : (Kernel.PrepareFinalWorkSize (Kernel.WorkSize.ctor1 (threadcount n))
        (Kernel.CalculateLocalWorkSize (Kernel.WorkSize.ctor1 (threadcount n)))).value 0 = G)
    (hn : n < 4294967296) (h10 : 10 * G < 4294967296) (hdvd : 256 ∣ G) :
    elementwise_dispatch n
      = ((List.range G).flatMap (fun g => (List.range 10).map
          (fun i => 2560 * (g / 256) + 256 * i + g % 256))).filter (fun k => decide (k < n)) := by
  unfold elementwise_dispatch NDRange1
  simp only []
  have hl : (Kernel.CalculateLocalWorkSize (Kernel.WorkSize.ctor1 (threadcount n))).value 0
      = 256 := by
    rw [Kernel.CalculateLocalWorkSize_ctor1]
    rfl
  rw [hG, hl, filter_flatMap]
  have hU : CPUTensor.UINT32_MOD = 4294967296 := rfl
  rw [List.flatMap_map]
  apply List.flatMap_congr
  intro g hg
  rw [List.mem_range] at hg
  unfold elementwise_kernel.indices ITEMS_PER_THREAD
  simp only []
  rw [hU, Nat.mod_eq_of_lt hn]
  congr 1
  apply List.map_congr_left
  intro i hi
  rw [List.mem_range] at hi
  obtain ⟨m, hm⟩ := hdvd
  omega

/-- C35: the launch of an elementwise kernel for `n` elements, `10*n < 2^32`.  The
global size is `threadcount(n) = ceil(n/10)` padded up to a multiple of the local
size `256`, and the indices `index = local_id + (global_id - local_id)*10 + i*256` (`i`
in `0 .. 9`) with `index < n` that the work items write are, taken together, a
rearrangement of `0 .. n - 1`: every index below `n` is written exactly once and no
other index is written. -/
theorem elementwise_dispatch_covers (n : Nat) (h10 : 10 * n < CPUTensor.UINT32_MOD) :
    threadcount n = (n + 9) / 10
    ∧ (Kernel.CalculateLocalWorkSize (Kernel.WorkSize.ctor1 (threadcount n))).value 0 = 256
    ∧ 256 ∣ (Kernel.PrepareFinalWorkSize (Kernel.WorkSize.ctor1 (threadcount n))
        (Kernel.CalculateLocalWorkSize (Kernel.WorkSize.ctor1 (threadcount n)))).value 0
    ∧ threadcount n ≤ (Kernel.PrepareFinalWorkSize (Kernel.WorkSize.ctor1 (threadcount n))
        (Kernel.CalculateLocalWorkSize (Kernel.WorkSize.ctor1 (threadcount n)))).value 0
    ∧ (Kernel.PrepareFinalWorkSize (Kernel.WorkSize.ctor1 (threadcount n))
        (Kernel.CalculateLocalWorkSize (Kernel.WorkSize.ctor1 (threadcount n)))).value 0
        < threadcount n + 256
    ∧ (elementwise_dispatch n).Perm (List.range n)
    ∧ (∀ k, (elementwise_dispatch n).count k = if k < n then 1 else 0) := by
  have hU : CPUTensor.UINT32_MOD = 4294967296 := rfl
  have hM : SIZE_MOD = 18446744073709551616 := rfl
  rw [hU] at h10
  obtain ⟨g1, g2, g3, g4, g5⟩ := elementwise_global_size n (by rw [hM]; omega)
  generalize hG : (Kernel.PrepareFinalWorkSize (Kernel.WorkSize.ctor1 (threadcount n))
    (Kernel.CalculateLocalWorkSize (Kernel.WorkSize.ctor1 (threadcount n)))).value 0 = G
    at g3 g4 g5
  have hG10 : 10 * G < 4294967296 := by omega
  have hnG : n ≤ 10 * G := by omega
  have hperm : (elementwise_dispatch n).Perm (List.range n) := by
    rw [elementwise_dispatch_eq n G hG (by omega) hG10 g3, ← filter_range_lt (10 * G) n hnG]
    apply List.Perm.filter
    apply List.Perm.symm
    apply List.Subperm.perm_of_length_le
    · apply List.subperm_of_subset (List.nodup_range _)
      intro k hk
      rw [List.mem_range] at hk
      rw [List.mem_flatMap]
      obtain ⟨m, hm⟩ := g3
      refine ⟨256 * (k / 2560) + k % 256, ?_, ?_⟩
      · rw [List.mem_range]
        omega
      · rw [List.mem_map]
        refine ⟨(k % 2560) / 256, ?_, ?_⟩
        · rw [List.mem_range]
          omega
        · omega
    · rw [length_flatMap_const _ _ 10 (fun a _ => by rw [List.length_map, List.length_range]),
        List.length_range, List.length_range]
      omega
  refine ⟨g1, g2, g3, g4, g5, hperm, ?_⟩
  intro k
  rw [hperm.count_eq]
  by_cases hk : k < n
  · rw [if_pos hk]
    exact List.count_eq_one_of_mem (List.nodup_range n) (List.mem_range.mpr hk)
  · rw [if_neg hk]
    exact List.count_eq_zero_of_not_mem (fun hc => hk (List.mem_range.mp hc))

theorem elementwise_dispatch_covers_witness :
    (elementwise_dispatch 1000).Perm (List.range 1000)
    ∧ 256 ∣ (Kernel.PrepareFinalWorkSize (Kernel.WorkSize.ctor1 (threadcount 1000))
        (Kernel.CalculateLocalWorkSize (Kernel.WorkSize.ctor1 (threadcount 1000)))).value 0 :=
  ⟨(elementwise_dispatch_covers 1000 (by decide)).2.2.2.2.2.1,
    (elementwise_dispatch_covers 1000 (by decide)).2.2.1⟩

/-! ### C36: memoized views after `Reshape` and `operator=` -/

/-- C36 (failing inputs): `SubTensor` returns a memoized view as it was made.
On the owning tensor `t` of shape `(2, 3)` with buffer at address `1`, after
`t[1]; t.Reshape(Shape({3, 1, 2}))` the call `t[1]` returns the view of shape `(3)`
at address `4` (rank `1`, while `t` has rank `3`), where the sub-tensor constructor
applied to `t` as it is now gives the view of shape `(1, 2)` at address `3`.  After
`t[1]; t = o` with `o` of shape `(2, 2)`, which is accepted, frees the buffer of `t`
(address `1`) and allocates another (address `11`), the call `t[1]` returns the view
of shape `(3)` at address `4`, inside the freed block, where the sub-tensor
constructor applied to `t` as it is now gives the view of shape `(2)` at address
`13`. -/
theorem CPUTensor.SubTensor_stale_view :
    CPUTensor.SubTensor_after_Reshape exampleHost 0 1 ⟨[3, 1, 2]⟩
      = some
        ({ is_view_ := true, shape_ := ⟨[3]⟩, size_ := 3, views_ := [], buffer_ := 4 },
         { is_view_ := false, shape_ := ⟨[3, 1, 2]⟩, size_ := 6, views_ := [none, some 1],
           buffer_ := 1 })
    ∧ (CPUTensor.sub_ctor
          { is_view_ := false, shape_ := ⟨[3, 1, 2]⟩, size_ := 6, views_ := [none, some 1],
            buffer_ := 1 } 1).toOption
      = some { is_view_ := true, shape_ := ⟨[1, 2]⟩, size_ := 2, views_ := [], buffer_ := 3 }
    ∧ CPUTensor.SubTensor_after_assign exampleHostTwo 0 1 1
      = some
        ({ is_view_ := true, shape_ := ⟨[3]⟩, size_ := 3, views_ := [], buffer_ := 4 },
         { is_view_ := false, shape_ := ⟨[2, 2]⟩, size_ := 4, views_ := [none, some 2],
           buffer_ := 11 },
         [1])
    ∧ (CPUTensor.sub_ctor
          { is_view_ := false, shape_ := ⟨[2, 2]⟩, size_ := 4, views_ := [none, some 2],
            buffer_ := 11 } 1).toOption
      = some { is_view_ := true, shape_ := ⟨[2]⟩, size_ := 2, views_ := [], buffer_ := 13 } := by
  decide

/-! ### C40: `ProcessMNISTData` -/

theorem utils.product_mod (n : Nat) :
    ((n * 28) % 4294967296 * 28) % 4294967296 = (n * 784) % 4294967296 := by
  rw [Nat.mod_mul_mod, Nat.mul_assoc]

theorem utils.length_check (len p : Nat) (hlen : len < 18446744073709551616)
    (hp : p < 4294967296)
    (h : p = (len + 18446744073709551616 - 16) % 18446744073709551616) :
    16 ≤ len ∧ len - 16 = p := by
  by_cases h16 : 16 ≤ len
  · have e : len + 18446744073709551616 - 16 = (len - 16) + 18446744073709551616 := by omega
    rw [e, Nat.add_mod_right, Nat.mod_eq_of_lt (by omega)] at h
    exact ⟨h16, h.symm⟩
  · rw [Nat.mod_eq_of_lt (by omega)] at h
    omega

/-- What passing the three `FAIL_IF`s of `ProcessMNISTData` means: the magic is
`0x00000803`, both image extents are `28`, the string has at least sixteen bytes and
`len - 16` equals the product `num_images * 28 * 28` reduced modulo `2^32`. -/
theorem utils.ProcessMNISTData.header_accepts (data : List Nat) (n r c : Nat)
    (hlen : data.length < SIZE_MOD)
    (h : utils.ProcessMNISTData.header data = .ok (some (n, r, c))) :
    (∃ w0 w1 w2 w3, utils.load32 data 0 = .ok w0 ∧ utils.load32 data 4 = .ok w1
      ∧ utils.load32 data 8 = .ok w2 ∧ utils.load32 data 12 = .ok w3
      ∧ utils.swap w0 = 0x00000803 ∧ utils.swap w1 = n
      ∧ utils.swap w2 = r ∧ utils.swap w3 = c)
    ∧ r = 28 ∧ c = 28 ∧ 16 ≤ data.length
    ∧ data.length - 16 = (n * 784) % CPUTensor.UINT32_MOD := by
  have hM : SIZE_MOD = 18446744073709551616 := rfl
  have hU : CPUTensor.UINT32_MOD = 4294967296 := rfl
  rw [hM] at hlen
  unfold utils.ProcessMNISTData.header at h
  generalize hS : SIZE_MOD = M at h
  generalize hV : CPUTensor.UINT32_MOD = U at h
  have hM1 : M = 18446744073709551616 := hS.symm.trans hM
  have hU1 : U = 4294967296 := hV.symm.trans hU
  simp only [] at h
  split at h
  · cases h
  · rename_i w0 e0
    split at h
    · cases h
    · rename_i hmagic
      split at h
      · cases h
      · rename_i w1 e1
        split at h
        · cases h
        · rename_i hprod
          split at h
          · cases h
          · rename_i w2 e2
            split at h
            · cases h
            · rename_i w3 e3
              split at h
              · cases h
              · rename_i hrc
                simp only [Except.ok.injEq, Option.some.injEq, Prod.mk.injEq] at h
                obtain ⟨h1, h2, h3⟩ := h
                rw [not_or, not_not, not_not] at hrc
                rw [not_not] at hmagic hprod
                rw [hM1, hU1] at hprod
                rw [← hV, hU]
                rw [h1, utils.product_mod] at hprod
                have hc := utils.length_check data.length _ hlen
                  (Nat.mod_lt _ (by decide)) hprod
                exact ⟨⟨w0, w1, w2, w3, e0, e1, e2, e3, hmagic, h1, h2, h3⟩,
                  h2 ▸ hrc.1, h3 ▸ hrc.2, hc.1, hc.2⟩

set_option maxRecDepth 100000 in
/-- A file that is well-formed is read as intended: for the file `exampleOneImage`
(one image, `800` bytes) `ProcessMNISTData` returns `true`, the tensor has the shape
`(1, 28, 28)` and its element `(0, 1, 2)` is the pixel `30` divided by `255`. -/
theorem utils.ProcessMNISTData_one_image :
    utils.exampleOneImage.length = 16 + 1 * 28 * 28
    ∧ (utils.ProcessMNISTData utils.exampleHostMnist utils.exampleOneImage 0).toOption.map
        (fun r => (r.1, (r.2.tensors.objs 0).shape_)) = some (true, ⟨[1, 28, 28]⟩)
    ∧ (match utils.ProcessMNISTData utils.exampleHostMnist utils.exampleOneImage 0 with
        | .error _ => none
        | .ok r => (CPUTensor.Element r.2 (r.2.tensors.objs 0) [0, 1, 2]).toOption)
      = some (((30 : Nat) : ℚ) / 255) :=
  ⟨by decide, by decide, by rfl⟩

/-- C40 (failing input): the length check of `ProcessMNISTData` multiplies in
`uint32_t`.  For the file `exampleWrappedHeader` of sixteen bytes (magic
`0x00000803`, `num_images = 0x10000000`, `28` rows, `28` columns, no pixel data) the
product `num_images * 28 * 28` is `0` modulo `2^32`, which equals `len - 16`: none of
the three `FAIL_IF`s returns `false`, although the length is not `16 + num_images *
28 * 28`.  The function goes on to the loops; the read of pixel `(0, 0, 0)` is the
terminating zero byte of the string and the read of pixel `(0, 0, 1)` is outside the
string, so the function does not return. -/
theorem utils.ProcessMNISTData_accepts_wrapped_length :
    utils.exampleWrappedHeader.length = 16
    ∧ (utils.ProcessMNISTData.header utils.exampleWrappedHeader).toOption
        = some (some (268435456, 28, 28))
    ∧ utils.exampleWrappedHeader.length ≠ 16 + 268435456 * 28 * 28
    ∧ (utils.ProcessMNISTData.pixel utils.exampleWrappedHeader 28 28 0 0 0).toOption = some 0
    ∧ utils.fault (utils.ProcessMNISTData.pixel utils.exampleWrappedHeader 28 28 0 0 1)
        = some Fault.Bounds
    ∧ utils.fault (utils.ProcessMNISTData utils.exampleHostMnist utils.exampleWrappedHeader 0)
        = some Fault.Bounds := by
  decide

end nn
